import Mathlib

/-!
Color_LCD screen layer: graph cache, scrollable navigator, editable values,
button handlers and the render pass.

A shallow embedding of parts of `firmware/common/src/screen.c` and
`firmware/common/include/screen.h`, followed by theorems about them.

Conventions of the embedding:
* `int32_t`/`int` values are `Int`; where C arithmetic can leave the 32-bit
  range the result is reduced with `toInt32`, and a comparison of an `int`
  with a `uint32_t` converts the `int` with `toUInt32` first (usual
  arithmetic conversions on the 32-bit targets).
* `uint8_t`/`uint32_t` values are `Nat`, reduced modulo `2^8`/`2^32` where the
  code can overflow them.
* C arrays are total maps from the index or lists; pointers that may be NULL
  are `Option`.
-/

namespace ColorLCD

/-! ## Machine integers -/

/-- Largest `int32_t`. -/
def INT32_MAX : Int := 2147483647

/-- Smallest `int32_t`. -/
def INT32_MIN : Int := -2147483648

/-- Conversion of an integer to `int32_t`/`int` (two's complement wrap). -/
def toInt32 (x : Int) : Int := (x + 2147483648) % 4294967296 - 2147483648

/-- Conversion of an integer to `uint32_t` (reduction modulo `2^32`). -/
def toUInt32 (x : Int) : Int := x % 4294967296

/-- Conversion of an integer to `uint8_t` (reduction modulo `2^8`). -/
def toUInt8 (x : Int) : Nat := (x % 256).toNat

/-! ## Graph cache (`screen.h` lines 133-157, `screen.c` lines 992-1013) -/

/-- The constant `GRAPH_MAX_POINTS` of `screen.h`. -/
def GRAPH_MAX_POINTS : Nat := 256

/-- The struct `GraphCache`: `points` is the array `int32_t points[GRAPH_MAX_POINTS]`,
read as a map from the index. -/
structure GraphCache where
  points : Nat → Int
  max_val : Int
  min_val : Int
  start_valid : Nat
  end_valid : Nat

/-- The static `caches[0]` before first use (static storage is zero-initialised). -/
def caches0 : GraphCache :=
  { points := fun _ => 0, max_val := 0, min_val := 0, start_valid := 0, end_valid := 0 }

/-- The "Reinit cache to empty" block of `renderGraph` (`screen.c` lines 1168-1172):
the points array is left as it is. -/
def graphCacheReset (cache : GraphCache) : GraphCache :=
  { cache with max_val := INT32_MIN, min_val := INT32_MAX, start_valid := 0, end_valid := 0 }

/-- The function `graphAddPoint` of `screen.c`; `min_threshold` is
`field->graph.min_threshold` and `cache` is `*field->graph.cache`. -/
def graphAddPoint (min_threshold : Int) (cache : GraphCache) (val : Int) : GraphCache :=
  -- add the point
  let points := Function.update cache.points cache.end_valid val
  let end_valid := (cache.end_valid + 1) % GRAPH_MAX_POINTS
  -- discard old point if needed
  let overfull : Bool := decide (cache.start_valid = end_valid)
  let start_valid :=
    if overfull then (cache.start_valid + 1) % GRAPH_MAX_POINTS else cache.start_valid
  -- update invariants
  let max_val := if val > cache.max_val then val else cache.max_val
  let min_val := if val < cache.min_val ∧ val ≥ min_threshold then val else cache.min_val
  { points := points, max_val := max_val, min_val := min_val,
    start_valid := start_valid, end_valid := end_valid }

/-- The cache after a sequence of `graphAddPoint` calls, first call first. -/
def graphAddPoints (min_threshold : Int) (cache : GraphCache) (vals : List Int) : GraphCache :=
  vals.foldl (graphAddPoint min_threshold) cache

/-- The `do ... while (ptr != cache->end_valid)` loop of `graphDrawPoints`
(`screen.c` lines 1111-1142), collecting the samples it visits instead of drawing them. -/
def graphWalk (cache : GraphCache) : Nat → Nat → List Int
  | 0, _ => []
  | fuel + 1, ptr =>
    let val := cache.points ptr
    let next := (ptr + 1) % GRAPH_MAX_POINTS
    if next = cache.end_valid then [val] else val :: graphWalk cache fuel next

/-- The samples held by the ring, oldest first, in the order `graphDrawPoints` visits
them (`screen.c` lines 1087-1089 and the loop): nothing when `start_valid == end_valid`.
A walk over ring indices below `GRAPH_MAX_POINTS` ends within `GRAPH_MAX_POINTS` steps. -/
def graphSamples (cache : GraphCache) : List Int :=
  if cache.start_valid = cache.end_valid then []
  else graphWalk cache GRAPH_MAX_POINTS cache.start_valid

/-- The ring invariant after the values `vs` have been inserted into a reset cache. -/
def ringInv (vs : List Int) (c : GraphCache) : Prop :=
  c.end_valid = vs.length % 256 ∧
  c.start_valid = (if vs.length < 256 then 0 else (vs.length + 1) % 256) ∧
  ∀ j, j < vs.length → vs.length ≤ j + 256 → c.points (j % 256) = vs.getD j 0

/-! ## Fields and the scrollable navigator (`screen.h` lines 111-231, `screen.c` lines 1293-1346) -/

/-- The enum `FieldVariant` of `screen.h`. -/
inductive FieldVariant where
  | FieldDrawText
  | FieldDrawTextPtr
  | FieldFill
  | FieldMesh
  | FieldScrollable
  | FieldEditable
  | FieldCustom
  | FieldGraph
  | FieldCustomizable
  | FieldEnd
  deriving DecidableEq, Repr

/-- The header bits of the struct `Field` (variant and the three flags); the
variant-specific payloads are separate structures. -/
structure Field where
  variant : FieldVariant
  dirty : Bool
  blink : Bool
  is_selected : Bool
  deriving DecidableEq, Repr

/-- The `scrollable` payload of a `Field`: `entries` is the array the pointer
`entries` refers to (`none` for a NULL pointer), `first` and `selected` are `uint8_t`. -/
structure Scrollable where
  entries : Option (List Field)
  first : Nat
  selected : Nat
  deriving DecidableEq, Repr

/-- The button events the navigator tests with `events & UP_CLICK` and
`events & DOWN_CLICK`; the bit values belong to `buttons.h`, so each tested bit is a
Boolean here. -/
structure ButtonsEvents where
  up_click : Bool
  down_click : Bool
  deriving DecidableEq, Repr

/-- The part of the module state of `screen.c` that lines 1307-1346 of
`onPressScrollable` read or write: the scrollable `getActiveScrollable()` returns
(`none` when the stack is empty), the dirty flag of `scrollableStack[0]`, the flag
`forceScrollableRelayout` and the variable `maxRowsPerScreen`. -/
structure NavState where
  active : Option Scrollable
  rootDirty : Bool
  forceScrollableRelayout : Bool
  maxRowsPerScreen : Int
  deriving DecidableEq, Repr

/-- The loop of `countEntries` over the array `e` points to: count fields up to the first
`FieldEnd` marker. -/
def countEntriesFrom : List Field → Nat
  | [] => 0
  | e :: rest => if e.variant = FieldVariant.FieldEnd then 0 else countEntriesFrom rest + 1

/-- The function `countEntries` of `screen.c`: the `e && ...` test makes a NULL
`entries` pointer count as no entries. -/
def countEntries (s : Scrollable) : Int :=
  match s.entries with
  | none => 0
  | some es => (countEntriesFrom es : Int)

/-- The assignment `entries[i].dirty = true`. -/
def setDirtyAt : List Field → Nat → List Field
  | [], _ => []
  | e :: rest, 0 => { e with dirty := true } :: rest
  | e :: rest, i + 1 => e :: setDirtyAt rest i

/-- The function `forceScrollableRender` of `screen.c`, for a state in which a
scrollable is active. -/
def forceScrollableRender (st : NavState) : NavState :=
  match st.active with
  | none => st
  | some _ => { st with rootDirty := true, forceScrollableRelayout := true }

/-- Lines 1307-1346 of `onPressScrollable` (`screen.c`): the early return when no
scrollable is active and the up/down block. The result is the new state and `handled`.
The later blocks of the function (start-edit and exit clicks, lines 1348-1372) assign
neither `first` nor `selected` and are not part of this definition. -/
def onPressScrollable (events : ButtonsEvents) (st : NavState) : NavState × Bool :=
  match st.active with
  | none => (st, false) -- no scrollable is active
  | some s =>
    if events.up_click || events.down_click then
      -- curActive->dirty = true, with curActive = &entries[selected]
      let entries := s.entries.map (fun es => setDirtyAt es s.selected)
      -- Go to previous
      let selected1 :=
        if events.up_click then (if s.selected ≥ 1 then s.selected - 1 else s.selected)
        else s.selected
      let first1 :=
        if events.up_click then (if selected1 < s.first then selected1 else s.first)
        else s.first
      -- Go to next
      let numEntries : Int := countEntries { s with entries := entries }
      let selected2 :=
        if events.down_click then
          (if (selected1 : Int) < numEntries - 1 then (selected1 + 1) % 256 else selected1)
        else selected1
      let numDataRows : Int := st.maxRowsPerScreen - 1
      let lastVisibleRow : Int := (first1 : Int) + numDataRows - 1
      let first2 :=
        if events.down_click then
          (if (selected2 : Int) > lastVisibleRow then toUInt8 ((selected2 : Int) - numDataRows + 1)
           else first1)
        else first1
      let s2 : Scrollable := { entries := entries, first := first2, selected := selected2 }
      (forceScrollableRender { st with active := some s2 }, true)
    else (st, false)

/-- The state after a sequence of button events, each handled by `onPressScrollable`. -/
def onPressScrollableSeq (evs : List ButtonsEvents) (st : NavState) : NavState :=
  evs.foldl (fun acc ev => (onPressScrollable ev acc).1) st

/-- An event set holding `UP_CLICK` only. -/
def upEvent : ButtonsEvents := { up_click := true, down_click := false }

/-- An event set holding `DOWN_CLICK` only. -/
def downEvent : ButtonsEvents := { up_click := false, down_click := true }

/-- An editable menu entry with all flags clear. -/
def menuEntry : Field :=
  { variant := FieldVariant.FieldEditable, dirty := false, blink := false, is_selected := false }

/-- The marker `FIELD_END` of `screen.h`. -/
def menuEnd : Field :=
  { variant := FieldVariant.FieldEnd, dirty := false, blink := false, is_selected := false }

/-- A menu array of `n` editable entries followed by the `FIELD_END` marker. -/
def menuOf (n : Nat) : List Field :=
  List.replicate n menuEntry ++ [menuEnd]

/-- A navigator state whose active scrollable has `n` entries, with the given `selected`,
`first` and `maxRowsPerScreen`. -/
def navOf (n selected first : Nat) (maxRows : Int) : NavState :=
  { active := some { entries := some (menuOf n), first := first, selected := selected },
    rootDirty := false, forceScrollableRelayout := false, maxRowsPerScreen := maxRows }

/-- The scrollable bounds of the data model for the active scrollable:
`entryCount ≥ 1`, `visibleRows = maxRowsPerScreen - 1 ≥ 1`, `0 ≤ selected < entryCount`
and `0 ≤ first ≤ selected ≤ first + visibleRows - 1`. -/
def scrollableBounds (st : NavState) : Prop :=
  ∃ s, st.active = some s ∧ 1 ≤ countEntries s ∧ 1 ≤ st.maxRowsPerScreen - 1 ∧
    (s.selected : Int) < countEntries s ∧ s.first ≤ s.selected ∧
    (s.selected : Int) ≤ (s.first : Int) + (st.maxRowsPerScreen - 1) - 1

/-- The value of `selected` that the up/down block of `onPressScrollable` leaves. -/
def navSelected (ev : ButtonsEvents) (s : Scrollable) : Nat :=
  let selected1 :=
    if ev.up_click then (if s.selected ≥ 1 then s.selected - 1 else s.selected) else s.selected
  if ev.down_click then
    (if (selected1 : Int) < countEntries s - 1 then (selected1 + 1) % 256 else selected1)
  else selected1

/-- The value of `first` that the up/down block of `onPressScrollable` leaves. -/
def navFirst (ev : ButtonsEvents) (maxRows : Int) (s : Scrollable) : Nat :=
  let selected1 :=
    if ev.up_click then (if s.selected ≥ 1 then s.selected - 1 else s.selected) else s.selected
  let first1 :=
    if ev.up_click then (if selected1 < s.first then selected1 else s.first) else s.first
  if ev.down_click then
    (if (navSelected ev s : Int) > (first1 : Int) + (maxRows - 1) - 1
     then toUInt8 ((navSelected ev s : Int) - (maxRows - 1) + 1) else first1)
  else first1

/-! ## Editable values (`screen.h` lines 122-130 and 207-229, `screen.c` lines 601-655) -/

/-- The enum `EditableType` of `screen.h`. -/
inductive EditableType where
  | EditUInt
  | EditEnum
  | ReadOnlyStr
  deriving DecidableEq, Repr

/-- The `editable` payload of a `Field`, without the label and the target pointer:
`max_value`, `min_value` and `inc_step` are the `uint32_t` members of `number`, and
`options` is the array behind `editEnum.options`, a NULL entry being `none`. -/
structure Editable where
  typ : EditableType
  read_only : Bool
  units : String
  max_value : Nat
  min_value : Nat
  inc_step : Nat
  options : List (Option String)
  deriving DecidableEq, Repr

/-- The function `countEnumOptions` of `screen.c`: the number of entries before the first
NULL of the options array. -/
def countEnumOptions : List (Option String) → Nat
  | [] => 0
  | none :: _ => 0
  | some _ :: rest => countEnumOptions rest + 1

/-- The function `changeEditable` of `screen.c` for the active editable `f`: the argument
`cur` is `curEditableValueConverted` before the call and the result is its value after
the call, or `none` when the `assert(0)` of the default branch fires.

`int step = inc_step` converts a `uint32_t` to `int`; the sum `v += ...` is reduced to
`int`; in `v < min_value` and `v > max_value` the `int` is compared with a `uint32_t`, so
it is converted to `uint32_t` first; `v = max_value` and `v = min_value` convert back
to `int`. -/
def changeEditable (f : Editable) (increment : Bool) (cur : Int) : Option Int :=
  let v : Int := cur
  match f.typ with
  | EditableType.EditUInt =>
    let step0 : Int := toInt32 (f.inc_step : Int)
    let step : Int := if step0 = 0 then 1 else step0
    let v1 : Int := toInt32 (v + toInt32 (step * (if increment then 1 else -1)))
    if toUInt32 v1 < (f.min_value : Int) then some (toInt32 (f.max_value : Int)) -- loop around
    else if toUInt32 v1 > (f.max_value : Int) then some (toInt32 (f.min_value : Int))
    else some v1
  | EditableType.EditEnum =>
    let numOpts : Int := (countEnumOptions f.options : Int)
    let v1 : Int := toInt32 (v + (if increment then 1 else -1))
    if v1 < 0 then some (numOpts - 1) -- loop around
    else if v1 ≥ numOpts then some 0
    else some v1
  | EditableType.ReadOnlyStr => none

/-- An unsigned-integer editable with the given bounds and step (the macro
`FIELD_EDITABLE_UINT` of `screen.h`, without units). -/
def editableUInt (minv maxv step : Nat) : Editable :=
  { typ := EditableType.EditUInt, read_only := false, units := "", max_value := maxv,
    min_value := minv, inc_step := step, options := [] }

/-- An enumerated editable over the given option strings (the macro `FIELD_EDITABLE_ENUM`
of `screen.h`, which appends the terminating NULL). -/
def editableEnum (opts : List String) : Editable :=
  { typ := EditableType.EditEnum, read_only := false, units := "", max_value := 0,
    min_value := 0, inc_step := 0, options := opts.map some ++ [none] }

/-! ## Editable targets and unit conversion (`screen.c` lines 532-599) -/

/-- Conversion of an integer to `int16_t` (two's complement wrap). -/
def toInt16 (x : Int) : Int := (x + 32768) % 65536 - 32768

/-- C integer division of `int` operands: the quotient is truncated toward zero. -/
def cdiv (a b : Int) : Int := Int.tdiv a b

/-- The test `strcasecmp(a, b) == 0`: equality of the strings after mapping the ASCII
upper-case letters to lower case. -/
def strcasecmpEq (a b : String) : Bool :=
  a.data.map Char.toLower == b.data.map Char.toLower

/-- The test `strcmp(a, b) == 0`. -/
def strcmpEq (a b : String) : Bool := a.data == b.data

/-- The address of a `Field` object. -/
abbrev FieldPtr := Nat

/-- One `Field` object of `screen.h`: the header bits and, side by side, the members of
the variant payloads the embedding uses (the C union overlays them).
* `drawText` and `drawTextPtr`: `msg`;
* `graph`: `source` (`none` for NULL), `cache` (`true` for `&caches[0]`, `false` for NULL)
  and the three thresholds;
* `scrollable`: `entries` is the list of the addresses of the array elements the pointer
  `entries` refers to, the `FieldEnd` marker included (`none` for NULL), `label`, `first`,
  `selected`;
* `customizable`: `choices` is the array of field pointers with its terminating NULL,
  `selector` the address of the selector byte;
* `editable`: `label`, the structure `Editable`, the members `div_digits` and
  `hide_fraction` of `number`, `size` and `target`, the address of the scalar the field
  shows. -/
structure FieldObj where
  hdr : Field
  msg : List Char
  source : Option FieldPtr
  cache : Bool
  warn_threshold : Int
  error_threshold : Int
  min_threshold : Int
  entries : Option (List FieldPtr)
  label : List Char
  first : Nat
  selected : Nat
  choices : List (Option FieldPtr)
  selector : Nat
  editable : Editable
  div_digits : Nat
  hide_fraction : Bool
  size : Nat
  target : Nat

/-- The `switch (field->editable.size)` of `getEditableNumber`: `raw` is the unsigned
content of the target's bytes; a 1-byte target is read as `uint8_t`, a 2-byte target as
`int16_t`, a 4-byte target as `int32_t`, and any other size fails the assertion. -/
def readTarget (size : Nat) (raw : Nat) : Option Int :=
  match size with
  | 1 => some ((raw % 256 : Nat) : Int)
  | 2 => some (toInt16 (raw : Int))
  | 4 => some (toInt32 (raw : Int))
  | _ => none

/-- The `switch (field->editable.size)` of `setEditableNumber`: the unsigned content the
target's bytes get from the `uint32_t` value `v`, `none` when the assertion fails. -/
def writeTarget (size : Nat) (v : Int) : Option Nat :=
  match size with
  | 1 => some (toUInt32 v % 256).toNat
  | 2 => some (toUInt32 v % 65536).toNat
  | 4 => some (toUInt32 v).toNat
  | _ => none

/-- The units test of `getEditableNumber` and `setEditableNumber` for the distance and
speed conversion: `strcasecmp(units, "kph") == 0 || strcasecmp(units, "km") == 0`. -/
def unitsAreMetric (units : String) : Bool :=
  strcasecmpEq units "kph" || strcasecmpEq units "km"

/-- The function `getEditableNumber` of `screen.c`: `convMiles` and `convFarenheit` are
the globals `screenConvertMiles` and `screenConvertFarenheit`, `mem` gives the unsigned
content of the scalar at each address. The result is `none` when an assertion fails.
The arithmetic is `int32_t` arithmetic. -/
def getEditableNumber (convMiles convFarenheit : Bool) (mem : Nat → Nat) (field : FieldObj)
    (withConversion : Bool) : Option Int :=
  if field.hdr.variant ≠ FieldVariant.FieldEditable then none
  else
    match readTarget field.size (mem field.target) with
    | none => none
    | some num0 =>
      if withConversion then
        let units := field.editable.units
        let num1 :=
          if convMiles && unitsAreMetric units then cdiv (toInt32 (num0 * 100)) 161 -- km->mi
          else num0
        let num2 :=
          if convFarenheit && strcmpEq units "C" then toInt32 (32 + cdiv (toInt32 (num1 * 9)) 5)
          else num1
        some num2
      else some num0

/-- The value conversion of `setEditableNumber` (`screen.c` lines 575-584): `uint32_t`
arithmetic on the value `v`. -/
def convertBack (convMiles convFarenheit : Bool) (units : String) (v : Int) : Int :=
  let v1 := if convMiles && unitsAreMetric units then toUInt32 (v * 161) / 100 else v
  let v2 :=
    if convFarenheit && strcmpEq units "C" then toUInt32 (toUInt32 (v1 - 32) * 5) / 9 else v1
  v2

/-- The function `setEditableNumber` of `screen.c`: the argument `v` is converted to the
`uint32_t` parameter, and the result is the memory after the store, or `none` when the
assertion on the size fails. -/
def setEditableNumber (convMiles convFarenheit : Bool) (mem : Nat → Nat) (field : FieldObj)
    (v : Int) (withConversion : Bool) : Option (Nat → Nat) :=
  let v0 := toUInt32 v
  let v1 := if withConversion then convertBack convMiles convFarenheit field.editable.units v0
            else v0
  match writeTarget field.size v1 with
  | none => none
  | some raw => some (Function.update mem field.target raw)

/-- An editable `Field` object for an unsigned-integer value: `FIELD_EDITABLE_UINT` with
the given units, bounds and step, bound to the scalar of `size` bytes at `target`. -/
def uintField (units : String) (minv maxv step size target : Nat) : FieldObj :=
  { hdr := { variant := FieldVariant.FieldEditable, dirty := false, blink := false,
             is_selected := false },
    msg := [], source := none, cache := false, warn_threshold := 0, error_threshold := 0,
    min_threshold := 0, entries := none, label := [], first := 0, selected := 0,
    choices := [], selector := 0,
    editable := { typ := EditableType.EditUInt, read_only := false, units := units,
                  max_value := maxv, min_value := minv, inc_step := step, options := [] },
    div_digits := 0, hide_fraction := false, size := size, target := target }

/-- A memory that holds `x` in every scalar. -/
def memOf (x : Nat) : Nat → Nat := fun _ => x

/-! ## Module state of `screen.c` and the editable value controller (lines 1227-1256) -/

/-- The enum `AlignmentX` of `screen.h` (`AlignCenter` is `AlignDefault`). -/
inductive AlignmentX where
  | AlignDefault
  | AlignLeft
  | AlignRight
  | AlignHidden
  deriving DecidableEq, Repr

/-- The enum `AlignmentY` of `screen.h` (`AlignCenterY` is the default). -/
inductive AlignmentY where
  | AlignCenterY
  | AlignTop
  | AlignBottom
  deriving DecidableEq, Repr

/-- The enum `ColorOp` of `screen.h`. -/
inductive ColorOp where
  | ColorNormal
  | ColorInvert
  | ColorHeading
  | ColorError
  | ColorWarning
  deriving DecidableEq, Repr

/-- The bits of a `BorderOp` value of `screen.h`. -/
structure BorderOp where
  bottom : Bool
  top : Bool
  left : Bool
  right : Bool
  fat : Bool
  deriving DecidableEq, Repr

/-- The members of a `UG_FONT` the screen layer reads (`ugui.h`). -/
structure Font where
  char_width : Int
  char_height : Int
  deriving DecidableEq, Repr

/-- The struct `FieldLayout` of `screen.h`; `field` is `none` for the NULL that ends a
layout array, `font` is `none` for a NULL font. -/
structure FieldLayout where
  x : Int
  y : Int
  width : Int
  height : Int
  border : BorderOp
  color : ColorOp
  align_x : AlignmentX
  align_y : AlignmentY
  label_align_x : AlignmentX
  label_align_y : AlignmentY
  unit_align_x : AlignmentX
  unit_align_y : AlignmentY
  inset_x : Nat
  inset_y : Nat
  field : Option FieldPtr
  font : Option Font
  old_editable : Int
  deriving DecidableEq, Repr

/-- The module state of `screen.c` the button handlers and the editable controller work
on: the `Field` objects by address, the scalars the fields point to (`mem`, unsigned
content by address), the static variables `curActiveEditable`, `curCustomizingField`,
`curEditableValueConverted`, `scrollableStack` (the entries below `scrollableStackPtr`,
bottom first), `forceScrollableRelayout`, `maxRowsPerScreen`, the conversion flags, the
layout array `curScreen->fields` (`none` while `curScreen` is NULL) and the single graph
cache `caches[0]`. -/
structure UiState where
  arena : FieldPtr → FieldObj
  mem : Nat → Nat
  curActiveEditable : Option FieldPtr
  curCustomizingField : Option FieldPtr
  curEditableValueConverted : Int
  scrollableStack : List FieldPtr
  forceScrollableRelayout : Bool
  maxRowsPerScreen : Int
  screenConvertMiles : Bool
  screenConvertFarenheit : Bool
  screenFields : Option (List FieldLayout)
  caches0 : GraphCache

/-- The assignment `field->dirty = true` on the object at `p`. -/
def setDirty (arena : FieldPtr → FieldObj) (p : FieldPtr) (b : Bool) : FieldPtr → FieldObj :=
  Function.update arena p { arena p with hdr := { (arena p).hdr with dirty := b } }

/-- The assignment `field->blink = b` on the object at `p`. -/
def setBlink (arena : FieldPtr → FieldObj) (p : FieldPtr) (b : Bool) : FieldPtr → FieldObj :=
  Function.update arena p { arena p with hdr := { (arena p).hdr with blink := b } }

/-- The function `getActiveScrollable` of `screen.c`: the top of the stack, NULL when the
stack is empty. -/
def getActiveScrollable (st : UiState) : Option FieldPtr :=
  st.scrollableStack.getLast?

/-- The function `forceScrollableRender` of `screen.c` on the module state. -/
def forceScrollableRenderUi (st : UiState) : UiState :=
  match getActiveScrollable st, st.scrollableStack.head? with
  | some _, some root =>
    { st with arena := setDirty st.arena root true, forceScrollableRelayout := true }
  | _, _ => st

/-- The function `setActiveEditable` of `screen.c`; `none` when an assertion of
`setEditableNumber` or `getEditableNumber` fails. -/
def setActiveEditable (clicked : Option FieldPtr) (st : UiState) : Option UiState :=
  let saved : Option UiState :=
    match st.curActiveEditable with
    | none => some st
    | some cur =>
      let arena1 := setBlink st.arena cur false
      -- Save any changed value
      match setEditableNumber st.screenConvertMiles st.screenConvertFarenheit st.mem
              (arena1 cur) st.curEditableValueConverted true with
      | none => none
      | some mem1 => some { st with arena := arena1, mem := mem1 }
  match saved with
  | none => none
  | some st1 =>
    let st2 := { st1 with curActiveEditable := clicked }
    match clicked with
    | none => some (forceScrollableRenderUi st2)
    | some c =>
      let arena3 := setBlink (setDirty st2.arena c true) c true
      -- get initial value for editing
      match getEditableNumber st2.screenConvertMiles st2.screenConvertFarenheit st2.mem
              (arena3 c) true with
      | none => none
      | some v =>
        some (forceScrollableRenderUi
          { st2 with arena := arena3, curEditableValueConverted := v })

/-- The function `changeEditable` of `screen.c` on the module state: `none` when
`curActiveEditable` is NULL (`assert(f)`) or the type has no increment. -/
def changeEditableUi (increment : Bool) (st : UiState) : Option UiState :=
  match st.curActiveEditable with
  | none => none
  | some f =>
    match changeEditable (st.arena f).editable increment st.curEditableValueConverted with
    | none => none
    | some v => some { st with curEditableValueConverted := v }

/-- Repeat a fallible step `n` times. -/
def iterateOpt (step : UiState → Option UiState) : Nat → UiState → Option UiState
  | 0, st => some st
  | n + 1, st => (step st).bind (iterateOpt step n)

/-- The sequence `setActiveEditable(field)`, `n` times `changeEditable(true)`,
`setActiveEditable(NULL)`. -/
def editSession (field : FieldPtr) (n : Nat) (st : UiState) : Option UiState :=
  ((setActiveEditable (some field) st).bind (iterateOpt (changeEditableUi true) n)).bind
    (setActiveEditable none)

/-- A module state with no screen, an empty scrollable stack and no active or customizing
field, over the given field objects and memory. -/
def uiIdle (arena : FieldPtr → FieldObj) (mem : Nat → Nat) : UiState :=
  { arena := arena, mem := mem, curActiveEditable := none, curCustomizingField := none,
    curEditableValueConverted := 0, scrollableStack := [], forceScrollableRelayout := false,
    maxRowsPerScreen := 0, screenConvertMiles := false, screenConvertFarenheit := false,
    screenFields := none, caches0 := caches0 }

/-- Two field objects that differ at most in the flags `dirty`, `blink` and
`is_selected`. -/
structure sameButFlags (f g : FieldObj) : Prop where
  variant : f.hdr.variant = g.hdr.variant
  msg : f.msg = g.msg
  source : f.source = g.source
  cache : f.cache = g.cache
  warn_threshold : f.warn_threshold = g.warn_threshold
  error_threshold : f.error_threshold = g.error_threshold
  min_threshold : f.min_threshold = g.min_threshold
  entries : f.entries = g.entries
  label : f.label = g.label
  first : f.first = g.first
  selected : f.selected = g.selected
  choices : f.choices = g.choices
  selector : f.selector = g.selector
  editable : f.editable = g.editable
  div_digits : f.div_digits = g.div_digits
  hide_fraction : f.hide_fraction = g.hide_fraction
  size : f.size = g.size
  target : f.target = g.target

/-! ## Text fields and drawing (`screen.c` lines 1015-1143 and 1567-1580) -/

/-- The constant `MAX_FIELD_LEN` of `screen.h`. -/
def MAX_FIELD_LEN : Nat := 32

/-- The function `fieldPrintf` of `screen.c`: `formatted` is the text the format string and
its arguments produce, of which `vsnprintf` keeps the first `sizeof(buf) - 1` characters;
`none` when the assertion on the variant fails. -/
def fieldPrintf (field : FieldObj) (formatted : List Char) : Option FieldObj :=
  if field.hdr.variant ≠ FieldVariant.FieldDrawText then none
  else
    let buf := formatted.take (MAX_FIELD_LEN - 1)
    if buf ≠ field.msg then -- strcmp(buf, field->drawText.msg) != 0
      some { field with msg := buf, hdr := { field.hdr with dirty := true } }
    else some field

/-- A `FIELD_DRAWTEXT` object holding the text `msg`, with the given `dirty` flag. -/
def textField (msg : String) (dirty : Bool) : FieldObj :=
  { hdr := { variant := FieldVariant.FieldDrawText, dirty := dirty, blink := false,
             is_selected := false },
    msg := msg.data, source := none, cache := false, warn_threshold := 0,
    error_threshold := 0, min_threshold := 0, entries := none, label := [], first := 0,
    selected := 0, choices := [], selector := 0, editable := editableUInt 0 0 0,
    div_digits := 0, hide_fraction := false, size := 0, target := 0 }

/-- The colours of `ugui.h` and `lcd.h` the screen layer draws with. -/
inductive Color where
  | C_BLACK
  | C_WHITE
  | C_BLUE
  | C_YELLOW
  | C_RED
  | C_SLATE_GRAY
  | C_TRANSPARENT
  | HEADING_BACKGROUND
  | C_ERROR
  | C_WARNING
  | LABEL_COLOR
  deriving DecidableEq, Repr

/-- The constant `GRAPH_COLOR_NORMAL` of `screen.h`. -/
def GRAPH_COLOR_NORMAL : Color := Color.C_BLUE

/-- The constant `GRAPH_COLOR_WARN` of `screen.h`. -/
def GRAPH_COLOR_WARN : Color := Color.C_YELLOW

/-- The constant `GRAPH_COLOR_ERROR` of `screen.h`. -/
def GRAPH_COLOR_ERROR : Color := Color.C_RED

/-- The constant `GRAPH_COLOR_BACKGROUND` of `screen.h`. -/
def GRAPH_COLOR_BACKGROUND : Color := Color.C_BLACK

/-- One call of a drawing primitive of the graphics library: `UG_FillFrame`,
`UG_DrawLine`, `UG_DrawMesh`, a string output (`UG_PutString` and
`UG_PutString_with_length`) or `UG_PutChar`, with the colour it draws in. -/
inductive DrawOp where
  | fillFrame (x1 y1 x2 y2 : Int) (c : Color)
  | drawLine (x1 y1 x2 y2 : Int) (c : Color)
  | drawMesh (x1 y1 x2 y2 : Int) (c : Color)
  | putString (x y : Int) (str : List Char) (c : Color)
  | putChar (ch : Char) (x y : Int) (c : Color)
  deriving DecidableEq, Repr

/-- The colour a drawing call uses. -/
def DrawOp.color : DrawOp → Color
  | DrawOp.fillFrame _ _ _ _ c => c
  | DrawOp.drawLine _ _ _ _ c => c
  | DrawOp.drawMesh _ _ _ _ c => c
  | DrawOp.putString _ _ _ c => c
  | DrawOp.putChar _ _ _ c => c

/-- The static geometry variables of the graph renderer (`screen.c` lines 1015-1023). -/
structure GraphGeom where
  graphX : Int
  graphY : Int
  graphWidth : Int
  graphHeight : Int
  graphXmin : Int
  graphXmax : Int
  graphYmin : Int
  graphYmax : Int
  graphLabelY : Int
  deriving DecidableEq, Repr

/-- The function `graphScaleY` of `screen.c`, in `int32_t` arithmetic with the truncating
division of C. -/
def graphScaleY (g : GraphGeom) (cache : GraphCache) (x : Int) : Int :=
  if cache.max_val = cache.min_val then g.graphYmin -- until there is a span
  else
    cdiv
      (toInt32 (toInt32 ((g.graphYmin - 1) * toInt32 (cache.max_val - x))
                + toInt32 (g.graphYmax * toInt32 (x - cache.min_val))))
      (toInt32 (cache.max_val - cache.min_val))

/-- The threshold preparation of `graphDrawPoints` (`screen.c` lines 1093-1109): a
threshold other than `-1` is scaled to a row and kept from going below the plot. -/
def graphThresholdY (g : GraphGeom) (cache : GraphCache) (threshold : Int) : Int :=
  if threshold ≠ -1 then
    let t := graphScaleY g cache threshold
    if t > g.graphYmin - 1 then g.graphYmin - 1 else t
  else threshold

/-- The body of the loop of `graphDrawPoints` (`screen.c` lines 1113-1139) for the column
`x` and the sample `val`: the lines it draws, top to bottom. -/
def graphDrawColumn (g : GraphGeom) (cache : GraphCache) (warn_threshold error_threshold : Int)
    (x val : Int) : List DrawOp :=
  let y0 := graphScaleY g cache val
  -- Draw black space above the line
  let blank := DrawOp.drawLine x g.graphYmax x (y0 - 1) GRAPH_COLOR_BACKGROUND
  let drawError : Bool := decide (error_threshold ≠ -1) && decide (y0 ≤ error_threshold)
  let y1 := if drawError then error_threshold + 1 else y0
  let drawWarn : Bool := decide (warn_threshold ≠ -1) && decide (y1 ≤ warn_threshold)
  let y2 := if drawWarn then warn_threshold + 1 else y1
  [blank]
    ++ (if drawError then [DrawOp.drawLine x y0 x error_threshold GRAPH_COLOR_ERROR] else [])
    ++ (if drawWarn then [DrawOp.drawLine x y1 x warn_threshold GRAPH_COLOR_WARN] else [])
    ++ [DrawOp.drawLine x y2 x g.graphYmin GRAPH_COLOR_NORMAL]

/-- The loop of `graphDrawPoints` over the samples the ring walk visits: `x` is the column
drawn last, and each sample is drawn one column further right. -/
def graphDrawColumns (g : GraphGeom) (cache : GraphCache)
    (warn_threshold error_threshold : Int) : Int → List Int → List DrawOp
  | _, [] => []
  | x, val :: rest =>
    graphDrawColumn g cache warn_threshold error_threshold (toInt32 (x + 1)) val
      ++ graphDrawColumns g cache warn_threshold error_threshold (toInt32 (x + 1)) rest

/-- The function `graphDrawPoints` of `screen.c` for the graph field `field` whose cache
is `cache`: the lines it draws. Nothing is drawn for an empty ring. -/
def graphDrawPoints (g : GraphGeom) (field : FieldObj) (cache : GraphCache) : List DrawOp :=
  if cache.start_valid = cache.end_valid then [] -- ring buffer is empty
  else
    graphDrawColumns g cache (graphThresholdY g cache field.warn_threshold)
      (graphThresholdY g cache field.error_threshold) g.graphXmin (graphSamples cache)

/-- A plot geometry with the given rows for the maximum and the minimum value and the
y axis in column `xmin`. -/
def geomOf (xmin ymax ymin : Int) : GraphGeom :=
  { graphX := 0, graphY := 0, graphWidth := 0, graphHeight := 0, graphXmin := xmin,
    graphXmax := xmin + 256, graphYmin := ymin, graphYmax := ymax, graphLabelY := 0 }

/-- A cache with the given running minimum and maximum holding the given samples from
index 0 on. -/
def cacheOf (min_val max_val : Int) (samples : List Int) : GraphCache :=
  { points := fun i => samples.getD i 0, max_val := max_val, min_val := min_val,
    start_valid := 0, end_valid := samples.length % GRAPH_MAX_POINTS }

/-- A `FIELD_GRAPH` object with the given warn and error thresholds. -/
def graphField (warn error : Int) : FieldObj :=
  { hdr := { variant := FieldVariant.FieldGraph, dirty := false, blink := true,
             is_selected := false },
    msg := [], source := none, cache := true, warn_threshold := warn,
    error_threshold := error, min_threshold := 0, entries := none, label := [], first := 0,
    selected := 0, choices := [], selector := 0, editable := editableUInt 0 0 0,
    div_digits := 0, hide_fraction := false, size := 0, target := 0 }

/-! ## Button handlers (`screen.c` lines 356-397 and 1258-1516, `screen.h` lines 412-432) -/

/-- The bits of a `buttons_events_t` value the screen layer tests (`buttons.h`). -/
structure KeyEvents where
  up_click : Bool
  down_click : Bool
  onoff_click : Bool
  m_click : Bool
  deriving DecidableEq, Repr

/-- The test `events & SCREENCLICK_START_EDIT`: `M_CLICK` on the SW102 build (`sw102`),
`ONOFF_CLICK` otherwise. -/
def SCREENCLICK_START_EDIT (sw102 : Bool) (events : KeyEvents) : Bool :=
  if sw102 then events.m_click else events.onoff_click

/-- The test `events & SCREENCLICK_STOP_EDIT`. -/
def SCREENCLICK_STOP_EDIT (sw102 : Bool) (events : KeyEvents) : Bool :=
  if sw102 then events.m_click else events.onoff_click

/-- The test `events & SCREENCLICK_EXIT_SCROLLABLE`: `ONOFF_CLICK` on both builds. -/
def SCREENCLICK_EXIT_SCROLLABLE (events : KeyEvents) : Bool :=
  events.onoff_click

/-- The test `events & SCREENCLICK_START_CUSTOMIZING`. -/
def SCREENCLICK_START_CUSTOMIZING (sw102 : Bool) (events : KeyEvents) : Bool :=
  if sw102 then events.m_click else events.onoff_click

/-- The test `events & SCREENCLICK_STOP_CUSTOMIZING`. -/
def SCREENCLICK_STOP_CUSTOMIZING (sw102 : Bool) (events : KeyEvents) : Bool :=
  if sw102 then events.m_click else events.onoff_click

/-- How deep scrollables can nest in the stack. -/
def MAX_SCROLLABLE_DEPTH : Nat := 3

/-- The function `enterScrollable` of `screen.c`; `none` when the assertion
`scrollableStackPtr < MAX_SCROLLABLE_DEPTH` fails. -/
def enterScrollable (f : FieldPtr) (st : UiState) : Option UiState :=
  if st.scrollableStack.length < MAX_SCROLLABLE_DEPTH then
    let stack := st.scrollableStack ++ [f]
    -- We always set blink for scrollables
    let arena1 := setBlink st.arena f true
    let root := stack.headD f
    some { st with scrollableStack := stack, arena := setDirty arena1 root true,
                   forceScrollableRelayout := true }
  else none

/-- The function `exitScrollable` of `screen.c`; `none` when the assertion
`scrollableStackPtr > 0` fails. The Boolean is the return value. -/
def exitScrollable (st : UiState) : Option (UiState × Bool) :=
  if st.scrollableStack.length > 0 then
    let st1 := { st with scrollableStack := st.scrollableStack.dropLast }
    match getActiveScrollable st1 with
    | some f =>
      -- Parent was a scrollable, show it
      some ({ st1 with arena := setDirty st1.arena f true, forceScrollableRelayout := true },
            true)
    | none => some (st1, false)
  else none

/-- The function `onPressEditable` of `screen.c`; `none` when `setActiveEditable` fails
or when `s->dirty` is written through a NULL `curActiveEditable`. -/
def onPressEditable (sw102 : Bool) (events : KeyEvents) (st : UiState) :
    Option (UiState × Bool) :=
  let s := st.curActiveEditable
  let handled1 := events.up_click || events.down_click
  let stopped : Option (UiState × Bool) :=
    if SCREENCLICK_STOP_EDIT sw102 events then
      (setActiveEditable none st).map (fun st1 => (st1, true))
    else some (st, handled1)
  match stopped with
  | none => none
  | some (st1, handled) =>
    if handled then
      match s with
      | none => none
      | some sp =>
        -- redraw our position
        let arena1 := setDirty st1.arena sp true
        match getActiveScrollable st1, st1.scrollableStack.head? with
        | some _, some root =>
          some ({ st1 with arena := setDirty arena1 root true }, true)
        | _, _ => some ({ st1 with arena := arena1 }, true)
    else some (st1, false)

/-- The loop of `countEntries` over the entries of a scrollable, by address. -/
def countEntriesPtrs (arena : FieldPtr → FieldObj) : List FieldPtr → Nat
  | [] => 0
  | e :: rest =>
    if (arena e).hdr.variant = FieldVariant.FieldEnd then 0
    else countEntriesPtrs arena rest + 1

/-- The function `countEntries` of `screen.c` on a field object. -/
def countEntriesUi (arena : FieldPtr → FieldObj) (s : FieldObj) : Int :=
  match s.entries with
  | none => 0
  | some es => (countEntriesPtrs arena es : Int)

/-- The pointer `&s->scrollable.entries[s->scrollable.selected]`: `none` when `entries`
is NULL or `selected` lies outside the array. -/
def curActiveEntry (s : FieldObj) : Option FieldPtr :=
  match s.entries with
  | none => none
  | some es => es.get? s.selected

/-- The up/down block of `onPressScrollable` (lines 1316-1346) for the active scrollable
at `sp`; `none` when `curActive` cannot be dereferenced. -/
def onPressScrollableMove (events : KeyEvents) (sp : FieldPtr) (st : UiState) :
    Option UiState :=
  match curActiveEntry (st.arena sp) with
  | none => none
  | some c =>
    -- Before we move away, mark the current item as dirty
    let arena1 := setDirty st.arena c true
    let s := arena1 sp
    -- Go to previous
    let selected1 :=
      if events.up_click then (if s.selected ≥ 1 then s.selected - 1 else s.selected)
      else s.selected
    let first1 :=
      if events.up_click then (if selected1 < s.first then selected1 else s.first)
      else s.first
    -- Go to next
    let numEntries : Int := countEntriesUi arena1 s
    let selected2 :=
      if events.down_click then
        (if (selected1 : Int) < numEntries - 1 then (selected1 + 1) % 256 else selected1)
      else selected1
    let numDataRows : Int := st.maxRowsPerScreen - 1
    let lastVisibleRow : Int := (first1 : Int) + numDataRows - 1
    let first2 :=
      if events.down_click then
        (if (selected2 : Int) > lastVisibleRow then
           toUInt8 ((selected2 : Int) - numDataRows + 1)
         else first1)
      else first1
    let arena2 := Function.update arena1 sp { s with first := first2, selected := selected2 }
    some (forceScrollableRenderUi { st with arena := arena2 })

/-- The start-edit block of `onPressScrollable` (lines 1350-1367), entered with the value
of `handled` so far; `curActive` is the pointer computed at the top of the function. -/
def onPressScrollableSelect (sw102 : Bool) (events : KeyEvents) (curActive : Option FieldPtr)
    (st : UiState) (handled : Bool) : Option (UiState × Bool) :=
  if SCREENCLICK_START_EDIT sw102 events && st.curActiveEditable.isNone then
    match curActive with
    | none => none
    | some c =>
      match (st.arena c).hdr.variant with
      | FieldVariant.FieldEditable =>
        if !(st.arena c).editable.read_only then
          -- only start editing non read only fields
          (setActiveEditable (some c) st).map (fun st1 => (st1, true))
        else some (st, handled)
      | FieldVariant.FieldScrollable =>
        (enterScrollable c st).map (fun st1 => (st1, true))
      | _ => some (st, handled)
  else some (st, handled)

/-- The function `onPressScrollable` of `screen.c` on the module state. -/
def onPressScrollableUi (sw102 : Bool) (events : KeyEvents) (st : UiState) :
    Option (UiState × Bool) :=
  match getActiveScrollable st with
  | none => some (st, false) -- no scrollable is active
  | some sp =>
    let curActive := curActiveEntry (st.arena sp)
    let moved : Option (UiState × Bool) :=
      if events.up_click || events.down_click then
        (onPressScrollableMove events sp st).map (fun st1 => (st1, true))
      else some (st, false)
    match moved with
    | none => none
    | some (st1, handled1) =>
      match onPressScrollableSelect sw102 events curActive st1 handled1 with
      | none => none
      | some (st2, handled2) =>
        -- click power button to exit out of menus
        if !handled2 && SCREENCLICK_EXIT_SCROLLABLE events then exitScrollable st2
        else some (st2, handled2)

/-- The field `choices[*selector]` of the customizable at `c` (the selector is a
`uint8_t`): `none` when the entry is NULL or lies outside the array. -/
def currentChoice (st : UiState) (c : FieldPtr) : Option FieldPtr :=
  ((st.arena c).choices.get? (st.mem (st.arena c).selector % 256)).join

/-- The loop of `selectNextCustomizableField` over the layout array, from the layout
`layout` points to, with the values of `firstCustomizable` and `wantNext`; the result is
the new `curCustomizingField`. Running off the list stands for reaching the NULL field
that ends the array. -/
def selectNextLoop (arena : FieldPtr → FieldObj) (cur : Option FieldPtr) :
    List FieldLayout → Option FieldPtr → Bool → Option FieldPtr
  | [], firstCustomizable, _ => firstCustomizable
  | layout :: rest, firstCustomizable, wantNext =>
    match layout.field with
    | none => firstCustomizable
    | some field =>
      if (arena field).hdr.variant = FieldVariant.FieldCustomizable then
        -- We ignore all other fields
        let firstCustomizable1 :=
          if firstCustomizable.isNone then some field else firstCustomizable
        if wantNext then some field
        else selectNextLoop arena cur rest firstCustomizable1 (decide (some field = cur))
      else selectNextLoop arena cur rest firstCustomizable wantNext

/-- The function `selectNextCustomizableField` of `screen.c`; `none` when `curScreen` is
NULL or the choice of the field being left cannot be dereferenced. -/
def selectNextCustomizableField (st : UiState) : Option UiState :=
  match st.screenFields with
  | none => none
  | some layouts =>
    let marked : Option (FieldPtr → FieldObj) :=
      match st.curCustomizingField with
      | none => some st.arena
      | some c =>
        -- Force the field we are leaving to get redrawn
        match currentChoice st c with
        | none => none
        | some ch => some (setDirty st.arena ch true)
    match marked with
    | none => none
    | some arena1 =>
      some { st with arena := arena1,
                     curCustomizingField :=
                       selectNextLoop arena1 st.curCustomizingField layouts none false }

/-- The function `changeCurrentCustomizableField` of `screen.c`; `none` when the
assertion fails or the old choice cannot be dereferenced. An index past the end of the
choices array reads as NULL. -/
def changeCurrentCustomizableField (st : UiState) : Option UiState :=
  match st.curCustomizingField with
  | none => none
  | some sp =>
    let s := st.arena sp
    if s.hdr.variant = FieldVariant.FieldCustomizable then
      let i := st.mem s.selector % 256
      match (s.choices.get? i).join with
      | none => none
      | some oldSelected =>
        -- If we are leaving a graph, discard that graphs cache
        let arena1 :=
          if (st.arena oldSelected).hdr.variant = FieldVariant.FieldGraph then
            Function.update st.arena oldSelected { st.arena oldSelected with cache := false }
          else st.arena
        let i1 := (i + 1) % 256
        let i2 := if ((arena1 sp).choices.get? i1).join.isNone then 0 else i1
        some { st with arena := arena1, mem := Function.update st.mem (arena1 sp).selector i2 }
    else none

/-- The outcome of a button handler: the new module state, the return value, whether the
callback `curScreen->onCustomized` was called and whether the handler `curScreen->onPress`
was called. -/
structure PressResult where
  state : UiState
  handled : Bool
  onCustomizedCalled : Bool
  onPressCalled : Bool

/-- The function `onPressCustomizing` of `screen.c`; `hasOnCustomized` tells whether
`curScreen->onCustomized` is non-NULL. The callback belongs to the client and is taken to
leave the module state alone. -/
def onPressCustomizing (sw102 : Bool) (hasOnCustomized : Bool) (events : KeyEvents)
    (st : UiState) : Option PressResult :=
  let ret (st1 : UiState) : PressResult :=
    { state := st1, handled := true, onCustomizedCalled := false, onPressCalled := false }
  if st.curCustomizingField.isNone && SCREENCLICK_START_CUSTOMIZING sw102 events then
    (selectNextCustomizableField st).map ret
  else
    match st.curCustomizingField with
    | none =>
      some { state := st, handled := false, onCustomizedCalled := false,
             onPressCalled := false }
    | some c =>
      if events.up_click then (changeCurrentCustomizableField st).map ret
      else if events.down_click then (selectNextCustomizableField st).map ret
      else if SCREENCLICK_STOP_CUSTOMIZING sw102 events then
        match currentChoice st c, st.screenFields with
        | some oldSelected, some _ =>
          some { state := { st with arena := setDirty st.arena oldSelected true,
                                    curCustomizingField := none },
                 handled := true, onCustomizedCalled := hasOnCustomized,
                 onPressCalled := false }
        | _, _ => none
      else
        some { state := st, handled := false, onCustomizedCalled := false,
               onPressCalled := false }

/-- The function `screenOnPress` of `screen.c`. `onPress` is the handler
`curScreen->onPress` (`none` for NULL), a client function whose return value only is
used here; `hasOnCustomized` as in `onPressCustomizing`. -/
def screenOnPress (sw102 : Bool) (onPress : Option (KeyEvents → Bool))
    (hasOnCustomized : Bool) (events : KeyEvents) (st : UiState) : Option PressResult :=
  let r1 : Option (UiState × Bool) :=
    if st.curActiveEditable.isSome then onPressEditable sw102 events st
    else some (st, false)
  match r1 with
  | none => none
  | some (st1, handled1) =>
    let r2 : Option (UiState × Bool) :=
      if !handled1 then onPressScrollableUi sw102 events st1 else some (st1, handled1)
    match r2 with
    | none => none
    | some (st2, handled2) =>
      let r3 : Option PressResult :=
        if !handled2 then onPressCustomizing sw102 hasOnCustomized events st2
        else some { state := st2, handled := handled2, onCustomizedCalled := false,
                    onPressCalled := false }
      match r3 with
      | none => none
      | some r =>
        match r.handled, st.screenFields.isSome, onPress with
        | false, true, some h =>
          some { r with handled := h events, onPressCalled := true }
        | _, _, _ => some r

/-- The assignments of `panicScreenShow` up to `curScreen = screen`, for a screen with
the layout array `fields`. -/
def panicScreenShowUi (fields : List FieldLayout) (st : UiState) : Option UiState :=
  (setActiveEditable none st).map (fun st1 =>
    { st1 with curCustomizingField := none, scrollableStack := [],
               screenFields := some fields })

/-- A step of the client or of a render pass, as far as the button handlers can tell:
it leaves the pointers `curActiveEditable` and `curCustomizingField`, the scrollable
stack and the current screen alone, and on every field the variant and the members that
are set when the field is declared (`editable`, `size`, `target`, `entries`, `choices`,
`selector`). -/
structure otherStep (st st1 : UiState) : Prop where
  curActiveEditable : st1.curActiveEditable = st.curActiveEditable
  curCustomizingField : st1.curCustomizingField = st.curCustomizingField
  scrollableStack : st1.scrollableStack = st.scrollableStack
  screenFields : st1.screenFields = st.screenFields
  variant : ∀ q, (st1.arena q).hdr.variant = (st.arena q).hdr.variant
  editable : ∀ q, (st1.arena q).editable = (st.arena q).editable
  size : ∀ q, (st1.arena q).size = (st.arena q).size
  target : ∀ q, (st1.arena q).target = (st.arena q).target
  entries : ∀ q, (st1.arena q).entries = (st.arena q).entries
  choices : ∀ q, (st1.arena q).choices = (st.arena q).choices
  selector : ∀ q, (st1.arena q).selector = (st.arena q).selector

/-- The module states the screen layer can reach from its initial state (no screen, no
active field, empty stack): by `screenShow`, by a button event given to `screenOnPress`,
by `renderScrollable` entering the root scrollable while none is active (lines 520-521),
and by steps that leave the pointers of the module alone. -/
inductive Reachable (sw102 : Bool) : UiState → Prop where
  | init (arena : FieldPtr → FieldObj) (mem : Nat → Nat) : Reachable sw102 (uiIdle arena mem)
  | showScreen (st st1 : UiState) (fields : List FieldLayout) :
      Reachable sw102 st → panicScreenShowUi fields st = some st1 → Reachable sw102 st1
  | press (st : UiState) (onPress : Option (KeyEvents → Bool)) (hasOnCustomized : Bool)
      (events : KeyEvents) (r : PressResult) :
      Reachable sw102 st → screenOnPress sw102 onPress hasOnCustomized events st = some r →
      Reachable sw102 r.state
  | enterRoot (st st1 : UiState) (f : FieldPtr) :
      Reachable sw102 st → getActiveScrollable st = none →
      (st.arena f).hdr.variant = FieldVariant.FieldScrollable →
      enterScrollable f st = some st1 → Reachable sw102 st1
  | other (st st1 : UiState) : Reachable sw102 st → otherStep st st1 → Reachable sw102 st1

/-- The fields of the Customizable layouts of a layout array, in list order, up to the
NULL field that ends the array. -/
def customizablesOf (arena : FieldPtr → FieldObj) : List FieldLayout → List FieldPtr
  | [] => []
  | layout :: rest =>
    match layout.field with
    | none => []
    | some field =>
      if (arena field).hdr.variant = FieldVariant.FieldCustomizable then
        field :: customizablesOf arena rest
      else customizablesOf arena rest

/-- A layout that shows the field at `p`, with every other member zero. -/
def layoutOf (p : FieldPtr) : FieldLayout :=
  { x := 0, y := 0, width := 0, height := 0,
    border := { bottom := false, top := false, left := false, right := false, fat := false },
    color := ColorOp.ColorNormal, align_x := AlignmentX.AlignDefault,
    align_y := AlignmentY.AlignCenterY, label_align_x := AlignmentX.AlignDefault,
    label_align_y := AlignmentY.AlignCenterY, unit_align_x := AlignmentX.AlignDefault,
    unit_align_y := AlignmentY.AlignCenterY, inset_x := 0, inset_y := 0, field := some p,
    font := none, old_editable := 0 }

/-- A Customizable `Field` object with the given choices and selector address. -/
def customizableField (choices : List (Option FieldPtr)) (selector : Nat) : FieldObj :=
  { hdr := { variant := FieldVariant.FieldCustomizable, dirty := false, blink := false,
             is_selected := false },
    msg := [], source := none, cache := false, warn_threshold := 0, error_threshold := 0,
    min_threshold := 0, entries := none, label := [], first := 0, selected := 0,
    choices := choices, selector := selector, editable := editableUInt 0 0 0,
    div_digits := 0, hide_fraction := false, size := 0, target := 0 }

/-- A screen of three layouts: a text field at address 3 and two Customizable fields at
the addresses 1 and 2 (each with one choice), the one at address 1 being customized. -/
def customizeDemo : UiState :=
  { uiIdle (fun p => if p = 1 then customizableField [some 10, none] 100
                     else if p = 2 then customizableField [some 11, none] 101
                     else textField "" false) (memOf 0) with
    screenFields := some [layoutOf 3, layoutOf 1, layoutOf 2],
    curCustomizingField := some 1 }

/-- The active editable, if any, is an Editable that is not read-only. -/
def activeOk (st : UiState) : Prop :=
  ∀ p, st.curActiveEditable = some p →
    (st.arena p).hdr.variant = FieldVariant.FieldEditable ∧
    (st.arena p).editable.read_only = false

/-- A step from `st` to `st1` that keeps the variant and the `editable` member of every
field, and whose active editable is the old one, none, or a field that was a
non-read-only Editable in `st`. -/
def presActive (st st1 : UiState) : Prop :=
  (∀ q, (st1.arena q).hdr.variant = (st.arena q).hdr.variant ∧
        (st1.arena q).editable = (st.arena q).editable) ∧
  (st1.curActiveEditable = st.curActiveEditable ∨ st1.curActiveEditable = none ∨
    ∃ c, st1.curActiveEditable = some c ∧
      (st.arena c).hdr.variant = FieldVariant.FieldEditable ∧
      (st.arena c).editable.read_only = false)

/-- An event set holding `UP_CLICK` only. -/
def upClick : KeyEvents :=
  { up_click := true, down_click := false, onoff_click := false, m_click := false }

/-- An event set holding `ONOFF_CLICK` only. -/
def onoffClick : KeyEvents :=
  { up_click := false, down_click := false, onoff_click := true, m_click := false }

/-- A module state in which the editable at address 7 (one byte at address 200, range 0
to 100, step 5) is being edited with the working value 50. -/
def editingDemo : UiState :=
  { uiIdle (fun _ => uintField "" 0 100 5 1 200) (memOf 50) with
    curActiveEditable := some 7, curEditableValueConverted := 50 }

/-- A Scrollable `Field` object (`FIELD_SCROLLABLE`) with the given entries, `first` and
`selected`. -/
def scrollableField (entries : List FieldPtr) (first selected : Nat) : FieldObj :=
  { hdr := { variant := FieldVariant.FieldScrollable, dirty := false, blink := false,
             is_selected := false },
    msg := [], source := none, cache := false, warn_threshold := 0, error_threshold := 0,
    min_threshold := 0, entries := some entries, label := [], first := first,
    selected := selected, choices := [], selector := 0, editable := editableUInt 0 0 0,
    div_digits := 0, hide_fraction := false, size := 0, target := 0 }

/-- A read-only editable (`FIELD_READONLY_UINT`) bound to the byte at `target`. -/
def readOnlyField (target : Nat) : FieldObj :=
  { uintField "" 0 0 0 1 target with
    editable := { editableUInt 0 0 0 with read_only := true } }

/-- The marker `FIELD_END`. -/
def endField : FieldObj :=
  { textField "" false with
    hdr := { variant := FieldVariant.FieldEnd, dirty := false, blink := false,
             is_selected := false } }

/-- A menu at address 1 with one read-only entry at address 2 (the end marker is at
address 3), shown as the only scrollable of the stack, the entry being selected. -/
def readOnlyDemo : UiState :=
  { uiIdle (fun p => if p = 1 then scrollableField [2, 3] 0 0
                     else if p = 2 then readOnlyField 200
                     else endField) (memOf 0) with
    scrollableStack := [1], maxRowsPerScreen := 4, screenFields := some [layoutOf 1] }

/-! ## Rendering (`screen.c` lines 100-351, 405-530, 656-990 and 1026-1226) -/

/-- The state a render pass works on: the module state, the static variables of the
renderer (`blinkChanged`, `blinkOn`, `screenUpdateCounter`, `oldForceLabels`,
`forceLabels`, `parentCustomizable`, `renderedStrX`, `renderedStrY`), the foreground
colour of the graphics library (`UG_SetForecolor`), the drawing calls issued so far,
oldest first, and the two static arrays `rows` of `renderActiveScrollable`, by index:
`rows` for the expanded scrollable and `labelRows` for the label of a scrollable that is
not expanded. -/
structure RenderState where
  ui : UiState
  blinkChanged : Bool
  blinkOn : Bool
  screenUpdateCounter : Nat
  oldForceLabels : Bool
  forceLabels : Bool
  parentCustomizable : Option FieldPtr
  renderedStrX : Int
  renderedStrY : Int
  foreColor : Color
  drawn : List DrawOp
  rows : Nat → FieldLayout
  labelRows : Nat → FieldLayout

/-- What the renderer takes from outside `screen.c`: the screen size (`lcd.h`), the
character spacing of the graphics library, the fonts, the build constants
`EDITABLE_BLANKALL`, `EDITABLE_NUM_ROWS`, `EDITABLE_CURSOR_COLOR`, `HEADING_BORDER` and
`Yby64(1)`, the keys (`SCREENFN_FORCE_LABELS`, `buttons_get_up_state()`,
`buttons_get_down_state()`), the C strings read-only editables point to, the addresses of
the static fields `heading`, `label` and `blankRows[i]` of `renderActiveScrollable`, and
the function `custom.render` of the Custom fields, which belongs to the client.
Coordinates are taken to be within the range of their C types. -/
structure RenderEnv where
  screenWidth : Int
  screenHeight : Int
  char_h_space : Int
  char_v_space : Int
  editable_label_font : Font
  editable_value_font : Font
  editable_units_font : Font
  FONT_CURSORS : Font
  SMALL_TEXT_FONT : Font
  SCROLLABLE_FONT : Font
  HEADING_FONT : Font
  HEADING_BORDER : BorderOp
  EDITABLE_BLANKALL : Bool
  EDITABLE_NUM_ROWS : Nat
  EDITABLE_CURSOR_COLOR : Color
  fatBorder : Int
  SCREENFN_FORCE_LABELS : Bool
  buttons_get_up_state : Bool
  buttons_get_down_state : Bool
  strAt : Nat → List Char
  heading : FieldPtr
  label : FieldPtr
  blankRows : Nat → FieldPtr
  renderCustom : FieldLayout → RenderState → Option (FieldLayout × RenderState × Bool)

/-- One drawing call, appended to the log. -/
def draw (S : RenderState) (op : DrawOp) : RenderState :=
  { S with drawn := S.drawn ++ [op] }

/-- The assignment `field->dirty = b` within a render state. -/
def setDirtyR (S : RenderState) (p : FieldPtr) (b : Bool) : RenderState :=
  { S with ui := { S.ui with arena := setDirty S.ui.arena p b } }

/-- The function `getBackColor` of `screen.c`. -/
def getBackColor (color : ColorOp) : Color :=
  match color with
  | ColorOp.ColorInvert => Color.C_WHITE
  | ColorOp.ColorHeading => Color.HEADING_BACKGROUND
  | _ => Color.C_BLACK

/-- The function `getForeColor` of `screen.c`. -/
def getForeColor (color : ColorOp) : Color :=
  match color with
  | ColorOp.ColorInvert => Color.C_BLACK
  | ColorOp.ColorError => Color.C_ERROR
  | ColorOp.ColorWarning => Color.C_WARNING
  | _ => Color.C_WHITE

/-- The function `getField` of `screen.c`: the field a layout shows, after the
redirection of a Customizable, and the state with `parentCustomizable` set. `none` when
the assertion fails or the result cannot be dereferenced (a NULL choice). -/
def getField (S : RenderState) (layout : FieldLayout) : Option (FieldPtr × RenderState) :=
  match layout.field with
  | none => none
  | some field =>
    if (S.ui.arena field).hdr.variant = FieldVariant.FieldCustomizable then
      match currentChoice S.ui field with
      | none => none
      | some choice => some (choice, { S with parentCustomizable := some field })
    else some (field, { S with parentCustomizable := none })

/-- The function `needsRender` of `screen.c`. -/
def needsRender (S : RenderState) (field : FieldObj) : Bool :=
  if field.hdr.dirty then true
  else if S.blinkChanged && (field.hdr.blink || field.hdr.is_selected) then true
  else if field.hdr.variant = FieldVariant.FieldEditable then true
  else false

/-- The function `putStringCentered` of `screen.c`; `none` when the assertion
`maxchars > 0` fails or the division is by zero. -/
def putStringCentered (env : RenderEnv) (x y width : Int) (font : Font) (str : List Char)
    (S : RenderState) : Option RenderState :=
  let maxchars : Int := (str.length : Int)
  let strwidth := toInt16 ((font.char_width + env.char_h_space) * maxchars - env.char_h_space)
  let trimmed : Option Int :=
    if strwidth > width then
      -- if string is too long, trim it to fit
      if font.char_width + env.char_h_space = 0 then none
      else
        let m := cdiv width (font.char_width + env.char_h_space)
        if m > 0 then some m else none
    else some maxchars
  match trimmed with
  | none => none
  | some m =>
    let x1 := if strwidth < width then x + cdiv (width - strwidth) 2 else x
    some { draw S (DrawOp.putString x1 y (str.take m.toNat) S.foreColor) with
           renderedStrX := x1, renderedStrY := y }

/-- The function `putStringRight` of `screen.c`. -/
def putStringRight (env : RenderEnv) (x y : Int) (font : Font) (str : List Char)
    (S : RenderState) : RenderState :=
  let strwidth := toInt16 ((font.char_width + env.char_h_space) * (str.length : Int))
  let x1 := x - strwidth
  { draw S (DrawOp.putString x1 y str S.foreColor) with renderedStrX := x1, renderedStrY := y }

/-- The function `putStringLeft` of `screen.c`. -/
def putStringLeft (x y : Int) (str : List Char) (S : RenderState) : RenderState :=
  { draw S (DrawOp.putString x y str S.foreColor) with renderedStrX := x, renderedStrY := y }

/-- The function `putAligned` of `screen.c`; `none` when `font` is NULL or
`putStringCentered` fails. -/
def putAligned (env : RenderEnv) (layout : FieldLayout) (alignx : AlignmentX)
    (aligny : AlignmentY) (insetx insety : Int) (font : Option Font) (str : List Char)
    (S : RenderState) : Option RenderState :=
  match font with
  | none => none
  | some f =>
    -- First find the y position
    let y : Int :=
      match aligny with
      | AlignmentY.AlignTop => layout.y + insety
      | AlignmentY.AlignBottom => layout.y + (layout.height - (insety + f.char_height))
      | AlignmentY.AlignCenterY =>
        layout.y + (insety + cdiv layout.height 2 - cdiv f.char_height 2)
    -- Now print the string at the proper x positon
    match alignx with
    | AlignmentX.AlignHidden => some S
    | AlignmentX.AlignLeft => some (putStringLeft (layout.x + insetx) y str S)
    | AlignmentX.AlignRight =>
      some (putStringRight env (layout.x + layout.width - insetx) y f str S)
    | AlignmentX.AlignDefault =>
      putStringCentered env (layout.x + insetx) y layout.width f str S

/-- The function `renderDrawTextCommon` of `screen.c` with `autoTextHeight`; `msg` is
read from `layout->field`, without redirection. -/
def renderDrawText (env : RenderEnv) (layout : FieldLayout) (S : RenderState) :
    Option (FieldLayout × RenderState × Bool) :=
  match layout.field with
  | none => none
  | some p =>
    let sized : Option FieldLayout :=
      if layout.height = -1 then
        match layout.font with
        | none => none
        | some f => some { layout with height := toInt16 f.char_height }
      else some layout
    match sized with
    | none => none
    | some layout1 =>
      let S1 := { S with foreColor := getForeColor layout1.color }
      let S2 := draw S1 (DrawOp.fillFrame layout1.x layout1.y (layout1.x + layout1.width - 1)
        (layout1.y + layout1.height - 1) (getBackColor layout1.color))
      if !(S2.ui.arena p).hdr.blink || S2.blinkOn then
        match putAligned env layout1 layout1.align_x AlignmentY.AlignTop layout1.inset_x
                layout1.inset_y layout1.font (S2.ui.arena p).msg S2 with
        | none => none
        | some S3 => some (layout1, S3, true)
      else some (layout1, S2, true)

/-- The function `renderFill` of `screen.c`. -/
def renderFill (layout : FieldLayout) (S : RenderState) :
    Option (FieldLayout × RenderState × Bool) :=
  if layout.width ≥ 1 ∧ layout.height ≥ 1 then
    some (layout, draw S (DrawOp.fillFrame layout.x layout.y (layout.x + layout.width - 1)
      (layout.y + layout.height - 1) (getForeColor layout.color)), true)
  else none

/-- The function `renderMesh` of `screen.c`. -/
def renderMesh (layout : FieldLayout) (S : RenderState) :
    Option (FieldLayout × RenderState × Bool) :=
  if layout.width ≥ 1 ∧ layout.height ≥ 1 then
    some (layout, draw S (DrawOp.drawMesh layout.x layout.y (layout.x + layout.width - 1)
      (layout.y + layout.height - 1) (getForeColor layout.color)), true)
  else none

/-- The call of `UG_PutChar` in `drawSelectionMarker` of `screen.c` for a layout: the
cursor glyph when `layout->field` is selected. With `blinkOn` clear the colour is
`getBackColor(ColorNormal)`: the call passes the enumerator `ColorNormal`, which is 0 and
so a null pointer, as the layout, and `getBackColor` reads `layout->color` through it;
the result is `none` then. -/
def markerOps (env : RenderEnv) (layout : FieldLayout) (S : RenderState) :
    Option (List DrawOp) :=
  match layout.field with
  | none => some []
  | some p =>
    if (S.ui.arena p).hdr.is_selected then
      if S.blinkOn then
        some [DrawOp.putChar '0' (layout.x + layout.width - env.FONT_CURSORS.char_width)
          (layout.y + cdiv (layout.height - env.FONT_CURSORS.char_height) 2)
          env.EDITABLE_CURSOR_COLOR]
      else none
    else some []

/-- The function `drawSelectionMarker` of `screen.c`; `none` when `getBackColor` is called
with the null pointer. -/
def drawSelectionMarker (env : RenderEnv) (layout : FieldLayout) (S : RenderState) :
    Option RenderState :=
  (markerOps env layout S).map (fun ops => { S with drawn := S.drawn ++ ops })

/-- The calls of `drawBorder` of `screen.c` for a layout. -/
def borderOps (env : RenderEnv) (layout : FieldLayout) : List DrawOp :=
  let color := getForeColor layout.color
  let fatness : Int := if layout.border.fat then env.fatBorder else 1
  (if layout.border.top then
     [DrawOp.drawLine layout.x layout.y (layout.x + layout.width - 1) layout.y color]
   else [])
  ++ (if layout.border.bottom then
        [DrawOp.fillFrame layout.x (layout.y + layout.height - fatness)
          (layout.x + layout.width - 1) (layout.y + layout.height - 1) color]
      else [])
  ++ (if layout.border.left then
        [DrawOp.drawLine layout.x layout.y layout.x (layout.y + layout.height - 1) color]
      else [])
  ++ (if layout.border.right then
        [DrawOp.drawLine (layout.x + layout.width - 1) layout.y
          (layout.x + layout.width - 1) (layout.y + layout.height - 1) color]
      else [])

/-- The function `drawBorder` of `screen.c`. -/
def drawBorder (env : RenderEnv) (layout : FieldLayout) (S : RenderState) : RenderState :=
  { S with drawn := S.drawn ++ borderOps env layout }

/-- The function `getUnits` of `screen.c`. -/
def getUnits (ui : UiState) (field : FieldObj) : List Char :=
  let units := field.editable.units
  if ui.screenConvertMiles && strcasecmpEq units "kph" then "mph".data
  else if ui.screenConvertMiles && strcasecmpEq units "km" then "mi".data
  else if ui.screenConvertFarenheit && strcmpEq units "C" then "F".data
  else units.data

/-- The decimal digits `printf` writes for a signed value. -/
def signedDecimal (v : Int) : List Char :=
  if v < 0 then '-' :: Nat.toDigits 10 (-v).toNat else Nat.toDigits 10 v.toNat

/-- The function `getEditableString` of `screen.c`: the string left in `outbuf`; `none`
when the default branch asserts, an option cannot be read, or `strncpy` leaves the buffer
without a terminator. `%lu` prints the `int32_t` argument as an unsigned value. -/
def getEditableString (env : RenderEnv) (field : FieldObj) (num : Int) : Option (List Char) :=
  match field.editable.typ with
  | EditableType.ReadOnlyStr =>
    let s := env.strAt field.target
    if s.length < MAX_FIELD_LEN then some s else none
  | EditableType.EditUInt =>
    if field.div_digits = 0 then
      some ((Nat.toDigits 10 (toUInt32 num).toNat).take (MAX_FIELD_LEN - 1))
    else
      let div := toInt32 (10 ^ field.div_digits)
      if div = 0 then none
      else if field.hide_fraction then
        some ((signedDecimal (cdiv num div)).take (MAX_FIELD_LEN - 1))
      else
        let digits := Nat.toDigits 10 (toUInt32 (Int.tmod num div)).toNat
        let pad := List.replicate (field.div_digits - digits.length) '0'
        some ((signedDecimal (cdiv num div) ++ '.' :: (pad ++ digits)).take (MAX_FIELD_LEN - 1))
  | EditableType.EditEnum =>
    if num < 0 then none
    else
      match (field.editable.options.get? num.toNat).join with
      | none => none
      | some s => if s.length < MAX_FIELD_LEN then some s.data else none

/-- The hold-to-repeat block of `renderEditable` (lines 842-850) for an active editable. -/
def renderEditableRepeat (env : RenderEnv) (ui : UiState) : Option UiState :=
  let up : Option UiState :=
    if env.buttons_get_up_state then changeEditableUi true ui else some ui
  match up with
  | none => none
  | some ui1 => if env.buttons_get_down_state then changeEditableUi false ui1 else some ui1

/-- The call `UG_SetForecolor(c)`. -/
def setFore (S : RenderState) (c : Color) : RenderState :=
  { S with foreColor := c }

/-- Lines 886-894 of `renderEditable`: fill the box with blank space if we must. -/
def editableBlank (env : RenderEnv) (layout : FieldLayout)
    (isCustomizing dirty needBlink : Bool) (S : RenderState) : RenderState :=
  let forceLabelsChanged : Bool := S.forceLabels != S.oldForceLabels
  let blankAll : Bool :=
    env.EDITABLE_BLANKALL || forceLabelsChanged || dirty || (isCustomizing && needBlink)
  let S1 :=
    if blankAll then
      draw S (DrawOp.fillFrame layout.x layout.y (layout.x + layout.width - 1)
        (layout.y + layout.height - 1) (getBackColor layout.color))
    else S
  setFore S1 (getForeColor layout.color)

/-- Lines 921-934 of `renderEditable`: show the label the conventional way. -/
def editableLabel (env : RenderEnv) (layout : FieldLayout) (field : FieldObj)
    (S : RenderState) : Option RenderState :=
  let showLabel : Bool := layout.label_align_x != AlignmentX.AlignHidden
  let labelled : Option RenderState :=
    if showLabel then
      putAligned env layout layout.label_align_x layout.label_align_y 0 0
        (some env.editable_label_font) field.label (setFore S Color.LABEL_COLOR)
    else some S
  labelled.map (fun S1 => setFore S1 (getForeColor layout.color))

/-- Lines 936-965 of `renderEditable`: draw the value and, for the active editable, the
underline cursor. -/
def editableValue (env : RenderEnv) (layout : FieldLayout) (isActive : Bool)
    (valuestr : List Char) (S : RenderState) : Option RenderState :=
  let showLabel : Bool := layout.label_align_x != AlignmentX.AlignHidden
  let showLabelAtTop : Bool := layout.label_align_y == AlignmentY.AlignTop
  let font := layout.font.getD env.editable_value_font
  let isTwoRows : Bool := showLabel && env.EDITABLE_NUM_ROWS == 2
  let y : Int :=
    if showLabel && (showLabelAtTop || isTwoRows) then
      (layout.inset_y : Int) + env.editable_label_font.char_height
    else (layout.inset_y : Int)
  let align_y := if showLabel && showLabelAtTop then AlignmentY.AlignTop else layout.align_y
  match putAligned env layout layout.align_x align_y (layout.inset_x : Int) y (some font)
          valuestr S with
  | none => none
  | some S1 =>
    if isActive then
      -- Blinking underline cursor when editing
      let cursorY := toInt16 (S1.renderedStrY + font.char_height + 1)
      some (draw S1 (DrawOp.drawLine (S1.renderedStrX - 1) cursorY (layout.x + layout.width)
        cursorY (if S1.blinkOn then env.EDITABLE_CURSOR_COLOR else getBackColor layout.color)))
    else some S1

/-- Lines 967-982 of `renderEditable`: put the units in the bottom right, unless the label
is shown; the unit alignment of the layout may be defaulted. -/
def editableUnits (env : RenderEnv) (layout : FieldLayout) (field : FieldObj)
    (S : RenderState) : Option (FieldLayout × RenderState) :=
  let showLabel : Bool := layout.label_align_x != AlignmentX.AlignHidden
  let showUnits : Bool := field.editable.typ == EditableType.EditUInt && !showLabel
  let units := getUnits S.ui field
  if showUnits && units.length != 0 then
    let layout1 :=
      if layout.unit_align_x = AlignmentX.AlignDefault then
        { layout with unit_align_x := AlignmentX.AlignRight,
                      unit_align_y := AlignmentY.AlignBottom }
      else layout
    (putAligned env layout1 layout1.unit_align_x layout1.unit_align_y 0 0
      (some env.editable_units_font) units S).map (fun S1 => (layout1, S1))
  else some (layout, S)

/-- The drawing part of `renderEditable` (lines 886-984), reached when the field has to
be drawn. -/
def renderEditableDraw (env : RenderEnv) (layout : FieldLayout) (field : FieldObj)
    (isActive isCustomizing dirty needBlink showValue : Bool) (valuestr : List Char)
    (S : RenderState) : Option (FieldLayout × RenderState) :=
  let showLabel : Bool := layout.label_align_x != AlignmentX.AlignHidden
  let S2 := editableBlank env layout isCustomizing dirty needBlink S
  -- the label name alternates with blackspace when the label is hidden
  let showOnlyLabel : Bool := S.forceLabels || (isCustomizing && needBlink && !showLabel)
  if isCustomizing && needBlink && !S.blinkOn then
    some (layout, S2) -- Just show black background this time
  else if showOnlyLabel then
    -- Show the label in the middle of the box (and nothing else)
    (putStringCentered env layout.x
      (layout.y + cdiv (layout.height - env.editable_label_font.char_height) 2) layout.width
      env.editable_label_font field.label S2).map (fun S3 => (layout, S3))
  else
    match editableLabel env layout field S2 with
    | none => none
    | some S4 =>
      let valued : Option RenderState :=
        if showValue then editableValue env layout isActive valuestr S4 else some S4
      match valued with
      | none => none
      | some S6 => editableUnits env layout field S6

/-- Lines 830-834 of `renderEditable`: the height of a layout that asks for it
(`height == -1`). -/
def editableAutoHeight (env : RenderEnv) (layout : FieldLayout) : FieldLayout :=
  let showLabel : Bool := layout.label_align_x != AlignmentX.AlignHidden
  let showLabelAtTop : Bool := layout.label_align_y == AlignmentY.AlignTop
  let font := layout.font.getD env.editable_value_font
  let isTwoRows : Bool := showLabel && env.EDITABLE_NUM_ROWS == 2
  if layout.height = -1 then -- We should autoset
    { layout with height := toInt16 ((if isTwoRows || showLabelAtTop then
        env.editable_label_font.char_height else 0) + font.char_height) }
  else layout

/-- Lines 868-878 of `renderEditable`: when the value is shown, the old and the new value
as strings; the result is the layout (with the cached value updated), `valuestr` and
`dirty`. -/
def editableStrings (env : RenderEnv) (layout : FieldLayout) (field : FieldObj) (num : Int)
    (showValue dirty0 : Bool) : Option (FieldLayout × List Char × Bool) :=
  if showValue then
    match getEditableString env field (toInt32 layout.old_editable),
          getEditableString env field num with
    | some oldvaluestr, some valuestr =>
      some ({ layout with old_editable := toUInt32 num }, valuestr,
            dirty0 || (valuestr.length != oldvaluestr.length))
    | _, _ => none
  else some (layout, [], dirty0)

/-- Lines 858-984 of `renderEditable`, for the value `num` to show. The comparison
`num != layout->old_editable` is between an `int32_t` and a `uint32_t`. -/
def renderEditableShow (env : RenderEnv) (layout : FieldLayout) (fp : FieldPtr)
    (isActive isCustomizing : Bool) (num : Int) (S : RenderState) :
    Option (FieldLayout × RenderState × Bool) :=
  let field := S.ui.arena fp
  let dirty0 := field.hdr.dirty
  let valueChanged : Bool := (toUInt32 num != layout.old_editable) && !isCustomizing
  -- Do we need to handle a blink transition right now?
  let needBlink : Bool :=
    S.blinkChanged && (isActive || field.hdr.is_selected || isCustomizing)
  let showValue : Bool := !S.forceLabels && (valueChanged || dirty0 || needBlink)
  match editableStrings env layout field num showValue dirty0 with
  | none => none
  | some (layout2, valuestr, dirty) =>
    let forceLabelsChanged : Bool := S.forceLabels != S.oldForceLabels
    if !dirty && !valueChanged && !forceLabelsChanged && !needBlink then
      some (layout2, S, false) -- We didn't actually change
    else
      (renderEditableDraw env layout2 field isActive isCustomizing dirty needBlink
        showValue valuestr S).map (fun r => (r.1, r.2, true))

/-- The function `renderEditable` of `screen.c`. -/
def renderEditable (env : RenderEnv) (layout : FieldLayout) (S : RenderState) :
    Option (FieldLayout × RenderState × Bool) :=
  match getField S layout with
  | none => none
  | some (fp, S1) =>
    let field := S1.ui.arena fp
    let isActive : Bool := decide (S1.ui.curActiveEditable = some fp)
    let isCustomizing : Bool :=
      S1.ui.curCustomizingField.isSome &&
        decide (S1.ui.curCustomizingField = S1.parentCustomizable)
    let layout1 := editableAutoHeight env layout
    -- poll our buttons so that the user can press and hold to change a series of values
    let polled : Option UiState :=
      if isActive && S1.blinkChanged && !field.editable.read_only then
        renderEditableRepeat env S1.ui
      else some S1.ui
    match polled with
    | none => none
    | some ui2 =>
      let S2 := setFore { S1 with ui := ui2 } (getForeColor layout.color)
      -- Get the value we are trying to show
      let shown : Option Int :=
        if isActive then some ui2.curEditableValueConverted
        else getEditableNumber ui2.screenConvertMiles ui2.screenConvertFarenheit ui2.mem
               field true
      match shown with
      | none => none
      | some num => renderEditableShow env layout1 fp isActive isCustomizing num S2

/-- The constant `GRAPH_COLOR_ACCENT` of `screen.h`. -/
def GRAPH_COLOR_ACCENT : Color := Color.C_WHITE

/-- The constant `GRAPH_COLOR_AXIS` of `screen.h`. -/
def GRAPH_COLOR_AXIS : Color := Color.C_SLATE_GRAY

/-- The number of `screenUpdate` ticks between two graph samples,
`GRAPH_INTERVAL_MS / UPDATE_INTERVAL_MS`. -/
def GRAPH_INTERVAL_TICKS : Nat := 3500 / 20

/-- The axis coordinates `renderGraph` sets from the layout (lines 1183-1198). -/
def graphGeomOf (env : RenderEnv) (layout : FieldLayout) : GraphGeom :=
  let axisdigits : Int := 5
  let axiswidth := axisdigits * (env.SMALL_TEXT_FONT.char_width + env.char_h_space)
  let graphX := layout.x
  let graphY := layout.y
  let graphWidth := layout.width
  let graphHeight := layout.height
  let graphXmin := graphX + axiswidth
  let graphXmax := graphX + graphWidth - 1
  { graphX := graphX, graphY := graphY, graphWidth := graphWidth, graphHeight := graphHeight,
    graphXmin := graphXmin,
    -- limit max x based on the number of points we might have
    graphXmax := if graphXmin + (GRAPH_MAX_POINTS : Int) < graphXmax then
                   graphXmin + (GRAPH_MAX_POINTS : Int) else graphXmax,
    graphYmin := graphY + graphHeight - 1,
    graphYmax := graphY + env.SMALL_TEXT_FONT.char_height,
    graphLabelY := graphY }

/-- The function `graphClear` of `screen.c`. -/
def graphClear (g : GraphGeom) (field : FieldObj) (S : RenderState) : RenderState :=
  let S1 := { S with foreColor := GRAPH_COLOR_ACCENT }
  if field.hdr.dirty then
    draw S1 (DrawOp.fillFrame g.graphX g.graphY (g.graphX + g.graphWidth - 1)
      (g.graphY + g.graphHeight - 1) GRAPH_COLOR_BACKGROUND)
  else S1

/-- The function `graphLabelAxis` of `screen.c` for the graph `field` with the source
field `source`. -/
def graphLabelAxis (env : RenderEnv) (g : GraphGeom) (field source : FieldObj)
    (S : RenderState) : Option RenderState :=
  -- Only need to draw labels and axis if dirty
  let axis : Option RenderState :=
    if field.hdr.dirty then
      match putStringCentered env g.graphX g.graphLabelY g.graphWidth env.SMALL_TEXT_FONT
              source.label { S with foreColor := Color.LABEL_COLOR } with
      | none => none
      | some S1 =>
        let S2 := { S1 with foreColor := GRAPH_COLOR_ACCENT }
        some (draw (draw S2 (DrawOp.drawLine g.graphXmin g.graphYmin g.graphXmin g.graphYmax
            GRAPH_COLOR_AXIS))
          (DrawOp.drawLine g.graphXmin g.graphYmin g.graphXmax g.graphYmin GRAPH_COLOR_AXIS))
    else some S
  match axis with
  | none => none
  | some S3 =>
    let cache := S3.ui.caches0
    -- draw max value
    let maxed : Option RenderState :=
      if cache.max_val ≠ INT32_MIN then
        (getEditableString env source cache.max_val).map (fun valstr =>
          putStringRight env g.graphXmin g.graphYmax env.SMALL_TEXT_FONT valstr S3)
      else some S3
    match maxed with
    | none => none
    | some S4 =>
      -- draw min value
      if cache.min_val ≠ INT32_MAX then
        (getEditableString env source cache.min_val).map (fun valstr =>
          putStringRight env g.graphXmin (g.graphYmin - env.SMALL_TEXT_FONT.char_height)
            env.SMALL_TEXT_FONT valstr S4)
      else some S4

/-- What lines 1149-1180 of `renderGraph` hand to the drawing part: the state, the graph
field, its source field and `needBlink`. -/
structure GraphSampled where
  state : RenderState
  field : FieldPtr
  source : FieldPtr
  needBlink : Bool

/-- Lines 1149-1180 of `renderGraph`: the early return (`Sum.inl`, with the state at the
return), or the state after the cache has been claimed and the periodic sample added
(`Sum.inr`). The single cache `caches[0]` is `ui.caches0`; the member `cache` of the field
tells whether it points to it. `none` when an assertion fails. -/
def renderGraphSample (layout : FieldLayout) (S : RenderState) :
    Option (RenderState ⊕ GraphSampled) :=
  let needUpdate : Bool := decide (S.screenUpdateCounter % GRAPH_INTERVAL_TICKS = 0)
  match getField S layout with
  | none => none
  | some (fp, S1) =>
    let isCustomizing : Bool :=
      S1.ui.curCustomizingField.isSome &&
        decide (S1.ui.curCustomizingField = S1.parentCustomizable)
    let needBlink : Bool := S1.blinkChanged && isCustomizing
    -- Force a complete redraw if blink changed
    let S2 := if needBlink then setDirtyR S1 fp true else S1
    -- If we are not dirty and we don't need an update, just return
    if !needUpdate && !(S2.ui.arena fp).hdr.dirty then some (Sum.inl S2)
    else
      let S3 :=
        if !(S2.ui.arena fp).cache then
          -- Reinit cache to empty
          { S2 with ui := { S2.ui with
              arena := Function.update S2.ui.arena fp { S2.ui.arena fp with cache := true },
              caches0 := graphCacheReset S2.ui.caches0 } }
        else S2
      match (S3.ui.arena fp).source with
      | none => none
      | some sp =>
        -- Pull in the latest point (if we are our periodic update)
        if needUpdate then
          match getEditableNumber S3.ui.screenConvertMiles S3.ui.screenConvertFarenheit
                  S3.ui.mem (S3.ui.arena sp) true with
          | none => none
          | some val =>
            some (Sum.inr
              { state := { S3 with ui := { S3.ui with
                  caches0 := graphAddPoint (S3.ui.arena fp).min_threshold S3.ui.caches0 val } },
                field := fp, source := sp, needBlink := needBlink })
        else some (Sum.inr { state := S3, field := fp, source := sp, needBlink := needBlink })

/-- The function `renderGraph` of `screen.c`: `renderGraphSample`, then the drawing part
(lines 1182-1208). -/
def renderGraph (env : RenderEnv) (layout : FieldLayout) (S : RenderState) :
    Option (FieldLayout × RenderState × Bool) :=
  match renderGraphSample layout S with
  | none => none
  | some (Sum.inl S2) => some (layout, S2, false)
  | some (Sum.inr r) =>
    let S4 := r.state
    let field := S4.ui.arena r.field
    let g := graphGeomOf env layout
    let S5 := graphClear g field S4
    if r.needBlink && !S5.blinkOn then some (layout, S5, true)
    else
      match graphLabelAxis env g field (S5.ui.arena r.source) S5 with
      | none => none
      | some S6 =>
        some (layout,
          { S6 with drawn := S6.drawn ++ graphDrawPoints g field S6.ui.caches0 }, true)

/-- The constant `SCROLLABLE_VPAD` of `screen.c`: extra space between each row. -/
def SCROLLABLE_VPAD : Int := 4

/-- The constant `SCROLLABLE_ROW_HEIGHT` of `screen.c`. -/
def SCROLLABLE_ROW_HEIGHT : Int := SCROLLABLE_VPAD + 16

/-- The constant `MAX_SCROLLABLE_ROWS` of `screen.c`, `SCREEN_HEIGHT / SCROLLABLE_ROW_HEIGHT`:
the static array `rows` of the expanded scrollable has `MAX_SCROLLABLE_ROWS + 1` elements. -/
def MAX_SCROLLABLE_ROWS (env : RenderEnv) : Int := cdiv env.screenHeight SCROLLABLE_ROW_HEIGHT

/-- The value `rowHeight` of `renderActiveScrollable`, a `Coord`. -/
def scrollableRowHeight (env : RenderEnv) : Int :=
  toInt16 ((env.EDITABLE_NUM_ROWS : Int) * (env.SCROLLABLE_FONT.char_height + env.char_v_space)
    + SCROLLABLE_VPAD)

/-- The call `renderLayouts(rows, false)` that ends `renderActiveScrollable`, as a function
of the rows and the state. The functions from `renderActiveScrollable` to the body of
`renderLayouts` take it as `inner`; `renderLayouts` below closes the recursion. -/
abbrev NestedPass :=
  List FieldLayout → RenderState → Option (List FieldLayout × RenderState × Bool)

/-- The heading row (`i == 0`) of the relayout loop of `renderActiveScrollable` (lines
425-442) for the expanded scrollable at `fp`; `none` when `fieldPrintf` asserts. -/
def relayoutHeading (env : RenderEnv) (layout : FieldLayout) (fp : FieldPtr)
    (S : RenderState) : Option RenderState :=
  -- Force the heading to be redrawn even if we aren't chaning the string
  let arena1 := setDirty S.ui.arena env.heading true
  match fieldPrintf (arena1 env.heading) (arena1 fp).label with
  | none => none
  | some h =>
    let r := { S.rows 0 with
      x := layout.x, width := layout.width, field := some env.heading,
      color := ColorOp.ColorHeading, border := env.HEADING_BORDER,
      font := some env.HEADING_FONT, y := layout.y,
      height := toInt16 (env.HEADING_FONT.char_height + env.char_v_space + SCROLLABLE_VPAD) }
    some { S with ui := { S.ui with arena := Function.update arena1 env.heading h },
                  rows := Function.update S.rows 0 r }

/-- A data row (`i ≥ 1`) of the relayout loop of `renderActiveScrollable` (lines 425-431
and 443-474), entered with the value of `hasMoreRows`: the state and the new
`hasMoreRows`. The row shows the entry `first + i - 1` of the scrollable at `fp`, or the
field `blankRows[i]` from the `FieldEnd` marker on; `none` when the entry cannot be
dereferenced (`entries` is NULL or the index lies outside the array). -/
def relayoutEntry (env : RenderEnv) (layout : FieldLayout) (fp : FieldPtr) (i : Nat)
    (hasMoreRows : Bool) (S : RenderState) : Option (RenderState × Bool) :=
  let prev := S.rows (i - 1)
  let r : FieldLayout := { S.rows i with
    x := layout.x, width := layout.width,
    border := { bottom := false, top := false, left := false, right := false, fat := false },
    y := toInt16 (prev.y + prev.height),
    height := scrollableRowHeight env, -- all data rows are the same height
    label_align_y := if env.EDITABLE_NUM_ROWS = 1 then AlignmentY.AlignCenterY
                     else AlignmentY.AlignTop,
    label_align_x := AlignmentX.AlignLeft, align_x := AlignmentX.AlignRight,
    -- move the value all the way to the right (but leave room for the cursor)
    inset_x := toUInt8 env.FONT_CURSORS.char_width }
  let field := S.ui.arena fp
  -- visible menu rows, starting with where the user has scrolled to
  let entryNum : Nat := field.first + i - 1
  -- if the current row is valid, render that, otherwise render blank space
  let blank : RenderState :=
    let b := env.blankRows i
    let filled := Function.update S.ui.arena b
      { S.ui.arena b with hdr := { (S.ui.arena b).hdr with variant := FieldVariant.FieldFill } }
    -- black box for empty slots at end
    let rb : FieldLayout := { r with field := some b, color := ColorOp.ColorInvert }
    { S with ui := { S.ui with arena := setDirty filled b true },
             rows := Function.update S.rows i rb }
  if hasMoreRows then
    match field.entries with
    | none => none
    | some es =>
      match es.get? entryNum with
      | none => none
      | some entry =>
        if (S.ui.arena entry).hdr.variant = FieldVariant.FieldEnd then
          some (blank, false) -- This will short circuit all future processing
        else
          let selected : Bool := decide (entryNum = field.selected)
          let e := S.ui.arena entry
          -- Force it to be redrawn
          let e1 := { e with hdr := { e.hdr with dirty := true, is_selected := selected,
                                                 blink := selected } }
          let re : FieldLayout := { r with field := some entry }
          some ({ S with ui := { S.ui with arena := Function.update S.ui.arena entry e1 },
                         rows := Function.update S.rows i re }, true)
  else some (blank, false)

/-- The relayout loop of `renderActiveScrollable` (lines 424-477) from row `i` on, with
`k` rows to go: each iteration lays out one row and marks the end of the array at the
index `maxRows`. -/
def relayoutLoop (env : RenderEnv) (layout : FieldLayout) (fp : FieldPtr) (maxRows : Nat) :
    Nat → Nat → Bool → RenderState → Option RenderState
  | 0, _, _, S => some S
  | k + 1, i, hasMoreRows, S =>
    let row : Option (RenderState × Bool) :=
      if i = 0 then (relayoutHeading env layout fp S).map (fun S1 => (S1, hasMoreRows))
      else relayoutEntry env layout fp i hasMoreRows S
    match row with
    | none => none
    | some (S1, more) =>
      -- mark end of array (for rendering)
      let ending : FieldLayout := { S1.rows maxRows with field := none }
      let S2 := { S1 with rows := Function.update S1.rows maxRows ending }
      relayoutLoop env layout fp maxRows k (i + 1) more S2

/-- The branch of `renderActiveScrollable` for the expanded scrollable at `fp` (lines
418-481): lay the rows out again when `forceScrollableRelayout` is set, then render them.
The nested pass works on the static array; the rows it returns are stored back. -/
def renderExpanded (env : RenderEnv) (inner : NestedPass) (layout : FieldLayout)
    (fp : FieldPtr) (S : RenderState) : Option (FieldLayout × RenderState × Bool) :=
  let maxRows := S.ui.maxRowsPerScreen.toNat
  let laid : Option RenderState :=
    if S.ui.forceScrollableRelayout then
      relayoutLoop env layout fp maxRows maxRows 0 true
        { S with ui := { S.ui with forceScrollableRelayout := false } }
    else some S
  match laid with
  | none => none
  | some S1 =>
    -- draw (or redraw if necessary) our current set of visible rows
    match inner ((List.range ((MAX_SCROLLABLE_ROWS env).toNat + 1)).map S1.rows) S1 with
    | none => none
    | some (rows1, S2, drew) =>
      some (layout, { S2 with rows := fun i => rows1.getD i (S2.rows i) }, drew)

/-- The branch of `renderActiveScrollable` for a scrollable at `fp` that is not expanded
(lines 482-509): just draw our label, in a row of its own; `none` when `fieldPrintf`
asserts. -/
def renderCollapsed (env : RenderEnv) (inner : NestedPass) (layout : FieldLayout)
    (fp : FieldPtr) (S : RenderState) : Option (FieldLayout × RenderState × Bool) :=
  let r : FieldLayout := { S.labelRows 0 with
    x := layout.x, y := layout.y, width := layout.width, height := layout.height,
    border := { bottom := false, top := false, left := false, right := false, fat := false } }
  match fieldPrintf (S.ui.arena env.label) (S.ui.arena fp).label with
  | none => none
  | some lab =>
    let r1 := { r with field := some env.label, color := ColorOp.ColorNormal,
                       font := some env.SCROLLABLE_FONT }
    let arena1 := Function.update S.ui.arena env.label lab
    -- If we are inside a scrollable and selected, blink
    let selected : Bool :=
      match getActiveScrollable S.ui with
      | some sp => decide (curActiveEntry (arena1 sp) = some fp)
      | none => false
    let arena2 := Function.update arena1 env.label
      { arena1 env.label with hdr := { (arena1 env.label).hdr with is_selected := selected } }
    -- mark end of array (for rendering)
    let ending : FieldLayout := { S.labelRows 1 with field := none }
    let S1 := { S with ui := { S.ui with arena := arena2 },
                       labelRows := Function.update (Function.update S.labelRows 0 r1) 1 ending }
    -- draw (or redraw if necessary) our current set of visible rows
    match inner [S1.labelRows 0, S1.labelRows 1] S1 with
    | none => none
    | some (rows1, S2, drew) =>
      some (layout, { S2 with labelRows := fun i => rows1.getD i (S2.labelRows i) }, drew)

/-- The function `renderActiveScrollable` of `screen.c` for the scrollable at `fp`; `none`
when the assertion on the row height fails (or the division is by zero). -/
def renderActiveScrollable (env : RenderEnv) (inner : NestedPass) (layout : FieldLayout)
    (fp : FieldPtr) (S : RenderState) : Option (FieldLayout × RenderState × Bool) :=
  let rowHeight := scrollableRowHeight env
  -- Make sure we we don't violate our array sizes
  if rowHeight < SCROLLABLE_ROW_HEIGHT then none
  else
    -- might be less than MAX_SCROLLABLE_ROWS
    let S1 := { S with ui := { S.ui with maxRowsPerScreen := cdiv env.screenHeight rowHeight } }
    -- If we are expanded show our heading and the current visible child elements
    -- Otherwise just show our label so that the user might select us to expand
    if getActiveScrollable S1.ui = some fp then renderExpanded env inner layout fp S1
    else renderCollapsed env inner layout fp S1

/-- The function `renderScrollable` of `screen.c`; it works on `layout->field`, without
the redirection of `getField`. -/
def renderScrollable (env : RenderEnv) (inner : NestedPass) (layout : FieldLayout)
    (S : RenderState) : Option (FieldLayout × RenderState × Bool) :=
  match layout.field with
  | none => none
  | some lf =>
    -- we are the first scrollable on this screen, use us to init the stack
    let entered : Option UiState :=
      if (getActiveScrollable S.ui).isNone then enterScrollable lf S.ui else some S.ui
    match entered with
    | none => none
    | some ui1 =>
      -- If we are being asked to render the root scrollable, instead we want to
      -- substitute the deepest scrollable in the stack
      let field : Option FieldPtr :=
        if ui1.scrollableStack.head? = some lf then getActiveScrollable ui1 else some lf
      match field with
      | none => none
      | some fp => renderActiveScrollable env inner layout fp { S with ui := ui1 }

/-- The function `renderField` of `screen.c`: the dispatch through the table `renderers`
on the variant of `field`. `renderCustom` calls the function `custom.render` of the
client; `renderCustomizable` is only reached when the choice of a Customizable is itself
a Customizable, and then calls itself without end; `renderEnd` asserts. -/
def renderField (env : RenderEnv) (inner : NestedPass) (layout : FieldLayout)
    (field : FieldPtr) (S : RenderState) : Option (FieldLayout × RenderState × Bool) :=
  match (S.ui.arena field).hdr.variant with
  | FieldVariant.FieldDrawText => renderDrawText env layout S
  | FieldVariant.FieldDrawTextPtr => renderDrawText env layout S
  | FieldVariant.FieldFill => renderFill layout S
  | FieldVariant.FieldMesh => renderMesh layout S
  | FieldVariant.FieldScrollable => renderScrollable env inner layout S
  | FieldVariant.FieldEditable => renderEditable env layout S
  | FieldVariant.FieldCustom => env.renderCustom layout S
  | FieldVariant.FieldGraph => renderGraph env layout S
  | FieldVariant.FieldCustomizable => none
  | FieldVariant.FieldEnd => none

/-- Lines 311-315 of `renderLayouts`: a width or height of zero stands for the rest of
the screen. -/
def resolveZeroSize (env : RenderEnv) (layout : FieldLayout) : FieldLayout :=
  let l1 := if layout.width = 0 then
              { layout with width := toInt16 (env.screenWidth - layout.x) } else layout
  if l1.height = 0 then { l1 with height := toInt16 (env.screenHeight - l1.y) } else l1

/-- Lines 317-322 of `renderLayouts`: a negative width is in characters; `none` when the
layout has no font. -/
def resolveChars (env : RenderEnv) (layout : FieldLayout) : Option FieldLayout :=
  if layout.width < 0 then
    match layout.font with
    | none => none
    | some f =>
      some { layout with width := toInt16 (-layout.width * (f.char_width + env.char_h_space)) }
  else some layout

/-- Lines 324-326 of `renderLayouts`: a negative y means, start just below the previous
lowest point on the screen. -/
def resolveY (maxy : Int) (layout : FieldLayout) : FieldLayout :=
  if layout.y < 0 then { layout with y := toInt16 (maxy + -layout.y - 1) } else layout

/-- The geometry resolution of `renderLayouts` (lines 311-326) for a layout that is
rendered, with the running maximum `maxy`. -/
def resolveLayout (env : RenderEnv) (maxy : Int) (layout : FieldLayout) : Option FieldLayout :=
  (resolveChars env (resolveZeroSize env layout)).map (resolveY maxy)

/-- Lines 300-307 of `renderLayouts` for the field `getField` returned: a forced render
marks it dirty, and an Editable sets `forceLabels`. -/
def visitField (env : RenderEnv) (forceRender : Bool) (layout : FieldLayout)
    (field : FieldPtr) (S : RenderState) : RenderState :=
  -- tell the field it must redraw itself
  let S1 := if forceRender then setDirtyR S field true else S
  if (S1.ui.arena field).hdr.variant = FieldVariant.FieldEditable then
    -- If this field normally doesn't show the label, but M is pressed now, show it
    { S1 with forceLabels :=
        env.SCREENFN_FORCE_LABELS && layout.label_align_x == AlignmentX.AlignHidden }
  else S1

/-- What the body of `if (needsRender(field))` yields: the layout, `maxy`, the return
value of the renderer and the state. -/
structure Rendered where
  layout : FieldLayout
  maxy : Int
  drew : Bool
  state : RenderState

/-- Lines 311-338 of `renderLayouts`, the body of `if (needsRender(field))`: resolve the
geometry, call the renderer, check the height, update `maxy`, draw the selection marker
and the border. `none` when an assertion fails. -/
def renderOne (env : RenderEnv) (inner : NestedPass) (maxy : Int) (layout : FieldLayout)
    (field : FieldPtr) (S : RenderState) : Option Rendered :=
  match resolveLayout env maxy layout with
  | none => none
  | some layout1 =>
    match renderField env inner layout1 field S with
    | none => none
    | some (layout2, S1, drew) =>
      if layout2.height = -1 then none -- by the time we reach here this must be set
      else
        let maxy1 :=
          if layout2.y + layout2.height > maxy then toInt16 (layout2.y + layout2.height)
          else maxy
        match drawSelectionMarker env layout2 S1 with
        | none => none
        | some S2 =>
          some { layout := layout2, maxy := maxy1, drew := drew,
                 state := drawBorder env layout2 S2 }

/-- The result of the first loop of `renderLayouts`: the layouts as the loop leaves them,
`didDraw`, `didChangeForceLabels` and the state. -/
structure LoopResult where
  layouts : List FieldLayout
  didDraw : Bool
  didChangeForceLabels : Bool
  state : RenderState

/-- The first loop of `renderLayouts` (lines 297-340) from the layout `layouts` points
to, with the values of `maxy`, `didDraw` and `didChangeForceLabels` so far. The loop ends
at the layout whose field is NULL; running off the list stands for reaching it. -/
def renderLayoutsLoop (env : RenderEnv) (inner : NestedPass) (forceRender : Bool) :
    List FieldLayout → Int → Bool → Bool → RenderState → Option LoopResult
  | [], _, didDraw, didChange, S =>
    some { layouts := [], didDraw := didDraw, didChangeForceLabels := didChange, state := S }
  | layout :: rest, maxy, didDraw, didChange, S =>
    match layout.field with
    | none =>
      some { layouts := layout :: rest, didDraw := didDraw,
             didChangeForceLabels := didChange, state := S }
    | some _ =>
      match getField S layout with -- we might be redirecting
      | none => none
      | some (field, S1) =>
        let S3 := visitField env forceRender layout field S1
        let didChange1 : Bool :=
          didChange || decide ((S3.ui.arena field).hdr.variant = FieldVariant.FieldEditable)
        -- We always render dirty items, or items that might need to show blink animations
        if needsRender S3 (S3.ui.arena field) then
          match renderOne env inner maxy layout field S3 with
          | none => none
          | some r1 =>
            match renderLayoutsLoop env inner forceRender rest r1.maxy (didDraw || r1.drew)
                    didChange1 r1.state with
            | none => none
            | some r => some { r with layouts := r1.layout :: r.layouts }
        else
          match renderLayoutsLoop env inner forceRender rest maxy didDraw didChange1 S3 with
          | none => none
          | some r => some { r with layouts := layout :: r.layouts }

/-- The second loop of `renderLayouts` (lines 343-345): clear the dirty bits. -/
def clearDirtyLoop : List FieldLayout → RenderState → Option RenderState
  | [], S => some S
  | layout :: rest, S =>
    match layout.field with
    | none => some S
    | some _ =>
      match getField S layout with
      | none => none
      | some (field, S1) => clearDirtyLoop rest (setDirtyR S1 field false)

/-- The body of `renderLayouts` of `screen.c`: the layouts and the state after the pass
and the return value `didDraw`; `none` when an assertion fails. The calls of
`renderLayouts` the body makes through `renderActiveScrollable` are `inner`. -/
def renderLayoutsPass (env : RenderEnv) (inner : NestedPass) (layouts : List FieldLayout)
    (forceRender : Bool) (S : RenderState) : Option (List FieldLayout × RenderState × Bool) :=
  match renderLayoutsLoop env inner forceRender layouts 0 false false S with
  | none => none
  | some r =>
    match clearDirtyLoop r.layouts r.state with
    | none => none
    | some S1 =>
      let S2 := if r.didChangeForceLabels then { S1 with oldForceLabels := S1.forceLabels }
                else S1
      some (r.layouts, S2, r.didDraw)

/-- The call `renderLayouts(rows, false)` of `renderActiveScrollable` when the stack has
room for `depth` nested calls of `renderLayouts`: with no room left the call fails;
otherwise it is the body of `renderLayouts`, whose own nested calls have room for one call
less. -/
def nestedPass (env : RenderEnv) : Nat → NestedPass
  | 0 => fun _ _ => none
  | depth + 1 => fun rows S => renderLayoutsPass env (nestedPass env depth) rows false S

/-- The function `renderLayouts` of `screen.c`. It calls itself, through `renderField`,
`renderScrollable` and `renderActiveScrollable`, for the rows of a scrollable; `depth` is
the number of nested calls the stack has room for, and a call nested deeper than that
fails. A pass over layouts without a Scrollable needs no nesting; the rows of an expanded
scrollable take one level, the label of a scrollable among them a second one. -/
def renderLayouts (env : RenderEnv) (depth : Nat) (layouts : List FieldLayout)
    (forceRender : Bool) (S : RenderState) : Option (List FieldLayout × RenderState × Bool) :=
  renderLayoutsPass env (nestedPass env depth) layouts forceRender S

/-- A Graph `Field` object (`FIELD_GRAPH`) with the given source and cache reference. -/
def graphFieldOf (source : FieldPtr) (cache : Bool) : FieldObj :=
  { graphField (-1) (-1) with source := some source, cache := cache }

/-- A slot at address 1 that shows the graph at address 10 (second choice: the text field
at address 11) and is being customized; the graph plots the one-byte editable at address
20, whose target holds 42, and owns the cache, which holds the samples 5 and 6. -/
def graphSlotDemo : UiState :=
  { uiIdle (fun p => if p = 1 then customizableField [some 10, some 11, none] 100
                     else if p = 10 then graphFieldOf 20 true
                     else if p = 20 then uintField "" 0 255 1 1 200
                     else textField "" false) (fun a => if a = 200 then 42 else 0) with
    curCustomizingField := some 1,
    caches0 := graphAddPoints 0 (graphCacheReset caches0) [5, 6] }

/-- A layout with every member zero, as in a static array before its first use. -/
def zeroLayout : FieldLayout :=
  { layoutOf 0 with field := none }

/-- A render state over a module state, at the given tick, with nothing drawn and the
static rows as they are before their first use. -/
def renderStart (ui : UiState) (counter : Nat) : RenderState :=
  { ui := ui, blinkChanged := false, blinkOn := false, screenUpdateCounter := counter,
    oldForceLabels := false, forceLabels := false, parentCustomizable := none,
    renderedStrX := 0, renderedStrY := 0, foreColor := Color.C_WHITE, drawn := [],
    rows := fun _ => zeroLayout, labelRows := fun _ => zeroLayout }

/-- The module state after `changeCurrentCustomizableField` in `graphSlotDemo`. -/
def graphSlotLeft : UiState :=
  (changeCurrentCustomizableField graphSlotDemo).getD graphSlotDemo

/-- A renderer environment: a screen of 64 by 128 pixels, fonts of 6 by 8 pixels, no key
held, the static fields of `renderActiveScrollable` at the addresses 900, 901 and from
910 on, and a custom renderer that draws nothing and reports no draw. -/
def envDemo : RenderEnv :=
  { screenWidth := 64, screenHeight := 128, char_h_space := 1, char_v_space := 1,
    editable_label_font := { char_width := 6, char_height := 8 },
    editable_value_font := { char_width := 6, char_height := 8 },
    editable_units_font := { char_width := 6, char_height := 8 },
    FONT_CURSORS := { char_width := 6, char_height := 8 },
    SMALL_TEXT_FONT := { char_width := 6, char_height := 8 },
    SCROLLABLE_FONT := { char_width := 6, char_height := 8 },
    HEADING_FONT := { char_width := 6, char_height := 8 },
    HEADING_BORDER := { bottom := true, top := false, left := false, right := false,
                        fat := false },
    EDITABLE_BLANKALL := false, EDITABLE_NUM_ROWS := 2,
    EDITABLE_CURSOR_COLOR := Color.C_WHITE, fatBorder := 2,
    SCREENFN_FORCE_LABELS := false, buttons_get_up_state := false,
    buttons_get_down_state := false,
    strAt := fun _ => [], heading := 900, label := 901, blankRows := fun i => 910 + i,
    renderCustom := fun layout S => some (layout, S, false) }

/-- The field `getField` returns for a layout, as a function of the module state. -/
def resolveField (ui : UiState) (layout : FieldLayout) : Option FieldPtr :=
  match layout.field with
  | none => none
  | some field =>
    if (ui.arena field).hdr.variant = FieldVariant.FieldCustomizable then currentChoice ui field
    else some field

/-- The value `getField` leaves in `parentCustomizable` for a layout. -/
def parentOf (ui : UiState) (layout : FieldLayout) : Option FieldPtr :=
  match layout.field with
  | none => none
  | some field =>
    if (ui.arena field).hdr.variant = FieldVariant.FieldCustomizable then some field else none

/-- The value `isCustomizing` of `renderEditable` for a layout. -/
def isCustomizingLayout (ui : UiState) (layout : FieldLayout) : Bool :=
  ui.curCustomizingField.isSome && decide (ui.curCustomizingField = parentOf ui layout)

/-- Two field objects with the same variant and the same declared members of the
customizable and editable variants. -/
structure sameKind (f g : FieldObj) : Prop where
  variant : f.hdr.variant = g.hdr.variant
  choices : f.choices = g.choices
  selector : f.selector = g.selector
  editable : f.editable = g.editable
  size : f.size = g.size
  target : f.target = g.target

/-- An Editable or a Customizable field object. -/
def editLike (f : FieldObj) : Prop :=
  f.hdr.variant = FieldVariant.FieldEditable ∨ f.hdr.variant = FieldVariant.FieldCustomizable

/-- What a renderer that is not `renderEditable` is expected to leave alone: the blink
tick, a cleared `forceLabels`, the targets, the conversion flags, the active and the
customizing field, the working value, and the declared members of every field that is an
Editable or a Customizable before or after. -/
structure rendererKeeps (S S1 : RenderState) : Prop where
  blinkChanged : S1.blinkChanged = S.blinkChanged
  forceLabels : S.forceLabels = false → S1.forceLabels = false
  mem : S1.ui.mem = S.ui.mem
  screenConvertMiles : S1.ui.screenConvertMiles = S.ui.screenConvertMiles
  screenConvertFarenheit : S1.ui.screenConvertFarenheit = S.ui.screenConvertFarenheit
  curActiveEditable : S1.ui.curActiveEditable = S.ui.curActiveEditable
  curCustomizingField : S1.ui.curCustomizingField = S.ui.curCustomizingField
  curEditableValueConverted :
    S1.ui.curEditableValueConverted = S.ui.curEditableValueConverted
  fields : ∀ q, editLike (S.ui.arena q) ∨ editLike (S1.ui.arena q) →
    sameKind (S1.ui.arena q) (S.ui.arena q)

/-- A nested pass `b` returns what the nested pass `a` returns, wherever `a` returns. -/
def innerLe (a b : NestedPass) : Prop :=
  ∀ ls S r, a ls S = some r → b ls S = some r

/-- A step that only draws: the module state and the flags of the renderer are the
same. -/
structure drawOnly (S S1 : RenderState) : Prop where
  ui : S1.ui = S.ui
  blinkChanged : S1.blinkChanged = S.blinkChanged
  blinkOn : S1.blinkOn = S.blinkOn
  forceLabels : S1.forceLabels = S.forceLabels
  oldForceLabels : S1.oldForceLabels = S.oldForceLabels

/-- A value within the range of `int32_t`. -/
def inInt32 (v : Int) : Prop := INT32_MIN ≤ v ∧ v ≤ INT32_MAX

/-- What a button handler leaves alone: the current screen and the variant of every field;
the scrollable stack does not grow or stays within `MAX_SCROLLABLE_DEPTH`; the field being
customized stays, is cleared, or becomes a Customizable of the current screen. -/
structure handlerKeeps (st st1 : UiState) : Prop where
  screenFields : st1.screenFields = st.screenFields
  variant : ∀ q, (st1.arena q).hdr.variant = (st.arena q).hdr.variant
  stack : st1.scrollableStack.length ≤ st.scrollableStack.length ∨
    st1.scrollableStack.length ≤ MAX_SCROLLABLE_DEPTH
  customizing : st1.curCustomizingField = st.curCustomizingField ∨
    st1.curCustomizingField = none ∨
    ∃ c fs, st1.curCustomizingField = some c ∧ st.screenFields = some fs ∧
      c ∈ customizablesOf st.arena fs

/-- The field being customized, if any, is a Customizable of the current screen. -/
def customizingOk (st : UiState) : Prop :=
  ∀ c, st.curCustomizingField = some c →
    ∃ fs, st.screenFields = some fs ∧ c ∈ customizablesOf st.arena fs

/-- A menu at address 1 with one entry at address 2 (the end marker is at address 3), on
a stack that already holds three scrollables. -/
def deepMenuDemo : UiState :=
  { readOnlyDemo with scrollableStack := [5, 6, 1] }

/-- A text layout of 64 by 20 pixels at the origin that shows the field at address 3 in a
font of 6 by 8 pixels, left aligned, with `align_y` set to `AlignBottom`. -/
def bottomTextLayout : FieldLayout :=
  { layoutOf 3 with
    width := 64, height := 20, align_x := AlignmentX.AlignLeft,
    align_y := AlignmentY.AlignBottom, font := some { char_width := 6, char_height := 8 } }

/-- A module state whose fields are all the text field "Hi". -/
def textDemo : UiState :=
  uiIdle (fun _ => textField "Hi" true) (memOf 0)

/-- Lines 145-153 of `renderDrawTextCommon`: the layout after `autoTextHeight`; `none`
when the height is asked for and the layout has no font. -/
def autoTextHeight (layout : FieldLayout) : Option FieldLayout :=
  if layout.height = -1 then
    match layout.font with
    | none => none
    | some f => some { layout with height := toInt16 f.char_height }
  else some layout

/-- The variables `warnings` of `mainscreen.c` reads: members of `l3_vars` and
`wd_failure_detected`. -/
structure WarnVars where
  ui8_error_states : Nat
  ui8_motor_temperature : Nat
  ui8_motor_temperature_max_value_to_limit : Nat
  ui8_motor_temperature_min_value_to_limit : Nat
  wd_failure_detected : Bool
  ui8_braking : Nat
  ui8_walk_assist : Nat
  ui8_lights : Nat
  ui32_trip_timeSec : Nat
  ui32_ee_gesamt_km : Nat
  deriving DecidableEq, Repr

/-- The statics `setWarning` of `mainscreen.c` writes: `warnColor`, the text in
`warningStr` and the header bits of `warnField`. -/
structure WarnState where
  warnColor : ColorOp
  warningStr : List Char
  warnField : Field
  deriving DecidableEq, Repr

/-- The function `setWarning` of `mainscreen.c`, for a text shorter than the buffer
`warningStr` (`strncpy` then copies all of it). -/
def setWarning (color : ColorOp) (str : List Char) (w : WarnState) : WarnState :=
  let dirty : Bool := decide (str ≠ w.warningStr) -- strcmp(str, warningStr) != 0
  { warnColor := color,
    warnField := { w.warnField with blink := (color == ColorOp.ColorError), dirty := dirty },
    warningStr := if dirty then str else w.warningStr }

/-- The array `motorErrors` of `mainscreen.c`. -/
def motorErrors : List String :=
  ["None", "Motor Blocked", "Torque Fault", "Brake Fault", "Throttle Fault", "Speed Fault",
   "Low Volt"]

/-- The function `warnings` of `mainscreen.c`; `ERROR_MAX` is defined outside the files at
hand. The result is `none` when `motorErrors` is read past its end. -/
def warnings (ERROR_MAX : Nat) (v : WarnVars) (w : WarnState) : Option WarnState :=
  -- High priorty faults in red
  if v.ui8_error_states ≠ 0 then
    let str : Option String :=
      if v.ui8_error_states > ERROR_MAX then some "Unknown Motor"
      else motorErrors.get? v.ui8_error_states
    str.map (fun s => setWarning ColorOp.ColorError s.data w)
  else if v.ui8_motor_temperature ≥ v.ui8_motor_temperature_max_value_to_limit then
    some (setWarning ColorOp.ColorError "Temp Shutdown".data w)
  else if v.wd_failure_detected then
    some (setWarning ColorOp.ColorError "Report Bug!".data w)
  -- warn faults in yellow
  else if v.ui8_motor_temperature ≥ v.ui8_motor_temperature_min_value_to_limit then
    some (setWarning ColorOp.ColorWarning "Temp Warning".data w)
  -- All of the following possible 'faults' are low priority
  else if v.ui8_braking ≠ 0 then some (setWarning ColorOp.ColorNormal "BRAKE".data w)
  else if v.ui8_walk_assist ≠ 0 then some (setWarning ColorOp.ColorNormal "WALK".data w)
  else if v.ui8_lights ≠ 0 then some (setWarning ColorOp.ColorNormal "LIGHT".data w)
  else
    let w1 := setWarning ColorOp.ColorNormal "".data w
    let w2 := if v.ui32_trip_timeSec = 0 then
                setWarning ColorOp.ColorNormal "CLEAR TRP".data w1 else w1
    let w3 := if v.ui32_ee_gesamt_km = 0 then
                setWarning ColorOp.ColorNormal "CLEAR RNG".data w2 else w2
    some w3

/-- No fault, temperature below both limits, no brake, walk assist or light. -/
def quietVars (v : WarnVars) : Prop :=
  v.ui8_error_states = 0 ∧
  v.ui8_motor_temperature < v.ui8_motor_temperature_max_value_to_limit ∧
  v.wd_failure_detected = false ∧
  v.ui8_motor_temperature < v.ui8_motor_temperature_min_value_to_limit ∧
  v.ui8_braking = 0 ∧ v.ui8_walk_assist = 0 ∧ v.ui8_lights = 0

/-- A ride that has just been reset: nothing to warn about, trip time zero, total
distance 120. -/
def freshTripVars : WarnVars :=
  { ui8_error_states := 0, ui8_motor_temperature := 30,
    ui8_motor_temperature_max_value_to_limit := 85,
    ui8_motor_temperature_min_value_to_limit := 75, wd_failure_detected := false,
    ui8_braking := 0, ui8_walk_assist := 0, ui8_lights := 0, ui32_trip_timeSec := 0,
    ui32_ee_gesamt_km := 120 }

/-- The statics of the warning line at start-up: `FIELD_CUSTOM`, an empty text. -/
def warnStart : WarnState :=
  { warnColor := ColorOp.ColorNormal, warningStr := [],
    warnField := { variant := FieldVariant.FieldCustom, dirty := false, blink := false,
                   is_selected := false } }

/-- A graph cache after the samples 5, 20 and 30 have been added with the minimum
threshold 10. -/
def thresholdCache : GraphCache :=
  graphAddPoints 10 (graphCacheReset caches0) [5, 20, 30]

/-- A layout of 64 by 40 pixels at the origin that shows the field at `p`. -/
def graphLayout (p : FieldPtr) : FieldLayout :=
  { layoutOf p with width := 64, height := 40 }

/-- Two Graph fields, at the addresses 10 and 12, that plot the one-byte editable at
address 20; neither holds the cache. -/
def twoGraphsDemo : UiState :=
  uiIdle (fun p => if p = 10 then graphFieldOf 20 false
                   else if p = 12 then graphFieldOf 20 false
                   else if p = 20 then uintField "" 0 255 1 1 200
                   else textField "" false) (memOf 42)

/-- A step that leaves the cache reference and the variant of every field and the choice
of the slot `sp` alone. -/
structure slotKeeps (sp : FieldPtr) (st st1 : UiState) : Prop where
  cache : ∀ q, (st1.arena q).cache = (st.arena q).cache
  variant : ∀ q, (st1.arena q).hdr.variant = (st.arena q).hdr.variant
  choice : currentChoice st1 sp = currentChoice st sp

/-- The module states a screen reaches whose Graph fields are shown through the one
Customizable slot `sp` only: from a state in which no field holds the cache, by
`changeCurrentCustomizableField` on the slot, by `renderGraph` for a layout that shows the
slot, and by steps that leave the cache references and the choice of the slot alone. -/
inductive SlotReachable (env : RenderEnv) (sp : FieldPtr) : UiState → Prop where
  | init (st : UiState) : (∀ q, (st.arena q).cache = false) → SlotReachable env sp st
  | change (st st1 : UiState) : SlotReachable env sp st →
      st.curCustomizingField = some sp → changeCurrentCustomizableField st = some st1 →
      SlotReachable env sp st1
  | render (S : RenderState) (layout layout1 : FieldLayout) (S1 : RenderState) (drew : Bool) :
      SlotReachable env sp S.ui → layout.field = some sp →
      (S.ui.arena sp).hdr.variant = FieldVariant.FieldCustomizable →
      renderGraph env layout S = some (layout1, S1, drew) → SlotReachable env sp S1.ui
  | other (st st1 : UiState) : SlotReachable env sp st → slotKeeps sp st st1 →
      SlotReachable env sp st1

/-- A step on the field objects that keeps every variant and gives the cache to no field
but `fp`. -/
def cacheStep (fp : FieldPtr) (a a1 : FieldPtr → FieldObj) : Prop :=
  ∀ q, (a1 q).hdr.variant = (a q).hdr.variant ∧
    ((a1 q).cache = true → (a q).cache = true ∨ q = fp)

/-- The slot of `graphSlotDemo` before its graph has been rendered: no field holds the
cache. -/
def graphSlotFresh : UiState :=
  { graphSlotDemo with
    arena := fun p => if p = 1 then customizableField [some 10, some 11, none] 100
                      else if p = 10 then graphFieldOf 20 false
                      else if p = 20 then uintField "" 0 255 1 1 200
                      else textField "" false }

/-- Lines 334-335 of `renderLayouts`: the running maximum `maxy` after a layout has been
rendered. -/
def maxyStep (maxy : Int) (layout : FieldLayout) : Int :=
  if layout.y + layout.height > maxy then toInt16 (layout.y + layout.height) else maxy

/-- The running maximum after the layouts of a list have been rendered in turn, from the
value `maxy`. -/
def maxyAfter (maxy : Int) (ls : List FieldLayout) : Int :=
  ls.foldl maxyStep maxy

/-- The maximum of `y + height` over the layouts of a list, 0 when there are none. -/
def lowestBottom (ls : List FieldLayout) : Int :=
  ls.foldl (fun m l => max m (l.y + l.height)) 0

/-- A text layout of 64 by 10 pixels that shows the field at `p` in a font of 6 by 8
pixels, with the given `y`. -/
def textRow (p : FieldPtr) (y : Int) : FieldLayout :=
  { layoutOf p with
    y := y, width := 64, height := 10, font := some { char_width := 6, char_height := 8 } }

/-- A module state with a clean text field at address 3 and a dirty one at address 4. -/
def stackDemo : UiState :=
  uiIdle (fun p => if p = 3 then textField "A" false else textField "B" true) (memOf 0)

/-- An event set holding `M_CLICK` only. -/
def mClick : KeyEvents :=
  { up_click := false, down_click := false, onoff_click := false, m_click := true }

/-- A module state that shows a screen with the single text layout of the field at
address 3 and no Customizable field; nothing is edited, scrolled or customized. -/
def plainScreenDemo : UiState :=
  { uiIdle (fun _ => textField "Hi" false) (memOf 0) with
    screenFields := some [layoutOf 3] }

/-- Whether `renderGraph` gets past its early return (lines 1154-1162 of `screen.c`): a
sample is due (`needUpdate`), or the field is dirty, also after `needBlink` has marked
it. -/
def graphProceeds (S : RenderState) (layout : FieldLayout) (gp : FieldPtr) : Bool :=
  decide (S.screenUpdateCounter % GRAPH_INTERVAL_TICKS = 0) || (S.ui.arena gp).hdr.dirty ||
    (S.blinkChanged && isCustomizingLayout S.ui layout)

/-- The module state after two calls of `changeCurrentCustomizableField` in
`graphSlotDemo`: the slot has left the graph and shows it again. -/
def graphSlotBack : UiState :=
  (iterateOpt changeCurrentCustomizableField 2 graphSlotDemo).getD graphSlotDemo

/-- A layout of 64 by 40 pixels at the origin that shows the slot at address 1. -/
def slotLayout : FieldLayout :=
  { layoutOf 1 with width := 64, height := 40 }

/-! ## The graph ring buffer and its running minimum and maximum -/

theorem ringInv_reset (c0 : GraphCache) : ringInv [] (graphCacheReset c0) := by
  refine ⟨rfl, rfl, ?_⟩
  intro j hj
  simp at hj

theorem ringInv_step (t : Int) (vs : List Int) (c : GraphCache) (v : Int)
    (h : ringInv vs c) : ringInv (vs ++ [v]) (graphAddPoint t c v) := by
  obtain ⟨he, hs, hp⟩ := h
  refine ⟨?_, ?_, ?_⟩
  · simp only [graphAddPoint, GRAPH_MAX_POINTS, he, List.length_append, List.length_singleton]
    omega
  · simp only [graphAddPoint, GRAPH_MAX_POINTS, he, hs, List.length_append,
      List.length_singleton, decide_eq_true_eq]
    split_ifs <;> omega
  · intro j hj hk
    simp only [List.length_append, List.length_singleton] at hj hk
    simp only [graphAddPoint, he]
    by_cases hjk : j = vs.length
    · subst hjk
      simp [List.getD_append_right]
    · have hlt : j < vs.length := by omega
      have hne : j % 256 ≠ vs.length % 256 := by omega
      rw [Function.update_noteq hne, hp j hlt (by omega), List.getD_append _ _ _ _ hlt]

theorem ringInv_fold (t : Int) (c0 : GraphCache) (vs : List Int) :
    ringInv vs (graphAddPoints t (graphCacheReset c0) vs) := by
  induction vs using List.reverseRecOn with
  | nil => exact ringInv_reset c0
  | append_singleton xs x ih =>
    have : graphAddPoints t (graphCacheReset c0) (xs ++ [x])
        = graphAddPoint t (graphAddPoints t (graphCacheReset c0) xs) x := by
      simp [graphAddPoints, List.foldl_append]
    rw [this]
    exact ringInv_step t xs _ x ih

theorem graphWalk_eq_list (c : GraphCache) :
    ∀ (L : List Int) (fuel ptr : Nat), L ≠ [] → L.length ≤ fuel → ptr < 256 →
      (∀ i, i < L.length → c.points ((ptr + i) % 256) = L.getD i 0) →
      (∀ i, 0 < i → i < L.length → (ptr + i) % 256 ≠ c.end_valid) →
      (ptr + L.length) % 256 = c.end_valid → graphWalk c fuel ptr = L := by
  intro L
  induction L with
  | nil => intro fuel ptr h; exact absurd rfl h
  | cons x L ih =>
    intro fuel ptr _ hfuel hptr hpts hne hend
    cases fuel with
    | zero => simp at hfuel
    | succ fuel =>
      have hx : c.points ptr = x := by
        have := hpts 0 (by simp)
        simpa [Nat.mod_eq_of_lt hptr] using this
      simp only [List.length_cons] at hfuel hend hne hpts
      by_cases hL : L = []
      · subst hL
        simp only [List.length_nil] at hend
        simp [graphWalk, GRAPH_MAX_POINTS, hend, hx]
      · have hpos : 0 < L.length := List.length_pos.mpr hL
        have hnext : (ptr + 1) % 256 ≠ c.end_valid := hne 1 (by omega) (by omega)
        have hrec := ih fuel ((ptr + 1) % 256) hL (by omega) (Nat.mod_lt _ (by omega))
          (fun i hi => by
            have := hpts (i + 1) (by omega)
            simp only [List.getD_cons_succ] at this
            rw [← this]
            congr 1
            omega)
          (fun i h0 hi => by
            have := hne (i + 1) (by omega) (by omega)
            intro hc
            apply this
            rw [← hc]
            omega)
          (by rw [← hend]; omega)
        simp [graphWalk, GRAPH_MAX_POINTS, hnext, hx, hrec]

theorem graphSamples_of_ringInv (vs : List Int) (c : GraphCache) (h : ringInv vs c) :
    graphSamples c = vs.drop (vs.length - min vs.length 255) := by
  obtain ⟨he, hs, hp⟩ := h
  by_cases hk : vs.length = 0
  · have : vs = [] := List.length_eq_zero.mp hk
    subst this
    simp [graphSamples, he, hs]
  · have hse : c.start_valid ≠ c.end_valid := by
      rw [he, hs]; split_ifs <;> omega
    simp only [graphSamples, hse, if_false, GRAPH_MAX_POINTS]
    have hlen : (vs.drop (vs.length - min vs.length 255)).length = min vs.length 255 := by
      simp only [List.length_drop]; omega
    apply graphWalk_eq_list
    · intro hnil
      rw [hnil] at hlen
      simp only [List.length_nil] at hlen
      omega
    · rw [hlen]; omega
    · rw [hs]; split_ifs <;> omega
    · intro i hi
      rw [hlen] at hi
      have hget : (vs.drop (vs.length - min vs.length 255)).getD i 0
          = vs.getD (vs.length - min vs.length 255 + i) 0 := by
        simp [List.getD_eq_getElem?_getD, List.getElem?_drop]
      rw [hget, ← hp _ (by omega) (by omega)]
      congr 1
      rw [hs]
      split_ifs <;> omega
    · intro i h0 hi
      rw [hlen] at hi
      rw [hs, he]
      split_ifs <;> omega
    · rw [hlen, hs, he]
      split_ifs <;> omega

theorem graphAddPoints_snoc (t : Int) (c : GraphCache) (vs : List Int) (v : Int) :
    graphAddPoints t c (vs ++ [v]) = graphAddPoint t (graphAddPoints t c vs) v := by
  simp [graphAddPoints, List.foldl_append]

/-- The running minimum after inserting `vs` into a reset cache. -/
theorem min_val_fold (t : Int) (c0 : GraphCache) (vs : List Int)
    (hr : ∀ v ∈ vs, v ≤ INT32_MAX) :
    (∀ x ∈ vs, t ≤ x → (graphAddPoints t (graphCacheReset c0) vs).min_val ≤ x) ∧
    (((graphAddPoints t (graphCacheReset c0) vs).min_val ∈ vs ∧
        t ≤ (graphAddPoints t (graphCacheReset c0) vs).min_val) ∨
      ((graphAddPoints t (graphCacheReset c0) vs).min_val = INT32_MAX ∧ ∀ x ∈ vs, x < t)) := by
  induction vs using List.reverseRecOn with
  | nil => simp [graphAddPoints, graphCacheReset]
  | append_singleton xs x ih =>
    have hx : x ≤ INT32_MAX := hr x (by simp)
    obtain ⟨ih1, ih2⟩ := ih (fun v hv => hr v (by simp [hv]))
    rw [graphAddPoints_snoc]
    generalize graphAddPoints t (graphCacheReset c0) xs = c at ih1 ih2
    simp only [graphAddPoint]
    by_cases hc : x < c.min_val ∧ x ≥ t
    · rw [if_pos hc]
      refine ⟨?_, Or.inl ⟨by simp, hc.2⟩⟩
      intro y hy hty
      rcases List.mem_append.mp hy with hy | hy
      · have := ih1 y hy hty; omega
      · simp at hy; omega
    · rw [if_neg hc]
      refine ⟨?_, ?_⟩
      · intro y hy hty
        rcases List.mem_append.mp hy with hy | hy
        · exact ih1 y hy hty
        · simp only [List.mem_singleton] at hy
          subst hy
          by_contra hlt
          exact hc ⟨by omega, hty⟩
      · rcases ih2 with ⟨hm, htm⟩ | ⟨hm, hall⟩
        · exact Or.inl ⟨List.mem_append.mpr (Or.inl hm), htm⟩
        · by_cases htx : t ≤ x
          · have hxe : x = c.min_val := by
              have : ¬ x < c.min_val := fun h => hc ⟨h, htx⟩
              omega
            exact Or.inl ⟨by rw [← hxe]; simp, by rw [← hxe]; exact htx⟩
          · refine Or.inr ⟨hm, ?_⟩
            intro y hy
            rcases List.mem_append.mp hy with hy | hy
            · exact hall y hy
            · simp only [List.mem_singleton] at hy
              subst hy
              omega

/-- The running maximum after inserting `vs` into a reset cache. -/
theorem max_val_fold (t : Int) (c0 : GraphCache) (vs : List Int)
    (hr : ∀ v ∈ vs, INT32_MIN ≤ v) :
    (∀ x ∈ vs, x ≤ (graphAddPoints t (graphCacheReset c0) vs).max_val) ∧
    ((graphAddPoints t (graphCacheReset c0) vs).max_val ∈ vs ∨
      ((graphAddPoints t (graphCacheReset c0) vs).max_val = INT32_MIN ∧ vs = [])) := by
  induction vs using List.reverseRecOn with
  | nil => simp [graphAddPoints, graphCacheReset]
  | append_singleton xs x ih =>
    have hx : INT32_MIN ≤ x := hr x (by simp)
    obtain ⟨ih1, ih2⟩ := ih (fun v hv => hr v (by simp [hv]))
    rw [graphAddPoints_snoc]
    generalize graphAddPoints t (graphCacheReset c0) xs = c at ih1 ih2
    simp only [graphAddPoint]
    by_cases hc : x > c.max_val
    · rw [if_pos hc]
      refine ⟨?_, Or.inl (by simp)⟩
      intro y hy
      rcases List.mem_append.mp hy with hy | hy
      · have := ih1 y hy; omega
      · simp at hy; omega
    · rw [if_neg hc]
      refine ⟨?_, ?_⟩
      · intro y hy
        rcases List.mem_append.mp hy with hy | hy
        · exact ih1 y hy
        · simp only [List.mem_singleton] at hy
          subst hy
          omega
      · rcases ih2 with hm | ⟨hm, hnil⟩
        · exact Or.inl (List.mem_append.mpr (Or.inl hm))
        · have hxe : x = c.max_val := by omega
          exact Or.inl (by rw [← hxe]; simp)

/-- C1: after any sequence of `graphAddPoint` calls on a freshly reset cache, the ring
read from `start_valid` up to `end_valid` holds exactly the last
`min(k, GRAPH_MAX_POINTS - 1)` inserted values, oldest first; it never holds more than
`GRAPH_MAX_POINTS - 1` samples; and one more insertion appends the value and, when the
ring is full, advances `start_valid` and drops exactly the oldest sample. -/
theorem graph_ring_holds_last_samples (min_threshold : Int) (cache0 : GraphCache)
    (vals : List Int) :
    graphSamples (graphAddPoints min_threshold (graphCacheReset cache0) vals)
        = vals.drop (vals.length - min vals.length (GRAPH_MAX_POINTS - 1)) ∧
    (graphSamples (graphAddPoints min_threshold (graphCacheReset cache0) vals)).length
        = min vals.length (GRAPH_MAX_POINTS - 1) ∧
    (graphSamples (graphAddPoints min_threshold (graphCacheReset cache0) vals)).length
        ≤ GRAPH_MAX_POINTS - 1 ∧
    ∀ v : Int,
      (graphAddPoint min_threshold
          (graphAddPoints min_threshold (graphCacheReset cache0) vals) v).start_valid
        = (if (graphSamples
                (graphAddPoints min_threshold (graphCacheReset cache0) vals)).length
              = GRAPH_MAX_POINTS - 1
           then ((graphAddPoints min_threshold (graphCacheReset cache0) vals).start_valid + 1)
                  % GRAPH_MAX_POINTS
           else (graphAddPoints min_threshold (graphCacheReset cache0) vals).start_valid) ∧
      graphSamples (graphAddPoint min_threshold
          (graphAddPoints min_threshold (graphCacheReset cache0) vals) v)
        = (graphSamples (graphAddPoints min_threshold (graphCacheReset cache0) vals)
            ++ [v]).drop
            ((graphSamples
                (graphAddPoints min_threshold (graphCacheReset cache0) vals)).length + 1
              - (GRAPH_MAX_POINTS - 1)) := by
  have hinv := ringInv_fold min_threshold cache0 vals
  have hs := graphSamples_of_ringInv vals _ hinv
  have hlen : (graphSamples (graphAddPoints min_threshold (graphCacheReset cache0) vals)).length
      = min vals.length 255 := by
    rw [hs, List.length_drop]; omega
  refine ⟨by simpa [GRAPH_MAX_POINTS] using hs, by simpa [GRAPH_MAX_POINTS] using hlen,
    by simp only [GRAPH_MAX_POINTS]; omega, ?_⟩
  intro v
  have hinv2 := ringInv_step min_threshold vals _ v hinv
  have hs2 := graphSamples_of_ringInv (vals ++ [v]) _ hinv2
  refine ⟨?_, ?_⟩
  · rw [hinv2.2.1, hlen, hinv.2.1]
    simp only [GRAPH_MAX_POINTS, List.length_append, List.length_singleton]
    split_ifs <;> omega
  · rw [hs2, hlen, hs]
    simp only [GRAPH_MAX_POINTS, List.length_append, List.length_singleton]
    have e1 : vals.length ⊓ 255 + 1 - (256 - 1) = vals.length ⊓ 255 + 1 - 255 := rfl
    rw [e1, ← List.drop_append_of_le_length (by omega), List.drop_drop]
    have e2 : vals.length + 1 - (vals.length + 1) ⊓ 255
        = vals.length - vals.length ⊓ 255 + (vals.length ⊓ 255 + 1 - 255) := by omega
    rw [e2]

/-- C2: after any sequence of `graphAddPoint` calls with 32-bit values on a freshly reset
cache (`min_val = INT32_MAX`) of a graph with ignore-threshold `min_threshold`, `min_val`
is the minimum of the inserted values that are at least the threshold, and it is still
the reset value `INT32_MAX` when no inserted value reaches the threshold. -/
theorem graph_min_val_is_min_over_threshold (min_threshold : Int) (cache0 : GraphCache)
    (vals : List Int) (hrange : ∀ v ∈ vals, INT32_MIN ≤ v ∧ v ≤ INT32_MAX) :
    ((∀ v ∈ vals, v < min_threshold) →
      (graphAddPoints min_threshold (graphCacheReset cache0) vals).min_val = INT32_MAX) ∧
    ((∃ v ∈ vals, min_threshold ≤ v) →
      (graphAddPoints min_threshold (graphCacheReset cache0) vals).min_val ∈ vals ∧
      min_threshold ≤ (graphAddPoints min_threshold (graphCacheReset cache0) vals).min_val ∧
      ∀ v ∈ vals, min_threshold ≤ v →
        (graphAddPoints min_threshold (graphCacheReset cache0) vals).min_val ≤ v) := by
  obtain ⟨h1, h2⟩ := min_val_fold min_threshold cache0 vals (fun v hv => (hrange v hv).2)
  refine ⟨?_, ?_⟩
  · intro hall
    rcases h2 with ⟨hm, ht⟩ | ⟨hm, _⟩
    · have := hall _ hm
      omega
    · exact hm
  · rintro ⟨w, hw, htw⟩
    rcases h2 with ⟨hm, ht⟩ | ⟨_, hall⟩
    · exact ⟨hm, ht, h1⟩
    · have := hall w hw
      omega

/-- Witness for C2: threshold 10 and the samples 5, 12, 30, 11, where `min_val` ends
at 11. -/
theorem graph_min_val_is_min_over_threshold_witness :
    (∀ v ∈ ([5, 12, 30, 11] : List Int), INT32_MIN ≤ v ∧ v ≤ INT32_MAX) ∧
    (graphAddPoints 10 (graphCacheReset caches0) [5, 12, 30, 11]).min_val = 11 ∧
    (((∀ v ∈ ([5, 12, 30, 11] : List Int), v < 10) →
      (graphAddPoints 10 (graphCacheReset caches0) [5, 12, 30, 11]).min_val = INT32_MAX) ∧
    ((∃ v ∈ ([5, 12, 30, 11] : List Int), 10 ≤ v) →
      (graphAddPoints 10 (graphCacheReset caches0) [5, 12, 30, 11]).min_val
        ∈ ([5, 12, 30, 11] : List Int) ∧
      10 ≤ (graphAddPoints 10 (graphCacheReset caches0) [5, 12, 30, 11]).min_val ∧
      ∀ v ∈ ([5, 12, 30, 11] : List Int), 10 ≤ v →
        (graphAddPoints 10 (graphCacheReset caches0) [5, 12, 30, 11]).min_val ≤ v)) :=
  ⟨by decide, by decide,
    graph_min_val_is_min_over_threshold 10 caches0 [5, 12, 30, 11] (by decide)⟩

/-- C3 as stated fails: with threshold 10, the single sample 5 is below the threshold,
yet `max_val` leaves its reset value `INT32_MIN` and becomes 5. -/
theorem graph_max_val_threshold_counterexample :
    (∀ v ∈ ([5] : List Int), v < 10) ∧
    (graphAddPoints 10 (graphCacheReset caches0) [5]).max_val = 5 ∧
    (graphAddPoints 10 (graphCacheReset caches0) [5]).max_val ≠ INT32_MIN := by
  decide

/-- C3 amended: after any sequence of `graphAddPoint` calls with 32-bit values on a
freshly reset cache (`max_val = INT32_MIN`), `max_val` is the maximum of all inserted
values, whatever the ignore-threshold `min_threshold` is, and it is still the reset value
when nothing was inserted. -/
theorem graph_max_val_is_max_of_all (min_threshold : Int) (cache0 : GraphCache)
    (vals : List Int) (hrange : ∀ v ∈ vals, INT32_MIN ≤ v ∧ v ≤ INT32_MAX) :
    (vals = [] →
      (graphAddPoints min_threshold (graphCacheReset cache0) vals).max_val = INT32_MIN) ∧
    (vals ≠ [] →
      (graphAddPoints min_threshold (graphCacheReset cache0) vals).max_val ∈ vals ∧
      ∀ v ∈ vals, v ≤ (graphAddPoints min_threshold (graphCacheReset cache0) vals).max_val) := by
  obtain ⟨h1, h2⟩ := max_val_fold min_threshold cache0 vals (fun v hv => (hrange v hv).1)
  refine ⟨?_, ?_⟩
  · intro hnil
    subst hnil
    rfl
  · intro hne
    rcases h2 with hm | ⟨_, hnil⟩
    · exact ⟨hm, h1⟩
    · exact absurd hnil hne

/-- Witness for C3 amended: threshold 10 and the samples 5, 3, where `max_val` ends at 5
although both samples are below the threshold. -/
theorem graph_max_val_is_max_of_all_witness :
    (∀ v ∈ ([5, 3] : List Int), INT32_MIN ≤ v ∧ v ≤ INT32_MAX) ∧
    (graphAddPoints 10 (graphCacheReset caches0) [5, 3]).max_val = 5 ∧
    ((([5, 3] : List Int) = [] →
      (graphAddPoints 10 (graphCacheReset caches0) [5, 3]).max_val = INT32_MIN) ∧
    (([5, 3] : List Int) ≠ [] →
      (graphAddPoints 10 (graphCacheReset caches0) [5, 3]).max_val ∈ ([5, 3] : List Int) ∧
      ∀ v ∈ ([5, 3] : List Int),
        v ≤ (graphAddPoints 10 (graphCacheReset caches0) [5, 3]).max_val)) :=
  ⟨by decide, by decide, graph_max_val_is_max_of_all 10 caches0 [5, 3] (by decide)⟩

/-! ## The scrollable navigator -/

theorem countEntriesFrom_setDirtyAt (es : List Field) :
    ∀ i, countEntriesFrom (setDirtyAt es i) = countEntriesFrom es := by
  induction es with
  | nil => intro i; rfl
  | cons e rest ih =>
    intro i
    cases i with
    | zero => simp [setDirtyAt, countEntriesFrom]
    | succ i => simp [setDirtyAt, countEntriesFrom, ih i]

theorem countEntries_setDirtyAt (s : Scrollable) (i f sel : Nat) :
    countEntries { entries := s.entries.map (fun es => setDirtyAt es i), first := f,
                   selected := sel } = countEntries s := by
  cases h : s.entries with
  | none => simp [countEntries, h]
  | some es => simp [countEntries, h, countEntriesFrom_setDirtyAt]

theorem setDirtyAt_getElem (es : List Field) :
    ∀ i, i < countEntriesFrom es →
      ∃ e, es[i]? = some e ∧ (setDirtyAt es i)[i]? = some { e with dirty := true } := by
  induction es with
  | nil => intro i hi; simp [countEntriesFrom] at hi
  | cons e rest ih =>
    intro i hi
    cases i with
    | zero => exact ⟨e, by simp [setDirtyAt]⟩
    | succ i =>
      have hi2 : i < countEntriesFrom rest := by
        simp only [countEntriesFrom] at hi
        split_ifs at hi <;> omega
      obtain ⟨e2, h1, h2⟩ := ih i hi2
      exact ⟨e2, by simpa using h1, by simpa [setDirtyAt] using h2⟩

theorem countEntriesFrom_menuOf (n : Nat) : countEntriesFrom (menuOf n) = n := by
  induction n with
  | zero => simp [menuOf, menuEnd, countEntriesFrom]
  | succ n ih =>
    have : menuOf (n + 1) = menuEntry :: menuOf n := by
      simp [menuOf, List.replicate_succ]
    rw [this]
    simp [countEntriesFrom, ih, menuEntry]

/-- One event with an up or down click on a state with an active scrollable. -/
theorem onPressScrollable_step (ev : ButtonsEvents) (st : NavState) (s : Scrollable)
    (hact : st.active = some s) (hev : ev.up_click = true ∨ ev.down_click = true) :
    onPressScrollable ev st =
      ({ active := some { entries := s.entries.map (fun es => setDirtyAt es s.selected),
                          first := navFirst ev st.maxRowsPerScreen s,
                          selected := navSelected ev s },
         rootDirty := true, forceScrollableRelayout := true,
         maxRowsPerScreen := st.maxRowsPerScreen }, true) := by
  have hor : (ev.up_click || ev.down_click) = true := by
    rcases hev with h | h <;> simp [h]
  simp only [onPressScrollable, hact, hor, if_true, forceScrollableRender,
    countEntries_setDirtyAt, navFirst, navSelected]

theorem onPressScrollable_idle (ev : ButtonsEvents) (st : NavState)
    (hev : ev.up_click = false ∧ ev.down_click = false) :
    onPressScrollable ev st = (st, false) := by
  unfold onPressScrollable
  cases st.active with
  | none => rfl
  | some s => simp [hev.1, hev.2]

/-- One event keeps the scrollable bounds when the entries fit the `uint8_t` index. -/
theorem scrollableBounds_step (ev : ButtonsEvents) (st : NavState)
    (hb : scrollableBounds st) (h256 : ∀ s, st.active = some s → countEntries s ≤ 256) :
    scrollableBounds (onPressScrollable ev st).1 ∧
    ∀ s, (onPressScrollable ev st).1.active = some s → countEntries s ≤ 256 := by
  by_cases hev : ev.up_click = true ∨ ev.down_click = true
  · obtain ⟨s, hact, hc1, hr1, hsel, hfs, hsf⟩ := hb
    have hc := h256 s hact
    rw [onPressScrollable_step ev st s hact hev]
    have hsel' : (navSelected ev s : Int) < countEntries s ∧
        navFirst ev st.maxRowsPerScreen s ≤ navSelected ev s ∧
        (navSelected ev s : Int)
          ≤ (navFirst ev st.maxRowsPerScreen s : Int) + (st.maxRowsPerScreen - 1) - 1 := by
      cases hu : ev.up_click <;> cases hd : ev.down_click <;>
        simp only [navFirst, navSelected, toUInt8, hu, hd, Bool.false_eq_true, if_true,
          if_false] <;>
        (try split_ifs) <;> omega
    refine ⟨⟨_, rfl, ?_, hr1, ?_, hsel'.2.1, hsel'.2.2⟩, ?_⟩
    · rw [countEntries_setDirtyAt]; exact hc1
    · rw [countEntries_setDirtyAt]; exact hsel'.1
    · intro s2 hs2
      simp only [Option.some.injEq] at hs2
      rw [← hs2, countEntries_setDirtyAt]
      exact hc
  · have hev2 : ev.up_click = false ∧ ev.down_click = false := by
      cases h1 : ev.up_click <;> cases h2 : ev.down_click <;> simp_all
    rw [onPressScrollable_idle ev st hev2]
    exact ⟨hb, h256⟩

theorem scrollableBounds_seq (evs : List ButtonsEvents) :
    ∀ st : NavState, scrollableBounds st →
      (∀ s, st.active = some s → countEntries s ≤ 256) →
      scrollableBounds (onPressScrollableSeq evs st) := by
  induction evs with
  | nil => intro st hb _; exact hb
  | cons ev rest ih =>
    intro st hb h256
    have h := scrollableBounds_step ev st hb h256
    exact ih _ h.1 h.2

theorem scrollableBounds_iff (st : NavState) (s : Scrollable) (h : st.active = some s) :
    scrollableBounds st ↔
      (1 ≤ countEntries s ∧ 1 ≤ st.maxRowsPerScreen - 1 ∧
        (s.selected : Int) < countEntries s ∧ s.first ≤ s.selected ∧
        (s.selected : Int) ≤ (s.first : Int) + (st.maxRowsPerScreen - 1) - 1) := by
  constructor
  · rintro ⟨s2, hs2, hrest⟩
    rw [h] at hs2
    simp only [Option.some.injEq] at hs2
    subst hs2
    exact hrest
  · intro hrest
    exact ⟨s, h, hrest⟩

theorem countEntries_menuOf (n fst sel : Nat) :
    countEntries { entries := some (menuOf n), first := fst, selected := sel } = (n : Int) := by
  simp [countEntries, countEntriesFrom_menuOf]

theorem scrollableBounds_navOf (n sel fst : Nat) (rows : Int) (h1 : 1 ≤ n) (hr : 2 ≤ rows)
    (hs : sel < n) (hf : fst ≤ sel) (hl : (sel : Int) ≤ (fst : Int) + rows - 2) :
    scrollableBounds (navOf n sel fst rows) := by
  refine ⟨{ entries := some (menuOf n), first := fst, selected := sel }, rfl, ?_⟩
  rw [countEntries_menuOf]
  simp only [navOf]
  omega

/-- A `DOWN_CLICK` at `selected = 255` in a menu of more than 256 entries wraps the
`uint8_t` index to 0. -/
theorem navOf_down_wrap (n fst : Nat) (rows : Int) (hn : 256 < n) (hr : 2 ≤ rows) :
    (onPressScrollable downEvent (navOf n 255 fst rows)).1.active
      = some { entries := some (setDirtyAt (menuOf n) 255), first := fst, selected := 0 } := by
  rw [onPressScrollable_step downEvent (navOf n 255 fst rows)
    { entries := some (menuOf n), first := fst, selected := 255 } rfl (Or.inr rfl)]
  have hsel : navSelected downEvent { entries := some (menuOf n), first := fst, selected := 255 }
      = 0 := by
    simp only [navSelected, downEvent, countEntries_menuOf]
    simp only [Bool.false_eq_true, if_false, if_true]
    rw [if_pos (by omega)]
  have hfst : navFirst downEvent rows { entries := some (menuOf n), first := fst, selected := 255 }
      = fst := by
    simp only [navFirst, hsel]
    simp only [downEvent, Bool.false_eq_true, if_false, if_true]
    rw [if_neg (by omega)]
  simp only [navOf, hsel, hfst, Option.map_some']

/-- C4 as stated fails: a scrollable of 257 entries with `selected = 255`, `first = 252`
and 4 visible rows satisfies the bounds, and one `DOWN_CLICK` wraps the `uint8_t`
`selected` to 0 while `first` stays 252. -/
theorem scrollable_bounds_counterexample :
    scrollableBounds (navOf 257 255 252 5) ∧
    (onPressScrollable downEvent (navOf 257 255 252 5)).1.active
      = some { entries := some (setDirtyAt (menuOf 257) 255), first := 252, selected := 0 } ∧
    ¬ scrollableBounds (onPressScrollable downEvent (navOf 257 255 252 5)).1 := by
  have hstep := navOf_down_wrap 257 252 5 (by decide) (by decide)
  refine ⟨scrollableBounds_navOf 257 255 252 5 (by decide) (by decide) (by decide)
    (by decide) (by decide), hstep, ?_⟩
  rw [scrollableBounds_iff _ _ hstep]
  rintro ⟨_, _, _, hfs, _⟩
  exact absurd hfs (by decide)

/-- C4 amended: for an active scrollable with `1 ≤ entryCount ≤ 256` entries and
`visibleRows = maxRowsPerScreen - 1 ≥ 1` whose state satisfies `0 ≤ selected < entryCount`
and `0 ≤ first ≤ selected ≤ first + visibleRows - 1`, every event handled by the up/down
block of `onPressScrollable` preserves both inequalities, and so does every sequence of
such events. -/
theorem scrollable_bounds_preserved (evs : List ButtonsEvents) (ev : ButtonsEvents)
    (st : NavState) (hb : scrollableBounds st)
    (h256 : ∀ s, st.active = some s → countEntries s ≤ 256) :
    scrollableBounds (onPressScrollable ev st).1 ∧
    scrollableBounds (onPressScrollableSeq evs st) :=
  ⟨(scrollableBounds_step ev st hb h256).1, scrollableBounds_seq evs st hb h256⟩

theorem onPressScrollableSeq_snoc (evs : List ButtonsEvents) (ev : ButtonsEvents)
    (st : NavState) :
    onPressScrollableSeq (evs ++ [ev]) st
      = (onPressScrollable ev (onPressScrollableSeq evs st)).1 := by
  simp [onPressScrollableSeq, List.foldl_append]

theorem navSelected_down (s : Scrollable) :
    navSelected downEvent s
      = if (s.selected : Int) < countEntries s - 1 then (s.selected + 1) % 256
        else s.selected := by
  unfold navSelected
  simp only [show downEvent.down_click = true from rfl,
    show downEvent.up_click = false from rfl, Bool.false_eq_true, if_false, if_true]

theorem navFirst_down (maxRows : Int) (s : Scrollable) :
    navFirst downEvent maxRows s
      = if (navSelected downEvent s : Int) > (s.first : Int) + (maxRows - 1) - 1
        then toUInt8 ((navSelected downEvent s : Int) - (maxRows - 1) + 1) else s.first := by
  unfold navFirst
  simp only [show downEvent.down_click = true from rfl,
    show downEvent.up_click = false from rfl, Bool.false_eq_true, if_false, if_true]

theorem navSelected_up (s : Scrollable) :
    navSelected upEvent s = if s.selected ≥ 1 then s.selected - 1 else s.selected := by
  unfold navSelected
  simp only [show upEvent.down_click = false from rfl,
    show upEvent.up_click = true from rfl, Bool.false_eq_true, if_false, if_true]

theorem navFirst_up (maxRows : Int) (s : Scrollable) :
    navFirst upEvent maxRows s
      = if navSelected upEvent s < s.first then navSelected upEvent s else s.first := by
  unfold navFirst
  rw [navSelected_up]
  simp only [show upEvent.down_click = false from rfl,
    show upEvent.up_click = true from rfl, Bool.false_eq_true, if_false, if_true]

/-- The state after `n` down clicks from the top, as long as the index stays below 256. -/
theorem down_from_top (count : Nat) (rows : Int) (hc : 1 ≤ count) (hr : 1 ≤ rows)
    (st : NavState) (s : Scrollable) (hact : st.active = some s)
    (hsel : s.selected = 0) (hfirst : s.first = 0) (hcount : countEntries s = (count : Int))
    (hrows : st.maxRowsPerScreen - 1 = rows) :
    ∀ n : Nat, min n (count - 1) ≤ 255 →
      ∃ s', (onPressScrollableSeq (List.replicate n downEvent) st).active = some s' ∧
        countEntries s' = (count : Int) ∧
        (onPressScrollableSeq (List.replicate n downEvent) st).maxRowsPerScreen
          = st.maxRowsPerScreen ∧
        s'.selected = min n (count - 1) ∧
        (s'.first : Int) = max 0 ((s'.selected : Int) - rows + 1) := by
  intro n
  induction n with
  | zero =>
    intro _
    refine ⟨s, hact, hcount, rfl, ?_, ?_⟩
    · rw [hsel]; omega
    · rw [hsel, hfirst]; omega
  | succ n ih =>
    intro hn
    have hn0 : min n (count - 1) ≤ 255 := by omega
    obtain ⟨s1, h1, hc1, hm1, hs1, hf1⟩ := ih hn0
    have hrows1 : (onPressScrollableSeq (List.replicate n downEvent) st).maxRowsPerScreen - 1
        = rows := by rw [hm1, hrows]
    have e1 := navSelected_down s1
    have e2 := navFirst_down
      (onPressScrollableSeq (List.replicate n downEvent) st).maxRowsPerScreen s1
    rw [hrows1] at e2
    rw [hc1] at e1
    rw [List.replicate_succ', onPressScrollableSeq_snoc,
      onPressScrollable_step downEvent _ s1 h1 (Or.inr rfl)]
    refine ⟨_, rfl, ?_, hm1, ?_, ?_⟩
    · rw [countEntries_setDirtyAt]; exact hc1
    · show navSelected downEvent s1 = min (n + 1) (count - 1)
      rw [e1]
      split_ifs <;> omega
    · show ((navFirst downEvent _ s1 : Nat) : Int)
        = max 0 ((navSelected downEvent s1 : Int) - rows + 1)
      rw [e2, e1]
      simp only [toUInt8]
      split_ifs <;> omega

/-- C5 as stated fails in its general form: in a menu of 257 entries with 4 visible rows,
256 down clicks from the top leave `selected = 0`, not `min(256, 257 - 1) = 256`, because
the `uint8_t` index wraps. -/
theorem scrollable_down_from_top_counterexample :
    ∃ s', (onPressScrollableSeq (List.replicate 256 downEvent) (navOf 257 0 0 5)).active
        = some s' ∧
      countEntries s' = 257 ∧ s'.selected = 0 ∧
      (s'.selected : Int) ≠ min (256 : Int) (257 - 1) := by
  obtain ⟨s1, h1, hc1, _, hs1, _⟩ :=
    down_from_top 257 4 (by decide) (by decide) (navOf 257 0 0 5)
      { entries := some (menuOf 257), first := 0, selected := 0 } rfl rfl rfl
      (countEntries_menuOf 257 0 0) (by simp [navOf]) 255 (by decide)
  have hrep : List.replicate 256 downEvent = List.replicate 255 downEvent ++ [downEvent] :=
    List.replicate_succ' 255 downEvent
  rw [hrep, onPressScrollableSeq_snoc, onPressScrollable_step downEvent _ s1 h1 (Or.inr rfl)]
  have e1 := navSelected_down s1
  rw [hc1, hs1] at e1
  have e0 : navSelected downEvent s1 = 0 := by
    rw [e1]; decide
  refine ⟨_, rfl, ?_, e0, ?_⟩
  · rw [countEntries_setDirtyAt]; exact hc1
  · show ((navSelected downEvent s1 : Nat) : Int) ≠ _
    rw [e0]; decide

/-- C5 amended: from `selected = 0`, `first = 0` on an active scrollable with `count`
entries, `1 ≤ count ≤ 256`, and `visibleRows = maxRowsPerScreen - 1 ≥ 1`, `n` successive
`DOWN_CLICK` events through `onPressScrollable` yield `selected = min(n, count - 1)` and
`first = max(0, selected - visibleRows + 1)`; with 10 entries, 4 visible rows and 7 events
this is `selected = 7`, `first = 4`. -/
theorem scrollable_down_from_top (n count : Nat) (st : NavState) (s : Scrollable)
    (hact : st.active = some s) (hsel : s.selected = 0) (hfirst : s.first = 0)
    (hcount : countEntries s = (count : Int)) (h1 : 1 ≤ count) (h256 : count ≤ 256)
    (hrows : 1 ≤ st.maxRowsPerScreen - 1) :
    ∃ s', (onPressScrollableSeq (List.replicate n downEvent) st).active = some s' ∧
      (s'.selected : Int) = min (n : Int) ((count : Int) - 1) ∧
      (s'.first : Int) = max 0 ((s'.selected : Int) - (st.maxRowsPerScreen - 1) + 1) := by
  obtain ⟨s1, h1', _, _, hs1, hf1⟩ :=
    down_from_top count (st.maxRowsPerScreen - 1) h1 hrows st s hact hsel hfirst hcount rfl n
      (by omega)
  exact ⟨s1, h1', by rw [hs1]; omega, hf1⟩

/-- Witness for C5: 10 entries, `maxRowsPerScreen = 5`, seven `DOWN_CLICK` events from
the top give `selected = 7`, `first = 4`. -/
theorem scrollable_down_from_top_witness :
    (onPressScrollableSeq (List.replicate 7 downEvent) (navOf 10 0 0 5)).active
      = some { entries := some (setDirtyAt (setDirtyAt (setDirtyAt (setDirtyAt (setDirtyAt
          (setDirtyAt (setDirtyAt (menuOf 10) 0) 1) 2) 3) 4) 5) 6), first := 4, selected := 7 } ∧
    ∃ s', (onPressScrollableSeq (List.replicate 7 downEvent) (navOf 10 0 0 5)).active
        = some s' ∧
      (s'.selected : Int) = min ((7 : Nat) : Int) (((10 : Nat) : Int) - 1) ∧
      (s'.first : Int) = max 0 ((s'.selected : Int) - ((navOf 10 0 0 5).maxRowsPerScreen - 1) + 1) :=
  ⟨by decide,
    scrollable_down_from_top 7 10 (navOf 10 0 0 5)
      { entries := some (menuOf 10), first := 0, selected := 0 } rfl rfl rfl
      (countEntries_menuOf 10 0 0) (by decide) (by decide) (by decide)⟩

/-- C6 as stated fails: in a menu of 300 entries with `selected = 255` (not the last
entry, 299) a `DOWN_CLICK` does not move to 256 but wraps the `uint8_t` index to 0. -/
theorem scrollable_no_wrap_counterexample :
    countEntries { entries := some (menuOf 300), first := 250, selected := 255 } = 300 ∧
    ((255 : Nat) : Int) ≠ 300 - 1 ∧
    (onPressScrollable downEvent (navOf 300 255 250 7)).1.active
      = some { entries := some (setDirtyAt (menuOf 300) 255), first := 250, selected := 0 } :=
  ⟨countEntries_menuOf 300 250 255, by decide,
    navOf_down_wrap 300 250 7 (by decide) (by decide)⟩

/-- C6 amended: for an active scrollable whose state satisfies
`selected < countEntries ≤ 256`, an `UP_CLICK` in `onPressScrollable` decreases `selected`
by exactly one unless it is 0, where it stays 0, and then sets `first` to
`min(first, selected)`; a `DOWN_CLICK` increases `selected` by exactly one unless it is
`countEntries - 1`, where it stays; and after any event with an up or down click the entry
that was selected before the event is the same entry with `dirty` set. -/
theorem scrollable_up_down_moves (st : NavState) (s : Scrollable)
    (hact : st.active = some s) (hsel : (s.selected : Int) < countEntries s)
    (h256 : countEntries s ≤ 256) :
    (∃ s', (onPressScrollable upEvent st).1.active = some s' ∧
      s'.selected = (if s.selected = 0 then 0 else s.selected - 1) ∧
      s'.first = min s.first s'.selected) ∧
    (∃ s', (onPressScrollable downEvent st).1.active = some s' ∧
      (s'.selected : Int)
        = (if (s.selected : Int) = countEntries s - 1 then (s.selected : Int)
           else (s.selected : Int) + 1)) ∧
    (∀ ev : ButtonsEvents, ev.up_click = true ∨ ev.down_click = true →
      ∃ s' es es' e, (onPressScrollable ev st).1.active = some s' ∧
        s.entries = some es ∧ s'.entries = some es' ∧
        es[s.selected]? = some e ∧ es'[s.selected]? = some { e with dirty := true }) := by
  refine ⟨?_, ?_, ?_⟩
  · rw [onPressScrollable_step upEvent st s hact (Or.inl rfl)]
    refine ⟨_, rfl, ?_, ?_⟩
    · show navSelected upEvent s = _
      rw [navSelected_up]
      split_ifs <;> omega
    · show navFirst upEvent st.maxRowsPerScreen s = min s.first (navSelected upEvent s)
      rw [navFirst_up]
      split_ifs <;> omega
  · rw [onPressScrollable_step downEvent st s hact (Or.inr rfl)]
    refine ⟨_, rfl, ?_⟩
    show ((navSelected downEvent s : Nat) : Int) = _
    rw [navSelected_down]
    split_ifs <;> omega
  · intro ev hev
    rw [onPressScrollable_step ev st s hact hev]
    cases hes : s.entries with
    | none =>
      simp only [countEntries, hes] at hsel
      omega
    | some es =>
      have hlt : s.selected < countEntriesFrom es := by
        simp only [countEntries, hes] at hsel
        omega
      obtain ⟨e, he1, he2⟩ := setDirtyAt_getElem es s.selected hlt
      exact ⟨_, es, setDirtyAt es s.selected, e, rfl, rfl, by simp [hes], he1, he2⟩

/-- Witness for C6: a menu of 10 entries with `selected = 6`, `first = 3` and
`maxRowsPerScreen = 5`. -/
theorem scrollable_up_down_moves_witness :
    (onPressScrollable upEvent (navOf 10 6 3 5)).1.active
      = some { entries := some (setDirtyAt (menuOf 10) 6), first := 3, selected := 5 } ∧
    (onPressScrollable downEvent (navOf 10 6 3 5)).1.active
      = some { entries := some (setDirtyAt (menuOf 10) 6), first := 4, selected := 7 } ∧
    ((∃ s', (onPressScrollable upEvent (navOf 10 6 3 5)).1.active = some s' ∧
      s'.selected = (if 6 = 0 then 0 else 6 - 1) ∧ s'.first = min 3 s'.selected) ∧
    (∃ s', (onPressScrollable downEvent (navOf 10 6 3 5)).1.active = some s' ∧
      (s'.selected : Int)
        = (if ((6 : Nat) : Int)
              = countEntries { entries := some (menuOf 10), first := 3, selected := 6 } - 1
           then ((6 : Nat) : Int) else ((6 : Nat) : Int) + 1)) ∧
    (∀ ev : ButtonsEvents, ev.up_click = true ∨ ev.down_click = true →
      ∃ s' es es' e, (onPressScrollable ev (navOf 10 6 3 5)).1.active = some s' ∧
        some (menuOf 10) = some es ∧ s'.entries = some es' ∧
        es[6]? = some e ∧ es'[6]? = some { e with dirty := true })) :=
  ⟨by decide, by decide,
    scrollable_up_down_moves (navOf 10 6 3 5)
      { entries := some (menuOf 10), first := 3, selected := 6 } rfl
      (by rw [countEntries_menuOf]; decide) (by rw [countEntries_menuOf]; decide)⟩

/-- Witness for C4 amended: a menu of 10 entries with `selected = 6`, `first = 3` and
`maxRowsPerScreen = 5`, one down click and the sequence down, down, up, up, up, up. -/
theorem scrollable_bounds_preserved_witness :
    scrollableBounds (navOf 10 6 3 5) ∧
    (∀ s, (navOf 10 6 3 5).active = some s → countEntries s ≤ 256) ∧
    scrollableBounds (onPressScrollable downEvent (navOf 10 6 3 5)).1 ∧
    scrollableBounds (onPressScrollableSeq
      [downEvent, downEvent, upEvent, upEvent, upEvent, upEvent] (navOf 10 6 3 5)) :=
  have hb : scrollableBounds (navOf 10 6 3 5) :=
    scrollableBounds_navOf 10 6 3 5 (by decide) (by decide) (by decide) (by decide) (by decide)
  have h256 : ∀ s, (navOf 10 6 3 5).active = some s → countEntries s ≤ 256 := by
    intro s hs
    simp only [navOf, Option.some.injEq] at hs
    subst hs
    rw [countEntries_menuOf]
    decide
  ⟨hb, h256,
    scrollable_bounds_preserved [downEvent, downEvent, upEvent, upEvent, upEvent, upEvent]
      downEvent (navOf 10 6 3 5) hb h256⟩

/-! ## Changing an editable value -/

/-- The range check of `changeEditable` leaves a value within the bounds. -/
theorem uint_range_check (minv maxv : Nat) (x : Int) (hmm : minv ≤ maxv)
    (hmax : maxv < 4294967296) :
    ∃ r, (if toUInt32 (toInt32 x) < (minv : Int) then some (toInt32 (maxv : Int))
          else if toUInt32 (toInt32 x) > (maxv : Int) then some (toInt32 (minv : Int))
          else some (toInt32 x)) = some r ∧
      (minv : Int) ≤ toUInt32 r ∧ toUInt32 r ≤ (maxv : Int) ∧
      ((maxv : Int) ≤ INT32_MAX → (minv : Int) ≤ r ∧ r ≤ (maxv : Int)) := by
  split_ifs with h1 h2
  · refine ⟨_, rfl, ?_⟩
    simp only [toInt32, toUInt32, INT32_MAX]
    omega
  · refine ⟨_, rfl, ?_⟩
    simp only [toInt32, toUInt32, INT32_MAX]
    omega
  · refine ⟨_, rfl, ?_⟩
    simp only [toInt32, toUInt32, INT32_MAX] at h1 h2 ⊢
    omega

/-- After `changeEditable` on an unsigned-integer editable with `min_value ≤ max_value`
the working value, read as `uint32_t`, lies within the bounds, and so does the `int`
itself when `max_value` fits an `int`. -/
theorem changeEditable_uint_in_range (f : Editable) (htyp : f.typ = EditableType.EditUInt)
    (hmm : f.min_value ≤ f.max_value) (hmax : f.max_value < 4294967296)
    (increment : Bool) (cur : Int) :
    ∃ r, changeEditable f increment cur = some r ∧
      (f.min_value : Int) ≤ toUInt32 r ∧ toUInt32 r ≤ (f.max_value : Int) ∧
      ((f.max_value : Int) ≤ INT32_MAX → (f.min_value : Int) ≤ r ∧ r ≤ (f.max_value : Int)) := by
  simp only [changeEditable, htyp]
  exact uint_range_check f.min_value f.max_value _ hmm hmax

/-- C7 as stated fails: with `inc_step = 4294967295` the `int` step is `-1`, and an
increment at `max_value = 100` gives 99 instead of `min_value = 0`. -/
theorem editable_increment_at_max_counterexample :
    (editableUInt 0 100 4294967295).min_value ≤ (editableUInt 0 100 4294967295).max_value ∧
    changeEditable (editableUInt 0 100 4294967295) true 100 = some 99 ∧
    changeEditable (editableUInt 0 100 4294967295) true 100
      ≠ some ((editableUInt 0 100 4294967295).min_value : Int) := by
  refine ⟨by decide, ?_, ?_⟩ <;>
    norm_num [changeEditable, editableUInt, toInt32, toUInt32]

/-- C7 amended: for every unsigned-integer Editable with `min_value ≤ max_value` and an
`inc_step` that fits the `int` step variable (`inc_step ≤ INT32_MAX`, 0 meaning 1),
`changeEditable(true)` applied when the `int32_t` working value equals `max_value` sets the
working value to `min_value`. -/
theorem editable_increment_at_max_wraps (f : Editable)
    (htyp : f.typ = EditableType.EditUInt) (hmm : f.min_value ≤ f.max_value)
    (cur : Int) (hcur : INT32_MIN ≤ cur ∧ cur ≤ INT32_MAX) (heq : cur = (f.max_value : Int))
    (hstep : (f.inc_step : Int) ≤ INT32_MAX) :
    changeEditable f true cur = some (f.min_value : Int) := by
  subst heq
  simp only [changeEditable, htyp, toInt32, toUInt32, INT32_MAX, INT32_MIN, if_true,
    mul_one] at *
  split_ifs <;> first | omega | exact congrArg some (by omega)

/-- Witness for C7 amended: bounds 0 and 100 with step 5, working value 100. -/
theorem editable_increment_at_max_wraps_witness :
    changeEditable (editableUInt 0 100 5) true 100
      = some (((editableUInt 0 100 5).min_value : Nat) : Int) :=
  editable_increment_at_max_wraps (editableUInt 0 100 5) rfl (by decide) 100 (by decide)
    rfl (by decide)

/-- A decrement at `min_value`, for bounds and a step that fit an `int`: the working
value becomes `max_value` when the step does not exceed `min_value`, and stays `min_value`
when it does (the difference is negative and compares as a large `uint32_t`). -/
theorem changeEditable_decrement_at_min (f : Editable)
    (htyp : f.typ = EditableType.EditUInt) (hmm : f.min_value ≤ f.max_value)
    (hmax : (f.max_value : Int) ≤ INT32_MAX) (hstep : (f.inc_step : Int) ≤ INT32_MAX) :
    changeEditable f false (f.min_value : Int)
      = some (if (if f.inc_step = 0 then 1 else f.inc_step) ≤ f.min_value
              then (f.max_value : Int) else (f.min_value : Int)) := by
  simp only [changeEditable, htyp, toInt32, toUInt32, INT32_MAX, Bool.false_eq_true,
    if_false] at *
  split_ifs <;> first | omega | exact congrArg some (by omega)

/-- C8 on the code: with `min_value = 0`, `max_value = 100` and `inc_step = 0` (step 1), a
decrement at the working value 0 gives `v = -1`; the comparison `v < min_value` is made in
`uint32_t`, so it is false, `v > max_value` is true, and the working value is set to
`min_value = 0`, not to `max_value = 100`. -/
theorem editable_decrement_at_zero_stays :
    changeEditable (editableUInt 0 100 0) false 0 = some 0 ∧
    changeEditable (editableUInt 0 100 0) false 0
      ≠ some ((editableUInt 0 100 0).max_value : Int) := by
  decide

/-- C9: for an enumerated Editable with `N` options before the terminating NULL and a
working index `i` with `0 ≤ i < N`, `changeEditable(true)` yields `(i + 1) mod N` and
`changeEditable(false)` yields `(i - 1) mod N`, which is `N - 1` when `i = 0`. -/
theorem editable_enum_index_mod (f : Editable) (htyp : f.typ = EditableType.EditEnum)
    (i : Int) (h0 : 0 ≤ i) (hi : i < (countEnumOptions f.options : Int))
    (hN : (countEnumOptions f.options : Int) ≤ INT32_MAX) :
    changeEditable f true i = some ((i + 1) % (countEnumOptions f.options : Int)) ∧
    changeEditable f false i = some ((i - 1) % (countEnumOptions f.options : Int)) ∧
    (i = 0 → changeEditable f false i = some ((countEnumOptions f.options : Int) - 1)) := by
  simp only [INT32_MAX] at hN
  have hdec : (i - 1) % (countEnumOptions f.options : Int)
      = if i = 0 then (countEnumOptions f.options : Int) - 1 else i - 1 := by
    split_ifs with hz
    · subst hz
      have h := @Int.add_emod_self (0 - 1) (countEnumOptions f.options : Int)
      rw [← h]
      have e : (0 - 1 : Int) + (countEnumOptions f.options : Int)
          = (countEnumOptions f.options : Int) - 1 := by omega
      rw [e]
      exact Int.emod_eq_of_lt (by omega) (by omega)
    · exact Int.emod_eq_of_lt (by omega) (by omega)
  have hinc : (i + 1) % (countEnumOptions f.options : Int)
      = if i + 1 = (countEnumOptions f.options : Int) then 0 else i + 1 := by
    split_ifs with hz
    · rw [hz]; exact Int.emod_self
    · exact Int.emod_eq_of_lt (by omega) (by omega)
  have e1 : toInt32 (i + 1) = i + 1 := by
    simp only [toInt32, INT32_MAX] at *; omega
  have e2 : toInt32 (i + -1) = i - 1 := by
    simp only [toInt32, INT32_MAX] at *; omega
  refine ⟨?_, ?_, ?_⟩
  · simp only [changeEditable, htyp, if_true, e1, hinc]
    split_ifs <;> first | rfl | omega
  · simp only [changeEditable, htyp, Bool.false_eq_true, if_false, e2, hdec]
    split_ifs <;> first | rfl | omega
  · intro hz
    simp only [changeEditable, htyp, Bool.false_eq_true, if_false, e2]
    split_ifs <;> first | rfl | omega

/-- Witness for C9: three options and the working index 2. -/
theorem editable_enum_index_mod_witness :
    changeEditable (editableEnum ["eco", "tour", "sport"]) true 2 = some 0 ∧
    (changeEditable (editableEnum ["eco", "tour", "sport"]) true 2
        = some ((2 + 1) % (countEnumOptions (editableEnum ["eco", "tour", "sport"]).options
            : Int)) ∧
      changeEditable (editableEnum ["eco", "tour", "sport"]) false 2
        = some ((2 - 1) % (countEnumOptions (editableEnum ["eco", "tour", "sport"]).options
            : Int)) ∧
      ((2 : Int) = 0 → changeEditable (editableEnum ["eco", "tour", "sport"]) false 2
        = some ((countEnumOptions (editableEnum ["eco", "tour", "sport"]).options : Int)
            - 1))) :=
  ⟨by decide,
    editable_enum_index_mod (editableEnum ["eco", "tour", "sport"]) rfl 2 (by decide)
      (by decide) (by decide)⟩

/-- C10 on the code: with `min_value = 0`, `max_value = 100` and `inc_step = 5`, a
decrement at the working value 3 steps below the range and the working value is set to
`min_value = 0` (the bound it crossed), not to the opposite bound `max_value = 100`. -/
theorem editable_decrement_below_zero_saturates :
    changeEditable (editableUInt 0 100 5) false 3 = some 0 ∧
    changeEditable (editableUInt 0 100 5) false 3
      ≠ some ((editableUInt 0 100 5).max_value : Int) := by
  decide

/-! ## Unit conversion round trips and the edit session -/

theorem strcmpEq_C_data (u : String) (h : strcmpEq u "C" = true) : u.data = ['C'] := by
  simpa [strcmpEq] using h

theorem metric_not_celsius (u : String) (h : unitsAreMetric u = true) :
    strcmpEq u "C" = false := by
  cases hc : strcmpEq u "C" with
  | false => rfl
  | true =>
    have hd := strcmpEq_C_data u hc
    simp only [unitsAreMetric, strcasecmpEq, hd] at h
    exact absurd h (by decide)

theorem celsius_not_metric (u : String) (h : strcmpEq u "C" = true) :
    unitsAreMetric u = false := by
  cases hm : unitsAreMetric u with
  | false => rfl
  | true => rw [metric_not_celsius u hm] at h; exact absurd h (by decide)

theorem cdiv_of_nonneg (a b : Int) (ha : 0 ≤ a) (hb : 0 ≤ b) : cdiv a b = a / b :=
  Int.tdiv_eq_ediv ha hb

theorem toUInt32_of_range (a : Int) (h0 : 0 ≤ a) (h1 : a < 4294967296) : toUInt32 a = a := by
  simp only [toUInt32]; omega

theorem toInt32_of_range (a : Int) (h0 : -2147483648 ≤ a) (h1 : a ≤ 2147483647) :
    toInt32 a = a := by
  simp only [toInt32]; omega

/-- The kilometre to mile conversion and back on a stored value `x`. -/
theorem km_round_trip_value (x : Int) (h0 : 0 ≤ x) (hx : x ≤ 21474836) :
    toUInt32 (toUInt32 (cdiv (toInt32 (x * 100)) 161) * 161) / 100 ≤ x ∧
    x ≤ toUInt32 (toUInt32 (cdiv (toInt32 (x * 100)) 161) * 161) / 100 + 2 ∧
    0 ≤ toUInt32 (toUInt32 (cdiv (toInt32 (x * 100)) 161) * 161) / 100 := by
  rw [toInt32_of_range _ (by omega) (by omega), cdiv_of_nonneg _ _ (by omega) (by omega)]
  have hd0 : 0 ≤ x * 100 / 161 := by omega
  have hd1 : x * 100 / 161 ≤ 13338408 := by omega
  rw [toUInt32_of_range _ hd0 (by omega), toUInt32_of_range _ (by omega) (by omega)]
  omega

/-- The Celsius to Fahrenheit conversion and back on a stored value `c`. -/
theorem celsius_round_trip_value (c : Int) (h0 : 0 ≤ c) (hc : c ≤ 238609294) :
    toUInt32 (toUInt32 (toUInt32 (toInt32 (32 + cdiv (toInt32 (c * 9)) 5)) - 32) * 5) / 9 ≤ c ∧
    c ≤ toUInt32 (toUInt32 (toUInt32 (toInt32 (32 + cdiv (toInt32 (c * 9)) 5)) - 32) * 5) / 9
          + 1 ∧
    0 ≤ toUInt32 (toUInt32 (toUInt32 (toInt32 (32 + cdiv (toInt32 (c * 9)) 5)) - 32) * 5) / 9 := by
  rw [toInt32_of_range (c * 9) (by omega) (by omega), cdiv_of_nonneg _ _ (by omega) (by omega)]
  have hd0 : 0 ≤ c * 9 / 5 := by omega
  have hd1 : c * 9 / 5 ≤ 429496729 := by omega
  rw [toInt32_of_range _ (by omega) (by omega), toUInt32_of_range (32 + c * 9 / 5) (by omega)
    (by omega)]
  have e : 32 + c * 9 / 5 - 32 = c * 9 / 5 := by omega
  rw [e, toUInt32_of_range _ hd0 (by omega), toUInt32_of_range _ (by omega) (by omega)]
  omega

theorem getEditableNumber_metric (convFarenheit : Bool) (mem : Nat → Nat) (f : FieldObj)
    (n : Int) (hvar : f.hdr.variant = FieldVariant.FieldEditable)
    (hunits : unitsAreMetric f.editable.units = true)
    (hread : readTarget f.size (mem f.target) = some n) :
    getEditableNumber true convFarenheit mem f true = some (cdiv (toInt32 (n * 100)) 161) := by
  simp [getEditableNumber, hvar, hread, hunits, metric_not_celsius _ hunits]

theorem setEditableNumber_metric (convFarenheit : Bool) (mem : Nat → Nat) (f : FieldObj)
    (v : Int) (hunits : unitsAreMetric f.editable.units = true) :
    setEditableNumber true convFarenheit mem f v true
      = (writeTarget f.size (toUInt32 (toUInt32 v * 161) / 100)).map
          (Function.update mem f.target) := by
  simp only [setEditableNumber, convertBack, hunits, metric_not_celsius _ hunits,
    Bool.and_true, Bool.and_false, if_true, Bool.false_eq_true, if_false]
  cases writeTarget f.size (toUInt32 (toUInt32 v * 161) / 100) <;> rfl

theorem getEditableNumber_celsius (convMiles : Bool) (mem : Nat → Nat) (f : FieldObj)
    (n : Int) (hvar : f.hdr.variant = FieldVariant.FieldEditable)
    (hunits : strcmpEq f.editable.units "C" = true)
    (hread : readTarget f.size (mem f.target) = some n) :
    getEditableNumber convMiles true mem f true
      = some (toInt32 (32 + cdiv (toInt32 (n * 9)) 5)) := by
  simp [getEditableNumber, hvar, hread, hunits, celsius_not_metric _ hunits]

theorem setEditableNumber_celsius (convMiles : Bool) (mem : Nat → Nat) (f : FieldObj)
    (v : Int) (hunits : strcmpEq f.editable.units "C" = true) :
    setEditableNumber convMiles true mem f v true
      = (writeTarget f.size (toUInt32 (toUInt32 (toUInt32 v - 32) * 5) / 9)).map
          (Function.update mem f.target) := by
  simp only [setEditableNumber, convertBack, hunits, celsius_not_metric _ hunits,
    Bool.and_true, Bool.and_false, if_true, Bool.false_eq_true, if_false]
  cases writeTarget f.size (toUInt32 (toUInt32 (toUInt32 v - 32) * 5) / 9) <;> rfl

/-- Reading a target whose content is below the sign bit of its width. -/
theorem readTarget_small (size x : Nat)
    (hfit : (size = 1 ∧ x < 256) ∨ (size = 2 ∧ x < 32768) ∨ (size = 4 ∧ x < 2147483648)) :
    readTarget size x = some (x : Int) := by
  rcases hfit with ⟨hs, hb⟩ | ⟨hs, hb⟩ | ⟨hs, hb⟩ <;> subst hs <;>
    simp only [readTarget, toInt16, toInt32] <;> exact congrArg some (by omega)

/-- Writing a value that is at most the content `x` the target held. -/
theorem writeTarget_small (size x : Nat) (r : Int) (h0 : 0 ≤ r) (hr : r ≤ x)
    (hfit : (size = 1 ∧ x < 256) ∨ (size = 2 ∧ x < 32768) ∨ (size = 4 ∧ x < 2147483648)) :
    writeTarget size r = some r.toNat := by
  rcases hfit with ⟨hs, hb⟩ | ⟨hs, hb⟩ | ⟨hs, hb⟩ <;> subst hs <;>
    simp only [writeTarget, toUInt32] <;> exact congrArg some (by omega)

/-- C12 as stated fails: with miles enabled, units "km" and the stored value 3 in a 1-byte
target, the displayed value is `3*100/161 = 1` and writing it back stores `1*161/100 = 1`,
which differs from 3 by 2. -/
theorem km_round_trip_counterexample :
    getEditableNumber true false (memOf 3) (uintField "km" 0 100 1 1 0) true = some 1 ∧
    (setEditableNumber true false (memOf 3) (uintField "km" 0 100 1 1 0) 1 true).map
      (fun mem => mem 0) = some 1 ∧
    ¬ ((3 : Nat) ≤ 1 + 1) := by
  decide

/-- C12 amended: with `screenConvertMiles` enabled and units matching "km" or "kph"
(case-insensitive), for every stored value `x` that `getEditableNumber` reads as a
non-negative `int` whose hundredfold fits an `int` (every value of a 1-byte target, values
below 32768 of a 2-byte target, values up to 21474836 of a 4-byte target), converting with
`getEditableNumber(field, true)` and writing the result back with
`setEditableNumber(field, v, true)` leaves a stored value between `x - 2` and `x`. -/
theorem km_round_trip (convFarenheit : Bool) (mem : Nat → Nat) (f : FieldObj) (x : Nat)
    (hvar : f.hdr.variant = FieldVariant.FieldEditable)
    (hunits : unitsAreMetric f.editable.units = true)
    (hx : mem f.target = x)
    (hfit : (f.size = 1 ∧ x < 256) ∨ (f.size = 2 ∧ x < 32768) ∨
      (f.size = 4 ∧ x ≤ 21474836)) :
    ∃ v mem', getEditableNumber true convFarenheit mem f true = some v ∧
      setEditableNumber true convFarenheit mem f v true = some mem' ∧
      mem' f.target ≤ x ∧ x ≤ mem' f.target + 2 := by
  have hfit2 : (f.size = 1 ∧ x < 256) ∨ (f.size = 2 ∧ x < 32768) ∨
      (f.size = 4 ∧ x < 2147483648) := by omega
  obtain ⟨h1, h2, h3⟩ := km_round_trip_value (x : Int) (by omega) (by omega)
  have hread : readTarget f.size (mem f.target) = some (x : Int) := by
    rw [hx]; exact readTarget_small f.size x hfit2
  refine ⟨cdiv (toInt32 ((x : Int) * 100)) 161,
    Function.update mem f.target
      (toUInt32 (toUInt32 (cdiv (toInt32 ((x : Int) * 100)) 161) * 161) / 100).toNat,
    getEditableNumber_metric convFarenheit mem f x hvar hunits hread, ?_, ?_, ?_⟩
  · rw [setEditableNumber_metric convFarenheit mem f _ hunits,
      writeTarget_small f.size x _ h3 h1 hfit2]
    rfl
  · rw [Function.update_same]; omega
  · rw [Function.update_same]; omega

/-- Witness for C12 amended: a 2-byte odometer holding 1000 km, shown as 621 miles and
written back as 999. -/
theorem km_round_trip_witness :
    (setEditableNumber true false (memOf 1000) (uintField "km" 0 60000 1 2 0) 621 true).map
      (fun mem => mem 0) = some 999 ∧
    ∃ v mem', getEditableNumber true false (memOf 1000) (uintField "km" 0 60000 1 2 0) true
        = some v ∧
      setEditableNumber true false (memOf 1000) (uintField "km" 0 60000 1 2 0) v true
        = some mem' ∧
      mem' (uintField "km" 0 60000 1 2 0).target ≤ 1000 ∧
      1000 ≤ mem' (uintField "km" 0 60000 1 2 0).target + 2 :=
  ⟨by decide,
    km_round_trip false (memOf 1000) (uintField "km" 0 60000 1 2 0) 1000 rfl (by decide) rfl
      (by decide)⟩

theorem getEditableNumber_congr (cm cf : Bool) (mem : Nat → Nat) (f g : FieldObj) (w : Bool)
    (hv : f.hdr.variant = g.hdr.variant) (he : f.editable = g.editable)
    (hs : f.size = g.size) (ht : f.target = g.target) :
    getEditableNumber cm cf mem f w = getEditableNumber cm cf mem g w := by
  simp only [getEditableNumber, hv, he, hs, ht]

theorem setEditableNumber_congr (cm cf : Bool) (mem : Nat → Nat) (f g : FieldObj) (v : Int)
    (w : Bool) (he : f.editable = g.editable) (hs : f.size = g.size)
    (ht : f.target = g.target) :
    setEditableNumber cm cf mem f v w = setEditableNumber cm cf mem g v w := by
  simp only [setEditableNumber, he, hs, ht]

theorem setDirty_apply (arena : FieldPtr → FieldObj) (p q : FieldPtr) (b : Bool) :
    setDirty arena p b q
      = if q = p then { arena p with hdr := { (arena p).hdr with dirty := b } }
        else arena q := by
  unfold setDirty
  by_cases h : q = p
  · subst h; simp
  · simp [h]

theorem setBlink_apply (arena : FieldPtr → FieldObj) (p q : FieldPtr) (b : Bool) :
    setBlink arena p b q
      = if q = p then { arena p with hdr := { (arena p).hdr with blink := b } }
        else arena q := by
  unfold setBlink
  by_cases h : q = p
  · subst h; simp
  · simp [h]

theorem sameButFlags_refl (f : FieldObj) : sameButFlags f f :=
  ⟨rfl, rfl, rfl, rfl, rfl, rfl, rfl, rfl, rfl, rfl, rfl, rfl, rfl, rfl, rfl, rfl, rfl, rfl⟩

theorem sameButFlags_trans {f g h : FieldObj} (h1 : sameButFlags f g)
    (h2 : sameButFlags g h) : sameButFlags f h :=
  ⟨h1.variant.trans h2.variant, h1.msg.trans h2.msg, h1.source.trans h2.source,
    h1.cache.trans h2.cache, h1.warn_threshold.trans h2.warn_threshold,
    h1.error_threshold.trans h2.error_threshold, h1.min_threshold.trans h2.min_threshold,
    h1.entries.trans h2.entries, h1.label.trans h2.label, h1.first.trans h2.first,
    h1.selected.trans h2.selected, h1.choices.trans h2.choices,
    h1.selector.trans h2.selector, h1.editable.trans h2.editable,
    h1.div_digits.trans h2.div_digits, h1.hide_fraction.trans h2.hide_fraction,
    h1.size.trans h2.size, h1.target.trans h2.target⟩

theorem sameButFlags_symm {f g : FieldObj} (h : sameButFlags f g) : sameButFlags g f :=
  ⟨h.variant.symm, h.msg.symm, h.source.symm, h.cache.symm, h.warn_threshold.symm,
    h.error_threshold.symm, h.min_threshold.symm, h.entries.symm, h.label.symm,
    h.first.symm, h.selected.symm, h.choices.symm, h.selector.symm, h.editable.symm,
    h.div_digits.symm, h.hide_fraction.symm, h.size.symm, h.target.symm⟩

theorem setDirty_sameButFlags (arena : FieldPtr → FieldObj) (p q : FieldPtr) (b : Bool) :
    sameButFlags (setDirty arena p b q) (arena q) := by
  rw [setDirty_apply]
  by_cases h : q = p
  · subst h; simp only [if_true]; exact ⟨rfl, rfl, rfl, rfl, rfl, rfl, rfl, rfl, rfl, rfl,
      rfl, rfl, rfl, rfl, rfl, rfl, rfl, rfl⟩
  · simp only [h, if_false]; exact sameButFlags_refl _

theorem setBlink_sameButFlags (arena : FieldPtr → FieldObj) (p q : FieldPtr) (b : Bool) :
    sameButFlags (setBlink arena p b q) (arena q) := by
  rw [setBlink_apply]
  by_cases h : q = p
  · subst h; simp only [if_true]; exact ⟨rfl, rfl, rfl, rfl, rfl, rfl, rfl, rfl, rfl, rfl,
      rfl, rfl, rfl, rfl, rfl, rfl, rfl, rfl⟩
  · simp only [h, if_false]; exact sameButFlags_refl _

theorem forceScrollableRenderUi_frame (st : UiState) :
    (forceScrollableRenderUi st).mem = st.mem ∧
    (forceScrollableRenderUi st).curActiveEditable = st.curActiveEditable ∧
    (forceScrollableRenderUi st).curCustomizingField = st.curCustomizingField ∧
    (forceScrollableRenderUi st).curEditableValueConverted = st.curEditableValueConverted ∧
    (forceScrollableRenderUi st).scrollableStack = st.scrollableStack ∧
    (forceScrollableRenderUi st).maxRowsPerScreen = st.maxRowsPerScreen ∧
    (forceScrollableRenderUi st).screenConvertMiles = st.screenConvertMiles ∧
    (forceScrollableRenderUi st).screenConvertFarenheit = st.screenConvertFarenheit ∧
    (forceScrollableRenderUi st).screenFields = st.screenFields ∧
    (forceScrollableRenderUi st).caches0 = st.caches0 ∧
    ∀ q, sameButFlags ((forceScrollableRenderUi st).arena q) (st.arena q) := by
  unfold forceScrollableRenderUi
  cases getActiveScrollable st with
  | none => simp [sameButFlags_refl]
  | some a =>
    cases st.scrollableStack.head? with
    | none => simp [sameButFlags_refl]
    | some r =>
      refine ⟨rfl, rfl, rfl, rfl, rfl, rfl, rfl, rfl, rfl, rfl, ?_⟩
      intro q
      exact setDirty_sameButFlags st.arena r q true

/-- The call `setActiveEditable(field)` while no editable is active. -/
theorem setActiveEditable_begin (st : UiState) (p : FieldPtr) (v : Int)
    (hidle : st.curActiveEditable = none)
    (hget : getEditableNumber st.screenConvertMiles st.screenConvertFarenheit st.mem
      (st.arena p) true = some v) :
    ∃ st1, setActiveEditable (some p) st = some st1 ∧
      st1.curActiveEditable = some p ∧ st1.curEditableValueConverted = v ∧
      st1.mem = st.mem ∧ st1.screenConvertMiles = st.screenConvertMiles ∧
      st1.screenConvertFarenheit = st.screenConvertFarenheit ∧
      st1.scrollableStack = st.scrollableStack ∧
      st1.curCustomizingField = st.curCustomizingField ∧
      (∀ q, sameButFlags (st1.arena q) (st.arena q)) := by
  have hsame : sameButFlags (setBlink (setDirty st.arena p true) p true p) (st.arena p) :=
    sameButFlags_trans (setBlink_sameButFlags _ p p true) (setDirty_sameButFlags _ p p true)
  have hget2 : getEditableNumber st.screenConvertMiles st.screenConvertFarenheit st.mem
      (setBlink (setDirty st.arena p true) p true p) true = some v := by
    rw [getEditableNumber_congr _ _ _ _ (st.arena p) _ hsame.variant hsame.editable
      hsame.size hsame.target]
    exact hget
  simp only [setActiveEditable, hidle, hget2]
  obtain ⟨f1, f2, f3, f4, f5, f6, f7, f8, _, _, f11⟩ := forceScrollableRenderUi_frame
    { st with curActiveEditable := some p,
              arena := setBlink (setDirty st.arena p true) p true,
              curEditableValueConverted := v }
  refine ⟨_, rfl, f2, f4, f1, f7, f8, f5, f3, ?_⟩
  intro q
  exact sameButFlags_trans (f11 q)
    (sameButFlags_trans (setBlink_sameButFlags _ p q true) (setDirty_sameButFlags _ p q true))

/-- The call `setActiveEditable(NULL)` while the editable at `p` is active. -/
theorem setActiveEditable_end (st : UiState) (p : FieldPtr) (mem1 : Nat → Nat)
    (hact : st.curActiveEditable = some p)
    (hset : setEditableNumber st.screenConvertMiles st.screenConvertFarenheit st.mem
      (st.arena p) st.curEditableValueConverted true = some mem1) :
    ∃ st2, setActiveEditable none st = some st2 ∧
      st2.curActiveEditable = none ∧ st2.mem = mem1 ∧
      st2.scrollableStack = st.scrollableStack ∧
      st2.curCustomizingField = st.curCustomizingField ∧
      st2.curEditableValueConverted = st.curEditableValueConverted ∧
      (∀ q, sameButFlags (st2.arena q) (st.arena q)) := by
  have hsame : sameButFlags (setBlink st.arena p false p) (st.arena p) :=
    setBlink_sameButFlags _ p p false
  have hset2 : setEditableNumber st.screenConvertMiles st.screenConvertFarenheit st.mem
      (setBlink st.arena p false p) st.curEditableValueConverted true = some mem1 := by
    rw [setEditableNumber_congr _ _ _ _ (st.arena p) _ _ hsame.editable hsame.size
      hsame.target]
    exact hset
  simp only [setActiveEditable, hact, hset2]
  obtain ⟨f1, f2, f3, f4, f5, _, _, _, _, _, f11⟩ := forceScrollableRenderUi_frame
    { st with arena := setBlink st.arena p false, mem := mem1, curActiveEditable := none }
  refine ⟨_, rfl, f2, f1, f5, f3, f4, ?_⟩
  intro q
  exact sameButFlags_trans (f11 q) (setBlink_sameButFlags _ p q false)

/-- An increment of an unsigned-integer editable that stays within the bounds adds the
step. -/
theorem changeEditable_increment_inside (f : Editable) (htyp : f.typ = EditableType.EditUInt)
    (cur : Int) (hmin : (f.min_value : Int) ≤ cur)
    (hmax : cur + (if f.inc_step = 0 then 1 else (f.inc_step : Int)) ≤ (f.max_value : Int))
    (h31 : cur + (if f.inc_step = 0 then 1 else (f.inc_step : Int)) ≤ INT32_MAX) :
    changeEditable f true cur
      = some (cur + (if f.inc_step = 0 then 1 else (f.inc_step : Int))) := by
  simp only [changeEditable, htyp, toInt32, toUInt32, INT32_MAX, if_true, mul_one] at *
  split_ifs at hmax ⊢ <;> first | omega | exact congrArg some (by omega)

/-- Repeated increments that stay within the bounds. -/
theorem iterate_increments (p : FieldPtr) (step : Int) :
    ∀ (k : Nat) (st : UiState), st.curActiveEditable = some p →
      (st.arena p).editable.typ = EditableType.EditUInt →
      step = (if (st.arena p).editable.inc_step = 0 then 1
              else ((st.arena p).editable.inc_step : Int)) →
      ((st.arena p).editable.min_value : Int) ≤ st.curEditableValueConverted →
      st.curEditableValueConverted + k * step ≤ ((st.arena p).editable.max_value : Int) →
      st.curEditableValueConverted + k * step ≤ INT32_MAX →
      iterateOpt (changeEditableUi true) k st
        = some { st with curEditableValueConverted := st.curEditableValueConverted + k * step } := by
  intro k
  induction k with
  | zero => intro st _ _ _ _ _ _; simp [iterateOpt]
  | succ k ih =>
    intro st hact htyp hstep hmin hmax h31
    have hs1 : 1 ≤ step := by rw [hstep]; split_ifs <;> omega
    have hk : (0 : Int) ≤ (k : Int) * step := by positivity
    have hmax1 : st.curEditableValueConverted + step
        ≤ ((st.arena p).editable.max_value : Int) := by
      have : ((k + 1 : Nat) : Int) * step = (k : Int) * step + step := by push_cast; ring
      rw [this] at hmax; omega
    have h31a : st.curEditableValueConverted + step ≤ INT32_MAX := by
      have : ((k + 1 : Nat) : Int) * step = (k : Int) * step + step := by push_cast; ring
      rw [this] at h31; omega
    have h31b : st.curEditableValueConverted + step + (k : Int) * step ≤ INT32_MAX := by
      have : ((k + 1 : Nat) : Int) * step = (k : Int) * step + step := by push_cast; ring
      rw [this] at h31; omega
    have hch := changeEditable_increment_inside (st.arena p).editable htyp
      st.curEditableValueConverted hmin (by rw [← hstep]; exact hmax1)
      (by rw [← hstep]; exact h31a)
    rw [← hstep] at hch
    simp only [iterateOpt, changeEditableUi, hact, hch, Option.some_bind]
    have hmax2 : st.curEditableValueConverted + step + (k : Int) * step
        ≤ ((st.arena p).editable.max_value : Int) := by
      have : ((k + 1 : Nat) : Int) * step = (k : Int) * step + step := by push_cast; ring
      rw [this] at hmax; omega
    have hrec := ih { st with curActiveEditable := some p,
                              curEditableValueConverted := st.curEditableValueConverted + step }
      rfl htyp hstep
      (by show ((st.arena p).editable.min_value : Int) ≤ st.curEditableValueConverted + step
          omega) hmax2 h31b
    rw [hrec]
    have e : st.curEditableValueConverted + step + (k : Int) * step
        = st.curEditableValueConverted + ((k + 1 : Nat) : Int) * step := by push_cast; ring
    simp only [e]

/-- C11: for an unsigned-integer Editable bound to a 1-byte target holding `start`, with
no unit conversion in effect, the sequence `setActiveEditable(field)`, `n` times
`changeEditable(true)`, `setActiveEditable(NULL)`, where the increments stay within the
bounds and the byte, stores `start + n*step` in the target (step is `inc_step`, 0 meaning
1) and leaves no editable active; for the target 50, bounds 0 and 100, step 5 and two
increments the target ends at 60. -/
theorem edit_session_stores (st : UiState) (p : FieldPtr) (n start : Nat)
    (hidle : st.curActiveEditable = none)
    (hvar : (st.arena p).hdr.variant = FieldVariant.FieldEditable)
    (htyp : (st.arena p).editable.typ = EditableType.EditUInt)
    (hsize : (st.arena p).size = 1)
    (hconvM : (st.screenConvertMiles && unitsAreMetric (st.arena p).editable.units) = false)
    (hconvF : (st.screenConvertFarenheit && strcmpEq (st.arena p).editable.units "C") = false)
    (hstart : st.mem (st.arena p).target = start)
    (hmin : (st.arena p).editable.min_value ≤ start)
    (hmax : start + n * (if (st.arena p).editable.inc_step = 0 then 1
                         else (st.arena p).editable.inc_step)
              ≤ (st.arena p).editable.max_value)
    (hfit : start + n * (if (st.arena p).editable.inc_step = 0 then 1
                         else (st.arena p).editable.inc_step) < 256) :
    ∃ st', editSession p n st = some st' ∧
      st'.mem (st.arena p).target
        = start + n * (if (st.arena p).editable.inc_step = 0 then 1
                       else (st.arena p).editable.inc_step) ∧
      st'.curActiveEditable = none := by
  generalize hstepdef : (if (st.arena p).editable.inc_step = 0 then 1
    else (st.arena p).editable.inc_step) = stepN at hmax hfit ⊢
  have hstartlt : start < 256 := by
    have : 0 ≤ n * stepN := Nat.zero_le _
    omega
  -- begin
  have hget : getEditableNumber st.screenConvertMiles st.screenConvertFarenheit st.mem
      (st.arena p) true = some (start : Int) := by
    simp only [getEditableNumber, hvar, ne_eq, not_true_eq_false, if_false, hsize, readTarget,
      hstart, hconvM, hconvF, if_true, Bool.false_eq_true]
    exact congrArg some (by omega)
  obtain ⟨st1, hb, hact1, hcur1, hmem1, hcm1, hcf1, _, _, hsame1⟩ :=
    setActiveEditable_begin st p start hidle hget
  have he1 : (st1.arena p).editable = (st.arena p).editable := (hsame1 p).editable
  have hstepZ : ((stepN : Nat) : Int)
      = (if (st1.arena p).editable.inc_step = 0 then 1
         else ((st1.arena p).editable.inc_step : Int)) := by
    rw [he1, ← hstepdef]; split_ifs <;> simp
  -- increments
  have hit := iterate_increments p (stepN : Int) n st1 hact1 (by rw [he1]; exact htyp) hstepZ
    (by rw [he1, hcur1]; exact_mod_cast hmin)
    (by rw [he1, hcur1]; exact_mod_cast hmax)
    (by rw [hcur1]; simp only [INT32_MAX]
        have : (start : Int) + (n : Int) * (stepN : Int) < 256 := by exact_mod_cast hfit
        omega)
  -- end
  have hset : setEditableNumber st1.screenConvertMiles st1.screenConvertFarenheit st1.mem
      (st1.arena p) (st1.curEditableValueConverted + (n : Int) * (stepN : Int)) true
      = some (Function.update st1.mem (st1.arena p).target (start + n * stepN)) := by
    have hfz : (start : Int) + (n : Int) * (stepN : Int) < 256 := by exact_mod_cast hfit
    have h0 : (0 : Int) ≤ (n : Int) * (stepN : Int) := by positivity
    have hv : toUInt32 ((start : Int) + (n : Int) * (stepN : Int))
        = (start : Int) + (n : Int) * (stepN : Int) :=
      toUInt32_of_range _ (by omega) (by omega)
    have hs1 : (st1.arena p).size = 1 := by
      rw [(hsame1 p).size]; exact hsize
    have hnat2 : (((start : Int) + (n : Int) * (stepN : Int)) % 256).toNat = start + n * stepN := by
      have : ((start + n * stepN : Nat) : Int) = (start : Int) + (n : Int) * (stepN : Int) := by
        push_cast; ring
      omega
    rw [hcur1]
    simp only [setEditableNumber, convertBack, hcm1, hcf1, he1, hconvM, hconvF, hv, hs1,
      writeTarget, if_true, Bool.false_eq_true, if_false, hnat2]
  obtain ⟨st2, he, hact2, hmem2, _⟩ := setActiveEditable_end
    { st1 with curEditableValueConverted := st1.curEditableValueConverted + (n : Int) * (stepN : Int) }
    p _ hact1 hset
  refine ⟨st2, ?_, ?_, hact2⟩
  · simp only [editSession, hb, hit, Option.some_bind]
    exact he
  · rw [hmem2, ← (hsame1 p).target, Function.update_same]

/-- Witness for C11: a 1-byte target holding 50, bounds 0 and 100, step 5, two
increments: the target ends at 60 and no editable is active. -/
theorem edit_session_stores_witness :
    (editSession 7 2 (uiIdle (fun _ => uintField "" 0 100 5 1 3) (memOf 50))).map
      (fun st => (st.mem 3, st.curActiveEditable)) = some (60, none) ∧
    ∃ st', editSession 7 2 (uiIdle (fun _ => uintField "" 0 100 5 1 3) (memOf 50)) = some st' ∧
      st'.mem 3 = 50 + 2 * 5 ∧ st'.curActiveEditable = none :=
  ⟨by decide,
    edit_session_stores (uiIdle (fun _ => uintField "" 0 100 5 1 3) (memOf 50)) 7 2 50 rfl rfl
      rfl rfl rfl rfl rfl (by decide) (by decide) (by decide)⟩

/-- Reading a target and writing the value back unchanged restores its content. -/
theorem read_write_target (size x : Nat)
    (hfit : (size = 1 ∧ x < 256) ∨ (size = 2 ∧ x < 65536) ∨ (size = 4 ∧ x < 4294967296)) :
    ∃ n, readTarget size x = some n ∧ writeTarget size (toUInt32 n) = some x := by
  rcases hfit with ⟨hs, hb⟩ | ⟨hs, hb⟩ | ⟨hs, hb⟩ <;> subst hs <;>
    refine ⟨_, rfl, ?_⟩ <;>
    simp only [writeTarget, toUInt32, toInt16, toInt32] <;>
    exact congrArg some (by omega)

/-- C13 as stated fails: with Fahrenheit enabled, units "C" and a 4-byte target holding
1000000000 (its Fahrenheit value 1800000032 fits 4 bytes), the product `c*9` leaves the
`int32_t` range: the displayed value is 82013113 and the value written back is 45562822. -/
theorem celsius_round_trip_counterexample :
    (32 + 1000000000 * 9 / 5 : Nat) < 4294967296 ∧
    getEditableNumber false true (memOf 1000000000) (uintField "C" 0 100 1 4 0) true
      = some 82013113 ∧
    (setEditableNumber false true (memOf 1000000000) (uintField "C" 0 100 1 4 0)
      82013113 true).map (fun mem => mem 0) = some 45562822 ∧
    ¬ ((1000000000 : Nat) ≤ 45562822 + 1) := by
  refine ⟨by decide, ?_, ?_, by decide⟩
  · rw [getEditableNumber_celsius false _ _ (1000000000 : Int) rfl (by decide)
      (by simp [readTarget, uintField, memOf, toInt32])]
    norm_num [toInt32, cdiv, Int.tdiv]
  · rw [setEditableNumber_celsius false _ _ _ (by decide)]
    norm_num [writeTarget, toUInt32, uintField]
    rfl

/-- C13 amended: with `screenConvertFarenheit` enabled and units exactly "C", for every
stored value `c` that `getEditableNumber` reads as a non-negative `int` whose ninefold fits
an `int` (every value of a 1-byte target, values below 32768 of a 2-byte target, values up
to 238609294 of a 4-byte target), converting with `getEditableNumber(field, true)` and
writing back with `setEditableNumber(field, v, true)` leaves a stored value between `c - 1`
and `c`; and with both conversion flags disabled the round trip returns exactly the
original value, for every content of a 1-, 2- or 4-byte target. -/
theorem celsius_round_trip (convMiles : Bool) (mem : Nat → Nat) (f : FieldObj) (c : Nat)
    (hvar : f.hdr.variant = FieldVariant.FieldEditable)
    (hunits : strcmpEq f.editable.units "C" = true)
    (hc : mem f.target = c)
    (hfit : (f.size = 1 ∧ c < 256) ∨ (f.size = 2 ∧ c < 32768) ∨
      (f.size = 4 ∧ c ≤ 238609294)) :
    (∃ v mem', getEditableNumber convMiles true mem f true = some v ∧
      setEditableNumber convMiles true mem f v true = some mem' ∧
      mem' f.target ≤ c ∧ c ≤ mem' f.target + 1) ∧
    (∀ (g : FieldObj) (mem0 : Nat → Nat),
      g.hdr.variant = FieldVariant.FieldEditable →
      ((g.size = 1 ∧ mem0 g.target < 256) ∨ (g.size = 2 ∧ mem0 g.target < 65536) ∨
        (g.size = 4 ∧ mem0 g.target < 4294967296)) →
      ∃ v mem', getEditableNumber false false mem0 g true = some v ∧
        setEditableNumber false false mem0 g v true = some mem' ∧
        mem' g.target = mem0 g.target) := by
  constructor
  · have hfit2 : (f.size = 1 ∧ c < 256) ∨ (f.size = 2 ∧ c < 32768) ∨
        (f.size = 4 ∧ c < 2147483648) := by omega
    obtain ⟨h1, h2, h3⟩ := celsius_round_trip_value (c : Int) (by omega) (by omega)
    have hread : readTarget f.size (mem f.target) = some (c : Int) := by
      rw [hc]; exact readTarget_small f.size c hfit2
    refine ⟨toInt32 (32 + cdiv (toInt32 ((c : Int) * 9)) 5),
      Function.update mem f.target
        (toUInt32 (toUInt32 (toUInt32 (toInt32 (32 + cdiv (toInt32 ((c : Int) * 9)) 5)) - 32)
          * 5) / 9).toNat,
      getEditableNumber_celsius convMiles mem f c hvar hunits hread, ?_, ?_, ?_⟩
    · rw [setEditableNumber_celsius convMiles mem f _ hunits,
        writeTarget_small f.size c _ h3 h1 hfit2]
      rfl
    · rw [Function.update_same]; omega
    · rw [Function.update_same]; omega
  · intro g mem0 hg hfitg
    obtain ⟨n, hr, hw⟩ := read_write_target g.size (mem0 g.target) hfitg
    refine ⟨n, Function.update mem0 g.target (mem0 g.target), ?_, ?_, ?_⟩
    · simp [getEditableNumber, hg, hr]
    · simp only [setEditableNumber, convertBack, Bool.false_and, Bool.false_eq_true, if_false,
        if_true, hw]
    · rw [Function.update_same]

/-- Witness for C13 amended: a 1-byte target holding 37 degrees Celsius, shown as 98
degrees Fahrenheit and written back as 36. -/
theorem celsius_round_trip_witness :
    getEditableNumber false true (memOf 37) (uintField "C" 0 100 1 1 0) true = some 98 ∧
    (setEditableNumber false true (memOf 37) (uintField "C" 0 100 1 1 0) 98 true).map
      (fun mem => mem 0) = some 36 ∧
    ((∃ v mem', getEditableNumber false true (memOf 37) (uintField "C" 0 100 1 1 0) true
        = some v ∧
      setEditableNumber false true (memOf 37) (uintField "C" 0 100 1 1 0) v true = some mem' ∧
      mem' (uintField "C" 0 100 1 1 0).target ≤ 37 ∧
      37 ≤ mem' (uintField "C" 0 100 1 1 0).target + 1) ∧
    (∀ (g : FieldObj) (mem0 : Nat → Nat),
      g.hdr.variant = FieldVariant.FieldEditable →
      ((g.size = 1 ∧ mem0 g.target < 256) ∨ (g.size = 2 ∧ mem0 g.target < 65536) ∨
        (g.size = 4 ∧ mem0 g.target < 4294967296)) →
      ∃ v mem', getEditableNumber false false mem0 g true = some v ∧
        setEditableNumber false false mem0 g v true = some mem' ∧
        mem' g.target = mem0 g.target)) :=
  ⟨by decide, by decide,
    celsius_round_trip false (memOf 37) (uintField "C" 0 100 1 1 0) 37 rfl (by decide) rfl
      (by decide)⟩

/-! ## Text fields and graph thresholds -/

theorem cdiv_of_neg (a b : Int) (ha : a < 0) (hb : 0 ≤ b) : cdiv a b = -((-a) / b) := by
  have h := Int.neg_tdiv (-a) b
  rw [neg_neg] at h
  rw [cdiv, h, Int.tdiv_eq_ediv (by omega) hb]

/-- The row `graphScaleY` gives for the running range 0 to 100, on a plot within the
screen coordinates. -/
theorem graphScaleY_range100 (g : GraphGeom) (cache : GraphCache) (x : Int)
    (hmin : cache.min_val = 0) (hmax : cache.max_val = 100)
    (hpos : 0 < g.graphYmax) (hgeom : g.graphYmax < g.graphYmin - 1)
    (hbound : g.graphYmin ≤ 65535) (hx0 : 0 ≤ x) (hx1 : x ≤ 120) :
    graphScaleY g cache x
      = cdiv ((g.graphYmin - 1) * (100 - x) + g.graphYmax * x) 100 := by
  have hA0 : 0 ≤ g.graphYmin - 1 := by omega
  have hA1 : g.graphYmin - 1 ≤ 65534 := by omega
  have hB1 : g.graphYmax ≤ 65534 := by omega
  have p1 : (g.graphYmin - 1) * (100 - x) ≤ 65534 * 100 := by nlinarith
  have p2 : -(65534 * 20) ≤ (g.graphYmin - 1) * (100 - x) := by nlinarith
  have p3 : g.graphYmax * x ≤ 65534 * 120 := by nlinarith
  have p4 : 0 ≤ g.graphYmax * x := by nlinarith
  simp only [graphScaleY, hmin, hmax, sub_zero]
  rw [if_neg (by decide), toInt32_of_range (100 - x) (by omega) (by omega),
    toInt32_of_range x (by omega) (by omega),
    toInt32_of_range ((g.graphYmin - 1) * (100 - x)) (by omega) (by omega),
    toInt32_of_range (g.graphYmax * x) (by omega) (by omega),
    toInt32_of_range _ (by omega) (by omega), toInt32_of_range 100 (by decide) (by decide)]

/-- The row of a sample between the running minimum 0 and maximum 100 lies at or below
the top row of the plot. -/
theorem graphScaleY_sample (g : GraphGeom) (cache : GraphCache) (val : Int)
    (hmin : cache.min_val = 0) (hmax : cache.max_val = 100)
    (hpos : 0 < g.graphYmax) (hgeom : g.graphYmax < g.graphYmin - 1)
    (hbound : g.graphYmin ≤ 65535) (hv0 : 0 ≤ val) (hv1 : val ≤ 100) :
    graphScaleY g cache val
      = ((g.graphYmin - 1) * (100 - val) + g.graphYmax * val) / 100 ∧
    g.graphYmax ≤ graphScaleY g cache val := by
  have hN : 100 * g.graphYmax ≤ (g.graphYmin - 1) * (100 - val) + g.graphYmax * val := by
    nlinarith
  have e := graphScaleY_range100 g cache val hmin hmax hpos hgeom hbound hv0 (by omega)
  rw [cdiv_of_nonneg _ _ (by omega) (by decide)] at e
  refine ⟨e, ?_⟩
  rw [e]
  omega

/-- The error threshold 120 above the running maximum 100 scales to a row above the plot,
or to the value `-1` that stands for no threshold. -/
theorem graphThresholdY_error (g : GraphGeom) (cache : GraphCache)
    (hmin : cache.min_val = 0) (hmax : cache.max_val = 100)
    (hpos : 0 < g.graphYmax) (hgeom : g.graphYmax < g.graphYmin - 1)
    (hbound : g.graphYmin ≤ 65535) :
    graphThresholdY g cache 120 < g.graphYmax := by
  have e := graphScaleY_range100 g cache 120 hmin hmax hpos hgeom hbound (by decide)
    (by decide)
  have hlt : graphScaleY g cache 120 < g.graphYmax := by
    rw [e]
    by_cases hn : 0 ≤ (g.graphYmin - 1) * (100 - 120) + g.graphYmax * 120
    · rw [cdiv_of_nonneg _ _ hn (by decide)]; omega
    · rw [cdiv_of_neg _ _ (by omega) (by decide)]; omega
  simp only [graphThresholdY]
  rw [if_pos (by decide), if_neg (by omega)]
  exact hlt

/-- The warn threshold 90 scales to a row of the plot. -/
theorem graphThresholdY_warn (g : GraphGeom) (cache : GraphCache)
    (hmin : cache.min_val = 0) (hmax : cache.max_val = 100)
    (hpos : 0 < g.graphYmax) (hgeom : g.graphYmax < g.graphYmin - 1)
    (hbound : g.graphYmin ≤ 65535) :
    graphThresholdY g cache 90 = graphScaleY g cache 90 ∧
    g.graphYmax ≤ graphThresholdY g cache 90 := by
  obtain ⟨e, hge⟩ := graphScaleY_sample g cache 90 hmin hmax hpos hgeom hbound (by decide)
    (by decide)
  have hle : graphScaleY g cache 90 ≤ g.graphYmin - 1 := by rw [e]; omega
  have ht : graphThresholdY g cache 90 = graphScaleY g cache 90 := by
    simp only [graphThresholdY]
    rw [if_pos (by decide), if_neg (by omega)]
  exact ⟨ht, by rw [ht]; exact hge⟩

/-- The lines of one column for the thresholds 90 and 120 on the running range 0 to 100:
no error line, and a warn line exactly when the sample is not drawn below the row of 90. -/
theorem graphDrawColumn_range100 (g : GraphGeom) (cache : GraphCache) (x val : Int)
    (hmin : cache.min_val = 0) (hmax : cache.max_val = 100)
    (hpos : 0 < g.graphYmax) (hgeom : g.graphYmax < g.graphYmin - 1)
    (hbound : g.graphYmin ≤ 65535) (hv0 : 0 ≤ val) (hv1 : val ≤ 100) :
    graphDrawColumn g cache (graphThresholdY g cache 90) (graphThresholdY g cache 120) x val
      = [DrawOp.drawLine x g.graphYmax x (graphScaleY g cache val - 1) GRAPH_COLOR_BACKGROUND]
        ++ (if graphScaleY g cache val ≤ graphScaleY g cache 90
            then [DrawOp.drawLine x (graphScaleY g cache val) x (graphScaleY g cache 90)
                    GRAPH_COLOR_WARN] else [])
        ++ [DrawOp.drawLine x
              (if graphScaleY g cache val ≤ graphScaleY g cache 90
               then graphScaleY g cache 90 + 1 else graphScaleY g cache val)
              x g.graphYmin GRAPH_COLOR_NORMAL] := by
  have herr := graphThresholdY_error g cache hmin hmax hpos hgeom hbound
  obtain ⟨hw, hwge⟩ := graphThresholdY_warn g cache hmin hmax hpos hgeom hbound
  obtain ⟨_, hy⟩ := graphScaleY_sample g cache val hmin hmax hpos hgeom hbound hv0 hv1
  have hnoerr : ¬ graphScaleY g cache val ≤ graphThresholdY g cache 120 := by omega
  have hwne : graphScaleY g cache 90 ≠ -1 := by omega
  by_cases hc : graphScaleY g cache val ≤ graphScaleY g cache 90
  · simp [graphDrawColumn, hnoerr, hwne, hw, hc]
  · simp [graphDrawColumn, hnoerr, hwne, hw, hc]

/-- The rows of the samples fall as the samples rise, on the running range 0 to 100. -/
theorem graphScaleY_antitone100 (g : GraphGeom) (cache : GraphCache) (a b : Int)
    (hmin : cache.min_val = 0) (hmax : cache.max_val = 100)
    (hpos : 0 < g.graphYmax) (hgeom : g.graphYmax < g.graphYmin - 1)
    (hbound : g.graphYmin ≤ 65535) (ha0 : 0 ≤ a) (hab : a ≤ b) (hb1 : b ≤ 100) :
    graphScaleY g cache b ≤ graphScaleY g cache a ∧
    (100 ≤ g.graphYmin - 1 - g.graphYmax → a < b →
      graphScaleY g cache b < graphScaleY g cache a) := by
  obtain ⟨ea, _⟩ := graphScaleY_sample g cache a hmin hmax hpos hgeom hbound ha0 (by omega)
  obtain ⟨eb, _⟩ := graphScaleY_sample g cache b hmin hmax hpos hgeom hbound (by omega) hb1
  rw [ea, eb]
  constructor
  · apply Int.ediv_le_ediv (by decide)
    nlinarith
  · intro hd hlt
    have h100 : (g.graphYmin - 1) * (100 - b) + g.graphYmax * b + 100
        ≤ (g.graphYmin - 1) * (100 - a) + g.graphYmax * a := by nlinarith
    have hstep : ((g.graphYmin - 1) * (100 - b) + g.graphYmax * b + 100) / 100
        ≤ ((g.graphYmin - 1) * (100 - a) + g.graphYmax * a) / 100 :=
      Int.ediv_le_ediv (by decide) h100
    omega

theorem graphDrawColumns_no_error (g : GraphGeom) (cache : GraphCache)
    (hmin : cache.min_val = 0) (hmax : cache.max_val = 100)
    (hpos : 0 < g.graphYmax) (hgeom : g.graphYmax < g.graphYmin - 1)
    (hbound : g.graphYmin ≤ 65535) (samples : List Int) :
    ∀ x : Int, (∀ v ∈ samples, 0 ≤ v ∧ v ≤ 100) →
      ∀ op ∈ graphDrawColumns g cache (graphThresholdY g cache 90)
          (graphThresholdY g cache 120) x samples,
        op.color ≠ GRAPH_COLOR_ERROR := by
  induction samples with
  | nil => intro x _ op hop; simp [graphDrawColumns] at hop
  | cons v rest ih =>
    intro x hs op hop
    simp only [graphDrawColumns, List.mem_append] at hop
    rcases hop with hop | hop
    · rw [graphDrawColumn_range100 g cache _ v hmin hmax hpos hgeom hbound
        (hs v (by simp)).1 (hs v (by simp)).2] at hop
      simp only [List.mem_append, List.mem_singleton] at hop
      rcases hop with (hop | hop) | hop
      · subst hop; simp [DrawOp.color, GRAPH_COLOR_BACKGROUND, GRAPH_COLOR_ERROR]
      · split_ifs at hop
        · simp only [List.mem_singleton] at hop
          subst hop; simp [DrawOp.color, GRAPH_COLOR_WARN, GRAPH_COLOR_ERROR]
        · simp at hop
      · subst hop; simp [DrawOp.color, GRAPH_COLOR_NORMAL, GRAPH_COLOR_ERROR]
    · exact ih _ (fun w hw => hs w (by simp [hw])) op hop

/-- C15 as stated fails: on a plot of 40 rows (`graphYmax = 12`, `graphYmin = 53`) with
the running range 0 to 100 and the thresholds 90 and 120, the sample 89 is drawn on the
row of 90 (row 16) and gets a warn-coloured line. -/
theorem graph_threshold_counterexample :
    (geomOf 10 12 53).graphYmax < (geomOf 10 12 53).graphYmin - 1 ∧
    graphDrawPoints (geomOf 10 12 53) (graphField 90 120) (cacheOf 0 100 [89])
      = [DrawOp.drawLine 11 12 11 15 GRAPH_COLOR_BACKGROUND,
         DrawOp.drawLine 11 16 11 16 GRAPH_COLOR_WARN,
         DrawOp.drawLine 11 17 11 53 GRAPH_COLOR_NORMAL] ∧
    ¬ ((90 : Int) ≤ 89) := by
  decide

/-- C15 amended: for a graph cache with running range `min_val = 0`, `max_val = 100`,
`warn_threshold = 90` and `error_threshold = 120`, and every drawing geometry on the
screen with `0 < graphYmax < graphYmin - 1`: `graphDrawPoints` draws no error-coloured
segment while every sample of the ring is in [0, 100]; for a sample value in [0, 100] the
column gets a warn-coloured segment exactly when the sample's row is not below the row of
90, hence for every sample `≥ 90`, and on a plot of at least 100 rows only for samples
`≥ 90`. -/
theorem graph_threshold_segments (g : GraphGeom) (cache : GraphCache) (f : FieldObj)
    (hmin : cache.min_val = 0) (hmax : cache.max_val = 100)
    (hw : f.warn_threshold = 90) (he : f.error_threshold = 120)
    (hpos : 0 < g.graphYmax) (hgeom : g.graphYmax < g.graphYmin - 1)
    (hbound : g.graphYmin ≤ 65535) :
    ((∀ v ∈ graphSamples cache, 0 ≤ v ∧ v ≤ 100) →
      ∀ op ∈ graphDrawPoints g f cache, op.color ≠ GRAPH_COLOR_ERROR) ∧
    ∀ x val : Int, 0 ≤ val → val ≤ 100 →
      (∀ op ∈ graphDrawColumn g cache (graphThresholdY g cache f.warn_threshold)
          (graphThresholdY g cache f.error_threshold) x val,
        op.color ≠ GRAPH_COLOR_ERROR) ∧
      ((∃ op ∈ graphDrawColumn g cache (graphThresholdY g cache f.warn_threshold)
          (graphThresholdY g cache f.error_threshold) x val,
        op.color = GRAPH_COLOR_WARN) ↔ graphScaleY g cache val ≤ graphScaleY g cache 90) ∧
      (90 ≤ val → graphScaleY g cache val ≤ graphScaleY g cache 90) ∧
      (100 ≤ g.graphYmin - 1 - g.graphYmax →
        graphScaleY g cache val ≤ graphScaleY g cache 90 → 90 ≤ val) := by
  rw [hw, he]
  refine ⟨?_, ?_⟩
  · intro hs op hop
    simp only [graphDrawPoints, hw, he] at hop
    split_ifs at hop
    · simp at hop
    · exact graphDrawColumns_no_error g cache hmin hmax hpos hgeom hbound _ _ hs op hop
  · intro x val hv0 hv1
    have hcol := graphDrawColumn_range100 g cache x val hmin hmax hpos hgeom hbound hv0 hv1
    refine ⟨?_, ?_, ?_, ?_⟩
    · intro op hop
      rw [hcol] at hop
      simp only [List.mem_append, List.mem_singleton] at hop
      rcases hop with (hop | hop) | hop
      · subst hop; simp [DrawOp.color, GRAPH_COLOR_BACKGROUND, GRAPH_COLOR_ERROR]
      · split_ifs at hop
        · simp only [List.mem_singleton] at hop
          subst hop; simp [DrawOp.color, GRAPH_COLOR_WARN, GRAPH_COLOR_ERROR]
        · simp at hop
      · subst hop; simp [DrawOp.color, GRAPH_COLOR_NORMAL, GRAPH_COLOR_ERROR]
    · rw [hcol]
      by_cases hc : graphScaleY g cache val ≤ graphScaleY g cache 90
      · simp [hc, DrawOp.color, GRAPH_COLOR_WARN]
      · simp [hc, DrawOp.color, GRAPH_COLOR_WARN, GRAPH_COLOR_BACKGROUND, GRAPH_COLOR_NORMAL]
    · intro h90
      exact (graphScaleY_antitone100 g cache 90 val hmin hmax hpos hgeom hbound (by decide)
        h90 hv1).1
    · intro hd hle
      by_contra hlt
      have := (graphScaleY_antitone100 g cache val 90 hmin hmax hpos hgeom hbound hv0
        (by omega) (by decide)).2 hd (by omega)
      omega

/-- Witness for C15 amended: a plot of 120 rows (`graphYmax = 20`, `graphYmin = 141`) and
the samples 50 and 95, of which only 95 gets a warn-coloured line. -/
theorem graph_threshold_segments_witness :
    graphDrawPoints (geomOf 10 20 141) (graphField 90 120) (cacheOf 0 100 [50, 95])
      = [DrawOp.drawLine 11 20 11 79 GRAPH_COLOR_BACKGROUND,
         DrawOp.drawLine 11 80 11 141 GRAPH_COLOR_NORMAL,
         DrawOp.drawLine 12 20 12 25 GRAPH_COLOR_BACKGROUND,
         DrawOp.drawLine 12 26 12 32 GRAPH_COLOR_WARN,
         DrawOp.drawLine 12 33 12 141 GRAPH_COLOR_NORMAL] ∧
    (((∀ v ∈ graphSamples (cacheOf 0 100 [50, 95]), 0 ≤ v ∧ v ≤ 100) →
      ∀ op ∈ graphDrawPoints (geomOf 10 20 141) (graphField 90 120) (cacheOf 0 100 [50, 95]),
        op.color ≠ GRAPH_COLOR_ERROR) ∧
    ∀ x val : Int, 0 ≤ val → val ≤ 100 →
      (∀ op ∈ graphDrawColumn (geomOf 10 20 141) (cacheOf 0 100 [50, 95])
          (graphThresholdY (geomOf 10 20 141) (cacheOf 0 100 [50, 95]) (graphField 90 120).warn_threshold)
          (graphThresholdY (geomOf 10 20 141) (cacheOf 0 100 [50, 95]) (graphField 90 120).error_threshold) x val,
        op.color ≠ GRAPH_COLOR_ERROR) ∧
      ((∃ op ∈ graphDrawColumn (geomOf 10 20 141) (cacheOf 0 100 [50, 95])
          (graphThresholdY (geomOf 10 20 141) (cacheOf 0 100 [50, 95]) (graphField 90 120).warn_threshold)
          (graphThresholdY (geomOf 10 20 141) (cacheOf 0 100 [50, 95]) (graphField 90 120).error_threshold) x val,
        op.color = GRAPH_COLOR_WARN) ↔
        graphScaleY (geomOf 10 20 141) (cacheOf 0 100 [50, 95]) val ≤ graphScaleY (geomOf 10 20 141) (cacheOf 0 100 [50, 95]) 90) ∧
      (90 ≤ val → graphScaleY (geomOf 10 20 141) (cacheOf 0 100 [50, 95]) val ≤ graphScaleY (geomOf 10 20 141) (cacheOf 0 100 [50, 95]) 90) ∧
      (100 ≤ (geomOf 10 20 141).graphYmin - 1 - (geomOf 10 20 141).graphYmax →
        graphScaleY (geomOf 10 20 141) (cacheOf 0 100 [50, 95]) val ≤ graphScaleY (geomOf 10 20 141) (cacheOf 0 100 [50, 95]) 90 → 90 ≤ val)) :=
  ⟨by decide,
    graph_threshold_segments (geomOf 10 20 141) (cacheOf 0 100 [50, 95]) (graphField 90 120) rfl rfl rfl rfl
      (by decide) (by decide) (by decide)⟩

/-- C17: for a DrawText field, `fieldPrintf` leaves the formatted text, truncated to
`MAX_FIELD_LEN - 1` characters, in the field; it sets `dirty` exactly when that text
differs from the text stored before, and when the text is identical the field is left
unchanged, so that `dirty` is never cleared; for a field of another variant the assertion
fails. -/
theorem fieldPrintf_stores_and_marks (field : FieldObj) (formatted : List Char) :
    (field.hdr.variant = FieldVariant.FieldDrawText →
      ∃ f', fieldPrintf field formatted = some f' ∧
        f'.msg = formatted.take (MAX_FIELD_LEN - 1) ∧
        f'.hdr.dirty
          = (field.hdr.dirty || decide (formatted.take (MAX_FIELD_LEN - 1) ≠ field.msg)) ∧
        (formatted.take (MAX_FIELD_LEN - 1) = field.msg → f' = field) ∧
        (field.hdr.dirty = true → f'.hdr.dirty = true) ∧
        f' = { field with msg := f'.msg, hdr := { field.hdr with dirty := f'.hdr.dirty } }) ∧
    (field.hdr.variant ≠ FieldVariant.FieldDrawText → fieldPrintf field formatted = none) := by
  constructor
  · intro hv
    by_cases hd : formatted.take (MAX_FIELD_LEN - 1) = field.msg
    · refine ⟨field, ?_, hd.symm, ?_, fun _ => rfl, fun h => h, rfl⟩
      · simp [fieldPrintf, hv, hd]
      · simp [hd]
    · refine ⟨{ field with msg := formatted.take (MAX_FIELD_LEN - 1),
                           hdr := { field.hdr with dirty := true } }, ?_, rfl, ?_,
        fun h => absurd h hd, fun _ => rfl, rfl⟩
      · simp [fieldPrintf, hv, hd]
      · simp [hd]
  · intro hv
    simp [fieldPrintf, hv]

/-- Witness for C17: the text "abc" replaced by "abcd" sets `dirty`, and printing "abcd"
again changes nothing. -/
theorem fieldPrintf_stores_and_marks_witness :
    (fieldPrintf (textField "abc" false) "abcd".data).map (fun f => (f.msg, f.hdr.dirty))
      = some ("abcd".data, true) ∧
    fieldPrintf (textField "abcd" false) "abcd".data = some (textField "abcd" false) ∧
    ∃ f', fieldPrintf (textField "abc" false) "abcd".data = some f' ∧
      f'.msg = "abcd".data.take (MAX_FIELD_LEN - 1) ∧
      f'.hdr.dirty
        = ((textField "abc" false).hdr.dirty
            || decide ("abcd".data.take (MAX_FIELD_LEN - 1) ≠ (textField "abc" false).msg)) ∧
      ("abcd".data.take (MAX_FIELD_LEN - 1) = (textField "abc" false).msg →
        f' = textField "abc" false) ∧
      ((textField "abc" false).hdr.dirty = true → f'.hdr.dirty = true) ∧
      f' = { textField "abc" false with
              msg := f'.msg,
              hdr := { (textField "abc" false).hdr with dirty := f'.hdr.dirty } } :=
  ⟨by decide, by simp [fieldPrintf, textField, MAX_FIELD_LEN],
    (fieldPrintf_stores_and_marks (textField "abc" false) "abcd".data).1 rfl⟩

/-! ## Choosing the field to customize -/

theorem customizablesOf_congr (a1 a2 : FieldPtr → FieldObj)
    (h : ∀ q, (a1 q).hdr.variant = (a2 q).hdr.variant) (ls : List FieldLayout) :
    customizablesOf a1 ls = customizablesOf a2 ls := by
  induction ls with
  | nil => rfl
  | cons l rest ih =>
    simp only [customizablesOf]
    cases l.field with
    | none => rfl
    | some f => simp only [h f, ih]

theorem selectNextLoop_congr (a1 a2 : FieldPtr → FieldObj)
    (h : ∀ q, (a1 q).hdr.variant = (a2 q).hdr.variant) (cur : Option FieldPtr)
    (ls : List FieldLayout) :
    ∀ first w, selectNextLoop a1 cur ls first w = selectNextLoop a2 cur ls first w := by
  induction ls with
  | nil => intro first w; rfl
  | cons l rest ih =>
    intro first w
    simp only [selectNextLoop]
    cases l.field with
    | none => rfl
    | some f => simp only [h f, ih]

/-- With `wantNext` set the loop takes the first Customizable it meets. -/
theorem selectNextLoop_want (arena : FieldPtr → FieldObj) (cur : Option FieldPtr)
    (ls : List FieldLayout) :
    ∀ first, selectNextLoop arena cur ls first true =
      (match (customizablesOf arena ls).head? with
       | some x => some x
       | none => first) := by
  induction ls with
  | nil => intro first; rfl
  | cons l rest ih =>
    intro first
    simp only [selectNextLoop, customizablesOf]
    cases l.field with
    | none => rfl
    | some f =>
      by_cases hv : (arena f).hdr.variant = FieldVariant.FieldCustomizable
      · simp [hv]
      · simp only [hv, if_false]; exact ih first

/-- When the current field is not among the Customizables of the list, the loop ends on
the first Customizable found. -/
theorem selectNextLoop_absent (arena : FieldPtr → FieldObj) (cur : Option FieldPtr)
    (ls : List FieldLayout) :
    ∀ first, (∀ c, cur = some c → c ∉ customizablesOf arena ls) →
      selectNextLoop arena cur ls first false =
        (match first with
         | some x => some x
         | none => (customizablesOf arena ls).head?) := by
  induction ls with
  | nil => intro first _; cases first <;> rfl
  | cons l rest ih =>
    intro first hc
    simp only [selectNextLoop, customizablesOf] at hc ⊢
    cases hf : l.field with
    | none => cases first <;> rfl
    | some f =>
      rw [hf] at hc
      by_cases hv : (arena f).hdr.variant = FieldVariant.FieldCustomizable
      · simp only [hv, if_true] at hc ⊢
        have hne : decide (some f = cur) = false := by
          apply decide_eq_false
          intro h
          exact hc f h.symm (List.mem_cons_self _ _)
        have hrest : ∀ c, cur = some c → c ∉ customizablesOf arena rest := by
          intro c h hm
          exact hc c h (List.mem_cons_of_mem _ hm)
        simp only [hne, Bool.false_eq_true, if_false]
        rw [ih _ hrest]
        cases first <;> simp
      · simp only [hv, if_false] at hc ⊢
        exact ih first hc

/-- When the current field is followed by another Customizable, the loop takes that
one. -/
theorem selectNextLoop_next (arena : FieldPtr → FieldObj) (c n : FieldPtr)
    (ls : List FieldLayout) :
    ∀ first pre post, customizablesOf arena ls = pre ++ c :: n :: post → c ∉ pre →
      selectNextLoop arena (some c) ls first false = some n := by
  induction ls with
  | nil =>
    intro first pre post h _
    simp [customizablesOf] at h
  | cons l rest ih =>
    intro first pre post h hpre
    simp only [selectNextLoop, customizablesOf] at h ⊢
    cases hf : l.field with
    | none => rw [hf] at h; simp at h
    | some f =>
      rw [hf] at h
      by_cases hv : (arena f).hdr.variant = FieldVariant.FieldCustomizable
      · simp only [hv, if_true] at h ⊢
        cases pre with
        | nil =>
          simp only [List.nil_append, List.cons.injEq] at h
          obtain ⟨hfc, hrest⟩ := h
          subst hfc
          simp only [decide_True, Bool.false_eq_true, if_false]
          rw [selectNextLoop_want, hrest]
          rfl
        | cons x pre1 =>
          simp only [List.cons_append, List.cons.injEq] at h
          obtain ⟨hfx, hrest⟩ := h
          subst hfx
          have hne : decide (some f = some c) = false := by
            apply decide_eq_false
            intro h
            injection h with h
            exact hpre (by rw [h]; exact List.mem_cons_self _ _)
          simp only [hne, Bool.false_eq_true, if_false]
          exact ih _ pre1 post hrest (fun hm => hpre (List.mem_cons_of_mem _ hm))
      · simp only [hv, if_false] at h ⊢
        exact ih first pre post h hpre

/-- When the current field is the last Customizable of the list, the loop wraps to the
first one. -/
theorem selectNextLoop_last (arena : FieldPtr → FieldObj) (c : FieldPtr)
    (ls : List FieldLayout) :
    ∀ first pre, customizablesOf arena ls = pre ++ [c] → c ∉ pre →
      selectNextLoop arena (some c) ls first false =
        (match first with
         | some x => some x
         | none => (pre ++ [c]).head?) := by
  induction ls with
  | nil =>
    intro first pre h _
    simp [customizablesOf] at h
  | cons l rest ih =>
    intro first pre h hpre
    simp only [selectNextLoop, customizablesOf] at h ⊢
    cases hf : l.field with
    | none => rw [hf] at h; simp at h
    | some f =>
      rw [hf] at h
      by_cases hv : (arena f).hdr.variant = FieldVariant.FieldCustomizable
      · simp only [hv, if_true] at h ⊢
        cases pre with
        | nil =>
          simp only [List.nil_append, List.cons.injEq] at h
          obtain ⟨hfc, hrest⟩ := h
          subst hfc
          simp only [decide_True, Bool.false_eq_true, if_false]
          rw [selectNextLoop_want, hrest]
          cases first <;> simp
        | cons x pre1 =>
          simp only [List.cons_append, List.cons.injEq] at h
          obtain ⟨hfx, hrest⟩ := h
          subst hfx
          have hne : decide (some f = some c) = false := by
            apply decide_eq_false
            intro h
            injection h with h
            exact hpre (by rw [h]; exact List.mem_cons_self _ _)
          simp only [hne, Bool.false_eq_true, if_false]
          rw [ih _ pre1 hrest (fun hm => hpre (List.mem_cons_of_mem _ hm))]
          cases first <;> simp
      · simp only [hv, if_false] at h ⊢
        exact ih first pre h hpre

/-- C20: `selectNextCustomizableField` returns for every layout list. With `cs` the
Customizable fields of the list in list order: when there is none the controller ends
idle; when no field was being customized it selects the first of `cs`; when the field
being customized is followed in `cs` by another one it moves to that one; when it is the
last of `cs` it wraps to the first; when it is not on the screen it selects the first. -/
theorem select_next_customizable (st : UiState) (ls : List FieldLayout)
    (hs : st.screenFields = some ls)
    (hc : ∀ c, st.curCustomizingField = some c → (currentChoice st c).isSome = true) :
    ∃ st1, selectNextCustomizableField st = some st1 ∧
      (customizablesOf st.arena ls = [] → st1.curCustomizingField = none) ∧
      (st.curCustomizingField = none →
        st1.curCustomizingField = (customizablesOf st.arena ls).head?) ∧
      (∀ c pre n post, st.curCustomizingField = some c →
        customizablesOf st.arena ls = pre ++ c :: n :: post → c ∉ pre →
        st1.curCustomizingField = some n) ∧
      (∀ c pre, st.curCustomizingField = some c →
        customizablesOf st.arena ls = pre ++ [c] → c ∉ pre →
        st1.curCustomizingField = (customizablesOf st.arena ls).head?) ∧
      (∀ c, st.curCustomizingField = some c → c ∉ customizablesOf st.arena ls →
        st1.curCustomizingField = (customizablesOf st.arena ls).head?) := by
  have key : ∃ arena1, (∀ q, (arena1 q).hdr.variant = (st.arena q).hdr.variant) ∧
      selectNextCustomizableField st = some { st with
        arena := arena1,
        curCustomizingField := selectNextLoop arena1 st.curCustomizingField ls none false } := by
    cases hcur : st.curCustomizingField with
    | none =>
      refine ⟨st.arena, fun _ => rfl, ?_⟩
      simp only [selectNextCustomizableField, hs, hcur]
    | some c =>
      have h1 := hc c hcur
      cases hch : currentChoice st c with
      | none => rw [hch] at h1; simp at h1
      | some ch =>
        refine ⟨setDirty st.arena ch true, fun q => (setDirty_sameButFlags _ ch q true).variant, ?_⟩
        simp only [selectNextCustomizableField, hs, hcur, hch]
  obtain ⟨arena1, hvar, hsel⟩ := key
  have hloop : selectNextLoop arena1 st.curCustomizingField ls none false =
      selectNextLoop st.arena st.curCustomizingField ls none false :=
    selectNextLoop_congr arena1 st.arena hvar _ ls none false
  refine ⟨_, hsel, ?_, ?_, ?_, ?_, ?_⟩
  · intro hnil
    show selectNextLoop arena1 st.curCustomizingField ls none false = none
    rw [hloop, selectNextLoop_absent st.arena _ ls none (by intro c _; rw [hnil]; simp), hnil]
    rfl
  · intro hnone
    show selectNextLoop arena1 st.curCustomizingField ls none false = _
    rw [hloop, selectNextLoop_absent st.arena _ ls none (by intro c h; rw [hnone] at h; cases h)]
  · intro c pre n post hcur hcs hpre
    show selectNextLoop arena1 st.curCustomizingField ls none false = _
    rw [hloop, hcur]
    exact selectNextLoop_next st.arena c n ls none pre post hcs hpre
  · intro c pre hcur hcs hpre
    show selectNextLoop arena1 st.curCustomizingField ls none false = _
    rw [hloop, hcur, selectNextLoop_last st.arena c ls none pre hcs hpre, hcs]
  · intro c hcur habs
    show selectNextLoop arena1 st.curCustomizingField ls none false = _
    rw [hloop, selectNextLoop_absent st.arena _ ls none
      (by intro c1 h; rw [hcur] at h; injection h with h; rw [← h]; exact habs)]

/-- C20 at a screen with a text field and two Customizable fields, the first of which is
being customized: the controller moves to the second. -/
theorem select_next_customizable_witness :
    ∃ st1, selectNextCustomizableField customizeDemo = some st1 ∧
      st1.curCustomizingField = some 2 := by
  obtain ⟨st1, h1, _, _, h3, _, _⟩ :=
    select_next_customizable customizeDemo [layoutOf 3, layoutOf 1, layoutOf 2] rfl
      (by intro c h; injection h with h; subst h; rfl)
  exact ⟨st1, h1, h3 1 [] 2 [] rfl (by decide) (by simp)⟩

/-! ## Button dispatch -/

theorem writeTarget_isSome (size : Nat) (v : Int) (hsize : size = 1 ∨ size = 2 ∨ size = 4) :
    ∃ raw, writeTarget size v = some raw := by
  rcases hsize with h | h | h <;> subst h <;> exact ⟨_, rfl⟩

theorem setEditableNumber_isSome (cm cf : Bool) (mem : Nat → Nat) (f : FieldObj) (v : Int)
    (w : Bool) (hsize : f.size = 1 ∨ f.size = 2 ∨ f.size = 4) :
    ∃ mem1, setEditableNumber cm cf mem f v w = some mem1 := by
  unfold setEditableNumber
  obtain ⟨raw, hraw⟩ := writeTarget_isSome f.size
    (if w = true then convertBack cm cf f.editable.units (toUInt32 v) else toUInt32 v) hsize
  simp only [hraw]
  exact ⟨_, rfl⟩

/-- What `setActiveEditable` leaves alone. -/
theorem setActiveEditable_frame (clicked : Option FieldPtr) (st st1 : UiState)
    (h : setActiveEditable clicked st = some st1) :
    st1.curActiveEditable = clicked ∧ st1.scrollableStack = st.scrollableStack ∧
    st1.curCustomizingField = st.curCustomizingField ∧
    st1.screenFields = st.screenFields ∧
    (∀ q, sameButFlags (st1.arena q) (st.arena q)) := by
  have saved : ∀ sv : UiState,
      (match st.curActiveEditable with
        | none => some st
        | some cur =>
          match setEditableNumber st.screenConvertMiles st.screenConvertFarenheit st.mem
                  (setBlink st.arena cur false cur) st.curEditableValueConverted true with
          | none => none
          | some mem1 => some { st with arena := setBlink st.arena cur false, mem := mem1 }) =
        some sv →
      sv.scrollableStack = st.scrollableStack ∧
      sv.curCustomizingField = st.curCustomizingField ∧ sv.screenFields = st.screenFields ∧
      (∀ q, sameButFlags (sv.arena q) (st.arena q)) := by
    intro sv hsv
    split at hsv
    · simp only [Option.some.injEq] at hsv
      subst hsv
      exact ⟨rfl, rfl, rfl, fun q => sameButFlags_refl _⟩
    · rename_i cur _
      split at hsv
      · cases hsv
      · simp only [Option.some.injEq] at hsv
        subst hsv
        exact ⟨rfl, rfl, rfl, fun q => setBlink_sameButFlags _ cur q false⟩
  unfold setActiveEditable at h
  simp only at h
  split at h
  · cases h
  · rename_i sv hsv
    obtain ⟨h1, h2, h3, h4⟩ := saved sv hsv
    split at h
    · simp only [Option.some.injEq] at h
      subst h
      obtain ⟨_, f2, f3, _, f5, _, _, _, f9, _, f11⟩ :=
        forceScrollableRenderUi_frame { sv with curActiveEditable := none }
      exact ⟨f2, f5.trans h1, f3.trans h2, f9.trans h3,
        fun q => sameButFlags_trans (f11 q) (h4 q)⟩
    · rename_i c
      split at h
      · cases h
      · rename_i v hv
        simp only [Option.some.injEq] at h
        subst h
        obtain ⟨_, f2, f3, _, f5, _, _, _, f9, _, f11⟩ :=
          forceScrollableRenderUi_frame
            { sv with curActiveEditable := some c,
                      arena := setBlink (setDirty sv.arena c true) c true,
                      curEditableValueConverted := v }
        exact ⟨f2, f5.trans h1, f3.trans h2, f9.trans h3,
          fun q => sameButFlags_trans (f11 q)
            (sameButFlags_trans (setBlink_sameButFlags _ c q true)
              (sameButFlags_trans (setDirty_sameButFlags _ c q true) (h4 q)))⟩

/-- The editable handler claims an up, down or stop-edit click and touches flags and the
edited target only. -/
theorem onPressEditable_handled (sw102 : Bool) (events : KeyEvents) (st : UiState)
    (p : FieldPtr) (hact : st.curActiveEditable = some p)
    (hev : events.up_click = true ∨ events.down_click = true ∨
      SCREENCLICK_STOP_EDIT sw102 events = true)
    (hsize : (st.arena p).size = 1 ∨ (st.arena p).size = 2 ∨ (st.arena p).size = 4) :
    ∃ st1, onPressEditable sw102 events st = some (st1, true) ∧
      st1.scrollableStack = st.scrollableStack ∧
      st1.curCustomizingField = st.curCustomizingField ∧
      st1.screenFields = st.screenFields ∧
      (∀ q, sameButFlags (st1.arena q) (st.arena q)) := by
  have fin : ∀ st2 : UiState, st2.scrollableStack = st.scrollableStack →
      st2.curCustomizingField = st.curCustomizingField →
      st2.screenFields = st.screenFields →
      (∀ q, sameButFlags (st2.arena q) (st.arena q)) →
      ∃ st1, (match getActiveScrollable st2, st2.scrollableStack.head? with
          | some _, some root =>
            some ({ st2 with arena := setDirty (setDirty st2.arena p true) root true }, true)
          | _, _ => some ({ st2 with arena := setDirty st2.arena p true }, true)) =
          some (st1, true) ∧
        st1.scrollableStack = st.scrollableStack ∧
        st1.curCustomizingField = st.curCustomizingField ∧
        st1.screenFields = st.screenFields ∧
        (∀ q, sameButFlags (st1.arena q) (st.arena q)) := by
    intro st2 h1 h2 h3 h4
    split
    · rename_i root _ _
      exact ⟨_, rfl, h1, h2, h3, fun q => sameButFlags_trans (setDirty_sameButFlags _ root q true)
        (sameButFlags_trans (setDirty_sameButFlags _ p q true) (h4 q))⟩
    · exact ⟨_, rfl, h1, h2, h3, fun q =>
        sameButFlags_trans (setDirty_sameButFlags _ p q true) (h4 q)⟩
  unfold onPressEditable
  by_cases hstop : SCREENCLICK_STOP_EDIT sw102 events = true
  · obtain ⟨mem1, hset⟩ := setEditableNumber_isSome st.screenConvertMiles
      st.screenConvertFarenheit st.mem (st.arena p) st.curEditableValueConverted true hsize
    obtain ⟨st2, hst2, _, _, g3, g4, _, g6⟩ := setActiveEditable_end st p mem1 hact hset
    obtain ⟨_, _, _, g9, _⟩ := setActiveEditable_frame none st st2 hst2
    simp only [hstop, if_true, hst2, Option.map_some', hact]
    exact fin st2 g3 g4 g9 g6
  · have hud : (events.up_click || events.down_click) = true := by
      rcases hev with h | h | h
      · simp [h]
      · simp [h]
      · exact absurd h hstop
    simp only [hstop, Bool.false_eq_true, if_false, hud, if_true, hact]
    split
    · rename_i root _ _
      exact ⟨_, rfl, rfl, rfl, rfl, fun q =>
        sameButFlags_trans (setDirty_sameButFlags _ root q true)
          (setDirty_sameButFlags _ p q true)⟩
    · exact ⟨_, rfl, rfl, rfl, rfl, fun q => setDirty_sameButFlags _ p q true⟩

/-- C18: whenever an editable is active (bound to a target of 1, 2 or 4 bytes) and the
event set holds `UP_CLICK`, `DOWN_CLICK` or the stop-edit click, `screenOnPress` returns
true, calls neither `curScreen->onPress` nor `curScreen->onCustomized`, and leaves the
scrollable stack, the customizing field, and `first`, `selected` and the entries of every
scrollable unchanged: only flags and the edited target change. -/
theorem screenOnPress_editable_first (sw102 : Bool) (onPress : Option (KeyEvents → Bool))
    (hasOnCustomized : Bool) (events : KeyEvents) (st : UiState) (p : FieldPtr)
    (hact : st.curActiveEditable = some p)
    (hev : events.up_click = true ∨ events.down_click = true ∨
      SCREENCLICK_STOP_EDIT sw102 events = true)
    (hsize : (st.arena p).size = 1 ∨ (st.arena p).size = 2 ∨ (st.arena p).size = 4) :
    ∃ r, screenOnPress sw102 onPress hasOnCustomized events st = some r ∧
      r.handled = true ∧ r.onPressCalled = false ∧ r.onCustomizedCalled = false ∧
      r.state.scrollableStack = st.scrollableStack ∧
      r.state.curCustomizingField = st.curCustomizingField ∧
      (∀ q, (r.state.arena q).selected = (st.arena q).selected ∧
            (r.state.arena q).first = (st.arena q).first ∧
            (r.state.arena q).entries = (st.arena q).entries ∧
            sameButFlags (r.state.arena q) (st.arena q)) := by
  obtain ⟨st1, h1, h2, h3, _, h5⟩ := onPressEditable_handled sw102 events st p hact hev hsize
  refine ⟨{ state := st1, handled := true, onCustomizedCalled := false,
            onPressCalled := false }, ?_, rfl, rfl, rfl, h2, h3,
    fun q => ⟨(h5 q).selected, (h5 q).first, (h5 q).entries, h5 q⟩⟩
  simp only [screenOnPress, hact, Option.isSome_some, if_true, h1, Bool.not_true,
    Bool.false_eq_true, if_false]

/-- C18 at a state that edits a one-byte field, for an up click and a screen whose own
handler would claim every event: the editable handler claims the click and the screen
handler is not called. -/
theorem screenOnPress_editable_first_witness :
    ∃ r, screenOnPress false (some (fun _ => true)) true upClick editingDemo = some r ∧
      r.handled = true ∧ r.onPressCalled = false := by
  obtain ⟨r, h1, h2, h3, _⟩ :=
    screenOnPress_editable_first false (some (fun _ => true)) true upClick editingDemo 7 rfl
      (Or.inl rfl) (Or.inl rfl)
  exact ⟨r, h1, h2, h3⟩

theorem presActive_refl (st : UiState) : presActive st st :=
  ⟨fun _ => ⟨rfl, rfl⟩, Or.inl rfl⟩

theorem presActive_trans {a b c : UiState} (h1 : presActive a b) (h2 : presActive b c) :
    presActive a c := by
  refine ⟨fun q => ⟨((h2.1 q).1).trans (h1.1 q).1, ((h2.1 q).2).trans (h1.1 q).2⟩, ?_⟩
  rcases h2.2 with h | h | ⟨x, hx, hv, hr⟩
  · rw [h]; exact h1.2
  · exact Or.inr (Or.inl h)
  · refine Or.inr (Or.inr ⟨x, hx, ?_, ?_⟩)
    · rw [← (h1.1 x).1]; exact hv
    · rw [← (h1.1 x).2]; exact hr

theorem activeOk_of_presActive {a b : UiState} (ha : activeOk a) (h : presActive a b) :
    activeOk b := by
  intro p hp
  rcases h.2 with h2 | h2 | ⟨x, hx, hv, hr⟩
  · rw [h2] at hp
    obtain ⟨g1, g2⟩ := ha p hp
    exact ⟨(h.1 p).1.trans g1, by rw [(h.1 p).2]; exact g2⟩
  · rw [h2] at hp; cases hp
  · rw [hx] at hp
    injection hp with hp
    subst hp
    exact ⟨(h.1 x).1.trans hv, by rw [(h.1 x).2]; exact hr⟩

/-- A step that changes flags only and keeps or clears the active editable. -/
theorem presActive_of_flags (st st1 : UiState)
    (hcur : st1.curActiveEditable = st.curActiveEditable ∨ st1.curActiveEditable = none)
    (h : ∀ q, sameButFlags (st1.arena q) (st.arena q)) : presActive st st1 :=
  ⟨fun q => ⟨(h q).variant, (h q).editable⟩, by
    rcases hcur with h1 | h1
    · exact Or.inl h1
    · exact Or.inr (Or.inl h1)⟩

theorem enterScrollable_frame (f : FieldPtr) (st st1 : UiState)
    (h : enterScrollable f st = some st1) :
    st1.curActiveEditable = st.curActiveEditable ∧
    st1.curCustomizingField = st.curCustomizingField ∧
    st1.scrollableStack = st.scrollableStack ++ [f] ∧
    st.scrollableStack.length < MAX_SCROLLABLE_DEPTH ∧
    (∀ q, sameButFlags (st1.arena q) (st.arena q)) := by
  unfold enterScrollable at h
  split at h
  · rename_i hlen
    simp only [Option.some.injEq] at h
    subst h
    exact ⟨rfl, rfl, rfl, hlen, fun q =>
      sameButFlags_trans (setDirty_sameButFlags _ _ q true) (setBlink_sameButFlags _ f q true)⟩
  · cases h

theorem exitScrollable_frame (st st1 : UiState) (b : Bool)
    (h : exitScrollable st = some (st1, b)) :
    st1.curActiveEditable = st.curActiveEditable ∧
    st1.curCustomizingField = st.curCustomizingField ∧
    st1.scrollableStack = st.scrollableStack.dropLast ∧
    (∀ q, sameButFlags (st1.arena q) (st.arena q)) := by
  unfold exitScrollable at h
  split at h
  · simp only at h
    split at h
    · rename_i f _
      simp only [Option.some.injEq, Prod.mk.injEq] at h
      obtain ⟨h, _⟩ := h
      subst h
      exact ⟨rfl, rfl, rfl, fun q => setDirty_sameButFlags _ f q true⟩
    · simp only [Option.some.injEq, Prod.mk.injEq] at h
      obtain ⟨h, _⟩ := h
      subst h
      exact ⟨rfl, rfl, rfl, fun q => sameButFlags_refl _⟩
  · cases h

theorem onPressEditable_pres (sw102 : Bool) (events : KeyEvents) (st st1 : UiState) (b : Bool)
    (h : onPressEditable sw102 events st = some (st1, b)) : presActive st st1 := by
  unfold onPressEditable at h
  simp only at h
  split at h
  · cases h
  · rename_i st2 handled hstop
    have h2 : (st2.curActiveEditable = st.curActiveEditable ∨ st2.curActiveEditable = none) ∧
        ∀ q, sameButFlags (st2.arena q) (st.arena q) := by
      split at hstop
      · cases hsa : setActiveEditable none st with
        | none => rw [hsa] at hstop; cases hstop
        | some sv =>
          rw [hsa] at hstop
          simp only [Option.map_some', Option.some.injEq, Prod.mk.injEq] at hstop
          obtain ⟨g1, _, _, _, g5⟩ := setActiveEditable_frame none st sv hsa
          rw [← hstop.1]
          exact ⟨Or.inr g1, g5⟩
      · simp only [Option.some.injEq, Prod.mk.injEq] at hstop
        rw [← hstop.1]
        exact ⟨Or.inl rfl, fun q => sameButFlags_refl _⟩
    split at h
    · split at h
      · cases h
      · rename_i sp _
        split at h
        · rename_i root _ _
          simp only [Option.some.injEq, Prod.mk.injEq] at h
          rw [← h.1]
          exact presActive_of_flags _ _ h2.1 (fun q =>
            sameButFlags_trans (setDirty_sameButFlags _ root q true)
              (sameButFlags_trans (setDirty_sameButFlags _ sp q true) (h2.2 q)))
        · simp only [Option.some.injEq, Prod.mk.injEq] at h
          rw [← h.1]
          exact presActive_of_flags _ _ h2.1 (fun q =>
            sameButFlags_trans (setDirty_sameButFlags _ sp q true) (h2.2 q))
    · simp only [Option.some.injEq, Prod.mk.injEq] at h
      rw [← h.1]
      exact presActive_of_flags _ _ h2.1 h2.2

theorem update_first_selected_pres (st : UiState) (arena1 : FieldPtr → FieldObj)
    (sp : FieldPtr) (a b : Nat) (h1 : ∀ q, sameButFlags (arena1 q) (st.arena q)) :
    presActive st (forceScrollableRenderUi
      { st with arena := Function.update arena1 sp
                  { arena1 sp with first := a, selected := b } }) := by
  obtain ⟨_, f2, _, _, _, _, _, _, _, _, f11⟩ := forceScrollableRenderUi_frame
    { st with arena := Function.update arena1 sp { arena1 sp with first := a, selected := b } }
  refine ⟨fun q => ?_, Or.inl f2⟩
  have hq := f11 q
  simp only [Function.update_apply] at hq
  by_cases hqs : q = sp
  · subst hqs
    simp only [if_true] at hq
    exact ⟨hq.variant.trans (h1 q).variant, hq.editable.trans (h1 q).editable⟩
  · simp only [hqs, if_false] at hq
    exact ⟨hq.variant.trans (h1 q).variant, hq.editable.trans (h1 q).editable⟩

theorem onPressScrollableMove_pres (events : KeyEvents) (sp : FieldPtr) (st st1 : UiState)
    (h : onPressScrollableMove events sp st = some st1) : presActive st st1 := by
  unfold onPressScrollableMove at h
  split at h
  · cases h
  · rename_i c _
    simp only [Option.some.injEq] at h
    subst h
    exact update_first_selected_pres st _ sp _ _ (fun q => setDirty_sameButFlags _ c q true)

theorem onPressScrollableSelect_pres (sw102 : Bool) (events : KeyEvents)
    (curActive : Option FieldPtr) (st st1 : UiState) (handled b : Bool)
    (h : onPressScrollableSelect sw102 events curActive st handled = some (st1, b)) :
    presActive st st1 := by
  unfold onPressScrollableSelect at h
  split at h
  · split at h
    · cases h
    · rename_i c
      split at h
      · rename_i hv
        split at h
        · rename_i hro
          cases hsa : setActiveEditable (some c) st with
          | none => rw [hsa] at h; cases h
          | some sv =>
            rw [hsa] at h
            simp only [Option.map_some', Option.some.injEq, Prod.mk.injEq] at h
            obtain ⟨g1, _, _, _, g5⟩ := setActiveEditable_frame (some c) st sv hsa
            rw [← h.1]
            refine ⟨fun q => ⟨(g5 q).variant, (g5 q).editable⟩,
              Or.inr (Or.inr ⟨c, g1, hv, ?_⟩)⟩
            simpa using hro
        · simp only [Option.some.injEq, Prod.mk.injEq] at h
          rw [← h.1]; exact presActive_refl st
      · cases hen : enterScrollable c st with
        | none => rw [hen] at h; cases h
        | some sv =>
          rw [hen] at h
          simp only [Option.map_some', Option.some.injEq, Prod.mk.injEq] at h
          obtain ⟨g1, _, _, _, g5⟩ := enterScrollable_frame c st sv hen
          rw [← h.1]
          exact presActive_of_flags _ _ (Or.inl g1) g5
      · simp only [Option.some.injEq, Prod.mk.injEq] at h
        rw [← h.1]; exact presActive_refl st
  · simp only [Option.some.injEq, Prod.mk.injEq] at h
    rw [← h.1]; exact presActive_refl st

theorem onPressScrollableUi_pres (sw102 : Bool) (events : KeyEvents) (st st1 : UiState)
    (b : Bool) (h : onPressScrollableUi sw102 events st = some (st1, b)) :
    presActive st st1 := by
  unfold onPressScrollableUi at h
  split at h
  · simp only [Option.some.injEq, Prod.mk.injEq] at h
    rw [← h.1]; exact presActive_refl st
  · rename_i sp _
    simp only at h
    split at h
    · cases h
    · rename_i sta handled1 hmoved
      have h1 : presActive st sta := by
        split at hmoved
        · cases hmv : onPressScrollableMove events sp st with
          | none => rw [hmv] at hmoved; cases hmoved
          | some sv =>
            rw [hmv] at hmoved
            simp only [Option.map_some', Option.some.injEq, Prod.mk.injEq] at hmoved
            rw [← hmoved.1]
            exact onPressScrollableMove_pres events sp st sv hmv
        · simp only [Option.some.injEq, Prod.mk.injEq] at hmoved
          rw [← hmoved.1]; exact presActive_refl st
      split at h
      · cases h
      · rename_i stb handled2 hsel
        have h2 : presActive sta stb :=
          onPressScrollableSelect_pres sw102 events _ sta stb handled1 handled2 hsel
        split at h
        · obtain ⟨g1, _, _, g4⟩ := exitScrollable_frame stb st1 b h
          exact presActive_trans (presActive_trans h1 h2)
            (presActive_of_flags _ _ (Or.inl g1) g4)
        · simp only [Option.some.injEq, Prod.mk.injEq] at h
          rw [← h.1]; exact presActive_trans h1 h2

theorem selectNextCustomizableField_pres (st st1 : UiState)
    (h : selectNextCustomizableField st = some st1) : presActive st st1 := by
  unfold selectNextCustomizableField at h
  split at h
  · cases h
  · simp only at h
    split at h
    · cases h
    · rename_i arena1 hmark
      simp only [Option.some.injEq] at h
      subst h
      have ha : ∀ q, sameButFlags (arena1 q) (st.arena q) := by
        split at hmark
        · simp only [Option.some.injEq] at hmark
          subst hmark; exact fun q => sameButFlags_refl _
        · split at hmark
          · cases hmark
          · rename_i ch _
            simp only [Option.some.injEq] at hmark
            subst hmark; exact fun q => setDirty_sameButFlags _ ch q true
      exact presActive_of_flags _ _ (Or.inl rfl) ha

theorem changeCurrentCustomizableField_pres (st st1 : UiState)
    (h : changeCurrentCustomizableField st = some st1) : presActive st st1 := by
  unfold changeCurrentCustomizableField at h
  split at h
  · cases h
  · simp only at h
    split at h
    · split at h
      · cases h
      · rename_i old _
        simp only [Option.some.injEq] at h
        subst h
        refine ⟨fun q => ?_, Or.inl rfl⟩
        show ((if (st.arena old).hdr.variant = FieldVariant.FieldGraph then
                Function.update st.arena old { st.arena old with cache := false }
              else st.arena) q).hdr.variant = _ ∧
             ((if (st.arena old).hdr.variant = FieldVariant.FieldGraph then
                Function.update st.arena old { st.arena old with cache := false }
              else st.arena) q).editable = _
        split
        · simp only [Function.update_apply]
          by_cases hq : q = old
          · subst hq; simp
          · simp [hq]
        · exact ⟨rfl, rfl⟩
    · cases h

theorem onPressCustomizing_pres (sw102 hasOnCustomized : Bool) (events : KeyEvents)
    (st : UiState) (r : PressResult)
    (h : onPressCustomizing sw102 hasOnCustomized events st = some r) :
    presActive st r.state := by
  unfold onPressCustomizing at h
  simp only at h
  split at h
  · cases hs : selectNextCustomizableField st with
    | none => rw [hs] at h; cases h
    | some sv =>
      rw [hs] at h
      simp only [Option.map_some', Option.some.injEq] at h
      rw [← h]; exact selectNextCustomizableField_pres st sv hs
  · split at h
    · simp only [Option.some.injEq] at h
      rw [← h]; exact presActive_refl st
    · rename_i c _
      split at h
      · cases hs : changeCurrentCustomizableField st with
        | none => rw [hs] at h; cases h
        | some sv =>
          rw [hs] at h
          simp only [Option.map_some', Option.some.injEq] at h
          rw [← h]; exact changeCurrentCustomizableField_pres st sv hs
      · split at h
        · cases hs : selectNextCustomizableField st with
          | none => rw [hs] at h; cases h
          | some sv =>
            rw [hs] at h
            simp only [Option.map_some', Option.some.injEq] at h
            rw [← h]; exact selectNextCustomizableField_pres st sv hs
        · split at h
          · split at h
            · rename_i old _ _ _
              simp only [Option.some.injEq] at h
              rw [← h]
              exact presActive_of_flags _ _ (Or.inl rfl)
                (fun q => setDirty_sameButFlags _ old q true)
            · cases h
          · simp only [Option.some.injEq] at h
            rw [← h]; exact presActive_refl st

theorem screenOnPress_pres (sw102 : Bool) (onPress : Option (KeyEvents → Bool))
    (hasOnCustomized : Bool) (events : KeyEvents) (st : UiState) (r : PressResult)
    (h : screenOnPress sw102 onPress hasOnCustomized events st = some r) :
    presActive st r.state := by
  unfold screenOnPress at h
  simp only at h
  split at h
  · cases h
  · rename_i sta handled1 h1
    have p1 : presActive st sta := by
      split at h1
      · exact onPressEditable_pres sw102 events st sta handled1 h1
      · simp only [Option.some.injEq, Prod.mk.injEq] at h1
        rw [← h1.1]; exact presActive_refl st
    split at h
    · cases h
    · rename_i stb handled2 h2
      have p2 : presActive sta stb := by
        split at h2
        · exact onPressScrollableUi_pres sw102 events sta stb handled2 h2
        · simp only [Option.some.injEq, Prod.mk.injEq] at h2
          rw [← h2.1]; exact presActive_refl sta
      split at h
      · cases h
      · rename_i r3 h3
        have p3 : presActive stb r3.state := by
          split at h3
          · exact onPressCustomizing_pres sw102 hasOnCustomized events stb r3 h3
          · simp only [Option.some.injEq] at h3
            rw [← h3]; exact presActive_refl stb
        have p : presActive st r3.state := presActive_trans (presActive_trans p1 p2) p3
        split at h
        · simp only [Option.some.injEq] at h
          rw [← h]; exact p
        · simp only [Option.some.injEq] at h
          rw [← h]; exact p

/-- In every reachable state the active editable is none or an Editable that is not
read-only. -/
theorem reachable_activeOk (sw102 : Bool) (st : UiState) (h : Reachable sw102 st) :
    activeOk st := by
  induction h with
  | init arena mem => intro p hp; cases hp
  | showScreen st st1 fields _ hshow ih =>
    unfold panicScreenShowUi at hshow
    cases hsa : setActiveEditable none st with
    | none => rw [hsa] at hshow; cases hshow
    | some sv =>
      rw [hsa] at hshow
      simp only [Option.map_some', Option.some.injEq] at hshow
      obtain ⟨g1, _, _, _, _⟩ := setActiveEditable_frame none st sv hsa
      intro p hp
      rw [← hshow] at hp
      simp only [g1] at hp
      cases hp
  | press st onPress hasOnCustomized events r _ hpress ih =>
    exact activeOk_of_presActive ih (screenOnPress_pres sw102 onPress hasOnCustomized events st r hpress)
  | enterRoot st st1 f _ _ _ henter ih =>
    obtain ⟨g1, _, _, _, g5⟩ := enterScrollable_frame f st st1 henter
    exact activeOk_of_presActive ih (presActive_of_flags _ _ (Or.inl g1) g5)
  | other st st1 _ hother ih =>
    exact activeOk_of_presActive ih
      ⟨fun q => ⟨hother.variant q, hother.editable q⟩, Or.inl hother.curActiveEditable⟩

/-- The select step changes the active editable only by starting to edit the selected
entry, and only when nothing is being edited and the entry is an Editable that is not
read-only. -/
theorem onPressScrollableSelect_begins (sw102 : Bool) (events : KeyEvents)
    (curActive : Option FieldPtr) (st st1 : UiState) (handled b : Bool)
    (h : onPressScrollableSelect sw102 events curActive st handled = some (st1, b)) :
    st1.curActiveEditable = st.curActiveEditable ∨
      (SCREENCLICK_START_EDIT sw102 events = true ∧ st.curActiveEditable = none ∧
        ∃ c, curActive = some c ∧ st1.curActiveEditable = some c ∧
          (st.arena c).hdr.variant = FieldVariant.FieldEditable ∧
          (st.arena c).editable.read_only = false) := by
  unfold onPressScrollableSelect at h
  split at h
  · rename_i hcond
    simp only [Bool.and_eq_true, Option.isNone_iff_eq_none] at hcond
    split at h
    · cases h
    · rename_i c
      split at h
      · rename_i hv
        split at h
        · rename_i hro
          cases hsa : setActiveEditable (some c) st with
          | none => rw [hsa] at h; cases h
          | some sv =>
            rw [hsa] at h
            simp only [Option.map_some', Option.some.injEq, Prod.mk.injEq] at h
            obtain ⟨g1, _, _, _, _⟩ := setActiveEditable_frame (some c) st sv hsa
            rw [← h.1]
            exact Or.inr ⟨hcond.1, hcond.2, c, rfl, g1, hv, by simpa using hro⟩
        · simp only [Option.some.injEq, Prod.mk.injEq] at h
          rw [← h.1]; exact Or.inl rfl
      · cases hen : enterScrollable c st with
        | none => rw [hen] at h; cases h
        | some sv =>
          rw [hen] at h
          simp only [Option.map_some', Option.some.injEq, Prod.mk.injEq] at h
          obtain ⟨g1, _, _, _, _⟩ := enterScrollable_frame c st sv hen
          rw [← h.1]
          exact Or.inl g1
      · simp only [Option.some.injEq, Prod.mk.injEq] at h
        rw [← h.1]; exact Or.inl rfl
  · simp only [Option.some.injEq, Prod.mk.injEq] at h
    rw [← h.1]; exact Or.inl rfl

/-- C19: in `onPressScrollable` the select step changes the active editable only by a
start-edit click while nothing is being edited and the selected entry is an Editable that
is not read-only, and then it does begin to edit that entry (with its converted value as
working value); on a read-only Editable the step changes nothing and does not claim the
click, so that on the 850C build, where the same click is the exit click, the scrollable
is left; a selected Scrollable is pushed onto the stack. In every reachable state the
active editable is none or an Editable that is not read-only. -/
theorem start_edit_only_on_writable_editable (sw102 : Bool) :
    (∀ events curActive st handled st1 handled1,
      onPressScrollableSelect sw102 events curActive st handled = some (st1, handled1) →
      (st1.curActiveEditable = st.curActiveEditable ∨
        (SCREENCLICK_START_EDIT sw102 events = true ∧ st.curActiveEditable = none ∧
          ∃ c, curActive = some c ∧ st1.curActiveEditable = some c ∧
            (st.arena c).hdr.variant = FieldVariant.FieldEditable ∧
            (st.arena c).editable.read_only = false))) ∧
    (∀ events st handled c v,
      SCREENCLICK_START_EDIT sw102 events = true → st.curActiveEditable = none →
      (st.arena c).hdr.variant = FieldVariant.FieldEditable →
      (st.arena c).editable.read_only = false →
      getEditableNumber st.screenConvertMiles st.screenConvertFarenheit st.mem
        (st.arena c) true = some v →
      ∃ st1, onPressScrollableSelect sw102 events (some c) st handled = some (st1, true) ∧
        st1.curActiveEditable = some c ∧ st1.curEditableValueConverted = v) ∧
    (∀ events st handled c,
      (st.arena c).hdr.variant = FieldVariant.FieldEditable →
      (st.arena c).editable.read_only = true →
      onPressScrollableSelect sw102 events (some c) st handled = some (st, handled)) ∧
    (∀ events st handled c,
      SCREENCLICK_START_EDIT sw102 events = true → st.curActiveEditable = none →
      (st.arena c).hdr.variant = FieldVariant.FieldScrollable →
      st.scrollableStack.length < MAX_SCROLLABLE_DEPTH →
      ∃ st1, onPressScrollableSelect sw102 events (some c) st handled = some (st1, true) ∧
        st1.scrollableStack = st.scrollableStack ++ [c] ∧ st1.curActiveEditable = none) ∧
    (∀ st sp c, getActiveScrollable st = some sp →
      curActiveEntry (st.arena sp) = some c → st.curActiveEditable = none →
      (st.arena c).hdr.variant = FieldVariant.FieldEditable →
      (st.arena c).editable.read_only = true →
      onPressScrollableUi false onoffClick st = exitScrollable st) ∧
    (∀ st, Reachable sw102 st → ∀ p, st.curActiveEditable = some p →
      (st.arena p).hdr.variant = FieldVariant.FieldEditable ∧
      (st.arena p).editable.read_only = false) := by
  refine ⟨?_, ?_, ?_, ?_, ?_, ?_⟩
  · intro events curActive st handled st1 handled1 h
    exact onPressScrollableSelect_begins sw102 events curActive st st1 handled handled1 h
  · intro events st handled c v hclick hnone hv hro hget
    obtain ⟨st1, h1, h2, h3, _⟩ := setActiveEditable_begin st c v hnone hget
    refine ⟨st1, ?_, h2, h3⟩
    simp only [onPressScrollableSelect, hclick, hnone, Option.isNone_none, Bool.and_self,
      if_true, hv, hro, Bool.not_false, h1, Option.map_some']
  · intro events st handled c hv hro
    simp only [onPressScrollableSelect, hv, hro, Bool.not_true, Bool.false_eq_true, if_false]
    split <;> rfl
  · intro events st handled c hclick hnone hv hlen
    have hen : ∃ sv, enterScrollable c st = some sv ∧
        sv.scrollableStack = st.scrollableStack ++ [c] ∧
        sv.curActiveEditable = st.curActiveEditable := by
      unfold enterScrollable
      simp only [hlen, if_true]
      exact ⟨_, rfl, rfl, rfl⟩
    obtain ⟨sv, g1, g2, g3⟩ := hen
    refine ⟨sv, ?_, g2, g3.trans hnone⟩
    simp only [onPressScrollableSelect, hclick, hnone, Option.isNone_none, Bool.and_self,
      if_true, hv, g1, Option.map_some']
  · intro st sp c hsp hc hnone hv hro
    simp only [onPressScrollableUi, hsp, hc, onoffClick, Bool.or_self, Bool.false_eq_true,
      if_false, onPressScrollableSelect, SCREENCLICK_START_EDIT, hnone, Option.isNone_none,
      Bool.and_self, if_true, hv, hro, Bool.not_true, SCREENCLICK_EXIT_SCROLLABLE,
      Bool.not_false]
  · intro st hreach
    exact reachable_activeOk sw102 st hreach

/-- C19 on the 850C build, at a menu whose selected entry is read-only: the click leaves
the menu, no editable becomes active and the click is not claimed. -/
theorem start_edit_only_on_writable_editable_witness :
    ∃ st1, onPressScrollableUi false onoffClick readOnlyDemo = some (st1, false) ∧
      st1.curActiveEditable = none ∧ st1.scrollableStack = [] := by
  obtain ⟨_, _, _, _, h5, _⟩ := start_edit_only_on_writable_editable false
  rw [h5 readOnlyDemo 1 2 rfl rfl rfl rfl rfl]
  exact ⟨_, rfl, rfl, rfl⟩

/-! ## The graph cache of a customizable slot -/

theorem graphSamples_reset (c : GraphCache) : graphSamples (graphCacheReset c) = [] := by
  simp [graphSamples, graphCacheReset]

theorem graphSamples_first (t : Int) (c : GraphCache) (v : Int) :
    graphSamples (graphAddPoint t (graphCacheReset c) v) = [v] := by
  have h := graphSamples_of_ringInv [v] _ (ringInv_step t [] (graphCacheReset c) v
    (ringInv_reset c))
  simpa using h

theorem getEditableNumber_update (cm cf : Bool) (mem : Nat → Nat)
    (arena : FieldPtr → FieldObj) (gp src : FieldPtr) (g : FieldObj) (w : Bool)
    (hv : g.hdr.variant = (arena gp).hdr.variant) (he : g.editable = (arena gp).editable)
    (hs : g.size = (arena gp).size) (ht : g.target = (arena gp).target) :
    getEditableNumber cm cf mem (Function.update arena gp g src) w =
      getEditableNumber cm cf mem (arena src) w := by
  by_cases h : src = gp
  · subst h
    rw [Function.update_same]
    exact getEditableNumber_congr _ _ _ _ _ _ hv he hs ht
  · rw [Function.update_noteq h]

theorem putStringCentered_ui (env : RenderEnv) (x y width : Int) (font : Font)
    (str : List Char) (S S1 : RenderState)
    (h : putStringCentered env x y width font str S = some S1) :
    S1.ui = S.ui ∧ S1.blinkChanged = S.blinkChanged ∧ S1.blinkOn = S.blinkOn ∧
    S1.forceLabels = S.forceLabels ∧ S1.oldForceLabels = S.oldForceLabels := by
  unfold putStringCentered at h
  simp only at h
  split at h
  · cases h
  · simp only [Option.some.injEq] at h
    subst h
    exact ⟨rfl, rfl, rfl, rfl, rfl⟩

theorem graphLabelAxis_ui (env : RenderEnv) (g : GraphGeom) (field source : FieldObj)
    (S S1 : RenderState) (h : graphLabelAxis env g field source S = some S1) :
    S1.ui = S.ui := by
  unfold graphLabelAxis at h
  simp only at h
  split at h
  · cases h
  · rename_i S3 haxis
    have h3 : S3.ui = S.ui := by
      split at haxis
      · split at haxis
        · cases haxis
        · rename_i Sa hput
          simp only [Option.some.injEq] at haxis
          subst haxis
          exact (putStringCentered_ui _ _ _ _ _ _ _ _ hput).1
      · simp only [Option.some.injEq] at haxis
        subst haxis; rfl
    split at h
    · cases h
    · rename_i S4 hmax
      have h4 : S4.ui = S3.ui := by
        split at hmax
        · cases hs : getEditableString env source S3.ui.caches0.max_val with
          | none => rw [hs] at hmax; cases hmax
          | some str =>
            rw [hs] at hmax
            simp only [Option.map_some', Option.some.injEq] at hmax
            subst hmax; rfl
        · simp only [Option.some.injEq] at hmax
          subst hmax; rfl
      split at h
      · cases hs : getEditableString env source S3.ui.caches0.min_val with
        | none => rw [hs] at h; cases h
        | some str =>
          rw [hs] at h
          simp only [Option.map_some', Option.some.injEq] at h
          subst h
          exact h4.trans h3
      · simp only [Option.some.injEq] at h
        subst h
        exact h4.trans h3

theorem graphClear_ui (g : GraphGeom) (field : FieldObj) (S : RenderState) :
    (graphClear g field S).ui = S.ui := by
  unfold graphClear
  simp only
  split <;> rfl

/-! ## The nesting depth of `renderLayouts` -/

theorem renderExpanded_mono (env : RenderEnv) (a b : NestedPass) (hab : innerLe a b)
    (layout : FieldLayout) (fp : FieldPtr) (S : RenderState)
    (r : FieldLayout × RenderState × Bool)
    (h : renderExpanded env a layout fp S = some r) :
    renderExpanded env b layout fp S = some r := by
  unfold renderExpanded at h ⊢
  simp only at h ⊢
  split at h
  · cases h
  · rename_i S1 hl
    cases hi : a ((List.range ((MAX_SCROLLABLE_ROWS env).toNat + 1)).map S1.rows) S1 with
    | none => rw [hi] at h; cases h
    | some v =>
      rw [hi] at h
      rw [hab _ _ _ hi]
      exact h

theorem renderCollapsed_mono (env : RenderEnv) (a b : NestedPass) (hab : innerLe a b)
    (layout : FieldLayout) (fp : FieldPtr) (S : RenderState)
    (r : FieldLayout × RenderState × Bool)
    (h : renderCollapsed env a layout fp S = some r) :
    renderCollapsed env b layout fp S = some r := by
  unfold renderCollapsed at h ⊢
  simp only at h ⊢
  split at h
  · cases h
  · rename_i lab hl
    split at h
    · cases h
    · rename_i v hi
      rw [hab _ _ _ hi]
      exact h

theorem renderActiveScrollable_mono (env : RenderEnv) (a b : NestedPass) (hab : innerLe a b)
    (layout : FieldLayout) (fp : FieldPtr) (S : RenderState)
    (r : FieldLayout × RenderState × Bool)
    (h : renderActiveScrollable env a layout fp S = some r) :
    renderActiveScrollable env b layout fp S = some r := by
  unfold renderActiveScrollable at h ⊢
  simp only at h ⊢
  split at h
  · cases h
  · rename_i hrow
    rw [if_neg hrow]
    split at h
    · rename_i hact
      rw [if_pos hact]
      exact renderExpanded_mono env a b hab _ _ _ _ h
    · rename_i hact
      rw [if_neg hact]
      exact renderCollapsed_mono env a b hab _ _ _ _ h

theorem renderScrollable_mono (env : RenderEnv) (a b : NestedPass) (hab : innerLe a b)
    (layout : FieldLayout) (S : RenderState) (r : FieldLayout × RenderState × Bool)
    (h : renderScrollable env a layout S = some r) :
    renderScrollable env b layout S = some r := by
  unfold renderScrollable at h ⊢
  split at h
  · cases h
  · simp only at h ⊢
    split at h
    · cases h
    · split at h
      · cases h
      · exact renderActiveScrollable_mono env a b hab _ _ _ _ h

theorem renderField_mono (env : RenderEnv) (a b : NestedPass) (hab : innerLe a b)
    (layout : FieldLayout) (field : FieldPtr) (S : RenderState)
    (r : FieldLayout × RenderState × Bool)
    (h : renderField env a layout field S = some r) :
    renderField env b layout field S = some r := by
  unfold renderField at h ⊢
  cases hv : (S.ui.arena field).hdr.variant <;> rw [hv] at h <;> simp only at h ⊢ <;>
    first
    | exact h
    | exact renderScrollable_mono env a b hab _ _ _ h

theorem renderOne_mono (env : RenderEnv) (a b : NestedPass) (hab : innerLe a b)
    (maxy : Int) (layout : FieldLayout) (field : FieldPtr) (S : RenderState) (r : Rendered)
    (h : renderOne env a maxy layout field S = some r) :
    renderOne env b maxy layout field S = some r := by
  unfold renderOne at h ⊢
  split at h
  · cases h
  · simp only
    cases hf : renderField env a _ field S with
    | none => rw [hf] at h; cases h
    | some v =>
      rw [hf] at h
      rw [renderField_mono env a b hab _ _ _ _ hf]
      exact h

theorem renderLayoutsLoop_mono (env : RenderEnv) (a b : NestedPass) (hab : innerLe a b)
    (forceRender : Bool) :
    ∀ (L : List FieldLayout) (maxy : Int) (dd dc : Bool) (S : RenderState) (r : LoopResult),
      renderLayoutsLoop env a forceRender L maxy dd dc S = some r →
      renderLayoutsLoop env b forceRender L maxy dd dc S = some r := by
  intro L
  induction L with
  | nil =>
    intro maxy dd dc S r h
    simp only [renderLayoutsLoop] at h ⊢
    exact h
  | cons layout rest ih =>
    intro maxy dd dc S r h
    unfold renderLayoutsLoop at h ⊢
    split at h
    · exact h
    · simp only at h ⊢
      split at h
      · cases h
      · split at h
        · rename_i hn
          rw [if_pos hn]
          split at h
          · cases h
          · rename_i r1 hone
            rw [renderOne_mono env a b hab _ _ _ _ _ hone]
            simp only at h ⊢
            split at h
            · cases h
            · rename_i r2 hrest
              rw [ih _ _ _ _ _ hrest]
              exact h
        · rename_i hn
          rw [if_neg hn]
          split at h
          · cases h
          · rename_i r2 hrest
            rw [ih _ _ _ _ _ hrest]
            exact h

theorem renderLayoutsPass_mono (env : RenderEnv) (a b : NestedPass) (hab : innerLe a b)
    (layouts : List FieldLayout) (forceRender : Bool) (S : RenderState)
    (r : List FieldLayout × RenderState × Bool)
    (h : renderLayoutsPass env a layouts forceRender S = some r) :
    renderLayoutsPass env b layouts forceRender S = some r := by
  unfold renderLayoutsPass at h ⊢
  split at h
  · cases h
  · rename_i r1 hloop
    rw [renderLayoutsLoop_mono env a b hab forceRender _ _ _ _ _ _ hloop]
    exact h

theorem nestedPass_mono (env : RenderEnv) :
    ∀ depth : Nat, innerLe (nestedPass env depth) (nestedPass env (depth + 1)) := by
  intro depth
  induction depth with
  | zero =>
    intro ls S r h
    simp only [nestedPass] at h
    cases h
  | succ n ih =>
    intro ls S r h
    simp only [nestedPass] at h ⊢
    exact renderLayoutsPass_mono env _ _ ih ls false S r h

/-- Room for more nested calls does not change what `renderLayouts` returns: a result at
one depth is the result at every greater depth. -/
theorem renderLayouts_depth_mono (env : RenderEnv) (layouts : List FieldLayout)
    (forceRender : Bool) (S : RenderState) (r : List FieldLayout × RenderState × Bool) :
    ∀ (depth more : Nat), renderLayouts env depth layouts forceRender S = some r →
      renderLayouts env (depth + more) layouts forceRender S = some r := by
  intro depth more
  induction more with
  | zero => exact fun h => h
  | succ n ih =>
    intro h
    have h1 := ih h
    unfold renderLayouts at h1 ⊢
    exact renderLayoutsPass_mono env _ _ (nestedPass_mono env (depth + n)) layouts
      forceRender S r h1

/-! ## Two render passes in a row -/

theorem getField_resolve (S : RenderState) (layout : FieldLayout) :
    getField S layout = (resolveField S.ui layout).map
      (fun p => (p, { S with parentCustomizable := parentOf S.ui layout })) := by
  unfold getField resolveField parentOf
  cases layout.field with
  | none => rfl
  | some f =>
    simp only
    split
    · cases currentChoice S.ui f <;> rfl
    · rfl

theorem sameKind_refl (f : FieldObj) : sameKind f f := ⟨rfl, rfl, rfl, rfl, rfl, rfl⟩

theorem sameKind_trans {f g h : FieldObj} (h1 : sameKind f g) (h2 : sameKind g h) :
    sameKind f h :=
  ⟨h1.variant.trans h2.variant, h1.choices.trans h2.choices, h1.selector.trans h2.selector,
    h1.editable.trans h2.editable, h1.size.trans h2.size, h1.target.trans h2.target⟩

theorem sameKind_of_flags {f g : FieldObj} (h : sameButFlags f g) : sameKind f g :=
  ⟨h.variant, h.choices, h.selector, h.editable, h.size, h.target⟩

theorem editLike_of_sameKind {f g : FieldObj} (h : sameKind f g) (hg : editLike g) :
    editLike f := by
  unfold editLike at *
  rw [h.variant]; exact hg

theorem rendererKeeps_refl (S : RenderState) : rendererKeeps S S :=
  ⟨rfl, fun h => h, rfl, rfl, rfl, rfl, rfl, rfl, fun _ _ => sameKind_refl _⟩

theorem rendererKeeps_trans {A B C : RenderState} (h1 : rendererKeeps A B)
    (h2 : rendererKeeps B C) : rendererKeeps A C := by
  refine ⟨h2.blinkChanged.trans h1.blinkChanged, fun h => h2.forceLabels (h1.forceLabels h),
    h2.mem.trans h1.mem, h2.screenConvertMiles.trans h1.screenConvertMiles,
    h2.screenConvertFarenheit.trans h1.screenConvertFarenheit,
    h2.curActiveEditable.trans h1.curActiveEditable,
    h2.curCustomizingField.trans h1.curCustomizingField,
    h2.curEditableValueConverted.trans h1.curEditableValueConverted, ?_⟩
  intro q hq
  rcases hq with hq | hq
  · have hb := h1.fields q (Or.inl hq)
    have hB : editLike (B.ui.arena q) := editLike_of_sameKind hb hq
    exact sameKind_trans (h2.fields q (Or.inl hB)) hb
  · have hc := h2.fields q (Or.inr hq)
    have hB : editLike (B.ui.arena q) := by
      unfold editLike at *
      rw [← hc.variant]; exact hq
    exact sameKind_trans hc (h1.fields q (Or.inr hB))

/-- A step that changes flags, the graph cache and drawing state only. -/
theorem rendererKeeps_of_flags (S S1 : RenderState)
    (hb : S1.blinkChanged = S.blinkChanged) (hf : S.forceLabels = false → S1.forceLabels = false)
    (hmem : S1.ui.mem = S.ui.mem)
    (hcm : S1.ui.screenConvertMiles = S.ui.screenConvertMiles)
    (hcf : S1.ui.screenConvertFarenheit = S.ui.screenConvertFarenheit)
    (hact : S1.ui.curActiveEditable = S.ui.curActiveEditable)
    (hcus : S1.ui.curCustomizingField = S.ui.curCustomizingField)
    (hcur : S1.ui.curEditableValueConverted = S.ui.curEditableValueConverted)
    (hfields : ∀ q, sameKind (S1.ui.arena q) (S.ui.arena q)) : rendererKeeps S S1 :=
  ⟨hb, hf, hmem, hcm, hcf, hact, hcus, hcur, fun q _ => hfields q⟩

theorem currentChoice_congr (ui1 ui2 : UiState) (f : FieldPtr)
    (hk : sameKind (ui1.arena f) (ui2.arena f)) (hmem : ui1.mem = ui2.mem) :
    currentChoice ui1 f = currentChoice ui2 f := by
  unfold currentChoice
  rw [hk.choices, hk.selector, hmem]

theorem drawOnly_refl (S : RenderState) : drawOnly S S := ⟨rfl, rfl, rfl, rfl, rfl⟩

theorem drawOnly_trans {A B C : RenderState} (h1 : drawOnly A B) (h2 : drawOnly B C) :
    drawOnly A C :=
  ⟨h2.ui.trans h1.ui, h2.blinkChanged.trans h1.blinkChanged, h2.blinkOn.trans h1.blinkOn,
    h2.forceLabels.trans h1.forceLabels, h2.oldForceLabels.trans h1.oldForceLabels⟩

theorem rendererKeeps_of_drawOnly {S S1 : RenderState} (h : drawOnly S S1) :
    rendererKeeps S S1 := by
  refine ⟨h.blinkChanged, fun hf => by rw [h.forceLabels]; exact hf, ?_, ?_, ?_, ?_, ?_, ?_, ?_⟩
  · rw [h.ui]
  · rw [h.ui]
  · rw [h.ui]
  · rw [h.ui]
  · rw [h.ui]
  · rw [h.ui]
  · intro q _; rw [h.ui]; exact sameKind_refl _

theorem putStringCentered_drawOnly (env : RenderEnv) (x y width : Int) (font : Font)
    (str : List Char) (S S1 : RenderState)
    (h : putStringCentered env x y width font str S = some S1) : drawOnly S S1 := by
  obtain ⟨h1, h2, h3, h4, h5⟩ := putStringCentered_ui env x y width font str S S1 h
  exact ⟨h1, h2, h3, h4, h5⟩

theorem graphLabelAxis_drawOnly (env : RenderEnv) (g : GraphGeom) (field source : FieldObj)
    (S S1 : RenderState) (h : graphLabelAxis env g field source S = some S1) :
    drawOnly S S1 := by
  unfold graphLabelAxis at h
  simp only at h
  split at h
  · cases h
  · rename_i S3 haxis
    have h3 : drawOnly S S3 := by
      split at haxis
      · split at haxis
        · cases haxis
        · rename_i Sa hput
          simp only [Option.some.injEq] at haxis
          subst haxis
          have hp := putStringCentered_drawOnly _ _ _ _ _ _ _ _ hput
          exact ⟨hp.ui, hp.blinkChanged, hp.blinkOn, hp.forceLabels, hp.oldForceLabels⟩
      · simp only [Option.some.injEq] at haxis
        subst haxis; exact drawOnly_refl S
    split at h
    · cases h
    · rename_i S4 hmax
      have h4 : drawOnly S3 S4 := by
        split at hmax
        · cases hs : getEditableString env source S3.ui.caches0.max_val with
          | none => rw [hs] at hmax; cases hmax
          | some str =>
            rw [hs] at hmax
            simp only [Option.map_some', Option.some.injEq] at hmax
            subst hmax; exact ⟨rfl, rfl, rfl, rfl, rfl⟩
        · simp only [Option.some.injEq] at hmax
          subst hmax; exact drawOnly_refl S3
      split at h
      · cases hs : getEditableString env source S3.ui.caches0.min_val with
        | none => rw [hs] at h; cases h
        | some str =>
          rw [hs] at h
          simp only [Option.map_some', Option.some.injEq] at h
          subst h
          exact drawOnly_trans (drawOnly_trans h3 h4) ⟨rfl, rfl, rfl, rfl, rfl⟩
      · simp only [Option.some.injEq] at h
        subst h
        exact drawOnly_trans h3 h4

theorem graphClear_drawOnly (g : GraphGeom) (field : FieldObj) (S : RenderState) :
    drawOnly S (graphClear g field S) := by
  unfold graphClear
  simp only
  split <;> exact ⟨rfl, rfl, rfl, rfl, rfl⟩

theorem sameKind_setDirty (arena : FieldPtr → FieldObj) (p q : FieldPtr) (b : Bool) :
    sameKind (setDirty arena p b q) (arena q) :=
  sameKind_of_flags (setDirty_sameButFlags arena p q b)

theorem sameKind_update_cache (arena : FieldPtr → FieldObj) (p q : FieldPtr) (b : Bool) :
    sameKind (Function.update arena p { arena p with cache := b } q) (arena q) := by
  rw [Function.update_apply]
  split
  · rename_i h; subst h; exact ⟨rfl, rfl, rfl, rfl, rfl, rfl⟩
  · exact sameKind_refl _

theorem renderGraphSample_keeps (layout : FieldLayout) (S : RenderState)
    (res : RenderState ⊕ GraphSampled) (h : renderGraphSample layout S = some res) :
    rendererKeeps S (match res with
      | Sum.inl S2 => S2
      | Sum.inr r => r.state) := by
  unfold renderGraphSample at h
  rw [getField_resolve] at h
  cases hr : resolveField S.ui layout with
  | none => rw [hr] at h; simp at h
  | some fp =>
    rw [hr] at h
    simp only [Option.map_some'] at h
    generalize hnb : (S.blinkChanged && (S.ui.curCustomizingField.isSome &&
      decide (S.ui.curCustomizingField = parentOf S.ui layout))) = nb at h
    have hS2 : rendererKeeps S
        (if nb = true then setDirtyR { S with parentCustomizable := parentOf S.ui layout } fp true
         else { S with parentCustomizable := parentOf S.ui layout }) := by
      cases nb
      · exact rendererKeeps_of_flags _ _ rfl (fun hf => hf) rfl rfl rfl rfl rfl rfl
          (fun q => sameKind_refl _)
      · exact rendererKeeps_of_flags _ _ rfl (fun hf => hf) rfl rfl rfl rfl rfl rfl
          (fun q => sameKind_setDirty _ fp q true)
    generalize (if nb = true then
        setDirtyR { S with parentCustomizable := parentOf S.ui layout } fp true
      else { S with parentCustomizable := parentOf S.ui layout }) = S2 at h hS2
    split at h
    · simp only [Option.some.injEq] at h
      subst h; exact hS2
    · have hS3 : rendererKeeps S2
          (if (!(S2.ui.arena fp).cache) = true then
            { S2 with ui := { S2.ui with
                arena := Function.update S2.ui.arena fp { S2.ui.arena fp with cache := true },
                caches0 := graphCacheReset S2.ui.caches0 } }
           else S2) := by
        split
        · exact rendererKeeps_of_flags _ _ rfl (fun hf => hf) rfl rfl rfl rfl rfl rfl
            (fun q => sameKind_update_cache _ fp q true)
        · exact rendererKeeps_refl S2
      generalize (if (!(S2.ui.arena fp).cache) = true then
            { S2 with ui := { S2.ui with
                arena := Function.update S2.ui.arena fp { S2.ui.arena fp with cache := true },
                caches0 := graphCacheReset S2.ui.caches0 } }
           else S2) = S3 at h hS3
      split at h
      · cases h
      · split at h
        · split at h
          · cases h
          · simp only [Option.some.injEq] at h
            subst h
            exact rendererKeeps_trans (rendererKeeps_trans hS2 hS3)
              (rendererKeeps_of_flags _ _ rfl (fun hf => hf) rfl rfl rfl rfl rfl rfl
                (fun q => sameKind_refl _))
        · simp only [Option.some.injEq] at h
          subst h
          exact rendererKeeps_trans hS2 hS3

theorem renderGraph_frame (env : RenderEnv) (layout layout1 : FieldLayout)
    (S S1 : RenderState) (d : Bool)
    (h : renderGraph env layout S = some (layout1, S1, d)) :
    rendererKeeps S S1 ∧ layout1 = layout := by
  unfold renderGraph at h
  split at h
  · cases h
  · rename_i S2 hres
    have hk := renderGraphSample_keeps layout S _ hres
    simp only [Option.some.injEq, Prod.mk.injEq] at h
    obtain ⟨h1, h2, _⟩ := h
    subst h1; subst h2
    exact ⟨hk, rfl⟩
  · rename_i r hres
    have hk := renderGraphSample_keeps layout S _ hres
    simp only at h hk
    split at h
    · simp only [Option.some.injEq, Prod.mk.injEq] at h
      obtain ⟨h1, h2, _⟩ := h
      subst h1; subst h2
      exact ⟨rendererKeeps_trans hk (rendererKeeps_of_drawOnly (graphClear_drawOnly _ _ _)), rfl⟩
    · split at h
      · cases h
      · rename_i S6 hlab
        simp only [Option.some.injEq, Prod.mk.injEq] at h
        obtain ⟨h1, h2, _⟩ := h
        subst h1; subst h2
        have h6 := graphLabelAxis_drawOnly _ _ _ _ _ _ hlab
        have h5 := graphClear_drawOnly (graphGeomOf env layout) (r.state.ui.arena r.field) r.state
        have h56 := drawOnly_trans h5 h6
        exact ⟨rendererKeeps_trans hk (rendererKeeps_of_drawOnly
          ⟨h56.ui, h56.blinkChanged, h56.blinkOn, h56.forceLabels, h56.oldForceLabels⟩), rfl⟩

/-- The renderer of a scrollable hands the layout back as it got it. -/
theorem renderScrollable_layout (env : RenderEnv) (inner : NestedPass)
    (layout lb : FieldLayout) (S Sb : RenderState) (d : Bool)
    (h : renderScrollable env inner layout S = some (lb, Sb, d)) : lb = layout := by
  unfold renderScrollable at h
  split at h
  · cases h
  · simp only at h
    split at h
    · cases h
    · split at h
      · cases h
      · unfold renderActiveScrollable at h
        simp only at h
        split at h
        · cases h
        · split at h
          · unfold renderExpanded at h
            simp only at h
            split at h
            · cases h
            · split at h
              · cases h
              · simp only [Option.some.injEq, Prod.mk.injEq] at h
                exact h.1.symm
          · unfold renderCollapsed at h
            simp only at h
            split at h
            · cases h
            · split at h
              · cases h
              · simp only [Option.some.injEq, Prod.mk.injEq] at h
                exact h.1.symm

/-- What `getEditableNumber` returns without conversion: the target as `readTarget` reads
it. -/
theorem getEditableNumber_raw (cm cf : Bool) (mem : Nat → Nat) (field : FieldObj)
    (hv : field.hdr.variant = FieldVariant.FieldEditable) :
    getEditableNumber cm cf mem field false = readTarget field.size (mem field.target) := by
  unfold getEditableNumber
  rw [if_neg (by simp [hv])]
  cases readTarget field.size (mem field.target) <;> simp

/-- The reads of `getEditableNumber` that give the unsigned value back: a 1-byte target, a
2-byte target below 32768 and a 4-byte target below `2^31`; a 4-byte target from `2^31` on
comes back with the same 32 bits; any other width fails the assertion. -/
theorem getEditableNumber_reads (cm cf : Bool) (mem : Nat → Nat) (field : FieldObj) (u : Nat)
    (hv : field.hdr.variant = FieldVariant.FieldEditable) (hu : mem field.target = u) :
    (field.size = 1 → u < 256 → getEditableNumber cm cf mem field false = some (u : Int)) ∧
    (field.size = 2 → u < 32768 → getEditableNumber cm cf mem field false = some (u : Int)) ∧
    (field.size = 4 → u < 4294967296 →
      ∃ v, getEditableNumber cm cf mem field false = some v ∧ toUInt32 v = (u : Int) ∧
        (u < 2147483648 → v = (u : Int))) ∧
    (field.size ≠ 1 → field.size ≠ 2 → field.size ≠ 4 →
      getEditableNumber cm cf mem field false = none) := by
  rw [getEditableNumber_raw cm cf mem field hv, hu]
  refine ⟨?_, ?_, ?_, ?_⟩
  · intro hs hlt
    rw [hs]
    simp only [readTarget]
    rw [Nat.mod_eq_of_lt hlt]
  · intro hs hlt
    rw [hs]
    simp only [readTarget, toInt16]
    exact congrArg some (by omega)
  · intro hs hlt
    rw [hs]
    refine ⟨toInt32 (u : Int), rfl, ?_, ?_⟩
    · simp only [toUInt32, toInt32]; omega
    · intro h; simp only [toInt32]; omega
  · intro h1 h2 h4
    unfold readTarget
    split <;> first | rfl | contradiction

/-- C24: for an Editable bound to a 2-byte unsigned target that holds `u` with
`32768 ≤ u < 65536`, `getEditableNumber(field, false)` returns `u - 65536`, a negative
number, and not `u`: the target is read through an `int16_t` pointer. -/
theorem getEditableNumber_two_byte_signed (cm cf : Bool) (mem : Nat → Nat) (field : FieldObj)
    (u : Nat) (hv : field.hdr.variant = FieldVariant.FieldEditable) (hs : field.size = 2)
    (hu : mem field.target = u) (h1 : 32768 ≤ u) (h2 : u < 65536) :
    getEditableNumber cm cf mem field false = some ((u : Int) - 65536) ∧
    getEditableNumber cm cf mem field false ≠ some (u : Int) := by
  have e : getEditableNumber cm cf mem field false = some ((u : Int) - 65536) := by
    rw [getEditableNumber_raw cm cf mem field hv, hu, hs]
    simp only [readTarget, toInt16]
    exact congrArg some (by omega)
  refine ⟨e, ?_⟩
  rw [e]
  intro h
  injection h with h
  omega

/-- C24 at a 2-byte target that holds 40000, as `setEditableNumber` stores it: the value
read back is -25536. -/
theorem getEditableNumber_two_byte_signed_witness :
    setEditableNumber false false (memOf 0) (uintField "" 0 65535 1 2 200) 40000 false
      = some (Function.update (memOf 0) 200 40000) ∧
    getEditableNumber false false (Function.update (memOf 0) 200 40000)
      (uintField "" 0 65535 1 2 200) false = some (-25536) :=
  ⟨rfl, (getEditableNumber_two_byte_signed false false (Function.update (memOf 0) 200 40000)
    (uintField "" 0 65535 1 2 200) 40000 rfl rfl (by simp [uintField]) (by decide)
    (by decide)).1⟩

/-! ## The scale of the graph -/

theorem toInt32_of_inInt32 (v : Int) (h : inInt32 v) : toInt32 v = v :=
  toInt32_of_range v h.1 h.2

/-- The truncating division by a positive divisor is monotone in the dividend. -/
theorem cdiv_mono (a b d : Int) (hab : a ≤ b) (hd : 0 < d) : cdiv a d ≤ cdiv b d := by
  by_cases ha : 0 ≤ a
  · rw [cdiv_of_nonneg a d ha (by omega), cdiv_of_nonneg b d (by omega) (by omega)]
    exact Int.ediv_le_ediv hd hab
  · by_cases hb : 0 ≤ b
    · rw [cdiv_of_neg a d (by omega) (by omega), cdiv_of_nonneg b d hb (by omega)]
      have h1 : 0 ≤ (-a) / d := Int.ediv_nonneg (by omega) (by omega)
      have h2 : 0 ≤ b / d := Int.ediv_nonneg hb (by omega)
      omega
    · rw [cdiv_of_neg a d (by omega) (by omega), cdiv_of_neg b d (by omega) (by omega)]
      have h1 : (-b) / d ≤ (-a) / d := Int.ediv_le_ediv hd (by omega)
      omega

/-- The truncated quotient of a dividend between `lo * d` and `hi * d` lies between `lo`
and `hi`. -/
theorem cdiv_between (n d lo hi : Int) (hd : 0 < d) (h1 : lo * d ≤ n) (h2 : n ≤ hi * d) :
    lo ≤ cdiv n d ∧ cdiv n d ≤ hi := by
  have e1 : cdiv (lo * d) d = lo := by
    unfold cdiv
    exact Int.mul_tdiv_cancel lo (by omega)
  have e2 : cdiv (hi * d) d = hi := by
    unfold cdiv
    exact Int.mul_tdiv_cancel hi (by omega)
  have m1 := cdiv_mono (lo * d) n d h1 hd
  have m2 := cdiv_mono n (hi * d) d h2 hd
  rw [e1] at m1
  rw [e2] at m2
  exact ⟨m1, m2⟩

/-- With a span and products that fit 32 bits, `graphScaleY` is the truncated quotient of
the interpolation, for every value between the running minimum and maximum. -/
theorem graphScaleY_exact (g : GraphGeom) (cache : GraphCache) (x : Int)
    (hspan : cache.min_val < cache.max_val) (hgeom : g.graphYmax ≤ g.graphYmin - 1)
    (hd : inInt32 (cache.max_val - cache.min_val))
    (hp1 : inInt32 ((g.graphYmin - 1) * (cache.max_val - cache.min_val)))
    (hp2 : inInt32 (g.graphYmax * (cache.max_val - cache.min_val)))
    (hx0 : cache.min_val ≤ x) (hx1 : x ≤ cache.max_val) :
    graphScaleY g cache x
      = cdiv ((g.graphYmin - 1) * (cache.max_val - x) + g.graphYmax * (x - cache.min_val))
          (cache.max_val - cache.min_val) ∧
    g.graphYmax * (cache.max_val - cache.min_val)
      ≤ (g.graphYmin - 1) * (cache.max_val - x) + g.graphYmax * (x - cache.min_val) ∧
    (g.graphYmin - 1) * (cache.max_val - x) + g.graphYmax * (x - cache.min_val)
      ≤ (g.graphYmin - 1) * (cache.max_val - cache.min_val) := by
  obtain ⟨hd0, hd1⟩ := hd
  obtain ⟨hp10, hp11⟩ := hp1
  obtain ⟨hp20, hp21⟩ := hp2
  simp only [INT32_MIN, INT32_MAX] at hd0 hd1 hp10 hp11 hp20 hp21
  have a0 : 0 ≤ cache.max_val - x := by omega
  have a1 : cache.max_val - x ≤ cache.max_val - cache.min_val := by omega
  have b0 : 0 ≤ x - cache.min_val := by omega
  have b1 : x - cache.min_val ≤ cache.max_val - cache.min_val := by omega
  have hlo : g.graphYmax * (cache.max_val - cache.min_val)
      ≤ (g.graphYmin - 1) * (cache.max_val - x) + g.graphYmax * (x - cache.min_val) := by
    nlinarith
  have hhi : (g.graphYmin - 1) * (cache.max_val - x) + g.graphYmax * (x - cache.min_val)
      ≤ (g.graphYmin - 1) * (cache.max_val - cache.min_val) := by
    nlinarith
  have q1 : -2147483648 ≤ (g.graphYmin - 1) * (cache.max_val - x) := by
    by_cases hs : 0 ≤ g.graphYmin - 1
    · nlinarith
    · nlinarith
  have q2 : (g.graphYmin - 1) * (cache.max_val - x) ≤ 2147483647 := by
    by_cases hs : 0 ≤ g.graphYmin - 1
    · nlinarith
    · nlinarith
  have q3 : -2147483648 ≤ g.graphYmax * (x - cache.min_val) := by
    by_cases hs : 0 ≤ g.graphYmax
    · nlinarith
    · nlinarith
  have q4 : g.graphYmax * (x - cache.min_val) ≤ 2147483647 := by
    by_cases hs : 0 ≤ g.graphYmax
    · nlinarith
    · nlinarith
  refine ⟨?_, hlo, hhi⟩
  simp only [graphScaleY]
  rw [if_neg (by omega), toInt32_of_range (cache.max_val - x) (by omega) (by omega),
    toInt32_of_range (x - cache.min_val) (by omega) (by omega),
    toInt32_of_range ((g.graphYmin - 1) * (cache.max_val - x)) q1 q2,
    toInt32_of_range (g.graphYmax * (x - cache.min_val)) q3 q4,
    toInt32_of_range _ (by omega) (by omega),
    toInt32_of_range (cache.max_val - cache.min_val) (by omega) (by omega)]

/-- C27: `graphScaleY` never divides by zero (the divisor is the `int32_t` difference of
two different `int32_t` values); when `max_val` equals `min_val` it returns `graphYmin` for
every input; when `min_val < max_val`, `graphYmax ≤ graphYmin - 1` and the products fit
32 bits, it maps `min_val` to `graphYmin - 1` and `max_val` to `graphYmax`, every `x`
between `min_val` and `max_val` to a row between `graphYmax` and `graphYmin - 1`, and it is
monotone non-increasing in `x`. -/
theorem graphScaleY_interpolates (g : GraphGeom) (cache : GraphCache)
    (hmax : inInt32 cache.max_val) (hmin : inInt32 cache.min_val) :
    (cache.max_val ≠ cache.min_val → toInt32 (cache.max_val - cache.min_val) ≠ 0) ∧
    (cache.max_val = cache.min_val → ∀ x, graphScaleY g cache x = g.graphYmin) ∧
    (cache.min_val < cache.max_val → g.graphYmax ≤ g.graphYmin - 1 →
      inInt32 (cache.max_val - cache.min_val) →
      inInt32 ((g.graphYmin - 1) * (cache.max_val - cache.min_val)) →
      inInt32 (g.graphYmax * (cache.max_val - cache.min_val)) →
      graphScaleY g cache cache.min_val = g.graphYmin - 1 ∧
      graphScaleY g cache cache.max_val = g.graphYmax ∧
      (∀ x, cache.min_val ≤ x → x ≤ cache.max_val →
        g.graphYmax ≤ graphScaleY g cache x ∧ graphScaleY g cache x ≤ g.graphYmin - 1) ∧
      (∀ a b, cache.min_val ≤ a → a ≤ b → b ≤ cache.max_val →
        graphScaleY g cache b ≤ graphScaleY g cache a)) := by
  refine ⟨?_, ?_, ?_⟩
  · intro hne
    obtain ⟨h1, h2⟩ := hmax
    obtain ⟨h3, h4⟩ := hmin
    simp only [INT32_MIN, INT32_MAX] at h1 h2 h3 h4
    simp only [toInt32]
    omega
  · intro heq x
    simp only [graphScaleY, heq, if_true]
  · intro hspan hgeom hd hp1 hp2
    have hdpos : 0 < cache.max_val - cache.min_val := by omega
    refine ⟨?_, ?_, ?_, ?_⟩
    · obtain ⟨e, _, _⟩ := graphScaleY_exact g cache cache.min_val hspan hgeom hd hp1 hp2
        (le_refl _) (by omega)
      rw [e, sub_self, mul_zero, add_zero]
      unfold cdiv
      exact Int.mul_tdiv_cancel _ (by omega)
    · obtain ⟨e, _, _⟩ := graphScaleY_exact g cache cache.max_val hspan hgeom hd hp1 hp2
        (by omega) (le_refl _)
      rw [e, sub_self, mul_zero, zero_add]
      unfold cdiv
      exact Int.mul_tdiv_cancel _ (by omega)
    · intro x hx0 hx1
      obtain ⟨e, hlo, hhi⟩ := graphScaleY_exact g cache x hspan hgeom hd hp1 hp2 hx0 hx1
      rw [e]
      exact cdiv_between _ _ _ _ hdpos hlo hhi
    · intro a b ha hab hb
      obtain ⟨ea, _, _⟩ := graphScaleY_exact g cache a hspan hgeom hd hp1 hp2 ha (by omega)
      obtain ⟨eb, _, _⟩ := graphScaleY_exact g cache b hspan hgeom hd hp1 hp2 (by omega) hb
      rw [ea, eb]
      apply cdiv_mono _ _ _ _ hdpos
      nlinarith

/-- C27 on a plot between the rows 10 and 100 with the running range 0 to 50: the minimum
is drawn in row 99, the maximum in row 10. -/
theorem graphScaleY_interpolates_witness :
    graphScaleY (geomOf 0 10 100) (cacheOf 0 50 []) 0 = 99 ∧
    graphScaleY (geomOf 0 10 100) (cacheOf 0 50 []) 50 = 10 := by
  obtain ⟨h1, h2, _, _⟩ :=
    (graphScaleY_interpolates (geomOf 0 10 100) (cacheOf 0 50 [])
      (by norm_num [inInt32, INT32_MIN, INT32_MAX, cacheOf])
      (by norm_num [inInt32, INT32_MIN, INT32_MAX, cacheOf])).2.2
      (by decide) (by decide) (by norm_num [inInt32, INT32_MIN, INT32_MAX, cacheOf])
      (by norm_num [inInt32, INT32_MIN, INT32_MAX, cacheOf, geomOf])
      (by norm_num [inInt32, INT32_MIN, INT32_MAX, cacheOf, geomOf])
  exact ⟨h1, h2⟩

/-! ## Advancing the choice of a customizable -/

/-- The entries of a NULL-terminated choices array. -/
theorem choices_get (cs : List FieldPtr) (j : Nat) :
    ((cs.map some ++ [none]).get? j).join = cs.get? j := by
  rw [List.get?_eq_getElem?, List.get?_eq_getElem?]
  by_cases hj : j < cs.length
  · rw [List.getElem?_append_left (by simpa using hj), List.getElem?_map,
      List.getElem?_eq_getElem hj]
    rfl
  · have hr : cs[j]? = none := List.getElem?_eq_none (by omega)
    rw [hr]
    by_cases hj2 : j = cs.length
    · subst hj2
      simp
    · have hl : (cs.map some ++ [none])[j]? = none :=
        List.getElem?_eq_none (by simp only [List.length_append, List.length_map,
          List.length_singleton]; omega)
      rw [hl]
      rfl

/-- Discarding the cache reference of a field changes the member `cache` only. -/
theorem discard_cache_apply (arena : FieldPtr → FieldObj) (old q : FieldPtr) :
    ((if (arena old).hdr.variant = FieldVariant.FieldGraph then
        Function.update arena old { arena old with cache := false }
      else arena) q).hdr = (arena q).hdr ∧
    ((if (arena old).hdr.variant = FieldVariant.FieldGraph then
        Function.update arena old { arena old with cache := false }
      else arena) q).choices = (arena q).choices ∧
    ((if (arena old).hdr.variant = FieldVariant.FieldGraph then
        Function.update arena old { arena old with cache := false }
      else arena) q).selector = (arena q).selector := by
  split
  · simp only [Function.update_apply]
    by_cases hq : q = old
    · subst hq; simp
    · simp [hq]
  · exact ⟨rfl, rfl, rfl⟩

/-- One call of `changeCurrentCustomizableField` on a slot with `n` choices whose selector
holds `i < n`: the selector becomes `(i + 1) % n`, and the slot stays as it is. -/
theorem changeCurrentCustomizableField_step (st : UiState) (sp : FieldPtr)
    (cs : List FieldPtr) (i : Nat)
    (hcur : st.curCustomizingField = some sp)
    (hv : (st.arena sp).hdr.variant = FieldVariant.FieldCustomizable)
    (hch : (st.arena sp).choices = cs.map some ++ [none])
    (hn2 : cs.length ≤ 255)
    (hsel : st.mem (st.arena sp).selector = i) (hi : i < cs.length) :
    ∃ st1, changeCurrentCustomizableField st = some st1 ∧
      st1.curCustomizingField = some sp ∧
      (st1.arena sp).hdr.variant = FieldVariant.FieldCustomizable ∧
      (st1.arena sp).choices = cs.map some ++ [none] ∧
      (st1.arena sp).selector = (st.arena sp).selector ∧
      st1.mem (st.arena sp).selector = (i + 1) % cs.length := by
  have hold : ((st.arena sp).choices.get? (st.mem (st.arena sp).selector % 256)).join
      = some (cs.get ⟨i, hi⟩) := by
    rw [hch, hsel, Nat.mod_eq_of_lt (by omega), choices_get, List.get?_eq_get hi]
  obtain ⟨d1, d2, d3⟩ := discard_cache_apply st.arena (cs.get ⟨i, hi⟩) sp
  unfold changeCurrentCustomizableField
  simp only [hcur, hv, if_true, hold]
  refine ⟨_, rfl, rfl, ?_, ?_, ?_, ?_⟩
  · show (_ : FieldObj).hdr.variant = _
    rw [d1]; exact hv
  · show (_ : FieldObj).choices = _
    rw [d2]; exact hch
  · exact d3
  · show Function.update st.mem _ _ _ = _
    rw [d3, Function.update_same, d2, hch, hsel, Nat.mod_eq_of_lt (by omega : i % 256 + 1 < 256),
      Nat.mod_eq_of_lt (by omega : i < 256), choices_get]
    by_cases hlast : i + 1 < cs.length
    · rw [List.get?_eq_get hlast, Nat.mod_eq_of_lt hlast]
      rfl
    · have hend : i + 1 = cs.length := by omega
      rw [List.get?_eq_none.mpr (by omega), hend, Nat.mod_self]
      rfl

/-- After `k` calls the selector has advanced by `k`, modulo the number of choices. -/
theorem changeCurrentCustomizableField_iterate (cs : List FieldPtr) (sp : FieldPtr)
    (hn2 : cs.length ≤ 255) (k : Nat) :
    ∀ (st : UiState) (i : Nat), st.curCustomizingField = some sp →
      (st.arena sp).hdr.variant = FieldVariant.FieldCustomizable →
      (st.arena sp).choices = cs.map some ++ [none] →
      st.mem (st.arena sp).selector = i → i < cs.length →
      ∃ stk, iterateOpt changeCurrentCustomizableField k st = some stk ∧
        (stk.arena sp).selector = (st.arena sp).selector ∧
        stk.mem (st.arena sp).selector = (i + k) % cs.length := by
  induction k with
  | zero =>
    intro st i _ _ _ hsel hi
    exact ⟨st, rfl, rfl, by rw [hsel, Nat.add_zero, Nat.mod_eq_of_lt hi]⟩
  | succ k ih =>
    intro st i hcur hv hch hsel hi
    obtain ⟨st1, h1, h2, h3, h4, h5, h6⟩ :=
      changeCurrentCustomizableField_step st sp cs i hcur hv hch hn2 hsel hi
    have hpos : 0 < cs.length := by omega
    obtain ⟨stk, g1, g2, g3⟩ := ih st1 ((i + 1) % cs.length) h2 h3 h4 (by rw [h5]; exact h6)
      (Nat.mod_lt _ hpos)
    refine ⟨stk, ?_, g2.trans h5, ?_⟩
    · show (changeCurrentCustomizableField st).bind _ = _
      rw [h1]
      exact g1
    · rw [h5] at g3
      rw [g3, Nat.mod_add_mod]
      congr 1
      omega

/-- C21: for the Customizable being customized, with a NULL-terminated choices array of
`n` entries (`1 ≤ n ≤ 255`) and a selector `i < n`, `changeCurrentCustomizableField`
returns and sets the selector to `i + 1` when `i + 1 < n` and to 0 otherwise; the new
selector is below `n` and selects a non-null choice, so that `getField` resolves the slot;
and `n` calls in a row bring the selector back to `i`. -/
theorem change_customizable_cycles (st : UiState) (sp : FieldPtr) (cs : List FieldPtr)
    (i : Nat) (hcur : st.curCustomizingField = some sp)
    (hv : (st.arena sp).hdr.variant = FieldVariant.FieldCustomizable)
    (hch : (st.arena sp).choices = cs.map some ++ [none])
    (hn1 : 1 ≤ cs.length) (hn2 : cs.length ≤ 255)
    (hsel : st.mem (st.arena sp).selector = i) (hi : i < cs.length) :
    (∃ st1, changeCurrentCustomizableField st = some st1 ∧
      st1.mem (st1.arena sp).selector = (if i + 1 < cs.length then i + 1 else 0) ∧
      st1.mem (st1.arena sp).selector < cs.length ∧
      (∃ c, c ∈ cs ∧ currentChoice st1 sp = some c) ∧
      (∀ S layout, S.ui = st1 → layout.field = some sp → (getField S layout).isSome = true)) ∧
    (∃ stn, iterateOpt changeCurrentCustomizableField cs.length st = some stn ∧
      stn.mem (stn.arena sp).selector = i) := by
  constructor
  · obtain ⟨st1, h1, _, h3, h4, h5, h6⟩ :=
      changeCurrentCustomizableField_step st sp cs i hcur hv hch hn2 hsel hi
    have hlt : (i + 1) % cs.length < cs.length := Nat.mod_lt _ (by omega)
    have hval : (i + 1) % cs.length = (if i + 1 < cs.length then i + 1 else 0) := by
      by_cases hlast : i + 1 < cs.length
      · rw [if_pos hlast, Nat.mod_eq_of_lt hlast]
      · have hend : i + 1 = cs.length := by omega
        rw [if_neg hlast, hend, Nat.mod_self]
    have hchoice : currentChoice st1 sp = some (cs.get ⟨(i + 1) % cs.length, hlt⟩) := by
      unfold currentChoice
      rw [h4, h5, h6, Nat.mod_eq_of_lt (by omega : (i + 1) % cs.length < 256), choices_get,
        List.get?_eq_get hlt]
    refine ⟨st1, h1, ?_, ?_, ⟨_, List.get_mem _ _ _, hchoice⟩, ?_⟩
    · rw [h5, h6, hval]
    · rw [h5, h6]; exact hlt
    · intro S layout hS hl
      unfold getField
      simp only [hl, hS, h3, if_true, hchoice, Option.isSome_some]
  · obtain ⟨stn, g1, g2, g3⟩ :=
      changeCurrentCustomizableField_iterate cs sp hn2 cs.length st i hcur hv hch hsel hi
    refine ⟨stn, g1, ?_⟩
    rw [g2, g3, Nat.add_mod_right, Nat.mod_eq_of_lt hi]

/-- C21 on the slot of `graphSlotDemo` (two choices, the first selected): one call selects
the second choice, two calls bring the selector back to the first. -/
theorem change_customizable_cycles_witness :
    (∃ st1, changeCurrentCustomizableField graphSlotDemo = some st1 ∧ st1.mem 100 = 1) ∧
    (∃ st2, iterateOpt changeCurrentCustomizableField 2 graphSlotDemo = some st2 ∧
      st2.mem 100 = 0) := by
  obtain ⟨⟨st1, h1, h2, _⟩, ⟨st2, g1, g2⟩⟩ :=
    change_customizable_cycles graphSlotDemo 1 [10, 11] 0 rfl rfl rfl (by decide) (by decide)
      rfl (by decide)
  have e1 : (st1.arena 1).selector = 100 := by
    cases h1; rfl
  have e2 : (st2.arena 1).selector = 100 := by
    cases g1; rfl
  rw [e1] at h2
  rw [e2] at g2
  exact ⟨⟨st1, h1, h2⟩, ⟨st2, g1, g2⟩⟩

/-! ## The scrollable stack -/

theorem handlerKeeps_refl (st : UiState) : handlerKeeps st st :=
  ⟨rfl, fun _ => rfl, Or.inl (le_refl _), Or.inl rfl⟩

theorem handlerKeeps_trans {a b c : UiState} (h1 : handlerKeeps a b) (h2 : handlerKeeps b c) :
    handlerKeeps a c := by
  refine ⟨h2.screenFields.trans h1.screenFields,
    fun q => (h2.variant q).trans (h1.variant q), ?_, ?_⟩
  · rcases h1.stack with g1 | g1 <;> rcases h2.stack with g2 | g2
    · exact Or.inl (le_trans g2 g1)
    · exact Or.inr g2
    · exact Or.inr (le_trans g2 g1)
    · exact Or.inr g2
  · rcases h2.customizing with g | g | ⟨x, fs, g1, g2, g3⟩
    · rw [g]; exact h1.customizing
    · exact Or.inr (Or.inl g)
    · refine Or.inr (Or.inr ⟨x, fs, g1, ?_, ?_⟩)
      · rw [← h1.screenFields]; exact g2
      · rw [customizablesOf_congr a.arena b.arena (fun q => (h1.variant q).symm)]
        exact g3

/-- A step that changes flags only and leaves the stack, the customizing field and the
screen alone. -/
theorem handlerKeeps_of_flags (st st1 : UiState)
    (hstack : st1.scrollableStack = st.scrollableStack)
    (hcust : st1.curCustomizingField = st.curCustomizingField)
    (hscreen : st1.screenFields = st.screenFields)
    (h : ∀ q, sameButFlags (st1.arena q) (st.arena q)) : handlerKeeps st st1 :=
  ⟨hscreen, fun q => (h q).variant, Or.inl (by rw [hstack]), Or.inl hcust⟩

theorem customizingOk_of_handlerKeeps {a b : UiState} (ha : customizingOk a)
    (h : handlerKeeps a b) : customizingOk b := by
  intro c hc
  rcases h.customizing with g | g | ⟨x, fs, g1, g2, g3⟩
  · rw [g] at hc
    obtain ⟨fs, hfs, hmem⟩ := ha c hc
    refine ⟨fs, h.screenFields.trans hfs, ?_⟩
    rw [customizablesOf_congr b.arena a.arena h.variant]
    exact hmem
  · rw [g] at hc; cases hc
  · rw [g1] at hc
    injection hc with hc
    subst hc
    refine ⟨fs, h.screenFields.trans g2, ?_⟩
    rw [customizablesOf_congr b.arena a.arena h.variant]
    exact g3

theorem setActiveEditable_keeps (clicked : Option FieldPtr) (st st1 : UiState)
    (h : setActiveEditable clicked st = some st1) : handlerKeeps st st1 := by
  obtain ⟨_, g2, g3, g4, g5⟩ := setActiveEditable_frame clicked st st1 h
  exact handlerKeeps_of_flags st st1 g2 g3 g4 g5

theorem enterScrollable_keeps (f : FieldPtr) (st st1 : UiState)
    (h : enterScrollable f st = some st1) : handlerKeeps st st1 := by
  have hs : st1.screenFields = st.screenFields := by
    unfold enterScrollable at h
    split at h
    · simp only [Option.some.injEq] at h
      subst h; rfl
    · cases h
  obtain ⟨_, g2, g3, g4, g5⟩ := enterScrollable_frame f st st1 h
  refine ⟨hs, fun q => (g5 q).variant, Or.inr ?_, Or.inl g2⟩
  rw [g3, List.length_append, List.length_singleton]
  omega

theorem exitScrollable_keeps (st st1 : UiState) (b : Bool)
    (h : exitScrollable st = some (st1, b)) : handlerKeeps st st1 := by
  have hs : st1.screenFields = st.screenFields := by
    unfold exitScrollable at h
    split at h
    · simp only at h
      split at h
      · simp only [Option.some.injEq, Prod.mk.injEq] at h
        rw [← h.1]
      · simp only [Option.some.injEq, Prod.mk.injEq] at h
        rw [← h.1]
    · cases h
  obtain ⟨_, g2, g3, g4⟩ := exitScrollable_frame st st1 b h
  refine ⟨hs, fun q => (g4 q).variant, Or.inl ?_, Or.inl g2⟩
  rw [g3, List.length_dropLast]
  omega

theorem onPressEditable_keeps (sw102 : Bool) (events : KeyEvents) (st st1 : UiState) (b : Bool)
    (h : onPressEditable sw102 events st = some (st1, b)) : handlerKeeps st st1 := by
  unfold onPressEditable at h
  simp only at h
  split at h
  · cases h
  · rename_i st2 handled hstop
    have h2 : st2.scrollableStack = st.scrollableStack ∧
        st2.curCustomizingField = st.curCustomizingField ∧
        st2.screenFields = st.screenFields ∧
        ∀ q, sameButFlags (st2.arena q) (st.arena q) := by
      split at hstop
      · cases hsa : setActiveEditable none st with
        | none => rw [hsa] at hstop; cases hstop
        | some sv =>
          rw [hsa] at hstop
          simp only [Option.map_some', Option.some.injEq, Prod.mk.injEq] at hstop
          obtain ⟨_, g2, g3, g4, g5⟩ := setActiveEditable_frame none st sv hsa
          rw [← hstop.1]
          exact ⟨g2, g3, g4, g5⟩
      · simp only [Option.some.injEq, Prod.mk.injEq] at hstop
        rw [← hstop.1]
        exact ⟨rfl, rfl, rfl, fun q => sameButFlags_refl _⟩
    obtain ⟨k1, k2, k3, k4⟩ := h2
    split at h
    · split at h
      · cases h
      · rename_i sp _
        split at h
        · rename_i root _ _
          simp only [Option.some.injEq, Prod.mk.injEq] at h
          rw [← h.1]
          exact handlerKeeps_of_flags _ _ k1 k2 k3 (fun q =>
            sameButFlags_trans (setDirty_sameButFlags _ root q true)
              (sameButFlags_trans (setDirty_sameButFlags _ sp q true) (k4 q)))
        · simp only [Option.some.injEq, Prod.mk.injEq] at h
          rw [← h.1]
          exact handlerKeeps_of_flags _ _ k1 k2 k3 (fun q =>
            sameButFlags_trans (setDirty_sameButFlags _ sp q true) (k4 q))
    · simp only [Option.some.injEq, Prod.mk.injEq] at h
      rw [← h.1]
      exact handlerKeeps_of_flags _ _ k1 k2 k3 k4

/-- What an update of `first` and `selected` followed by `forceScrollableRender` leaves
alone. -/
theorem update_first_selected_frame (st : UiState) (arena1 : FieldPtr → FieldObj)
    (sp : FieldPtr) (a b : Nat) (h1 : ∀ q, sameButFlags (arena1 q) (st.arena q))
    (st1 : UiState)
    (hst1 : st1 = forceScrollableRenderUi
      { st with arena := Function.update arena1 sp
                  { arena1 sp with first := a, selected := b } }) :
    st1.curActiveEditable = st.curActiveEditable ∧
    st1.curCustomizingField = st.curCustomizingField ∧
    st1.scrollableStack = st.scrollableStack ∧
    st1.screenFields = st.screenFields ∧ st1.mem = st.mem ∧
    st1.screenConvertMiles = st.screenConvertMiles ∧
    st1.screenConvertFarenheit = st.screenConvertFarenheit ∧
    (∀ q, (st1.arena q).hdr.variant = (st.arena q).hdr.variant ∧
      (st1.arena q).editable = (st.arena q).editable ∧
      (st1.arena q).size = (st.arena q).size ∧ (st1.arena q).target = (st.arena q).target ∧
      (st1.arena q).choices = (st.arena q).choices ∧
      (st1.arena q).selector = (st.arena q).selector) := by
  subst hst1
  obtain ⟨f1, f2, f3, _, f5, _, f7, f8, f9, _, f11⟩ := forceScrollableRenderUi_frame
    { st with arena := Function.update arena1 sp { arena1 sp with first := a, selected := b } }
  refine ⟨f2, f3, f5, f9, f1, f7, f8, fun q => ?_⟩
  have hq := f11 q
  have hd := h1 q
  simp only [Function.update_apply] at hq
  by_cases hqs : q = sp
  · subst hqs
    simp only [if_true] at hq
    exact ⟨hq.variant.trans hd.variant, hq.editable.trans hd.editable,
      hq.size.trans hd.size, hq.target.trans hd.target, hq.choices.trans hd.choices,
      hq.selector.trans hd.selector⟩
  · simp only [hqs, if_false] at hq
    exact ⟨hq.variant.trans hd.variant, hq.editable.trans hd.editable,
      hq.size.trans hd.size, hq.target.trans hd.target, hq.choices.trans hd.choices,
      hq.selector.trans hd.selector⟩

/-- What the up/down block of `onPressScrollable` leaves alone. -/
theorem onPressScrollableMove_frame (events : KeyEvents) (sp : FieldPtr) (st st1 : UiState)
    (h : onPressScrollableMove events sp st = some st1) :
    st1.curActiveEditable = st.curActiveEditable ∧
    st1.curCustomizingField = st.curCustomizingField ∧
    st1.scrollableStack = st.scrollableStack ∧
    st1.screenFields = st.screenFields ∧ st1.mem = st.mem ∧
    st1.screenConvertMiles = st.screenConvertMiles ∧
    st1.screenConvertFarenheit = st.screenConvertFarenheit ∧
    (∀ q, (st1.arena q).hdr.variant = (st.arena q).hdr.variant ∧
      (st1.arena q).editable = (st.arena q).editable ∧
      (st1.arena q).size = (st.arena q).size ∧ (st1.arena q).target = (st.arena q).target ∧
      (st1.arena q).choices = (st.arena q).choices ∧
      (st1.arena q).selector = (st.arena q).selector) := by
  unfold onPressScrollableMove at h
  split at h
  · cases h
  · rename_i c _
    simp only [Option.some.injEq] at h
    exact update_first_selected_frame st _ sp _ _
      (fun q => setDirty_sameButFlags _ c q true) st1 h.symm

theorem onPressScrollableMove_keeps (events : KeyEvents) (sp : FieldPtr) (st st1 : UiState)
    (h : onPressScrollableMove events sp st = some st1) : handlerKeeps st st1 := by
  obtain ⟨_, g2, g3, g4, _, _, _, g8⟩ := onPressScrollableMove_frame events sp st st1 h
  exact ⟨g4, fun q => (g8 q).1, Or.inl (by rw [g3]), Or.inl g2⟩

theorem onPressScrollableSelect_keeps (sw102 : Bool) (events : KeyEvents)
    (curActive : Option FieldPtr) (st st1 : UiState) (handled b : Bool)
    (h : onPressScrollableSelect sw102 events curActive st handled = some (st1, b)) :
    handlerKeeps st st1 ∧ st.scrollableStack.length ≤ st1.scrollableStack.length := by
  unfold onPressScrollableSelect at h
  split at h
  · split at h
    · cases h
    · rename_i c
      split at h
      · split at h
        · cases hsa : setActiveEditable (some c) st with
          | none => rw [hsa] at h; cases h
          | some sv =>
            rw [hsa] at h
            simp only [Option.map_some', Option.some.injEq, Prod.mk.injEq] at h
            obtain ⟨_, g2, _⟩ := setActiveEditable_frame (some c) st sv hsa
            rw [← h.1]
            exact ⟨setActiveEditable_keeps (some c) st sv hsa, by rw [g2]⟩
        · simp only [Option.some.injEq, Prod.mk.injEq] at h
          rw [← h.1]; exact ⟨handlerKeeps_refl st, le_refl _⟩
      · cases hen : enterScrollable c st with
        | none => rw [hen] at h; cases h
        | some sv =>
          rw [hen] at h
          simp only [Option.map_some', Option.some.injEq, Prod.mk.injEq] at h
          obtain ⟨_, _, g3, _⟩ := enterScrollable_frame c st sv hen
          rw [← h.1]
          refine ⟨enterScrollable_keeps c st sv hen, ?_⟩
          rw [g3, List.length_append]
          omega
      · simp only [Option.some.injEq, Prod.mk.injEq] at h
        rw [← h.1]; exact ⟨handlerKeeps_refl st, le_refl _⟩
  · simp only [Option.some.injEq, Prod.mk.injEq] at h
    rw [← h.1]; exact ⟨handlerKeeps_refl st, le_refl _⟩

theorem onPressScrollableUi_keeps (sw102 : Bool) (events : KeyEvents) (st st1 : UiState)
    (b : Bool) (h : onPressScrollableUi sw102 events st = some (st1, b)) :
    handlerKeeps st st1 := by
  unfold onPressScrollableUi at h
  split at h
  · simp only [Option.some.injEq, Prod.mk.injEq] at h
    rw [← h.1]; exact handlerKeeps_refl st
  · rename_i sp _
    simp only at h
    split at h
    · cases h
    · rename_i sta handled1 hmoved
      have h1 : handlerKeeps st sta := by
        split at hmoved
        · cases hmv : onPressScrollableMove events sp st with
          | none => rw [hmv] at hmoved; cases hmoved
          | some sv =>
            rw [hmv] at hmoved
            simp only [Option.map_some', Option.some.injEq, Prod.mk.injEq] at hmoved
            rw [← hmoved.1]
            exact onPressScrollableMove_keeps events sp st sv hmv
        · simp only [Option.some.injEq, Prod.mk.injEq] at hmoved
          rw [← hmoved.1]; exact handlerKeeps_refl st
      split at h
      · cases h
      · rename_i stb handled2 hsel
        have h2 : handlerKeeps sta stb :=
          (onPressScrollableSelect_keeps sw102 events _ sta stb handled1 handled2 hsel).1
        split at h
        · exact handlerKeeps_trans (handlerKeeps_trans h1 h2) (exitScrollable_keeps stb st1 b h)
        · simp only [Option.some.injEq, Prod.mk.injEq] at h
          rw [← h.1]; exact handlerKeeps_trans h1 h2

/-- The loop of `selectNextCustomizableField` ends on a Customizable of the list, on the
first one found before, or on none. -/
theorem selectNextLoop_mem (arena : FieldPtr → FieldObj) (cur : Option FieldPtr)
    (ls : List FieldLayout) :
    ∀ first w c, selectNextLoop arena cur ls first w = some c →
      c ∈ customizablesOf arena ls ∨ first = some c := by
  induction ls with
  | nil => intro first w c h; exact Or.inr h
  | cons l rest ih =>
    intro first w c h
    simp only [selectNextLoop] at h
    simp only [customizablesOf]
    cases hf : l.field with
    | none => rw [hf] at h; exact Or.inr h
    | some f =>
      rw [hf] at h
      simp only at h ⊢
      by_cases hv : (arena f).hdr.variant = FieldVariant.FieldCustomizable
      · simp only [hv, if_true] at h ⊢
        by_cases hw : w = true
        · simp only [hw, if_true, Option.some.injEq] at h
          subst h
          exact Or.inl (List.mem_cons_self _ _)
        · simp only [hw, if_false] at h
          rcases ih _ _ c h with g | g
          · exact Or.inl (List.mem_cons_of_mem _ g)
          · cases hfirst : first with
            | none =>
              rw [hfirst] at g
              simp only [Option.isNone_none, if_true, Option.some.injEq] at g
              subst g
              exact Or.inl (List.mem_cons_self _ _)
            | some x =>
              rw [hfirst] at g
              simp only [Option.isNone_some, Bool.false_eq_true, if_false] at g
              exact Or.inr g
      · simp only [hv, if_false] at h ⊢
        exact ih _ _ c h

theorem selectNextCustomizableField_keeps (st st1 : UiState)
    (h : selectNextCustomizableField st = some st1) : handlerKeeps st st1 := by
  unfold selectNextCustomizableField at h
  split at h
  · cases h
  · rename_i layouts hfs
    simp only at h
    split at h
    · cases h
    · rename_i arena1 hmark
      simp only [Option.some.injEq] at h
      subst h
      have ha : ∀ q, sameButFlags (arena1 q) (st.arena q) := by
        split at hmark
        · simp only [Option.some.injEq] at hmark
          subst hmark; exact fun q => sameButFlags_refl _
        · split at hmark
          · cases hmark
          · rename_i ch _
            simp only [Option.some.injEq] at hmark
            subst hmark; exact fun q => setDirty_sameButFlags _ ch q true
      refine ⟨rfl, fun q => (ha q).variant, Or.inl (le_refl _), ?_⟩
      cases hres : selectNextLoop arena1 st.curCustomizingField layouts none false with
      | none => exact Or.inr (Or.inl rfl)
      | some c =>
        refine Or.inr (Or.inr ⟨c, layouts, rfl, hfs, ?_⟩)
        rcases selectNextLoop_mem arena1 _ layouts none false c hres with g | g
        · rw [customizablesOf_congr st.arena arena1 (fun q => ((ha q).variant).symm)]
          exact g
        · cases g

theorem changeCurrentCustomizableField_keeps (st st1 : UiState)
    (h : changeCurrentCustomizableField st = some st1) : handlerKeeps st st1 := by
  unfold changeCurrentCustomizableField at h
  split at h
  · cases h
  · simp only at h
    split at h
    · split at h
      · cases h
      · rename_i old _
        simp only [Option.some.injEq] at h
        subst h
        refine ⟨rfl, fun q => ?_, Or.inl (le_refl _), Or.inl rfl⟩
        exact congrArg Field.variant (discard_cache_apply st.arena old q).1
    · cases h

theorem onPressCustomizing_keeps (sw102 hasOnCustomized : Bool) (events : KeyEvents)
    (st : UiState) (r : PressResult)
    (h : onPressCustomizing sw102 hasOnCustomized events st = some r) :
    handlerKeeps st r.state := by
  unfold onPressCustomizing at h
  simp only at h
  split at h
  · cases hs : selectNextCustomizableField st with
    | none => rw [hs] at h; cases h
    | some sv =>
      rw [hs] at h
      simp only [Option.map_some', Option.some.injEq] at h
      rw [← h]; exact selectNextCustomizableField_keeps st sv hs
  · split at h
    · simp only [Option.some.injEq] at h
      rw [← h]; exact handlerKeeps_refl st
    · rename_i c _
      split at h
      · cases hs : changeCurrentCustomizableField st with
        | none => rw [hs] at h; cases h
        | some sv =>
          rw [hs] at h
          simp only [Option.map_some', Option.some.injEq] at h
          rw [← h]; exact changeCurrentCustomizableField_keeps st sv hs
      · split at h
        · cases hs : selectNextCustomizableField st with
          | none => rw [hs] at h; cases h
          | some sv =>
            rw [hs] at h
            simp only [Option.map_some', Option.some.injEq] at h
            rw [← h]; exact selectNextCustomizableField_keeps st sv hs
        · split at h
          · split at h
            · rename_i old _ _ _
              simp only [Option.some.injEq] at h
              rw [← h]
              exact ⟨rfl, fun q => (setDirty_sameButFlags _ old q true).variant,
                Or.inl (le_refl _), Or.inr (Or.inl rfl)⟩
            · cases h
          · simp only [Option.some.injEq] at h
            rw [← h]; exact handlerKeeps_refl st

theorem screenOnPress_keeps (sw102 : Bool) (onPress : Option (KeyEvents → Bool))
    (hasOnCustomized : Bool) (events : KeyEvents) (st : UiState) (r : PressResult)
    (h : screenOnPress sw102 onPress hasOnCustomized events st = some r) :
    handlerKeeps st r.state := by
  unfold screenOnPress at h
  simp only at h
  split at h
  · cases h
  · rename_i sta handled1 h1
    have p1 : handlerKeeps st sta := by
      split at h1
      · exact onPressEditable_keeps sw102 events st sta handled1 h1
      · simp only [Option.some.injEq, Prod.mk.injEq] at h1
        rw [← h1.1]; exact handlerKeeps_refl st
    split at h
    · cases h
    · rename_i stb handled2 h2
      have p2 : handlerKeeps sta stb := by
        split at h2
        · exact onPressScrollableUi_keeps sw102 events sta stb handled2 h2
        · simp only [Option.some.injEq, Prod.mk.injEq] at h2
          rw [← h2.1]; exact handlerKeeps_refl sta
      split at h
      · cases h
      · rename_i r3 h3
        have p3 : handlerKeeps stb r3.state := by
          split at h3
          · exact onPressCustomizing_keeps sw102 hasOnCustomized events stb r3 h3
          · simp only [Option.some.injEq] at h3
            rw [← h3]; exact handlerKeeps_refl stb
        have p : handlerKeeps st r3.state := handlerKeeps_trans (handlerKeeps_trans p1 p2) p3
        split at h
        · simp only [Option.some.injEq] at h
          rw [← h]; exact p
        · simp only [Option.some.injEq] at h
          rw [← h]; exact p

/-- In every reachable state the stack holds at most `MAX_SCROLLABLE_DEPTH` scrollables
and the field being customized is a Customizable of the current screen. -/
theorem reachable_stack_customizing (sw102 : Bool) (st : UiState) (h : Reachable sw102 st) :
    st.scrollableStack.length ≤ MAX_SCROLLABLE_DEPTH ∧ customizingOk st := by
  have step : ∀ a b : UiState, handlerKeeps a b →
      a.scrollableStack.length ≤ MAX_SCROLLABLE_DEPTH ∧ customizingOk a →
      b.scrollableStack.length ≤ MAX_SCROLLABLE_DEPTH ∧ customizingOk b := by
    intro a b hk ha
    refine ⟨?_, customizingOk_of_handlerKeeps ha.2 hk⟩
    rcases hk.stack with g | g
    · exact le_trans g ha.1
    · exact g
  induction h with
  | init arena mem =>
    exact ⟨Nat.zero_le _, fun c hc => by cases hc⟩
  | showScreen st st1 fields _ hshow ih =>
    unfold panicScreenShowUi at hshow
    cases hsa : setActiveEditable none st with
    | none => rw [hsa] at hshow; cases hshow
    | some sv =>
      rw [hsa] at hshow
      simp only [Option.map_some', Option.some.injEq] at hshow
      rw [← hshow]
      exact ⟨Nat.zero_le _, fun c hc => by cases hc⟩
  | press st onPress hasOnCustomized events r _ hpress ih =>
    exact step _ _ (screenOnPress_keeps sw102 onPress hasOnCustomized events st r hpress) ih
  | enterRoot st st1 f _ _ _ henter ih =>
    exact step _ _ (enterScrollable_keeps f st st1 henter) ih
  | other st st1 _ hother ih =>
    exact step _ _ ⟨hother.screenFields, hother.variant,
      Or.inl (by rw [hother.scrollableStack]), Or.inl hother.curCustomizingField⟩ ih

/-- C23: in every reachable state the scrollable stack holds at most
`MAX_SCROLLABLE_DEPTH` (3) entries. `enterScrollable` on a stack of depth 3 fails its
assertion and pushes nothing; on a smaller stack it pushes the field (depth + 1), sets the
blink flag of the pushed field and the dirty flag of the stack root and requests a
relayout. `exitScrollable` fails its assertion on an empty stack; otherwise it pops exactly
one level and returns true exactly when the stack is still non-empty. `onPressScrollable`
returns at once when the stack is empty, and otherwise reaches its call of
`exitScrollable` with a stack of depth at least 1. -/
theorem scrollable_stack_bounded (sw102 : Bool) :
    (∀ st, Reachable sw102 st → st.scrollableStack.length ≤ MAX_SCROLLABLE_DEPTH) ∧
    (∀ f st, st.scrollableStack.length = MAX_SCROLLABLE_DEPTH → enterScrollable f st = none) ∧
    (∀ f st, st.scrollableStack.length < MAX_SCROLLABLE_DEPTH →
      ∃ st1, enterScrollable f st = some st1 ∧
        st1.scrollableStack = st.scrollableStack ++ [f] ∧
        st1.scrollableStack.length = st.scrollableStack.length + 1 ∧
        (st1.arena f).hdr.blink = true ∧
        (∃ root, st1.scrollableStack.head? = some root ∧
          (st1.arena root).hdr.dirty = true) ∧
        st1.forceScrollableRelayout = true) ∧
    (∀ st, st.scrollableStack = [] → exitScrollable st = none) ∧
    (∀ st, 0 < st.scrollableStack.length →
      ∃ st1 b, exitScrollable st = some (st1, b) ∧
        st1.scrollableStack = st.scrollableStack.dropLast ∧
        st1.scrollableStack.length + 1 = st.scrollableStack.length ∧
        (b = true ↔ st1.scrollableStack ≠ [])) ∧
    (∀ events st, st.scrollableStack = [] →
      onPressScrollableUi sw102 events st = some (st, false)) ∧
    (∀ events st sp st1 handled1 st2 handled2, getActiveScrollable st = some sp →
      (if events.up_click || events.down_click then
          (onPressScrollableMove events sp st).map (fun s => (s, true))
        else some (st, false)) = some (st1, handled1) →
      onPressScrollableSelect sw102 events (curActiveEntry (st.arena sp)) st1 handled1
        = some (st2, handled2) →
      1 ≤ st2.scrollableStack.length ∧ (exitScrollable st2).isSome = true) := by
  refine ⟨?_, ?_, ?_, ?_, ?_, ?_, ?_⟩
  · intro st hreach
    exact (reachable_stack_customizing sw102 st hreach).1
  · intro f st hlen
    unfold enterScrollable
    rw [if_neg (by omega)]
  · intro f st hlen
    unfold enterScrollable
    rw [if_pos hlen]
    refine ⟨_, rfl, rfl, by simp, ?_, ?_, rfl⟩
    · show (setDirty (setBlink st.arena f true) _ true f).hdr.blink = true
      rw [setDirty_apply]
      split
      · rename_i heq
        rw [← heq]
        simp [setBlink_apply]
      · simp [setBlink_apply]
    · cases hst : st.scrollableStack with
      | nil =>
        refine ⟨f, by simp [hst], ?_⟩
        show (setDirty _ _ true f).hdr.dirty = true
        simp [hst, setDirty_apply]
      | cons root rest =>
        refine ⟨root, by simp [hst], ?_⟩
        show (setDirty _ _ true root).hdr.dirty = true
        simp [hst, setDirty_apply]
  · intro st hempty
    unfold exitScrollable
    rw [if_neg (by simp [hempty])]
  · intro st hlen
    unfold exitScrollable
    rw [if_pos hlen]
    simp only [getActiveScrollable]
    cases hl : st.scrollableStack.dropLast.getLast? with
    | none =>
      refine ⟨_, false, rfl, rfl, ?_, ?_⟩
      · show st.scrollableStack.dropLast.length + 1 = _
        rw [List.length_dropLast]; omega
      · show (false = true) ↔ st.scrollableStack.dropLast ≠ []
        rw [List.getLast?_eq_none_iff] at hl
        simp [hl]
    | some f =>
      refine ⟨_, true, rfl, rfl, ?_, ?_⟩
      · show st.scrollableStack.dropLast.length + 1 = _
        rw [List.length_dropLast]; omega
      · show (true = true) ↔ st.scrollableStack.dropLast ≠ []
        have : st.scrollableStack.dropLast ≠ [] := by
          intro he
          rw [he] at hl
          cases hl
        simp [this]
  · intro events st hempty
    simp only [onPressScrollableUi, getActiveScrollable, hempty, List.getLast?_nil]
  · intro events st sp st1 handled1 st2 handled2 hsp hmoved hsel
    have hst : 1 ≤ st.scrollableStack.length := by
      unfold getActiveScrollable at hsp
      cases hs : st.scrollableStack with
      | nil => rw [hs] at hsp; cases hsp
      | cons a l => simp
    have h1 : st1.scrollableStack = st.scrollableStack := by
      split at hmoved
      · cases hmv : onPressScrollableMove events sp st with
        | none => rw [hmv] at hmoved; cases hmoved
        | some sv =>
          rw [hmv] at hmoved
          simp only [Option.map_some', Option.some.injEq, Prod.mk.injEq] at hmoved
          rw [← hmoved.1]
          exact (onPressScrollableMove_frame events sp st sv hmv).2.2.1
      · simp only [Option.some.injEq, Prod.mk.injEq] at hmoved
        rw [← hmoved.1]
    have h2 := (onPressScrollableSelect_keeps sw102 events _ st1 st2 handled1 handled2 hsel).2
    rw [h1] at h2
    have h3 : 1 ≤ st2.scrollableStack.length := le_trans hst h2
    refine ⟨h3, ?_⟩
    unfold exitScrollable
    rw [if_pos (by omega)]
    simp only
    split <;> rfl

/-- C23 on a menu whose stack already holds three scrollables: entering once more fails
the assertion, and leaving pops one level and reports that a scrollable is still shown. -/
theorem scrollable_stack_bounded_witness :
    enterScrollable 2 deepMenuDemo = none ∧
    (∃ st1, exitScrollable deepMenuDemo = some (st1, true) ∧ st1.scrollableStack = [5, 6]) := by
  obtain ⟨_, h2, _, _, h5, _⟩ := scrollable_stack_bounded false
  refine ⟨h2 2 deepMenuDemo rfl, ?_⟩
  obtain ⟨st1, b, g1, g2, _, g4⟩ := h5 deepMenuDemo (by decide)
  have hb : b = true := g4.mpr (by rw [g2]; decide)
  subst hb
  exact ⟨st1, g1, g2⟩

/-! ## Text fields are drawn at the top of their box -/

theorem renderDrawText_eq (env : RenderEnv) (layout : FieldLayout) (S : RenderState)
    (p : FieldPtr) (hfield : layout.field = some p) :
    renderDrawText env layout S =
      match autoTextHeight layout with
      | none => none
      | some layout1 =>
        let S2 := draw { S with foreColor := getForeColor layout1.color }
          (DrawOp.fillFrame layout1.x layout1.y (layout1.x + layout1.width - 1)
            (layout1.y + layout1.height - 1) (getBackColor layout1.color))
        if !(S2.ui.arena p).hdr.blink || S2.blinkOn then
          match putAligned env layout1 layout1.align_x AlignmentY.AlignTop layout1.inset_x
                  layout1.inset_y layout1.font (S2.ui.arena p).msg S2 with
          | none => none
          | some S3 => some (layout1, S3, true)
        else some (layout1, S2, true) := by
  unfold renderDrawText autoTextHeight
  split
  · rename_i h; rw [hfield] at h; cases h
  · rename_i q h
    rw [hfield] at h
    injection h with h
    subst h
    rfl

/-- What `autoTextHeight` leaves alone. -/
theorem autoTextHeight_frame (layout l1 : FieldLayout) (h : autoTextHeight layout = some l1) :
    l1.x = layout.x ∧ l1.y = layout.y ∧ l1.width = layout.width ∧ l1.color = layout.color ∧
    l1.align_x = layout.align_x ∧ l1.inset_x = layout.inset_x ∧
    l1.inset_y = layout.inset_y ∧ l1.font = layout.font ∧ l1.field = layout.field ∧
    (layout.height ≠ -1 → l1 = layout) := by
  unfold autoTextHeight at h
  split at h
  · rename_i hh
    split at h
    · cases h
    · simp only [Option.some.injEq] at h
      subst h
      exact ⟨rfl, rfl, rfl, rfl, rfl, rfl, rfl, rfl, rfl, fun hne => absurd hh hne⟩
  · simp only [Option.some.injEq] at h
    subst h
    exact ⟨rfl, rfl, rfl, rfl, rfl, rfl, rfl, rfl, rfl, fun _ => rfl⟩

/-- The function `putAligned` for the alignment `AlignTop` and a font. -/
theorem putAligned_top (env : RenderEnv) (l : FieldLayout) (ax : AlignmentX) (ix iy : Int)
    (f : Font) (str : List Char) (S : RenderState) :
    putAligned env l ax AlignmentY.AlignTop ix iy (some f) str S =
      match ax with
      | AlignmentX.AlignHidden => some S
      | AlignmentX.AlignLeft => some (putStringLeft (l.x + ix) (l.y + iy) str S)
      | AlignmentX.AlignRight =>
        some (putStringRight env (l.x + l.width - ix) (l.y + iy) f str S)
      | AlignmentX.AlignDefault =>
        putStringCentered env (l.x + ix) (l.y + iy) l.width f str S := by
  cases ax <;> rfl

/-- The drawing call of `putStringCentered` when its assertion holds. -/
theorem putStringCentered_drawn (env : RenderEnv) (x y width : Int) (font : Font)
    (str : List Char) (S : RenderState)
    (hfit : toInt16 ((font.char_width + env.char_h_space) * (str.length : Int)
        - env.char_h_space) ≤ width ∨
      (font.char_width + env.char_h_space ≠ 0 ∧
        0 < cdiv width (font.char_width + env.char_h_space))) :
    ∃ S1 x1 str1, putStringCentered env x y width font str S = some S1 ∧
      S1.drawn = S.drawn ++ [DrawOp.putString x1 y str1 S.foreColor] ∧
      x1 = (if toInt16 ((font.char_width + env.char_h_space) * (str.length : Int)
                - env.char_h_space) < width
           then x + cdiv (width - toInt16 ((font.char_width + env.char_h_space)
                  * (str.length : Int) - env.char_h_space)) 2
           else x) ∧
      str1 = str.take (if toInt16 ((font.char_width + env.char_h_space) * (str.length : Int)
                  - env.char_h_space) > width
                then cdiv width (font.char_width + env.char_h_space)
                else (str.length : Int)).toNat := by
  unfold putStringCentered
  simp only
  by_cases hlong : toInt16 ((font.char_width + env.char_h_space) * (str.length : Int)
      - env.char_h_space) > width
  · rcases hfit with h | ⟨h1, h2⟩
    · omega
    · simp only [hlong, if_true, h1, if_false, gt_iff_lt, h2]
      exact ⟨_, _, _, rfl, rfl, rfl, rfl⟩
  · simp only [hlong, if_false]
    exact ⟨_, _, _, rfl, rfl, rfl, rfl⟩

/-- C26 amended: for a text layout with a font, `renderDrawTextCommon` returns true after
it has cleared the bounding box of the layout (of the height of the font when the layout
asks for it) and, unless the field blinks and the blink phase is off or `align_x` is
hidden, drawn the string once: horizontally as `align_x` says (left, right or centred,
a centred string being trimmed to the width), vertically always at the top of the box,
in row `y + inset_y`, whatever the layout's `align_y`. -/
theorem renderDrawText_top_aligned (env : RenderEnv) (layout : FieldLayout) (S : RenderState)
    (p : FieldPtr) (f : Font) (hfield : layout.field = some p) (hfont : layout.font = some f)
    (hfit : layout.align_x = AlignmentX.AlignDefault →
      toInt16 ((f.char_width + env.char_h_space) * ((S.ui.arena p).msg.length : Int)
        - env.char_h_space) ≤ layout.width ∨
      (f.char_width + env.char_h_space ≠ 0 ∧
        0 < cdiv layout.width (f.char_width + env.char_h_space))) :
    ∃ l1 S1 ops, renderDrawText env layout S = some (l1, S1, true) ∧
      autoTextHeight layout = some l1 ∧
      S1.drawn = S.drawn ++ DrawOp.fillFrame layout.x layout.y (layout.x + layout.width - 1)
        (layout.y + l1.height - 1) (getBackColor layout.color) :: ops ∧
      (layout.align_x = AlignmentX.AlignHidden → ops = []) ∧
      ((S.ui.arena p).hdr.blink = true → S.blinkOn = false → ops = []) ∧
      (((S.ui.arena p).hdr.blink = false ∨ S.blinkOn = true) →
        layout.align_x ≠ AlignmentX.AlignHidden →
        ∃ x str, ops = [DrawOp.putString x (layout.y + layout.inset_y) str
            (getForeColor layout.color)] ∧
          (layout.align_x = AlignmentX.AlignLeft →
            x = layout.x + layout.inset_x ∧ str = (S.ui.arena p).msg) ∧
          (layout.align_x = AlignmentX.AlignRight →
            x = layout.x + layout.width - layout.inset_x
              - toInt16 ((f.char_width + env.char_h_space)
                  * ((S.ui.arena p).msg.length : Int)) ∧
            str = (S.ui.arena p).msg) ∧
          (layout.align_x = AlignmentX.AlignDefault →
            x = (if toInt16 ((f.char_width + env.char_h_space)
                      * ((S.ui.arena p).msg.length : Int) - env.char_h_space) < layout.width
                 then layout.x + layout.inset_x + cdiv (layout.width
                   - toInt16 ((f.char_width + env.char_h_space)
                       * ((S.ui.arena p).msg.length : Int) - env.char_h_space)) 2
                 else layout.x + layout.inset_x) ∧
            str = (S.ui.arena p).msg.take
              (if toInt16 ((f.char_width + env.char_h_space)
                     * ((S.ui.arena p).msg.length : Int) - env.char_h_space) > layout.width
               then cdiv layout.width (f.char_width + env.char_h_space)
               else ((S.ui.arena p).msg.length : Int)).toNat)) := by
  have hl : ∃ l1, autoTextHeight layout = some l1 := by
    unfold autoTextHeight
    split
    · rw [hfont]; exact ⟨_, rfl⟩
    · exact ⟨_, rfl⟩
  obtain ⟨l1, hl⟩ := hl
  obtain ⟨e1, e2, e3, e4, e5, e6, e7, e8, _, _⟩ := autoTextHeight_frame layout l1 hl
  rw [renderDrawText_eq env layout S p hfield, hl]
  simp only
  generalize hS2 : draw { S with foreColor := getForeColor l1.color }
    (DrawOp.fillFrame l1.x l1.y (l1.x + l1.width - 1) (l1.y + l1.height - 1)
      (getBackColor l1.color)) = S2
  have k1 : S2.drawn = S.drawn ++ [DrawOp.fillFrame layout.x layout.y
      (layout.x + layout.width - 1) (layout.y + l1.height - 1)
      (getBackColor layout.color)] := by
    rw [← hS2, ← e1, ← e2, ← e3, ← e4]; rfl
  have k2 : S2.foreColor = getForeColor layout.color := by rw [← hS2, ← e4]; rfl
  have k3 : S2.ui = S.ui := by rw [← hS2]; rfl
  have k4 : S2.blinkOn = S.blinkOn := by rw [← hS2]; rfl
  rw [k3, k4, e5, e6, e7, e8, hfont, putAligned_top, e1, e2, e3]
  by_cases hshow : (!(S.ui.arena p).hdr.blink || S.blinkOn) = true
  · have hsh : (S.ui.arena p).hdr.blink = true → S.blinkOn = false → False := by
      intro hb hon
      rw [hb, hon] at hshow
      exact absurd hshow (by decide)
    rw [if_pos hshow]
    cases hax : layout.align_x with
    | AlignHidden =>
      refine ⟨l1, S2, [], rfl, rfl, k1, fun _ => rfl, fun _ _ => rfl, ?_⟩
      intro _ hne
      exact absurd rfl hne
    | AlignLeft =>
      refine ⟨l1, _, [DrawOp.putString (layout.x + layout.inset_x)
        (layout.y + layout.inset_y) (S.ui.arena p).msg (getForeColor layout.color)],
        rfl, rfl, ?_, ?_, ?_, ?_⟩
      · show S2.drawn ++ [DrawOp.putString _ _ _ S2.foreColor] = _
        rw [k1, k2, List.append_assoc]; rfl
      · intro h; cases h
      · intro hb hon; exact absurd (hsh hb hon) id
      · intro _ _
        refine ⟨_, _, rfl, fun _ => ⟨rfl, rfl⟩, ?_, ?_⟩
        · intro h; cases h
        · intro h; cases h
    | AlignRight =>
      refine ⟨l1, _, [DrawOp.putString (layout.x + layout.width - layout.inset_x
          - toInt16 ((f.char_width + env.char_h_space) * ((S.ui.arena p).msg.length : Int)))
        (layout.y + layout.inset_y) (S.ui.arena p).msg (getForeColor layout.color)],
        rfl, rfl, ?_, ?_, ?_, ?_⟩
      · show S2.drawn ++ [DrawOp.putString _ _ _ S2.foreColor] = _
        rw [k1, k2, List.append_assoc]; rfl
      · intro h; cases h
      · intro hb hon; exact absurd (hsh hb hon) id
      · intro _ _
        refine ⟨_, _, rfl, ?_, fun _ => ⟨rfl, rfl⟩, ?_⟩
        · intro h; cases h
        · intro h; cases h
    | AlignDefault =>
      obtain ⟨S3, x1, str1, g1, g2, g3, g4⟩ := putStringCentered_drawn env
        (layout.x + layout.inset_x) (layout.y + layout.inset_y) layout.width f
        (S.ui.arena p).msg S2 (hfit hax)
      simp only [g1]
      refine ⟨l1, S3, [DrawOp.putString x1 (layout.y + layout.inset_y) str1
        (getForeColor layout.color)], rfl, rfl, ?_, ?_, ?_, ?_⟩
      · rw [g2, k1, k2, List.append_assoc]; rfl
      · intro h; cases h
      · intro hb hon; exact absurd (hsh hb hon) id
      · intro _ _
        refine ⟨_, _, rfl, ?_, ?_, fun _ => ⟨g3, g4⟩⟩
        · intro h; cases h
        · intro h; cases h
  · rw [if_neg hshow]
    have hb : (S.ui.arena p).hdr.blink = true ∧ S.blinkOn = false := by
      cases h1 : (S.ui.arena p).hdr.blink <;> cases h2 : S.blinkOn <;>
        simp [h1, h2] at hshow ⊢
    refine ⟨l1, S2, [], rfl, rfl, k1, fun _ => rfl, fun _ _ => rfl, ?_⟩
    intro hor _
    rcases hor with h | h
    · rw [hb.1] at h; cases h
    · rw [hb.2] at h; cases h

/-- C26 as stated fails: a layout of height 20 with `align_y` set to `AlignBottom` and a
font 8 pixels high has its text drawn in row 0, the top of the box, where `putAligned`
with the layout's `align_y` would draw it in row 12. -/
theorem renderDrawText_align_y_counterexample :
    bottomTextLayout.align_y = AlignmentY.AlignBottom ∧
    (renderDrawText envDemo bottomTextLayout (renderStart textDemo 1)).map
        (fun r => r.2.1.drawn)
      = some [DrawOp.fillFrame 0 0 63 19 Color.C_BLACK,
              DrawOp.putString 0 0 ['H', 'i'] Color.C_WHITE] ∧
    (putAligned envDemo bottomTextLayout bottomTextLayout.align_x bottomTextLayout.align_y
        bottomTextLayout.inset_x bottomTextLayout.inset_y bottomTextLayout.font ['H', 'i']
        (renderStart textDemo 1)).map (fun r => r.drawn)
      = some [DrawOp.putString 0 12 ['H', 'i'] Color.C_WHITE] :=
  ⟨rfl, rfl, rfl⟩

/-- C26 amended at the layout of the counterexample: the text is drawn once, left
aligned, in row 0. -/
theorem renderDrawText_top_aligned_witness :
    ∃ l1 S1, renderDrawText envDemo bottomTextLayout (renderStart textDemo 1)
        = some (l1, S1, true) ∧
      S1.drawn = [DrawOp.fillFrame 0 0 63 19 Color.C_BLACK,
                  DrawOp.putString 0 0 ['H', 'i'] Color.C_WHITE] := by
  obtain ⟨l1, S1, ops, h1, h2, h3, _, _, h6⟩ :=
    renderDrawText_top_aligned envDemo bottomTextLayout (renderStart textDemo 1) 3
      { char_width := 6, char_height := 8 } rfl rfl (fun h => by cases h)
  obtain ⟨x, str, g1, g2, _, _⟩ := h6 (Or.inl rfl) (by decide)
  obtain ⟨g3, g4⟩ := g2 rfl
  have hl1 : l1 = bottomTextLayout := by
    have : some l1 = some bottomTextLayout := h2.symm.trans rfl
    injection this
  refine ⟨l1, S1, h1, ?_⟩
  rw [h3, g1, g3, g4, hl1]
  rfl

/-! ## Samples below the minimum threshold -/

/-- The part of C28 that holds: a sample of the ring that is not below `min_threshold` lies
between the running minimum and maximum, and then, when the products fit 32 bits,
`graphScaleY` maps it to a row between `graphYmax` and `graphYmin - 1`. -/
theorem graph_sample_in_plot (g : GraphGeom) (t : Int) (c0 : GraphCache) (vals : List Int)
    (hr : ∀ v ∈ vals, inInt32 v)
    (hspan : (graphAddPoints t (graphCacheReset c0) vals).min_val
      < (graphAddPoints t (graphCacheReset c0) vals).max_val)
    (hgeom : g.graphYmax ≤ g.graphYmin - 1)
    (hd : inInt32 ((graphAddPoints t (graphCacheReset c0) vals).max_val
      - (graphAddPoints t (graphCacheReset c0) vals).min_val))
    (hp1 : inInt32 ((g.graphYmin - 1) * ((graphAddPoints t (graphCacheReset c0) vals).max_val
      - (graphAddPoints t (graphCacheReset c0) vals).min_val)))
    (hp2 : inInt32 (g.graphYmax * ((graphAddPoints t (graphCacheReset c0) vals).max_val
      - (graphAddPoints t (graphCacheReset c0) vals).min_val)))
    (v : Int) (hv : v ∈ graphSamples (graphAddPoints t (graphCacheReset c0) vals))
    (hvt : t ≤ v) :
    g.graphYmax ≤ graphScaleY g (graphAddPoints t (graphCacheReset c0) vals) v ∧
    graphScaleY g (graphAddPoints t (graphCacheReset c0) vals) v ≤ g.graphYmin - 1 := by
  have hmem : v ∈ vals := by
    rw [graphSamples_of_ringInv vals _ (ringInv_fold t c0 vals)] at hv
    exact List.mem_of_mem_drop hv
  have hlo := (min_val_fold t c0 vals (fun x hx => (hr x hx).2)).1 v hmem hvt
  have hhi := (max_val_fold t c0 vals (fun x hx => (hr x hx).1)).1 v hmem
  obtain ⟨e, h1, h2⟩ := graphScaleY_exact g _ v hspan hgeom hd hp1 hp2 hlo hhi
  rw [e]
  exact cdiv_between _ _ _ _ (by omega) h1 h2

/-- C28: a cache built by `graphAddPoint` calls with `min_threshold = 10` from the samples
5, 20 and 30 has `min_val = 20 < max_val = 30` and still holds the sample 5 in its ring;
on a plot whose rows run from `graphYmax = 10` to `graphYmin = 100`, `graphScaleY` maps
that sample to row 232, below `graphYmin - 1 = 99`, and `graphDrawPoints` draws its line
from row 232 to the axis. -/
theorem graph_sample_below_axis :
    thresholdCache.min_val = 20 ∧ thresholdCache.max_val = 30 ∧
    graphSamples thresholdCache = [5, 20, 30] ∧
    graphScaleY (geomOf 0 10 100) thresholdCache 5 = 232 ∧
    DrawOp.drawLine 1 232 1 100 GRAPH_COLOR_NORMAL ∈
      graphDrawPoints (geomOf 0 10 100) { graphField (-1) (-1) with min_threshold := 10 }
        thresholdCache := by
  refine ⟨rfl, rfl, rfl, rfl, ?_⟩
  decide

/-! ## The warning line -/

theorem setWarning_str (color : ColorOp) (str : List Char) (w : WarnState) :
    (setWarning color str w).warningStr = str := by
  unfold setWarning
  by_cases h : str = w.warningStr
  · simp [h]
  · simp [h]

theorem setWarning_dirty (color : ColorOp) (str : List Char) (w : WarnState) :
    (setWarning color str w).warnField.dirty = decide (str ≠ w.warningStr) := rfl

/-- On the paths of `warnings` that call `setWarning` once, a second call with the same
inputs leaves `warnField.dirty` false. -/
theorem warnings_steady (ERROR_MAX : Nat) (v : WarnVars) (w w1 : WarnState)
    (hloud : ¬ quietVars v ∨ (v.ui32_trip_timeSec ≠ 0 ∧ v.ui32_ee_gesamt_km ≠ 0))
    (h1 : warnings ERROR_MAX v w = some w1) :
    ∃ w2, warnings ERROR_MAX v w1 = some w2 ∧ w2.warnField.dirty = false := by
  have once : ∀ (c : ColorOp) (s : List Char),
      (setWarning c s (setWarning c s w)).warnField.dirty = false := by
    intro c s
    rw [setWarning_dirty, setWarning_str]
    simp
  unfold warnings at h1 ⊢
  by_cases e1 : v.ui8_error_states ≠ 0
  · rw [if_pos e1] at h1 ⊢
    simp only at h1 ⊢
    cases hs : (if v.ui8_error_states > ERROR_MAX then some "Unknown Motor"
        else motorErrors.get? v.ui8_error_states) with
    | none => rw [hs] at h1; cases h1
    | some s =>
      rw [hs] at h1
      simp only [Option.map_some', Option.some.injEq] at h1 ⊢
      subst h1
      exact ⟨_, rfl, once _ _⟩
  · rw [if_neg e1] at h1 ⊢
    by_cases e2 : v.ui8_motor_temperature ≥ v.ui8_motor_temperature_max_value_to_limit
    · rw [if_pos e2] at h1 ⊢
      simp only [Option.some.injEq] at h1
      subst h1
      exact ⟨_, rfl, once _ _⟩
    · rw [if_neg e2] at h1 ⊢
      by_cases e3 : v.wd_failure_detected = true
      · rw [if_pos e3] at h1 ⊢
        simp only [Option.some.injEq] at h1
        subst h1
        exact ⟨_, rfl, once _ _⟩
      · rw [if_neg e3] at h1 ⊢
        by_cases e4 : v.ui8_motor_temperature ≥ v.ui8_motor_temperature_min_value_to_limit
        · rw [if_pos e4] at h1 ⊢
          simp only [Option.some.injEq] at h1
          subst h1
          exact ⟨_, rfl, once _ _⟩
        · rw [if_neg e4] at h1 ⊢
          by_cases e5 : v.ui8_braking ≠ 0
          · rw [if_pos e5] at h1 ⊢
            simp only [Option.some.injEq] at h1
            subst h1
            exact ⟨_, rfl, once _ _⟩
          · rw [if_neg e5] at h1 ⊢
            by_cases e6 : v.ui8_walk_assist ≠ 0
            · rw [if_pos e6] at h1 ⊢
              simp only [Option.some.injEq] at h1
              subst h1
              exact ⟨_, rfl, once _ _⟩
            · rw [if_neg e6] at h1 ⊢
              by_cases e7 : v.ui8_lights ≠ 0
              · rw [if_pos e7] at h1 ⊢
                simp only [Option.some.injEq] at h1
                subst h1
                exact ⟨_, rfl, once _ _⟩
              · rw [if_neg e7] at h1 ⊢
                rcases hloud with hq | ⟨ht, hg⟩
                · exfalso
                  apply hq
                  simp only [ne_eq, not_not] at e1 e5 e6 e7
                  exact ⟨e1, by omega, by simpa using e3, by omega, e5, e6, e7⟩
                · simp only [if_neg ht, if_neg hg, Option.some.injEq] at h1 ⊢
                  subst h1
                  exact ⟨_, rfl, once _ _⟩

/-- C29: when nothing of higher priority is to be shown and the trip time or the total
distance is zero, `warnings` sets the text to the empty string and then to "CLEAR TRP" or
"CLEAR RNG" on every call, so that `warnField.dirty` is true after the second of two calls
with the same inputs, as after every later one. -/
theorem warnings_clear_redraws (ERROR_MAX : Nat) (v : WarnVars) (w : WarnState)
    (hq : quietVars v) (hz : v.ui32_trip_timeSec = 0 ∨ v.ui32_ee_gesamt_km = 0) :
    ∃ w1 w2, warnings ERROR_MAX v w = some w1 ∧ warnings ERROR_MAX v w1 = some w2 ∧
      w1.warningStr = w2.warningStr ∧ w1.warnColor = w2.warnColor ∧
      w2.warnField.dirty = true := by
  obtain ⟨q1, q2, q3, q4, q5, q6, q7⟩ := hq
  have hw : ∀ w0 : WarnState, warnings ERROR_MAX v w0 = some
      (if v.ui32_ee_gesamt_km = 0 then
        setWarning ColorOp.ColorNormal "CLEAR RNG".data
          (if v.ui32_trip_timeSec = 0 then
            setWarning ColorOp.ColorNormal "CLEAR TRP".data
              (setWarning ColorOp.ColorNormal "".data w0)
           else setWarning ColorOp.ColorNormal "".data w0)
       else
        (if v.ui32_trip_timeSec = 0 then
            setWarning ColorOp.ColorNormal "CLEAR TRP".data
              (setWarning ColorOp.ColorNormal "".data w0)
           else setWarning ColorOp.ColorNormal "".data w0)) := by
    intro w0
    unfold warnings
    rw [if_neg (by simp [q1]), if_neg (by omega), if_neg (by simp [q3]), if_neg (by omega),
      if_neg (by simp [q5]), if_neg (by simp [q6]), if_neg (by simp [q7])]
  refine ⟨_, _, hw w, hw _, ?_, ?_, ?_⟩
  · by_cases hg : v.ui32_ee_gesamt_km = 0
    · simp only [hg, if_true, setWarning_str]
    · have ht : v.ui32_trip_timeSec = 0 := by
        rcases hz with h | h
        · exact h
        · exact absurd h hg
      simp only [hg, if_false, ht, if_true, setWarning_str]
  · by_cases hg : v.ui32_ee_gesamt_km = 0
    · simp only [hg, if_true]; rfl
    · have ht : v.ui32_trip_timeSec = 0 := by
        rcases hz with h | h
        · exact h
        · exact absurd h hg
      simp only [hg, if_false, ht, if_true]; rfl
  · by_cases hg : v.ui32_ee_gesamt_km = 0
    · simp only [hg, if_true, setWarning_dirty]
      by_cases ht : v.ui32_trip_timeSec = 0
      · simp only [ht, if_true, setWarning_str]; decide
      · simp only [ht, if_false, setWarning_str]; decide
    · have ht : v.ui32_trip_timeSec = 0 := by
        rcases hz with h | h
        · exact h
        · exact absurd h hg
      simp only [hg, if_false, ht, if_true, setWarning_dirty, setWarning_str]; decide

/-- C29 after a trip reset (trip time zero, nothing else to warn about): the second call
leaves the same text "CLEAR TRP" and the field dirty. -/
theorem warnings_clear_redraws_witness :
    ∃ w1 w2, warnings 6 freshTripVars warnStart = some w1 ∧
      warnings 6 freshTripVars w1 = some w2 ∧
      w1.warningStr = w2.warningStr ∧ w2.warnField.dirty = true := by
  obtain ⟨w1, w2, h1, h2, h3, _, h5⟩ :=
    warnings_clear_redraws 6 freshTripVars warnStart (by simp [quietVars, freshTripVars])
      (Or.inl rfl)
  exact ⟨w1, w2, h1, h2, h3, h5⟩

/-! ## The owner of the graph cache -/

theorem cacheStep_refl (fp : FieldPtr) (a : FieldPtr → FieldObj) : cacheStep fp a a :=
  fun _ => ⟨rfl, fun h => Or.inl h⟩

theorem cacheStep_trans {fp : FieldPtr} {a b c : FieldPtr → FieldObj}
    (h1 : cacheStep fp a b) (h2 : cacheStep fp b c) : cacheStep fp a c := by
  intro q
  refine ⟨((h2 q).1).trans (h1 q).1, fun hc => ?_⟩
  rcases (h2 q).2 hc with g | g
  · exact (h1 q).2 g
  · exact Or.inr g

theorem cacheStep_setDirty (fp p : FieldPtr) (b : Bool) (a : FieldPtr → FieldObj) :
    cacheStep fp a (setDirty a p b) := by
  intro q
  have h := setDirty_sameButFlags a p q b
  exact ⟨h.variant, fun hc => Or.inl (by rw [← h.cache]; exact hc)⟩

theorem cacheStep_claim (fp : FieldPtr) (a : FieldPtr → FieldObj) :
    cacheStep fp a (Function.update a fp { a fp with cache := true }) := by
  intro q
  by_cases hq : q = fp
  · subst hq
    rw [Function.update_same]
    exact ⟨rfl, fun _ => Or.inr rfl⟩
  · rw [Function.update_noteq hq]
    exact ⟨rfl, fun hc => Or.inl hc⟩

/-- Lines 1149-1180 of `renderGraph` give the cache to no field but the one the layout
resolves to, and leave the scalars alone. -/
theorem renderGraphSample_cache (layout : FieldLayout) (S : RenderState)
    (res : RenderState ⊕ GraphSampled) (h : renderGraphSample layout S = some res) :
    ∃ fp, resolveField S.ui layout = some fp ∧
      cacheStep fp S.ui.arena (match res with
        | Sum.inl S2 => S2
        | Sum.inr r => r.state).ui.arena := by
  unfold renderGraphSample at h
  rw [getField_resolve] at h
  cases hr : resolveField S.ui layout with
  | none => rw [hr] at h; simp at h
  | some fp =>
    rw [hr] at h
    simp only [Option.map_some'] at h
    refine ⟨fp, rfl, ?_⟩
    generalize hnb : (S.blinkChanged && (S.ui.curCustomizingField.isSome &&
      decide (S.ui.curCustomizingField = parentOf S.ui layout))) = nb at h
    have hS2 : cacheStep fp S.ui.arena
        (if nb = true then setDirtyR { S with parentCustomizable := parentOf S.ui layout } fp true
         else { S with parentCustomizable := parentOf S.ui layout }).ui.arena := by
      cases nb
      · exact cacheStep_refl fp _
      · exact cacheStep_setDirty fp fp true _
    generalize (if nb = true then
        setDirtyR { S with parentCustomizable := parentOf S.ui layout } fp true
      else { S with parentCustomizable := parentOf S.ui layout }) = S2 at h hS2
    split at h
    · simp only [Option.some.injEq] at h
      subst h; exact hS2
    · have hS3 : cacheStep fp S2.ui.arena
          (if (!(S2.ui.arena fp).cache) = true then
            { S2 with ui := { S2.ui with
                arena := Function.update S2.ui.arena fp { S2.ui.arena fp with cache := true },
                caches0 := graphCacheReset S2.ui.caches0 } }
           else S2).ui.arena := by
        split
        · exact cacheStep_claim fp _
        · exact cacheStep_refl fp _
      generalize (if (!(S2.ui.arena fp).cache) = true then
            { S2 with ui := { S2.ui with
                arena := Function.update S2.ui.arena fp { S2.ui.arena fp with cache := true },
                caches0 := graphCacheReset S2.ui.caches0 } }
           else S2) = S3 at h hS3
      split at h
      · cases h
      · split at h
        · split at h
          · cases h
          · simp only [Option.some.injEq] at h
            subst h
            exact cacheStep_trans hS2 hS3
        · simp only [Option.some.injEq] at h
          subst h
          exact cacheStep_trans hS2 hS3

/-- The function `renderGraph` gives the cache to no field but the one the layout resolves
to. -/
theorem renderGraph_cache (env : RenderEnv) (layout layout1 : FieldLayout)
    (S S1 : RenderState) (d : Bool)
    (h : renderGraph env layout S = some (layout1, S1, d)) :
    ∃ fp, resolveField S.ui layout = some fp ∧ cacheStep fp S.ui.arena S1.ui.arena := by
  unfold renderGraph at h
  split at h
  · cases h
  · rename_i S2 hres
    obtain ⟨fp, hfp, hk⟩ := renderGraphSample_cache layout S _ hres
    simp only [Option.some.injEq, Prod.mk.injEq] at h
    obtain ⟨_, h2, _⟩ := h
    subst h2
    exact ⟨fp, hfp, hk⟩
  · rename_i r hres
    obtain ⟨fp, hfp, hk⟩ := renderGraphSample_cache layout S _ hres
    simp only at h hk
    refine ⟨fp, hfp, ?_⟩
    split at h
    · simp only [Option.some.injEq, Prod.mk.injEq] at h
      obtain ⟨_, h2, _⟩ := h
      subst h2
      rw [graphClear_ui]
      exact hk
    · split at h
      · cases h
      · rename_i S6 hlab
        simp only [Option.some.injEq, Prod.mk.injEq] at h
        obtain ⟨_, h2, _⟩ := h
        subst h2
        have h6 := graphLabelAxis_ui _ _ _ _ _ _ hlab
        show cacheStep fp S.ui.arena S6.ui.arena
        rw [h6, graphClear_ui]
        exact hk

/-- The invariant of the slot: a Graph that holds the cache is the current choice of the
slot. -/
theorem slot_owner_is_choice (env : RenderEnv) (sp : FieldPtr) (st : UiState)
    (h : SlotReachable env sp st) :
    ∀ q, (st.arena q).hdr.variant = FieldVariant.FieldGraph → (st.arena q).cache = true →
      currentChoice st sp = some q := by
  induction h with
  | init st hnone =>
    intro q _ hc
    rw [hnone q] at hc
    cases hc
  | change st st1 _ hcur hchange ih =>
    intro q hv hc
    exfalso
    unfold changeCurrentCustomizableField at hchange
    rw [hcur] at hchange
    simp only at hchange
    split at hchange
    · split at hchange
      · cases hchange
      · rename_i old hold
        simp only [Option.some.injEq] at hchange
        subst hchange
        have hchoice : currentChoice st sp = some old := hold
        by_cases hg : (st.arena old).hdr.variant = FieldVariant.FieldGraph
        · simp only [hg, if_true] at hv hc
          by_cases hq : q = old
          · subst hq
            rw [Function.update_same] at hc
            cases hc
          · rw [Function.update_noteq hq] at hv hc
            have := ih q hv hc
            rw [hchoice] at this
            injection this with this
            exact hq this.symm
        · simp only [hg, if_false] at hv hc
          have := ih q hv hc
          rw [hchoice] at this
          injection this with this
          subst this
          exact hg hv
    · cases hchange
  | render S layout layout1 S1 drew _ hl hsp hrender ih =>
    intro q hv hc
    obtain ⟨fp, hfp, hstep⟩ := renderGraph_cache env layout layout1 S S1 drew hrender
    obtain ⟨hk, _⟩ := renderGraph_frame env layout layout1 S S1 drew hrender
    have hres : resolveField S.ui layout = currentChoice S.ui sp := by
      unfold resolveField
      rw [hl]
      simp only [hsp, if_true]
    have hsame : currentChoice S1.ui sp = currentChoice S.ui sp :=
      currentChoice_congr S1.ui S.ui sp (hk.fields sp (Or.inl (Or.inr hsp))) hk.mem
    rw [hsame]
    rcases (hstep q).2 hc with g | g
    · exact ih q (by rw [← (hstep q).1]; exact hv) g
    · rw [← hres, hfp, g]
  | other st st1 _ hkeep ih =>
    intro q hv hc
    rw [hkeep.choice]
    exact ih q (by rw [← hkeep.variant q]; exact hv) (by rw [← hkeep.cache q]; exact hc)

/-- C22 amended: on a screen whose Graph fields are shown through one Customizable slot
only, in every state reachable by `changeCurrentCustomizableField` on the slot, by
`renderGraph` for a layout of the slot and by steps that leave the cache references and
the choice of the slot alone, a Graph that holds the reference to the cache is the current
choice of the slot, so at most one Graph holds it; and when `renderGraph` gives the
reference to a Graph that did not hold it, no Graph held it before the call. -/
theorem graph_slot_single_owner (env : RenderEnv) (sp : FieldPtr) (st : UiState)
    (h : SlotReachable env sp st) :
    (∀ q, (st.arena q).hdr.variant = FieldVariant.FieldGraph → (st.arena q).cache = true →
      currentChoice st sp = some q) ∧
    (∀ q q1, (st.arena q).hdr.variant = FieldVariant.FieldGraph → (st.arena q).cache = true →
      (st.arena q1).hdr.variant = FieldVariant.FieldGraph → (st.arena q1).cache = true →
      q = q1) ∧
    (∀ S layout layout1 S1 drew fp, S.ui = st → layout.field = some sp →
      (st.arena sp).hdr.variant = FieldVariant.FieldCustomizable →
      renderGraph env layout S = some (layout1, S1, drew) →
      (st.arena fp).cache = false → (S1.ui.arena fp).cache = true →
      ∀ q, (st.arena q).hdr.variant = FieldVariant.FieldGraph →
        (st.arena q).cache = false) := by
  have inv := slot_owner_is_choice env sp st h
  refine ⟨inv, ?_, ?_⟩
  · intro q q1 hv hc hv1 hc1
    have e := inv q hv hc
    rw [inv q1 hv1 hc1] at e
    injection e with e
    exact e.symm
  · intro S layout layout1 S1 drew fp hS hl hsp hrender hbefore hafter q hv
    subst hS
    obtain ⟨fp1, hfp1, hstep⟩ := renderGraph_cache env layout layout1 S S1 drew hrender
    have hres : resolveField S.ui layout = currentChoice S.ui sp := by
      unfold resolveField
      rw [hl]
      simp only [hsp, if_true]
    have hfp : fp = fp1 := by
      rcases (hstep fp).2 hafter with g | g
      · rw [hbefore] at g; cases g
      · exact g
    subst hfp
    cases hc : (S.ui.arena q).cache with
    | false => rfl
    | true =>
      exfalso
      have e := inv q hv hc
      rw [← hres, hfp1] at e
      injection e with e
      subst e
      rw [hbefore] at hc
      cases hc

/-- C22 as stated fails: `renderGraph` claims the cache for any Graph whose reference is
NULL, whoever else holds it. For two Graph fields shown by two layouts, `renderGraph` of
the first gives it the cache, `renderGraph` of the second gives it the same cache while
the first still holds it, and after one `renderLayouts` pass both hold it. -/
theorem graph_slot_counterexample :
    (∃ la Sa da lb Sb db,
      renderGraph envDemo (graphLayout 10) (renderStart twoGraphsDemo 175)
        = some (la, Sa, da) ∧
      (Sa.ui.arena 10).cache = true ∧ (Sa.ui.arena 12).cache = false ∧
      renderGraph envDemo (graphLayout 12) Sa = some (lb, Sb, db) ∧
      (Sb.ui.arena 10).cache = true ∧ (Sb.ui.arena 12).cache = true) ∧
    (∃ ls S1 d,
      renderLayouts envDemo 0 [graphLayout 10, graphLayout 12] true
        (renderStart twoGraphsDemo 175) = some (ls, S1, d) ∧
      (S1.ui.arena 10).hdr.variant = FieldVariant.FieldGraph ∧
      (S1.ui.arena 10).cache = true ∧
      (S1.ui.arena 12).hdr.variant = FieldVariant.FieldGraph ∧
      (S1.ui.arena 12).cache = true) :=
  ⟨⟨_, _, _, _, _, _, rfl, rfl, rfl, rfl, rfl, rfl⟩, ⟨_, _, _, rfl, rfl, rfl, rfl, rfl⟩⟩

theorem graphSlotFresh_no_owner : ∀ q, (graphSlotFresh.arena q).cache = false := by
  intro q
  show (if q = 1 then customizableField [some 10, some 11, none] 100
        else if q = 10 then graphFieldOf 20 false
        else if q = 20 then uintField "" 0 255 1 1 200
        else textField "" false).cache = false
  split
  · rfl
  · split
    · rfl
    · split <;> rfl

/-- C22 amended on the slot of `graphSlotFresh`, whose first choice is the graph at
address 10: after `renderGraph` for a layout of the slot, that graph holds the cache and
is the choice of the slot. -/
theorem graph_slot_single_owner_witness :
    ∃ l1 S1 d, renderGraph envDemo (graphLayout 1) (renderStart graphSlotFresh 175)
        = some (l1, S1, d) ∧
      (S1.ui.arena 10).cache = true ∧ currentChoice S1.ui 1 = some 10 := by
  have hr : ∃ l1 S1 d, renderGraph envDemo (graphLayout 1) (renderStart graphSlotFresh 175)
      = some (l1, S1, d) ∧ (S1.ui.arena 10).hdr.variant = FieldVariant.FieldGraph ∧
      (S1.ui.arena 10).cache = true := ⟨_, _, _, rfl, rfl, rfl⟩
  obtain ⟨l1, S1, d, h1, h2, h3⟩ := hr
  exact ⟨l1, S1, d, h1, h3,
    (graph_slot_single_owner envDemo 1 S1.ui
      (SlotReachable.render (renderStart graphSlotFresh 175) (graphLayout 1) l1 S1 d
        (SlotReachable.init _ graphSlotFresh_no_owner) rfl rfl h1)).1 10 h2 h3⟩

/-! ## Layouts stacked below the lowest point -/

theorem editableUnits_y (env : RenderEnv) (layout layout1 : FieldLayout)
    (field : FieldObj) (S S1 : RenderState)
    (h : editableUnits env layout field S = some (layout1, S1)) :
    layout1.y = layout.y ∧ layout1.height = layout.height := by
  unfold editableUnits at h
  simp only at h
  split at h
  · rw [Option.map_eq_some'] at h
    obtain ⟨S7, _, h7⟩ := h
    simp only [Prod.mk.injEq] at h7
    rw [← h7.1]
    split <;> exact ⟨rfl, rfl⟩
  · simp only [Option.some.injEq, Prod.mk.injEq] at h
    rw [← h.1]
    exact ⟨rfl, rfl⟩

theorem renderEditableDraw_y (env : RenderEnv) (layout layout1 : FieldLayout)
    (field : FieldObj) (isActive isCustomizing dirty needBlink showValue : Bool)
    (valuestr : List Char) (S S1 : RenderState)
    (h : renderEditableDraw env layout field isActive isCustomizing dirty needBlink showValue
      valuestr S = some (layout1, S1)) :
    layout1.y = layout.y ∧ layout1.height = layout.height := by
  unfold renderEditableDraw at h
  simp only at h
  split at h
  · simp only [Option.some.injEq, Prod.mk.injEq] at h
    rw [← h.1]
    exact ⟨rfl, rfl⟩
  · split at h
    · rw [Option.map_eq_some'] at h
      obtain ⟨S3, _, h3⟩ := h
      simp only [Prod.mk.injEq] at h3
      rw [← h3.1]
      exact ⟨rfl, rfl⟩
    · split at h
      · cases h
      · split at h
        · cases h
        · exact editableUnits_y _ _ _ _ _ _ h

theorem editableStrings_y (env : RenderEnv) (layout layout1 : FieldLayout) (field : FieldObj)
    (num : Int) (showValue dirty0 : Bool) (valuestr : List Char) (dirty : Bool)
    (h : editableStrings env layout field num showValue dirty0 = some (layout1, valuestr, dirty)) :
    layout1.y = layout.y ∧ layout1.height = layout.height := by
  unfold editableStrings at h
  split at h
  · split at h
    · simp only [Option.some.injEq, Prod.mk.injEq] at h
      rw [← h.1]
      exact ⟨rfl, rfl⟩
    · cases h
  · simp only [Option.some.injEq, Prod.mk.injEq] at h
    rw [← h.1]
    exact ⟨rfl, rfl⟩

theorem renderEditableShow_y (env : RenderEnv) (layout layout1 : FieldLayout)
    (fp : FieldPtr) (isActive isCustomizing : Bool) (num : Int) (S S1 : RenderState)
    (d : Bool)
    (h : renderEditableShow env layout fp isActive isCustomizing num S =
      some (layout1, S1, d)) :
    layout1.y = layout.y ∧ layout1.height = layout.height := by
  unfold renderEditableShow at h
  simp only at h
  split at h
  · cases h
  · rename_i layout2 valuestr dirty hstr
    obtain ⟨e1, e2⟩ := editableStrings_y _ _ _ _ _ _ _ _ _ hstr
    split at h
    · simp only [Option.some.injEq, Prod.mk.injEq] at h
      rw [← h.1]
      exact ⟨e1, e2⟩
    · rw [Option.map_eq_some'] at h
      obtain ⟨r, hr, hfr⟩ := h
      simp only [Prod.mk.injEq] at hfr
      obtain ⟨g1, g2⟩ := renderEditableDraw_y _ _ r.1 _ _ _ _ _ _ _ _ r.2 hr
      rw [← hfr.1]
      exact ⟨g1.trans e1, g2.trans e2⟩

theorem renderEditable_y (env : RenderEnv) (layout layout1 : FieldLayout)
    (S S1 : RenderState) (d : Bool)
    (h : renderEditable env layout S = some (layout1, S1, d)) :
    layout1.y = layout.y := by
  unfold renderEditable at h
  split at h
  · cases h
  · simp only at h
    split at h
    · cases h
    · split at h
      · cases h
      · obtain ⟨e1, _⟩ := renderEditableShow_y _ _ _ _ _ _ _ _ _ _ h
        rw [e1]
        unfold editableAutoHeight
        simp only
        split <;> rfl

theorem renderDrawText_y (env : RenderEnv) (layout layout1 : FieldLayout)
    (S S1 : RenderState) (d : Bool)
    (h : renderDrawText env layout S = some (layout1, S1, d)) :
    layout1.y = layout.y := by
  unfold renderDrawText at h
  split at h
  · cases h
  · simp only at h
    split at h
    · cases h
    · rename_i la hsized
      have hy : la.y = layout.y := by
        split at hsized
        · split at hsized
          · cases hsized
          · simp only [Option.some.injEq] at hsized
            subst hsized; rfl
        · simp only [Option.some.injEq] at hsized
          subst hsized; rfl
      split at h
      · split at h
        · cases h
        · simp only [Option.some.injEq, Prod.mk.injEq] at h
          rw [← h.1]; exact hy
      · simp only [Option.some.injEq, Prod.mk.injEq] at h
        rw [← h.1]; exact hy

theorem renderField_y (env : RenderEnv) (inner : NestedPass)
    (hcustom : ∀ l Sa lb Sb d, env.renderCustom l Sa = some (lb, Sb, d) → lb.y = l.y)
    (layout layout1 : FieldLayout) (fp : FieldPtr) (S S1 : RenderState) (d : Bool)
    (h : renderField env inner layout fp S = some (layout1, S1, d)) :
    layout1.y = layout.y := by
  unfold renderField at h
  cases hv : (S.ui.arena fp).hdr.variant <;> rw [hv] at h <;> simp only at h
  · exact renderDrawText_y _ _ _ _ _ _ h
  · exact renderDrawText_y _ _ _ _ _ _ h
  · unfold renderFill at h
    split at h
    · simp only [Option.some.injEq, Prod.mk.injEq] at h
      rw [← h.1]
    · cases h
  · unfold renderMesh at h
    split at h
    · simp only [Option.some.injEq, Prod.mk.injEq] at h
      rw [← h.1]
    · cases h
  · rw [renderScrollable_layout env inner _ _ _ _ _ h]
  · exact renderEditable_y _ _ _ _ _ _ h
  · exact hcustom _ _ _ _ _ h
  · rw [(renderGraph_frame _ _ _ _ _ _ h).2]
  · cases h
  · cases h

/-- What `renderOne` leaves in `y` and in `maxy`: a negative `y` is resolved against the
running maximum, and that maximum takes in the layout as the renderer leaves it. -/
theorem renderOne_y (env : RenderEnv) (inner : NestedPass)
    (hcustom : ∀ l Sa lb Sb d, env.renderCustom l Sa = some (lb, Sb, d) → lb.y = l.y)
    (maxy : Int) (layout : FieldLayout) (fp : FieldPtr) (S : RenderState) (r1 : Rendered)
    (h : renderOne env inner maxy layout fp S = some r1) :
    r1.layout.y = (if layout.y < 0 then toInt16 (maxy + -layout.y - 1) else layout.y) ∧
    r1.maxy = maxyStep maxy r1.layout := by
  unfold renderOne at h
  split at h
  · cases h
  · rename_i l1 hres
    have hy1 : l1.y = (if layout.y < 0 then toInt16 (maxy + -layout.y - 1) else layout.y) := by
      unfold resolveLayout at hres
      rw [Option.map_eq_some'] at hres
      obtain ⟨l0, hl0, hl1⟩ := hres
      have hy0 : l0.y = layout.y := by
        unfold resolveChars at hl0
        have hz : (resolveZeroSize env layout).y = layout.y := by
          unfold resolveZeroSize
          simp only
          split <;> split <;> rfl
        split at hl0
        · split at hl0
          · cases hl0
          · simp only [Option.some.injEq] at hl0
            rw [← hl0]; exact hz
        · simp only [Option.some.injEq] at hl0
          rw [← hl0]; exact hz
      rw [← hl1]
      unfold resolveY
      by_cases hneg : layout.y < 0
      · rw [if_pos (by rw [hy0]; exact hneg), if_pos hneg]
        show toInt16 (maxy + -l0.y - 1) = _
        rw [hy0]
      · rw [if_neg (by rw [hy0]; exact hneg), if_neg hneg]
        exact hy0
    split at h
    · cases h
    · rename_i l2 Sa drew hrf
      have hy2 := renderField_y env inner hcustom l1 l2 fp S Sa drew hrf
      split at h
      · cases h
      · cases hmark : drawSelectionMarker env l2 Sa with
        | none => rw [hmark] at h; cases h
        | some Sm =>
          rw [hmark] at h
          simp only [Option.some.injEq] at h
          subst h
          exact ⟨hy2.trans hy1, rfl⟩

/-- A field visited in a forced pass needs to be rendered. -/
theorem needsRender_forced (env : RenderEnv) (layout : FieldLayout) (fp : FieldPtr)
    (S : RenderState) :
    needsRender (visitField env true layout fp S)
      ((visitField env true layout fp S).ui.arena fp) = true := by
  have hd : ((visitField env true layout fp S).ui.arena fp).hdr.dirty = true := by
    unfold visitField
    simp only [if_true]
    split
    · show (setDirty S.ui.arena fp true fp).hdr.dirty = true
      simp [setDirty_apply]
    · show (setDirty S.ui.arena fp true fp).hdr.dirty = true
      simp [setDirty_apply]
  unfold needsRender
  rw [hd]
  rfl

/-- The first loop of a forced pass resolves a negative `y` against the running maximum
of all the layouts before it, as the loop leaves them. -/
theorem renderLayoutsLoop_negative_y (env : RenderEnv) (inner : NestedPass)
    (hcustom : ∀ l Sa lb Sb d, env.renderCustom l Sa = some (lb, Sb, d) → lb.y = l.y)
    (l : FieldLayout) (rest : List FieldLayout) (hl : l.field.isSome = true) (hy : l.y < 0) :
    ∀ (pre : List FieldLayout) (maxy : Int) (d c : Bool) (S : RenderState) (r : LoopResult),
      (∀ p ∈ pre, p.field.isSome = true) →
      renderLayoutsLoop env inner true (pre ++ l :: rest) maxy d c S = some r →
      ∃ pre1 l1 rest1, r.layouts = pre1 ++ l1 :: rest1 ∧ pre1.length = pre.length ∧
        l1.y = toInt16 (maxyAfter maxy pre1 + -l.y - 1) := by
  intro pre
  induction pre with
  | nil =>
    intro maxy d c S r _ h
    simp only [List.nil_append] at h
    unfold renderLayoutsLoop at h
    cases hf : l.field with
    | none => rw [hf] at hl; cases hl
    | some f =>
      rw [hf] at h
      simp only at h
      split at h
      · cases h
      · rename_i field S1 _
        rw [needsRender_forced env l field S1] at h
        simp only [if_true] at h
        split at h
        · cases h
        · rename_i r1 hone
          obtain ⟨hy1, _⟩ := renderOne_y env inner hcustom maxy l field _ r1 hone
          rw [if_pos hy] at hy1
          split at h
          · cases h
          · rename_i r2 _
            simp only [Option.some.injEq] at h
            subst h
            exact ⟨[], r1.layout, r2.layouts, rfl, rfl, hy1⟩
  | cons p pre ih =>
    intro maxy d c S r hpre h
    simp only [List.cons_append] at h
    unfold renderLayoutsLoop at h
    have hp := hpre p (List.mem_cons_self _ _)
    cases hf : p.field with
    | none => rw [hf] at hp; cases hp
    | some f =>
      rw [hf] at h
      simp only at h
      split at h
      · cases h
      · rename_i field S1 _
        rw [needsRender_forced env p field S1] at h
        simp only [if_true] at h
        split at h
        · cases h
        · rename_i r1 hone
          obtain ⟨_, hm⟩ := renderOne_y env inner hcustom maxy p field _ r1 hone
          split at h
          · cases h
          · rename_i r2 hrest
            simp only [Option.some.injEq] at h
            subst h
            obtain ⟨pre1, l1, rest1, g1, g2, g3⟩ := ih r1.maxy _ _ r1.state r2
              (fun q hq => hpre q (List.mem_cons_of_mem _ hq)) hrest
            refine ⟨r1.layout :: pre1, l1, rest1, ?_, ?_, ?_⟩
            · show r1.layout :: r2.layouts = _
              rw [g1]; rfl
            · simp [g2]
            · rw [g3, hm]; rfl

/-- While the bottoms of the layouts fit the type `Coord`, the running maximum is the
maximum of `y + height`. -/
theorem maxyAfter_eq_max (ls : List FieldLayout) :
    ∀ m : Int, 0 ≤ m → (∀ p ∈ ls, p.y + p.height ≤ 32767) →
      maxyAfter m ls = ls.foldl (fun m l => max m (l.y + l.height)) m ∧
      0 ≤ maxyAfter m ls := by
  induction ls with
  | nil => intro m hm _; exact ⟨rfl, hm⟩
  | cons p rest ih =>
    intro m hm hfit
    have hp := hfit p (List.mem_cons_self _ _)
    have hstep : maxyStep m p = max m (p.y + p.height) := by
      unfold maxyStep
      by_cases hgt : p.y + p.height > m
      · rw [if_pos hgt, max_eq_right (by omega)]
        unfold toInt16
        omega
      · rw [if_neg hgt, max_eq_left (by omega)]
    have hm1 : 0 ≤ maxyStep m p := by
      rw [hstep]
      exact le_trans hm (le_max_left _ _)
    obtain ⟨g1, g2⟩ := ih (maxyStep m p) hm1 (fun q hq => hfit q (List.mem_cons_of_mem _ hq))
    refine ⟨?_, g2⟩
    show maxyAfter (maxyStep m p) rest = _
    rw [g1, hstep]
    rfl

/-- C25 amended: in a forced pass of `renderLayouts` (as the first pass over a screen is),
in which every layout is rendered, a layout with negative `y = -n` is resolved to
`maxy + n - 1`, stored as a `Coord`, where `maxy` is the running maximum of `y + height`
over all the layouts before it in the list, as the pass leaves them. While those bottoms
and the result fit a `Coord`, this is `M + n - 1` with `M` the maximum of `y + height`
over the preceding layouts (0 when there are none); it is non-negative, and the layout
that was written back is not resolved again. This holds at every nesting depth of the
scrollables among the layouts; the custom renderers of the client are taken to leave `y`
alone. -/
theorem negative_y_resolved (env : RenderEnv) (depth : Nat)
    (hcustom : ∀ l Sa lb Sb d, env.renderCustom l Sa = some (lb, Sb, d) → lb.y = l.y)
    (pre : List FieldLayout) (l : FieldLayout) (rest : List FieldLayout) (S : RenderState)
    (layouts1 : List FieldLayout) (S1 : RenderState) (drew : Bool)
    (hpre : ∀ p ∈ pre, p.field.isSome = true) (hl : l.field.isSome = true) (hy : l.y < 0)
    (hpass : renderLayouts env depth (pre ++ l :: rest) true S =
      some (layouts1, S1, drew)) :
    ∃ pre1 l1 rest1, layouts1 = pre1 ++ l1 :: rest1 ∧ pre1.length = pre.length ∧
      l1.y = toInt16 (maxyAfter 0 pre1 + -l.y - 1) ∧
      ((∀ p ∈ pre1, p.y + p.height ≤ 32767) → lowestBottom pre1 + -l.y - 1 ≤ 32767 →
        l1.y = lowestBottom pre1 + -l.y - 1 ∧ 0 ≤ l1.y ∧ ∀ maxy, resolveY maxy l1 = l1) := by
  unfold renderLayouts renderLayoutsPass at hpass
  split at hpass
  · cases hpass
  · rename_i r hloop
    split at hpass
    · cases hpass
    · simp only [Option.some.injEq, Prod.mk.injEq] at hpass
      obtain ⟨pre1, l1, rest1, g1, g2, g3⟩ :=
        renderLayoutsLoop_negative_y env (nestedPass env depth) hcustom l rest hl hy pre 0
          false false S r hpre hloop
      refine ⟨pre1, l1, rest1, by rw [← hpass.1]; exact g1, g2, g3, ?_⟩
      intro hfit hres
      obtain ⟨e1, e2⟩ := maxyAfter_eq_max pre1 0 (le_refl _) hfit
      have e3 : maxyAfter 0 pre1 = lowestBottom pre1 := e1
      have hval : l1.y = lowestBottom pre1 + -l.y - 1 := by
        rw [g3, e3]
        rw [e3] at e2
        unfold toInt16
        omega
      have hnn : 0 ≤ l1.y := by
        rw [hval]
        rw [e3] at e2
        omega
      refine ⟨hval, hnn, fun maxy => ?_⟩
      unfold resolveY
      rw [if_neg (by omega)]

/-- C25 as stated fails: in a pass that is not forced, over a clean text layout of height
10 at `y = 0` followed by a dirty text layout with `y = -1`, the first layout is not
rendered and does not count: the second layout is resolved to `y = 0`, not to
`M + n - 1 = 10`. In a forced pass it is resolved to 10. -/
theorem negative_y_counterexample :
    (renderLayouts envDemo 0 [textRow 3 0, textRow 4 (-1)] false
      (renderStart stackDemo 1)).map
        (fun r => r.1.map (fun l => l.y)) = some [0, 0] ∧
    lowestBottom [textRow 3 0] + 1 - 1 = 10 ∧
    (renderLayouts envDemo 0 [textRow 3 0, textRow 4 (-1)] true
      (renderStart stackDemo 1)).map
        (fun r => r.1.map (fun l => l.y)) = some [0, 10] :=
  ⟨rfl, rfl, rfl⟩

theorem envDemo_keeps_y :
    ∀ l Sa lb Sb d, envDemo.renderCustom l Sa = some (lb, Sb, d) → lb.y = l.y := by
  intro l Sa lb Sb d h
  simp only [envDemo, Option.some.injEq, Prod.mk.injEq] at h
  rw [← h.1]

/-- C25 amended on a forced pass over a text layout of height 10 at `y = 0` followed by a
text layout with `y = -1`: the second layout comes back with `y = 10`. -/
theorem negative_y_resolved_witness :
    ∃ layouts1 S1 drew pre1 l1 rest1,
      renderLayouts envDemo 0 [textRow 3 0, textRow 4 (-1)] true (renderStart stackDemo 1)
        = some (layouts1, S1, drew) ∧
      layouts1 = pre1 ++ l1 :: rest1 ∧ pre1.length = 1 ∧
      l1.y = toInt16 (maxyAfter 0 pre1 + 1 - 1) := by
  have hr : ∃ layouts1 S1 drew,
      renderLayouts envDemo 0 ([textRow 3 0] ++ textRow 4 (-1) :: []) true
        (renderStart stackDemo 1) = some (layouts1, S1, drew) := ⟨_, _, _, rfl⟩
  obtain ⟨layouts1, S1, drew, h⟩ := hr
  obtain ⟨pre1, l1, rest1, g1, g2, g3, _⟩ :=
    negative_y_resolved envDemo 0 envDemo_keeps_y [textRow 3 0]
      (textRow 4 (-1)) [] (renderStart stackDemo 1) layouts1 S1 drew
      (by intro p hp; simp only [List.mem_singleton] at hp; subst hp; rfl) rfl (by decide) h
  exact ⟨layouts1, S1, drew, pre1, l1, rest1, h, g1, g2, g3⟩

/-! ## The start-customizing click is always claimed -/

/-- With a target of 1, 2 or 4 bytes `getEditableNumber` passes its assertions. -/
theorem getEditableNumber_isSome (cm cf : Bool) (mem : Nat → Nat) (f : FieldObj) (w : Bool)
    (hv : f.hdr.variant = FieldVariant.FieldEditable)
    (hsize : f.size = 1 ∨ f.size = 2 ∨ f.size = 4) :
    ∃ v, getEditableNumber cm cf mem f w = some v := by
  have hr : ∃ n, readTarget f.size (mem f.target) = some n := by
    rcases hsize with h | h | h <;> rw [h] <;> exact ⟨_, rfl⟩
  obtain ⟨n, hn⟩ := hr
  unfold getEditableNumber
  rw [if_neg (by simp [hv]), hn]
  cases w <;> exact ⟨_, rfl⟩

/-- The fields `customizablesOf` lists are Customizable. -/
theorem customizablesOf_variant (arena : FieldPtr → FieldObj) (ls : List FieldLayout)
    (c : FieldPtr) (h : c ∈ customizablesOf arena ls) :
    (arena c).hdr.variant = FieldVariant.FieldCustomizable := by
  induction ls with
  | nil => cases h
  | cons l rest ih =>
    simp only [customizablesOf] at h
    cases hf : l.field with
    | none => rw [hf] at h; cases h
    | some f =>
      rw [hf] at h
      simp only at h
      by_cases hv : (arena f).hdr.variant = FieldVariant.FieldCustomizable
      · rw [if_pos hv] at h
        rcases List.mem_cons.mp h with g | g
        · rw [g]; exact hv
        · exact ih g
      · rw [if_neg hv] at h
        exact ih h

/-- With a non-empty stack `exitScrollable` returns, and it returns false only when it
has changed nothing but the stack. -/
theorem exitScrollable_returns (st : UiState) (h : st.scrollableStack.length > 0) :
    ∃ st1 b, exitScrollable st = some (st1, b) ∧
      (b = false → st1.arena = st.arena ∧ st1.mem = st.mem ∧
        st1.curCustomizingField = st.curCustomizingField) := by
  unfold exitScrollable
  rw [if_pos h]
  simp only
  split
  · exact ⟨_, true, rfl, fun hb => by cases hb⟩
  · exact ⟨_, false, rfl, fun _ => ⟨rfl, rfl, rfl⟩⟩

/-- The start-edit block of `onPressScrollable` returns when the selected entry can be
edited or entered, and it leaves `handled` false only when it has changed nothing. -/
theorem onPressScrollableSelect_returns (sw102 : Bool) (events : KeyEvents) (c : FieldPtr)
    (st : UiState) (handled : Bool) (hidle : st.curActiveEditable = none)
    (hed : (st.arena c).hdr.variant = FieldVariant.FieldEditable →
      (st.arena c).editable.read_only = false →
      (st.arena c).size = 1 ∨ (st.arena c).size = 2 ∨ (st.arena c).size = 4)
    (hsc : (st.arena c).hdr.variant = FieldVariant.FieldScrollable →
      st.scrollableStack.length < MAX_SCROLLABLE_DEPTH) :
    ∃ st1 handled1, onPressScrollableSelect sw102 events (some c) st handled
        = some (st1, handled1) ∧
      (handled1 = false → st1 = st ∧ handled = false) := by
  unfold onPressScrollableSelect
  split
  · simp only
    split
    · rename_i hv
      split
      · rename_i hro
        have hro1 : (st.arena c).editable.read_only = false := by
          cases hx : (st.arena c).editable.read_only
          · rfl
          · rw [hx] at hro; cases hro
        obtain ⟨v, hget⟩ := getEditableNumber_isSome st.screenConvertMiles
          st.screenConvertFarenheit st.mem (st.arena c) true hv (hed hv hro1)
        obtain ⟨st1, h1, _⟩ := setActiveEditable_begin st c v hidle hget
        rw [h1]
        exact ⟨st1, true, rfl, fun hb => by cases hb⟩
      · exact ⟨st, handled, rfl, fun hb => ⟨rfl, hb⟩⟩
    · rename_i hv
      unfold enterScrollable
      rw [if_pos (hsc hv)]
      exact ⟨_, true, rfl, fun hb => by cases hb⟩
    · exact ⟨st, handled, rfl, fun hb => ⟨rfl, hb⟩⟩
  · exact ⟨st, handled, rfl, fun hb => ⟨rfl, hb⟩⟩

/-- With nothing being edited and a selected entry that can be dereferenced, edited or
entered, `onPressScrollable` returns, and it returns false only when it has changed
nothing but the stack. -/
theorem onPressScrollableUi_returns (sw102 : Bool) (events : KeyEvents) (st : UiState)
    (hidle : st.curActiveEditable = none)
    (hentry : ∀ sp, getActiveScrollable st = some sp →
      ∃ c, curActiveEntry (st.arena sp) = some c ∧
        ((st.arena c).hdr.variant = FieldVariant.FieldEditable →
          (st.arena c).editable.read_only = false →
          (st.arena c).size = 1 ∨ (st.arena c).size = 2 ∨ (st.arena c).size = 4) ∧
        ((st.arena c).hdr.variant = FieldVariant.FieldScrollable →
          st.scrollableStack.length < MAX_SCROLLABLE_DEPTH)) :
    ∃ st2 handled, onPressScrollableUi sw102 events st = some (st2, handled) ∧
      (handled = false → st2.arena = st.arena ∧ st2.mem = st.mem ∧
        st2.curCustomizingField = st.curCustomizingField) := by
  cases hact : getActiveScrollable st with
  | none =>
    unfold onPressScrollableUi
    simp only [hact]
    exact ⟨st, false, rfl, fun _ => ⟨rfl, rfl, rfl⟩⟩
  | some sp =>
    obtain ⟨c, hc, hed, hsc⟩ := hentry sp hact
    have hlen : st.scrollableStack.length > 0 := by
      unfold getActiveScrollable at hact
      cases hs : st.scrollableStack with
      | nil => rw [hs] at hact; cases hact
      | cons a rest => simp
    unfold onPressScrollableUi
    simp only [hact, hc]
    by_cases hmove : (events.up_click || events.down_click) = true
    · rw [if_pos hmove]
      have hm : ∃ st1, onPressScrollableMove events sp st = some st1 := by
        unfold onPressScrollableMove
        rw [hc]
        exact ⟨_, rfl⟩
      obtain ⟨st1, h1⟩ := hm
      obtain ⟨f1, _, f3, _, _, _, _, f8⟩ := onPressScrollableMove_frame events sp st st1 h1
      obtain ⟨st2, handled2, h2, g2⟩ := onPressScrollableSelect_returns sw102 events c st1 true
        (by rw [f1]; exact hidle)
        (by rw [(f8 c).1, (f8 c).2.1, (f8 c).2.2.1]; exact hed)
        (by rw [(f8 c).1, f3]; exact hsc)
      have ht : handled2 = true := by
        cases hx : handled2
        · exact absurd (g2 hx).2 (by decide)
        · rfl
      subst ht
      rw [h1]
      simp only [Option.map_some', h2]
      exact ⟨st2, true, rfl, fun hb => by cases hb⟩
    · rw [if_neg hmove]
      obtain ⟨st2, handled2, h2, g2⟩ := onPressScrollableSelect_returns sw102 events c st false
        hidle hed hsc
      simp only [h2]
      cases hx : handled2 with
      | true =>
        exact ⟨st2, true, rfl, fun hb => by cases hb⟩
      | false =>
        have e := (g2 hx).1
        subst e
        by_cases hexit : SCREENCLICK_EXIT_SCROLLABLE events = true
        · simp only [Bool.not_false, Bool.true_and, hexit, if_true]
          exact exitScrollable_returns st2 hlen
        · simp only [Bool.not_false, Bool.true_and, hexit]
          exact ⟨st2, false, rfl, fun _ => ⟨rfl, rfl, rfl⟩⟩

/-- With a current screen, a customized field that is a Customizable with a current
choice, and the start-customizing click in the event set, `onPressCustomizing` returns
true. -/
theorem onPressCustomizing_claims (sw102 hasOnCustomized : Bool) (events : KeyEvents)
    (st : UiState) (fs : List FieldLayout) (hscreen : st.screenFields = some fs)
    (hok : customizingOk st)
    (hev : SCREENCLICK_START_CUSTOMIZING sw102 events = true)
    (hchoice : ∀ c, st.curCustomizingField = some c → ∃ ch, currentChoice st c = some ch) :
    ∃ r, onPressCustomizing sw102 hasOnCustomized events st = some r ∧ r.handled = true ∧
      r.onPressCalled = false := by
  have hstop : SCREENCLICK_STOP_CUSTOMIZING sw102 events = true := hev
  cases hc : st.curCustomizingField with
  | none =>
    have hsel : ∃ st1, selectNextCustomizableField st = some st1 := by
      unfold selectNextCustomizableField
      simp only [hscreen, hc]
      exact ⟨_, rfl⟩
    obtain ⟨st1, h1⟩ := hsel
    unfold onPressCustomizing
    simp only [hc, Option.isNone_none, hev, Bool.and_self, if_true, h1, Option.map_some']
    exact ⟨_, rfl, rfl, rfl⟩
  | some c =>
    obtain ⟨ch, hch⟩ := hchoice c hc
    obtain ⟨fs1, _, hmem⟩ := hok c hc
    have hv := customizablesOf_variant st.arena fs1 c hmem
    have hsel : ∃ st1, selectNextCustomizableField st = some st1 := by
      unfold selectNextCustomizableField
      simp only [hscreen, hc, hch]
      exact ⟨_, rfl⟩
    have hchg : ∃ st1, changeCurrentCustomizableField st = some st1 := by
      unfold currentChoice at hch
      unfold changeCurrentCustomizableField
      simp only [hc, hv, if_true, hch]
      exact ⟨_, rfl⟩
    obtain ⟨sa, ha⟩ := hsel
    obtain ⟨sb, hb⟩ := hchg
    unfold onPressCustomizing
    simp only [hc, Option.isNone_some, Bool.false_and, Bool.false_eq_true, if_false]
    by_cases hup : events.up_click = true
    · simp only [hup, if_true, hb, Option.map_some']
      exact ⟨_, rfl, rfl, rfl⟩
    · by_cases hdown : events.down_click = true
      · simp only [hup, hdown, if_true, if_false, ha, Option.map_some']
        exact ⟨_, rfl, rfl, rfl⟩
      · simp only [hup, hdown, hstop, if_true, if_false, hch, hscreen]
        exact ⟨_, rfl, rfl, rfl⟩

/-- C30: for every reachable module state with a current screen and every event set that
holds the start-customizing click, on both builds, `screenOnPress` returns true and does
not call the handler `onPress` of the screen; and when the screen has no Customizable
field, no field is being customized before or after the call. The function is taken to
pass its assertions: the target of an active editable has 1, 2 or 4 bytes; while nothing
is edited, the selected entry of the active scrollable can be dereferenced, has a target
of 1, 2 or 4 bytes when it is a writable Editable, and finds room on the stack when it is
a Scrollable; and the field being customized has a current choice. -/
theorem start_customizing_click_claimed (sw102 : Bool) (onPress : Option (KeyEvents → Bool))
    (hasOnCustomized : Bool) (events : KeyEvents) (st : UiState) (fs : List FieldLayout)
    (hreach : Reachable sw102 st) (hscreen : st.screenFields = some fs)
    (hev : SCREENCLICK_START_CUSTOMIZING sw102 events = true)
    (hedit : ∀ p, st.curActiveEditable = some p →
      (st.arena p).size = 1 ∨ (st.arena p).size = 2 ∨ (st.arena p).size = 4)
    (hentry : st.curActiveEditable = none → ∀ sp, getActiveScrollable st = some sp →
      ∃ c, curActiveEntry (st.arena sp) = some c ∧
        ((st.arena c).hdr.variant = FieldVariant.FieldEditable →
          (st.arena c).editable.read_only = false →
          (st.arena c).size = 1 ∨ (st.arena c).size = 2 ∨ (st.arena c).size = 4) ∧
        ((st.arena c).hdr.variant = FieldVariant.FieldScrollable →
          st.scrollableStack.length < MAX_SCROLLABLE_DEPTH))
    (hchoice : ∀ c, st.curCustomizingField = some c → ∃ ch, currentChoice st c = some ch) :
    ∃ r, screenOnPress sw102 onPress hasOnCustomized events st = some r ∧
      r.handled = true ∧ r.onPressCalled = false ∧
      (customizablesOf st.arena fs = [] →
        st.curCustomizingField = none ∧ r.state.curCustomizingField = none) := by
  obtain ⟨_, hok⟩ := reachable_stack_customizing sw102 st hreach
  have hidle : ∀ r, screenOnPress sw102 onPress hasOnCustomized events st = some r →
      customizablesOf st.arena fs = [] →
      st.curCustomizingField = none ∧ r.state.curCustomizingField = none := by
    intro r hr hnone
    have h0 : st.curCustomizingField = none := by
      cases hc : st.curCustomizingField with
      | none => rfl
      | some c =>
        obtain ⟨fs1, e1, hmem⟩ := hok c hc
        rw [hscreen] at e1
        injection e1 with e1
        subst e1
        rw [hnone] at hmem
        cases hmem
    refine ⟨h0, ?_⟩
    have hk := screenOnPress_keeps sw102 onPress hasOnCustomized events st r hr
    rcases hk.customizing with g | g | ⟨x, fs1, _, g2, g3⟩
    · rw [g]; exact h0
    · exact g
    · rw [hscreen] at g2
      injection g2 with g2
      subst g2
      rw [hnone] at g3
      cases g3
  have main : ∃ r, screenOnPress sw102 onPress hasOnCustomized events st = some r ∧
      r.handled = true ∧ r.onPressCalled = false := by
    cases hact : st.curActiveEditable with
    | some p =>
      obtain ⟨st1, h1, _⟩ := onPressEditable_handled sw102 events st p hact
        (Or.inr (Or.inr hev)) (hedit p hact)
      unfold screenOnPress
      simp only [hact, Option.isSome_some, if_true, h1]
      exact ⟨_, rfl, rfl, rfl⟩
    | none =>
      obtain ⟨st2, handled2, h2, g2⟩ := onPressScrollableUi_returns sw102 events st hact
        (hentry hact)
      have hk2 : handlerKeeps st st2 := onPressScrollableUi_keeps sw102 events st st2 handled2 h2
      cases hx : handled2 with
      | true =>
        subst hx
        unfold screenOnPress
        simp only [hact, Option.isSome_none, Bool.false_eq_true, if_false, Bool.not_false,
          if_true, h2, Bool.not_true]
        exact ⟨_, rfl, rfl, rfl⟩
      | false =>
        subst hx
        obtain ⟨e1, e2, e3⟩ := g2 rfl
        obtain ⟨r, hr, r1, r2⟩ := onPressCustomizing_claims sw102 hasOnCustomized events st2 fs
          (hk2.screenFields.trans hscreen) (customizingOk_of_handlerKeeps hok hk2) hev
          (by
            intro c hc
            rw [e3] at hc
            obtain ⟨ch, hch⟩ := hchoice c hc
            refine ⟨ch, ?_⟩
            unfold currentChoice at hch ⊢
            rw [e1, e2]
            exact hch)
        unfold screenOnPress
        simp only [hact, Option.isSome_none, Bool.false_eq_true, if_false, Bool.not_false,
          if_true, h2, hr, r1]
        exact ⟨_, rfl, r1, r2⟩
  obtain ⟨r, hr, r1, r2⟩ := main
  exact ⟨r, hr, r1, r2, hidle r hr⟩

/-- C30 on a screen with one text layout and no Customizable field, shown from the
initial state, at an `M_CLICK` on the SW102 build: `screenOnPress` returns true, the
handler of the screen is not called and no field is being customized afterwards. -/
theorem start_customizing_click_claimed_witness :
    ∃ r, screenOnPress true (some (fun _ => false)) false mClick plainScreenDemo = some r ∧
      r.handled = true ∧ r.onPressCalled = false ∧ r.state.curCustomizingField = none := by
  have hreach : Reachable true plainScreenDemo :=
    Reachable.showScreen (uiIdle (fun _ => textField "Hi" false) (memOf 0)) plainScreenDemo
      [layoutOf 3] (Reachable.init _ _) rfl
  obtain ⟨r, h1, h2, h3, h4⟩ :=
    start_customizing_click_claimed true (some (fun _ => false)) false mClick plainScreenDemo
      [layoutOf 3] hreach rfl rfl (fun p hp => by cases hp)
      (fun _ sp hsp => by cases hsp) (fun c hc => by cases hc)
  exact ⟨r, h1, h2, h3, (h4 rfl).2⟩

/-! ## The graph cache after the slot has left the graph -/

/-- Lines 1149-1180 of `renderGraph` for a graph whose cache reference is NULL: past the
early return the cache is claimed and reset before the sample of the tick is added; the
early return changes nothing. -/
theorem renderGraphSample_fresh (layout : FieldLayout) (S : RenderState) (gp src : FieldPtr)
    (v : Int) (hres : resolveField S.ui layout = some gp)
    (hcache : (S.ui.arena gp).cache = false)
    (hsrc : (S.ui.arena gp).source = some src)
    (hnum : getEditableNumber S.ui.screenConvertMiles S.ui.screenConvertFarenheit S.ui.mem
      (S.ui.arena src) true = some v) :
    (graphProceeds S layout gp = true →
      ∃ r, renderGraphSample layout S = some (Sum.inr r) ∧ r.field = gp ∧ r.source = src ∧
        (r.state.ui.arena gp).cache = true ∧ r.state.drawn = S.drawn ∧
        r.state.ui.caches0 =
          (if S.screenUpdateCounter % GRAPH_INTERVAL_TICKS = 0 then
             graphAddPoint (S.ui.arena gp).min_threshold (graphCacheReset S.ui.caches0) v
           else graphCacheReset S.ui.caches0)) ∧
    (graphProceeds S layout gp = false →
      ∃ S2, renderGraphSample layout S = some (Sum.inl S2) ∧ S2.drawn = S.drawn ∧
        S2.ui = S.ui) := by
  have hcust : (S.ui.curCustomizingField.isSome &&
      decide (S.ui.curCustomizingField = parentOf S.ui layout)) =
      isCustomizingLayout S.ui layout := rfl
  unfold graphProceeds
  unfold renderGraphSample
  simp only [getField_resolve, hres, Option.map_some', hcust]
  generalize hnb : (S.blinkChanged && isCustomizingLayout S.ui layout) = nb
  have hS2 : ∀ q, sameButFlags
      ((if nb = true then setDirtyR { S with parentCustomizable := parentOf S.ui layout } gp true
        else { S with parentCustomizable := parentOf S.ui layout }).ui.arena q)
      (S.ui.arena q) := by
    intro q
    cases nb
    · exact sameButFlags_refl _
    · exact setDirty_sameButFlags _ gp q true
  have hdirty : ((if nb = true then
        setDirtyR { S with parentCustomizable := parentOf S.ui layout } gp true
        else { S with parentCustomizable := parentOf S.ui layout }).ui.arena gp).hdr.dirty =
      ((S.ui.arena gp).hdr.dirty || nb) := by
    cases nb
    · simp
    · simp [setDirtyR, setDirty]
  have hrest : (if nb = true then
        setDirtyR { S with parentCustomizable := parentOf S.ui layout } gp true
        else { S with parentCustomizable := parentOf S.ui layout }).ui.caches0 = S.ui.caches0 ∧
      (if nb = true then
        setDirtyR { S with parentCustomizable := parentOf S.ui layout } gp true
        else { S with parentCustomizable := parentOf S.ui layout }).drawn = S.drawn ∧
      (if nb = true then
        setDirtyR { S with parentCustomizable := parentOf S.ui layout } gp true
        else { S with parentCustomizable := parentOf S.ui layout }).ui.mem = S.ui.mem ∧
      (if nb = true then
        setDirtyR { S with parentCustomizable := parentOf S.ui layout } gp true
        else { S with parentCustomizable := parentOf S.ui layout }).ui.screenConvertMiles =
        S.ui.screenConvertMiles ∧
      (if nb = true then
        setDirtyR { S with parentCustomizable := parentOf S.ui layout } gp true
        else { S with parentCustomizable := parentOf S.ui layout }).ui.screenConvertFarenheit =
        S.ui.screenConvertFarenheit ∧
      (nb = false → (if nb = true then
        setDirtyR { S with parentCustomizable := parentOf S.ui layout } gp true
        else { S with parentCustomizable := parentOf S.ui layout }).ui = S.ui) := by
    cases nb
    · exact ⟨rfl, rfl, rfl, rfl, rfl, fun _ => rfl⟩
    · exact ⟨rfl, rfl, rfl, rfl, rfl, fun h => by cases h⟩
  generalize (if nb = true then
        setDirtyR { S with parentCustomizable := parentOf S.ui layout } gp true
        else { S with parentCustomizable := parentOf S.ui layout }) = S2 at hS2 hdirty hrest ⊢
  obtain ⟨hc0, hdr, hmem, hcm, hcf, hui⟩ := hrest
  have hcache2 : (S2.ui.arena gp).cache = false := by rw [(hS2 gp).cache]; exact hcache
  have hsrc2 : (S2.ui.arena gp).source = some src := by rw [(hS2 gp).source]; exact hsrc
  have hmin2 : (S2.ui.arena gp).min_threshold = (S.ui.arena gp).min_threshold :=
    (hS2 gp).min_threshold
  have hnum2 : getEditableNumber S2.ui.screenConvertMiles S2.ui.screenConvertFarenheit
      S2.ui.mem (S2.ui.arena src) true = some v := by
    rw [hmem, hcm, hcf, ← hnum]
    exact getEditableNumber_congr _ _ _ _ _ _ (hS2 src).variant (hS2 src).editable
      (hS2 src).size (hS2 src).target
  have hrew := getEditableNumber_update S2.ui.screenConvertMiles
    S2.ui.screenConvertFarenheit S2.ui.mem S2.ui.arena gp src
    { S2.ui.arena gp with source := some src, cache := true } true rfl rfl rfl rfl
  constructor
  · intro hp
    have hgo : (!decide (S.screenUpdateCounter % GRAPH_INTERVAL_TICKS = 0) &&
        !(S2.ui.arena gp).hdr.dirty) = false := by
      rw [hdirty]
      revert hp
      cases decide (S.screenUpdateCounter % GRAPH_INTERVAL_TICKS = 0) <;>
        cases (S.ui.arena gp).hdr.dirty <;> cases nb <;> simp
    simp only [hgo, Bool.false_eq_true, if_false, hcache2, Bool.not_false, if_true,
      Function.update_same, hsrc2]
    by_cases hup : S.screenUpdateCounter % GRAPH_INTERVAL_TICKS = 0
    · simp only [hup, decide_True, if_true, hrew, hnum2]
      refine ⟨_, rfl, rfl, rfl, ?_, hdr, ?_⟩
      · simp
      · simp only [hc0, hmin2]
    · simp only [hup, decide_False, Bool.false_eq_true, if_false]
      refine ⟨_, rfl, rfl, rfl, ?_, hdr, ?_⟩
      · simp
      · simp only [hc0]
  · intro hp
    have hnbf : nb = false := by
      revert hp
      cases decide (S.screenUpdateCounter % GRAPH_INTERVAL_TICKS = 0) <;>
        cases (S.ui.arena gp).hdr.dirty <;> cases nb <;> simp
    have hstop : (!decide (S.screenUpdateCounter % GRAPH_INTERVAL_TICKS = 0) &&
        !(S2.ui.arena gp).hdr.dirty) = true := by
      rw [hdirty]
      revert hp
      cases decide (S.screenUpdateCounter % GRAPH_INTERVAL_TICKS = 0) <;>
        cases (S.ui.arena gp).hdr.dirty <;> cases nb <;> simp
    simp only [hstop, if_true]
    exact ⟨S2, rfl, hdr, hui hnbf⟩

/-- The string of an editable depends on its declared members only. -/
theorem getEditableString_congr (env : RenderEnv) (f g : FieldObj) (num : Int)
    (h : sameButFlags f g) : getEditableString env f num = getEditableString env g num := by
  unfold getEditableString
  rw [h.editable, h.target, h.div_digits, h.hide_fraction]

/-- The labels of the graph are drawn when the name of the source fits the graph and the
values of the source can be printed. -/
theorem graphLabelAxis_isSome (env : RenderEnv) (g : GraphGeom) (field source : FieldObj)
    (S : RenderState)
    (hfit : toInt16 ((env.SMALL_TEXT_FONT.char_width + env.char_h_space)
        * (source.label.length : Int) - env.char_h_space) ≤ g.graphWidth ∨
      (env.SMALL_TEXT_FONT.char_width + env.char_h_space ≠ 0 ∧
        0 < cdiv g.graphWidth (env.SMALL_TEXT_FONT.char_width + env.char_h_space)))
    (hstr : ∀ num, ∃ s, getEditableString env source num = some s) :
    ∃ S1, graphLabelAxis env g field source S = some S1 := by
  unfold graphLabelAxis
  simp only
  split
  · rename_i heq
    exfalso
    split at heq
    · obtain ⟨Sa, _, _, hput, _⟩ := putStringCentered_drawn env g.graphX g.graphLabelY
        g.graphWidth env.SMALL_TEXT_FONT source.label { S with foreColor := Color.LABEL_COLOR }
        hfit
      rw [hput] at heq
      cases heq
    · cases heq
  · rename_i S3 heq
    obtain ⟨s1, hs1⟩ := hstr S3.ui.caches0.max_val
    obtain ⟨s2, hs2⟩ := hstr S3.ui.caches0.min_val
    split
    · rename_i hmax
      exfalso
      split at hmax
      · rw [hs1] at hmax
        cases hmax
      · cases hmax
    · split
      · rw [hs2]
        exact ⟨_, rfl⟩
      · exact ⟨_, rfl⟩

/-- The drawing part of `renderGraph` (lines 1182-1208) reports a draw and leaves the
module state as the sampling part left it. -/
theorem renderGraph_of_sample (env : RenderEnv) (layout : FieldLayout) (S : RenderState)
    (r : GraphSampled) (h : renderGraphSample layout S = some (Sum.inr r)) :
    (∀ layout1 S2 drew, renderGraph env layout S = some (layout1, S2, drew) →
      layout1 = layout ∧ drew = true ∧ S2.ui = r.state.ui) ∧
    ((∀ S5, ∃ S6, graphLabelAxis env (graphGeomOf env layout) (r.state.ui.arena r.field)
        (r.state.ui.arena r.source) S5 = some S6) →
      ∃ S2, renderGraph env layout S = some (layout, S2, true)) := by
  constructor
  · intro layout1 S2 drew hr
    unfold renderGraph at hr
    rw [h] at hr
    simp only at hr
    split at hr
    · simp only [Option.some.injEq, Prod.mk.injEq] at hr
      obtain ⟨h1, h2, h3⟩ := hr
      subst h2
      exact ⟨h1.symm, h3.symm, graphClear_ui _ _ _⟩
    · split at hr
      · cases hr
      · rename_i S6 hlab
        simp only [Option.some.injEq, Prod.mk.injEq] at hr
        obtain ⟨h1, h2, h3⟩ := hr
        subst h2
        exact ⟨h1.symm, h3.symm,
          (graphLabelAxis_ui _ _ _ _ _ _ hlab).trans (graphClear_ui _ _ _)⟩
  · intro hlab
    unfold renderGraph
    rw [h]
    simp only
    split
    · exact ⟨_, rfl⟩
    · have hu : (graphClear (graphGeomOf env layout) (r.state.ui.arena r.field) r.state).ui
          = r.state.ui := graphClear_ui _ _ _
      rw [hu]
      obtain ⟨S6, h6⟩ := hlab (graphClear (graphGeomOf env layout) (r.state.ui.arena r.field)
        r.state)
      rw [h6]
      exact ⟨_, rfl⟩

/-- The function `changeCurrentCustomizableField` leaves the content of the cache alone
and gives no graph the reference to it. -/
theorem changeCurrentCustomizableField_cache (st st1 : UiState)
    (h : changeCurrentCustomizableField st = some st1) :
    st1.caches0 = st.caches0 ∧
    ∀ q, (st.arena q).cache = false → (st1.arena q).cache = false := by
  unfold changeCurrentCustomizableField at h
  split at h
  · cases h
  · simp only at h
    split at h
    · split at h
      · cases h
      · rename_i old _
        simp only [Option.some.injEq] at h
        subst h
        refine ⟨rfl, fun q hq => ?_⟩
        show ((if (st.arena old).hdr.variant = FieldVariant.FieldGraph then
            Function.update st.arena old { st.arena old with cache := false }
          else st.arena) q).cache = false
        split
        · by_cases hqo : q = old
          · subst hqo
            rw [Function.update_same]
          · rw [Function.update_noteq hqo]
            exact hq
        · exact hq
    · cases h

/-- After `k` calls the selector has advanced by `k` modulo the number of choices; the
slot is still being customized, the content of the cache is the same, and a graph without
the reference to the cache is still without it. -/
theorem changeCurrentCustomizableField_away (cs : List FieldPtr) (sp gp : FieldPtr)
    (hn2 : cs.length ≤ 255) (k : Nat) :
    ∀ (st : UiState) (i : Nat), st.curCustomizingField = some sp →
      (st.arena sp).hdr.variant = FieldVariant.FieldCustomizable →
      (st.arena sp).choices = cs.map some ++ [none] →
      st.mem (st.arena sp).selector = i → i < cs.length → (st.arena gp).cache = false →
      ∃ stk, iterateOpt changeCurrentCustomizableField k st = some stk ∧
        stk.curCustomizingField = some sp ∧
        (stk.arena sp).hdr.variant = FieldVariant.FieldCustomizable ∧
        (stk.arena sp).choices = cs.map some ++ [none] ∧
        (stk.arena sp).selector = (st.arena sp).selector ∧
        stk.mem (st.arena sp).selector = (i + k) % cs.length ∧
        stk.caches0 = st.caches0 ∧ (stk.arena gp).cache = false := by
  induction k with
  | zero =>
    intro st i hcur hv hch hsel hi hc
    exact ⟨st, rfl, hcur, hv, hch, rfl, by rw [hsel, Nat.add_zero, Nat.mod_eq_of_lt hi], rfl, hc⟩
  | succ k ih =>
    intro st i hcur hv hch hsel hi hc
    obtain ⟨st1, h1, h2, h3, h4, h5, h6⟩ :=
      changeCurrentCustomizableField_step st sp cs i hcur hv hch hn2 hsel hi
    obtain ⟨c1, c2⟩ := changeCurrentCustomizableField_cache st st1 h1
    have hpos : 0 < cs.length := by omega
    obtain ⟨stk, g1, g2, g3, g4, g5, g6, g7, g8⟩ := ih st1 ((i + 1) % cs.length) h2 h3 h4
      (by rw [h5]; exact h6) (Nat.mod_lt _ hpos) (c2 gp hc)
    refine ⟨stk, ?_, g2, g3, g4, g5.trans h5, ?_, g7.trans c1, g8⟩
    · show (changeCurrentCustomizableField st).bind _ = _
      rw [h1]
      exact g1
    · rw [h5] at g6
      rw [g6, Nat.mod_add_mod]
      congr 1
      omega

/-- C16: when `changeCurrentCustomizableField` leaves a choice that is a Graph, the cache
reference of that graph is cleared (the content of the cache stays). As many calls as the
slot has choices bring the slot back to the graph, still without the reference. For a
graph without the reference, every call of `renderGraph` that gets past the early return
(a sample is due, the graph is dirty, or it is a blink tick while the slot is being
customized) claims the cache and first re-initialises it to empty
(`start_valid = end_valid`, `max_val = INT32_MIN`, `min_val = INT32_MAX`), and only then
adds the sample of the tick: after the call the cache holds that one sample, or none, and
no sample recorded before; the call reports a draw. A call that takes the early return
draws nothing, adds no sample and leaves the reference cleared, so the same holds for the
call after it. Whenever `renderLayouts` finds that the graph of the slot being customized
needs rendering, the call gets past the early return. -/
theorem graph_cache_fresh_after_leaving (st : UiState) (sp gp : FieldPtr)
    (hcust : st.curCustomizingField = some sp)
    (hvar : (st.arena sp).hdr.variant = FieldVariant.FieldCustomizable)
    (hchoice : currentChoice st sp = some gp)
    (hgraph : (st.arena gp).hdr.variant = FieldVariant.FieldGraph) :
    (∃ st1, changeCurrentCustomizableField st = some st1 ∧ (st1.arena gp).cache = false ∧
      st1.caches0 = st.caches0) ∧
    (∀ cs : List FieldPtr, (st.arena sp).choices = cs.map some ++ [none] →
      1 ≤ cs.length → cs.length ≤ 255 → st.mem (st.arena sp).selector < cs.length →
      ∃ stn, iterateOpt changeCurrentCustomizableField cs.length st = some stn ∧
        currentChoice stn sp = some gp ∧ stn.curCustomizingField = some sp ∧
        (stn.arena gp).cache = false ∧ stn.caches0 = st.caches0) ∧
    (∀ (env : RenderEnv) (layout : FieldLayout) (S : RenderState) (src : FieldPtr) (v : Int),
      (S.ui.arena gp).cache = false →
      resolveField S.ui layout = some gp →
      (S.ui.arena gp).source = some src →
      getEditableNumber S.ui.screenConvertMiles S.ui.screenConvertFarenheit S.ui.mem
        (S.ui.arena src) true = some v →
      (graphProceeds S layout gp = true →
        ∃ r, renderGraphSample layout S = some (Sum.inr r) ∧
          (r.state.ui.arena gp).cache = true ∧
          (∃ c0 : GraphCache, c0.start_valid = c0.end_valid ∧ c0.max_val = INT32_MIN ∧
            c0.min_val = INT32_MAX ∧
            r.state.ui.caches0 =
              (if S.screenUpdateCounter % GRAPH_INTERVAL_TICKS = 0 then
                 graphAddPoint (S.ui.arena gp).min_threshold c0 v
               else c0)) ∧
          graphSamples r.state.ui.caches0 =
            (if S.screenUpdateCounter % GRAPH_INTERVAL_TICKS = 0 then [v] else []) ∧
          (∀ layout1 S2 drew, renderGraph env layout S = some (layout1, S2, drew) →
            drew = true ∧ (S2.ui.arena gp).cache = true ∧
            S2.ui.caches0 = r.state.ui.caches0) ∧
          ((∀ S5, ∃ S6, graphLabelAxis env (graphGeomOf env layout) (r.state.ui.arena gp)
              (r.state.ui.arena src) S5 = some S6) →
            ∃ S2, renderGraph env layout S = some (layout, S2, true))) ∧
      (graphProceeds S layout gp = false →
        ∃ S2, renderGraph env layout S = some (layout, S2, false) ∧ S2.drawn = S.drawn ∧
          S2.ui.caches0 = S.ui.caches0 ∧ (S2.ui.arena gp).cache = false) ∧
      ((S.ui.arena gp).hdr.variant = FieldVariant.FieldGraph →
        isCustomizingLayout S.ui layout = true →
        needsRender S (S.ui.arena gp) = true → graphProceeds S layout gp = true)) := by
  have hch : ((st.arena sp).choices.get? (st.mem (st.arena sp).selector % 256)).join =
      some gp := hchoice
  have hleave : ∃ st1, changeCurrentCustomizableField st = some st1 ∧
      (st1.arena gp).cache = false ∧ st1.caches0 = st.caches0 := by
    simp only [changeCurrentCustomizableField, hcust, hvar, if_true, hch, hgraph]
    refine ⟨_, rfl, ?_, rfl⟩
    simp
  refine ⟨hleave, ?_, ?_⟩
  · intro cs hcs hn1 hn2 hi
    obtain ⟨st1, h1, h2, h3⟩ := hleave
    obtain ⟨st1b, e1, e2, e3, e4, e5, e6⟩ :=
      changeCurrentCustomizableField_step st sp cs _ hcust hvar hcs hn2 rfl hi
    have hst : st1b = st1 := by
      rw [h1] at e1
      injection e1 with e1
      exact e1.symm
    subst hst
    obtain ⟨m, hm⟩ : ∃ m, cs.length = m + 1 := ⟨cs.length - 1, by omega⟩
    obtain ⟨stn, g1, g2, g3, g4, g5, g6, g7, g8⟩ :=
      changeCurrentCustomizableField_away cs sp gp hn2 m st1b
        ((st.mem (st.arena sp).selector + 1) % cs.length) e2 e3 e4 (by rw [e5]; exact e6)
        (Nat.mod_lt _ (by omega)) h2
    refine ⟨stn, ?_, ?_, g2, g8, g7.trans h3⟩
    · rw [hm]
      show (changeCurrentCustomizableField st).bind _ = _
      rw [h1]
      exact g1
    · rw [e5] at g5 g6
      have hsel : stn.mem (st.arena sp).selector = st.mem (st.arena sp).selector := by
        rw [g6, Nat.mod_add_mod]
        have : st.mem (st.arena sp).selector + 1 + m
            = st.mem (st.arena sp).selector + cs.length := by omega
        rw [this, Nat.add_mod_right, Nat.mod_eq_of_lt hi]
      unfold currentChoice
      rw [g4, g5, hsel, ← hcs]
      exact hch
  · intro env layout S src v hcache hres hsrc hnum
    obtain ⟨hgo, hstop⟩ := renderGraphSample_fresh layout S gp src v hres hcache hsrc hnum
    refine ⟨?_, ?_, ?_⟩
    · intro hp
      obtain ⟨r, hr, rf, rs, rc, _, rcache⟩ := hgo hp
      obtain ⟨k1, k2⟩ := renderGraph_of_sample env layout S r hr
      rw [rf, rs] at k2
      refine ⟨r, hr, rc, ⟨graphCacheReset S.ui.caches0, rfl, rfl, rfl, rcache⟩, ?_, ?_, k2⟩
      · rw [rcache]
        split
        · exact graphSamples_first _ _ _
        · exact graphSamples_reset _
      · intro layout1 S2 drew hrend
        obtain ⟨_, a2, a3⟩ := k1 layout1 S2 drew hrend
        exact ⟨a2, by rw [a3]; exact rc, by rw [a3]⟩
    · intro hp
      obtain ⟨S2, h2, h3, h4⟩ := hstop hp
      refine ⟨S2, ?_, h3, by rw [h4], by rw [h4]; exact hcache⟩
      unfold renderGraph
      rw [h2]
    · intro hv hcz hneed
      unfold needsRender at hneed
      unfold graphProceeds
      rw [hcz]
      revert hneed
      rw [hv]
      cases (S.ui.arena gp).hdr.dirty <;> cases S.blinkChanged <;> simp

/-- C16 at a slot that shows a graph holding the samples 5 and 6 of a value that is now
42: two calls of `changeCurrentCustomizableField` take the slot away from the graph and
back, with the reference cleared; the next `renderGraph`, on a blink tick that is a
sample tick, reports a draw and leaves the cache holding the sample 42 only; off a blink
tick and off a sample tick the call returns false and draws nothing. -/
theorem graph_cache_fresh_after_leaving_witness :
    graphSamples graphSlotDemo.caches0 = [5, 6] ∧
    (∃ stn, iterateOpt changeCurrentCustomizableField 2 graphSlotDemo = some stn ∧
      currentChoice stn 1 = some 10 ∧ (stn.arena 10).cache = false) ∧
    (∃ S2, renderGraph envDemo slotLayout
        { renderStart graphSlotBack 0 with blinkChanged := true } = some (slotLayout, S2, true) ∧
      (S2.ui.arena 10).cache = true ∧ graphSamples S2.ui.caches0 = [42]) ∧
    (∃ S2, renderGraph envDemo slotLayout (renderStart graphSlotBack 1)
        = some (slotLayout, S2, false) ∧ S2.drawn = []) := by
  obtain ⟨_, h2, h3⟩ := graph_cache_fresh_after_leaving graphSlotDemo 1 10 rfl rfl rfl rfl
  refine ⟨?_, ?_, ?_, ?_⟩
  · have h := graphSamples_of_ringInv [5, 6] _ (ringInv_fold 0 caches0 [5, 6])
    simpa using h
  · obtain ⟨stn, a1, a2, _, a4, _⟩ := h2 [10, 11] rfl (by decide) (by decide) (by decide)
    exact ⟨stn, a1, a2, a4⟩
  · obtain ⟨hgo, _, _⟩ := h3 envDemo slotLayout
      { renderStart graphSlotBack 0 with blinkChanged := true } 20 42 rfl rfl rfl rfl
    obtain ⟨r, _, _, _, rs, hall, _⟩ := hgo rfl
    have hex : ∃ S2, renderGraph envDemo slotLayout
        { renderStart graphSlotBack 0 with blinkChanged := true }
          = some (slotLayout, S2, true) := ⟨_, rfl⟩
    obtain ⟨S2, hS2⟩ := hex
    obtain ⟨_, b2, b3⟩ := hall _ _ _ hS2
    refine ⟨S2, hS2, b2, ?_⟩
    rw [b3, rs]
    rfl
  · obtain ⟨_, hstop, _⟩ := h3 envDemo slotLayout (renderStart graphSlotBack 1) 20 42
      rfl rfl rfl rfl
    obtain ⟨S2, e1, e2, _⟩ := hstop rfl
    exact ⟨S2, e1, e2⟩

end ColorLCD
